import Mathlib

/-!
# goplus/canvas: path model, graphic-context state stack, style parsing, painter, flattener,
stroker

Conventions of the embedding.

* A Go `float64` is modelled by an exact rational (`ℚ`): rounding, NaN and the
  infinities are not represented.  Comparisons and control flow on finite values
  are the ones of the source.  Where a statement depends on the rounding of a sum, the
  function is embedded a second time in the namespace `Rounded`, with every sum and
  difference rounded to the nearest `float64` (`roundF64`).
* `math.Pi` is the rational value of the `float64` constant.  `math.Cos` and
  `math.Sin` are external library functions; they are passed as a parameter
  (`MathFuncs`).  `math.Mod` is exact in IEEE arithmetic and is modelled by the
  exact remainder with truncated quotient.
* A Go slice is modelled by the list of its elements.  Where two slices share a backing
  array that is written to (the `Dash` of a saved frame and of the current one), the
  slices are modelled as windows on arrays in a heap (`FloatSlice`, `DashFrames`).
* Go methods with a pointer receiver become functions returning the updated value.
* Objects that are shared through pointers and mutated in place (`*Path` inside a
  `ContextStack` frame) live in an explicit store indexed by address.
* A loop whose number of turns is not bounded by its text (`TraceCubic`, `TraceQuad`,
  `TraceArc`) is given a number of turns it may take (`fuel`); its result is an
  `Outcome`, which tells a return from a panic and from a loop still running.
* `math.Acos` is an external library function, passed as a parameter.
* The stroker calls `math.Sqrt`, `math.Hypot`, `math.Asin`, `math.Atan`, `math.Tan` and
  `math.Acos`; they are passed as a parameter (`StrokerMath`).  What a theorem needs of
  them is a hypothesis on their value at the arguments in play.
-/

namespace Canvas

/-! ## draw2d_path.go -/

/-- PathCmp represents a component of a path (`draw2d_path.go`, the `iota` block). -/
inductive PathCmp where
  | MoveToCmp
  | LineToCmp
  | QuadCurveToCmp
  | CubicCurveToCmp
  | ArcAngleCmp
  | CloseCmp
deriving DecidableEq, Repr

/-- Number of entries of `Points` a component owns: the amount by which every
walker of a path in the source (`Path.String`, `Path.VerticalFlip`, `Flatten`)
advances its point index for that component. -/
def PathCmp.coords : PathCmp → Nat
  | .MoveToCmp => 2
  | .LineToCmp => 2
  | .QuadCurveToCmp => 4
  | .CubicCurveToCmp => 6
  | .ArcAngleCmp => 6
  | .CloseCmp => 0

/-- Total number of coordinates the components of a path consume. -/
def coordCount : List PathCmp → Nat
  | [] => 0
  | c :: cs => c.coords + coordCount cs

/-- Path stores points (`type Path struct`). -/
structure Path where
  Components : List PathCmp
  Points : List ℚ
  x : ℚ
  y : ℚ
deriving DecidableEq, Repr

/-- The external floating-point library functions used by the path code. -/
structure MathFuncs where
  Cos : ℚ → ℚ
  Sin : ℚ → ℚ

/-- The `float64` value of `math.Pi`, namely `884279719003555 / 2^48`. -/
def Pi : ℚ := 884279719003555 / 281474976710656

/-- Embeds `NewPath` (`draw2d_paths.go`): the zero value of `Path`. -/
def NewPath : Path := { Components := [], Points := [], x := 0, y := 0 }

namespace Path

/-- Embeds `func (p *Path) appendToPath(cmd PathCmp, points ...float64)`. -/
def appendToPath (p : Path) (cmd : PathCmp) (points : List ℚ) : Path :=
  { p with Components := p.Components ++ [cmd], Points := p.Points ++ points }

/-- Embeds `func (p *Path) LastPoint() (x, y float64)`. -/
def LastPoint (p : Path) : ℚ × ℚ := (p.x, p.y)

/-- Embeds `func (p *Path) MoveTo(x, y float64)`. -/
def MoveTo (p : Path) (x y : ℚ) : Path :=
  { p.appendToPath .MoveToCmp [x, y] with x := x, y := y }

/-- Embeds `func (p *Path) LineTo(x, y float64)`. -/
def LineTo (p : Path) (x y : ℚ) : Path :=
  let p1 := if p.Components.length = 0 then p.MoveTo x y
            else p.appendToPath .LineToCmp [x, y]
  { p1 with x := x, y := y }

/-- Embeds `func (p *Path) QuadraticCurveTo(cx, cy, x, y float64)`. -/
def QuadraticCurveTo (p : Path) (cx cy x y : ℚ) : Path :=
  let p1 := if p.Components.length = 0 then p.MoveTo x y
            else p.appendToPath .QuadCurveToCmp [cx, cy, x, y]
  { p1 with x := x, y := y }

/-- Embeds `func (p *Path) BezierCurveTo(cx1, cy1, cx2, cy2, x, y float64)`. -/
def BezierCurveTo (p : Path) (cx1 cy1 cx2 cy2 x y : ℚ) : Path :=
  let p1 := if p.Components.length = 0 then p.MoveTo x y
            else p.appendToPath .CubicCurveToCmp [cx1, cy1, cx2, cy2, x, y]
  { p1 with x := x, y := y }

end Path

/-- The loop `for endAngle < startAngle { endAngle += math.Pi * 2.0 }` of
`Path.ArcAngle`; it returns the final `endAngle`. -/
def arcEndLoop (startAngle endAngle : ℚ) : ℚ :=
  if endAngle < startAngle then arcEndLoop startAngle (endAngle + Pi * 2) else endAngle
termination_by (⌈(startAngle - endAngle) / (Pi * 2)⌉).toNat
decreasing_by
  have hpos : (0 : ℚ) < Pi * 2 := by norm_num [Pi]
  have hne : (Pi * 2 : ℚ) ≠ 0 := ne_of_gt hpos
  have h1 : (startAngle - (endAngle + Pi * 2)) / (Pi * 2)
      = (startAngle - endAngle) / (Pi * 2) - 1 := by
    field_simp
    ring
  have h2 : (0 : ℚ) < (startAngle - endAngle) / (Pi * 2) :=
    div_pos (by linarith) hpos
  have h3 : 0 < ⌈(startAngle - endAngle) / (Pi * 2)⌉ := Int.ceil_pos.mpr h2
  rw [h1, Int.ceil_sub_one]
  omega

/-- The loop `for startAngle < endAngle { startAngle += math.Pi * 2.0 }` of
`Path.ArcAngle`; it returns the final `startAngle`. -/
def arcStartLoop (startAngle endAngle : ℚ) : ℚ :=
  if startAngle < endAngle then arcStartLoop (startAngle + Pi * 2) endAngle else startAngle
termination_by (⌈(endAngle - startAngle) / (Pi * 2)⌉).toNat
decreasing_by
  have hpos : (0 : ℚ) < Pi * 2 := by norm_num [Pi]
  have hne : (Pi * 2 : ℚ) ≠ 0 := ne_of_gt hpos
  have h1 : (endAngle - (startAngle + Pi * 2)) / (Pi * 2)
      = (endAngle - startAngle) / (Pi * 2) - 1 := by
    field_simp
    ring
  have h2 : (0 : ℚ) < (endAngle - startAngle) / (Pi * 2) :=
    div_pos (by linarith) hpos
  have h3 : 0 < ⌈(endAngle - startAngle) / (Pi * 2)⌉ := Int.ceil_pos.mpr h2
  rw [h1, Int.ceil_sub_one]
  omega

/-- Embeds `math.Mod(x, y)` for finite `x` and finite nonzero `y`: the exact remainder
`x - n*y` where `n` is `x / y` truncated toward zero. -/
def Mod (x y : ℚ) : ℚ :=
  x - y * (if 0 ≤ x / y then ⌊x / y⌋ else ⌈x / y⌉)

/-- Embeds `func normAngle(angle float64) float64` (`draw2d_stack_gc.go`), the sum
`angle + math.Pi*2` being exact; `Rounded.normAngle` is the function with the sum rounded
to `float64`. -/
def normAngle (angle : ℚ) : ℚ :=
  let angle := Mod angle (Pi * 2)
  if angle < 0 then angle + Pi * 2 else angle

namespace Path

/-- Embeds `func (p *Path) ArcAngle(cx, cy, rx, ry, startAngle, sweepAngle float64)`. -/
def ArcAngle (M : MathFuncs) (p : Path) (cx cy rx ry startAngle sweepAngle : ℚ) : Path :=
  let endAngle := startAngle + sweepAngle
  let clockWise := if sweepAngle < 0 then false else true
  -- normalize
  let endAngle := if clockWise then arcEndLoop startAngle endAngle else endAngle
  let startAngle := if clockWise then startAngle else arcStartLoop startAngle endAngle
  let startX := cx + M.Cos startAngle * rx
  let startY := cy + M.Sin startAngle * ry
  let p1 := if p.Components.length > 0 then p.LineTo startX startY else p.MoveTo startX startY
  let p2 := p1.appendToPath .ArcAngleCmp [cx, cy, rx, ry, startAngle, endAngle]
  { p2 with x := cx + M.Cos endAngle * rx, y := cy + M.Sin endAngle * ry }

/-- Embeds `func (p *Path) Arc(cx, cy, radius, startAngle, endAngle float64, counterclockwise bool)`. -/
def Arc (M : MathFuncs) (p : Path) (cx cy radius startAngle endAngle : ℚ)
    (counterclockwise : Bool) : Path :=
  if !counterclockwise && decide (endAngle - startAngle ≥ 2 * Pi) then
    p.ArcAngle M cx cy radius radius startAngle (2 * Pi)
  else if counterclockwise && decide (startAngle - endAngle ≥ 2 * Pi) then
    p.ArcAngle M cx cy radius radius startAngle (-2 * Pi)
  else
    -- norm angle
    let startAngle := normAngle startAngle
    let endAngle := normAngle endAngle
    let endAngle :=
      if !counterclockwise && decide (endAngle ≤ startAngle) then endAngle + Pi * 2
      else if counterclockwise && decide (endAngle ≥ startAngle) then endAngle - Pi * 2
      else endAngle
    p.ArcAngle M cx cy radius radius startAngle (endAngle - startAngle)

/-- Embeds `func (p *Path) Close()`. -/
def Close (p : Path) : Path := p.appendToPath .CloseCmp []

/-- Embeds `func (p *Path) Copy() (dest *Path)`: a fresh path object holding copies of
both slices and of the last point. -/
def Copy (p : Path) : Path :=
  { Components := p.Components, Points := p.Points, x := p.x, y := p.y }

/-- Embeds `func (p *Path) Clear()`: both slices are cut to length 0; the last point is
left as it is. -/
def Clear (p : Path) : Path :=
  { p with Components := p.Components.take 0, Points := p.Points.take 0 }

/-- Embeds `func (p *Path) IsEmpty() bool`. -/
def IsEmpty (p : Path) : Bool := p.Components.length == 0

/-- Embeds `func (p *Path) IsClosed() bool`. -/
def IsClosed (p : Path) : Bool :=
  let sz := p.Components.length
  if sz = 0 then false else p.Components.get? (sz - 1) == some .CloseCmp

/-! ## draw2d_paths.go -/

/-- Embeds `func (p *Path) AddPath(o *Path)`. -/
def AddPath (p o : Path) : Path :=
  { p with Components := p.Components ++ o.Components, Points := p.Points ++ o.Points }

/-- Embeds `func (p *Path) AddRectangle(x, y, width, height float64)`. -/
def AddRectangle (p : Path) (x y width height : ℚ) : Path :=
  let x2 := x + width
  let y2 := y + height
  ((((p.MoveTo x y).LineTo x2 y).LineTo x2 y2).LineTo x y2).Close

end Path

/-! ## Types of the imported packages `image` and `image/color` -/

namespace color

/-- A `color.Color` as observed through its method `RGBA()`: the four `uint32`
values (alpha-premultiplied red, green, blue, and alpha). -/
structure Color where
  r : Nat
  g : Nat
  b : Nat
  a : Nat
deriving DecidableEq, Repr

/-- Embeds `color.Black`: `Gray16{0}`, whose `RGBA()` is `(0, 0, 0, 0xffff)`. -/
def Black : Color := { r := 0, g := 0, b := 0, a := 0xffff }

/-- Embeds `color.Transparent`: `Alpha16{0}`, whose `RGBA()` is `(0, 0, 0, 0)`. -/
def Transparent : Color := { r := 0, g := 0, b := 0, a := 0 }

end color

namespace image

/-- Embeds `image.Point`. -/
structure Point where
  X : Int
  Y : Int
deriving DecidableEq, Repr

/-- Embeds `image.Rectangle`. -/
structure Rectangle where
  Min : Point
  Max : Point
deriving DecidableEq, Repr

/-- Embeds `image.RGBA`: `Pix` holds bytes, four per pixel. -/
structure RGBA where
  Pix : List Nat
  Stride : Int
  Rect : Rectangle
deriving DecidableEq, Repr

/-- Embeds `image.Alpha`: `Pix` holds bytes, one per pixel. -/
structure Alpha where
  Pix : List Nat
  Stride : Int
  Rect : Rectangle
deriving DecidableEq, Repr

end image

/-! ## canvas.go: enumerations -/

/-- Embeds `type TextAlign int`. -/
inductive TextAlign where
  | AlignLeft
  | AlignCenter
  | AlignRight
deriving DecidableEq, Repr

/-- Embeds `type TextBaseline int`. -/
inductive TextBaseline where
  | AlignAlphabetic
  | AlignTop
  | AlignHanging
  | AlignMiddle
  | AlignIdeographic
  | AlignBottom
deriving DecidableEq, Repr

/-- Embeds `type LineCap int`. -/
inductive LineCap where
  | LineCapButt
  | LineCapRound
  | LineCapSquare
deriving DecidableEq, Repr

/-- Embeds `type LineJoin int`. -/
inductive LineJoin where
  | LineJoinMiter
  | LineJoinRound
  | LineJoinBevel
deriving DecidableEq, Repr

/-- Embeds `type FillRule int` (`draw2d_stack_gc.go`). -/
inductive FillRule where
  | FillRuleEvenOdd
  | FillRuleWinding
deriving DecidableEq, Repr

/-- Embeds `type CompositeOperation int`.  The type is kept as an integer: the source has
code paths for values that are none of the eleven named constants. -/
abbrev CompositeOperation := Int

def SourceAtop : CompositeOperation := 0
def SourceIn : CompositeOperation := 1
def SourceOut : CompositeOperation := 2
def SourceOver : CompositeOperation := 3
def DestinationAtop : CompositeOperation := 4
def DestinationIn : CompositeOperation := 5
def DestinationOut : CompositeOperation := 6
def DestinationOver : CompositeOperation := 7
def Lighter : CompositeOperation := 8
def Copy : CompositeOperation := 9
def Xor : CompositeOperation := 10

/-- Embeds `func (op CompositeOperation) String() string`. -/
def CompositeOperation.String (op : CompositeOperation) : String :=
  if op = SourceOver then "source-over"
  else if op = SourceAtop then "source-atop"
  else if op = SourceIn then "source-in"
  else if op = SourceOut then "source-out"
  else if op = DestinationOver then "destination-over"
  else if op = DestinationAtop then "destination-atop"
  else if op = DestinationIn then "destination-in"
  else if op = DestinationOut then "destination-out"
  else if op = Lighter then "lighter"
  else if op = Copy then "copy"
  else if op = Xor then "xor"
  else ""

/-- Embeds `func parserCompositeOperation(x string) CompositeOperation`. -/
def parserCompositeOperation (x : String) : CompositeOperation :=
  if x = "source-over" then SourceOver
  else if x = "source-atop" then SourceAtop
  else if x = "source-in" then SourceIn
  else if x = "source-out" then SourceOut
  else if x = "destination-over" then DestinationOver
  else if x = "destination-atop" then DestinationAtop
  else if x = "destination-in" then DestinationIn
  else if x = "destination-out" then DestinationOut
  else if x = "lighter" then Lighter
  else if x = "copy" then Copy
  else if x = "xor" then Xor
  else SourceOver

/-- The eleven operator names the `switch` of `parserCompositeOperation` lists. -/
def operatorNames : List String :=
  ["source-over", "source-atop", "source-in", "source-out", "destination-over",
   "destination-atop", "destination-in", "destination-out", "lighter", "copy", "xor"]

/-! ## draw2d_pattern.go -/

/-- Embeds `type Pattern interface { ColorAt(x, y int) color.Color }`.  `*SolidPattern` is
kept apart because the source tests for it by type assertion; every other
implementation is represented by its `ColorAt` method. -/
inductive Pattern where
  | Solid (color : color.Color)
  | Other (ColorAt : Int → Int → color.Color)

/-- Embeds `func NewSolidPattern(color color.Color) Pattern`. -/
def NewSolidPattern (c : color.Color) : Pattern := .Solid c

/-- The method `ColorAt` of a `Pattern`. -/
def Pattern.ColorAt : Pattern → Int → Int → color.Color
  | .Solid c, _, _ => c
  | .Other f, x, y => f x y

/-! ## font.go -/

/-- Embeds `type Font struct`. -/
structure Font where
  Family : String
  PointSize : Int
  Style : Int
  Weight : Int
  Stretch : Int
deriving DecidableEq, Repr

/-- Embeds `defaultFont = &Font{Family: "Go", PointSize: 10}`. -/
def defaultFont : Font := { Family := "Go", PointSize := 10, Style := 0, Weight := 0, Stretch := 0 }

/-! ## Matrix

The file that declares `Matrix` and its methods is not among the sources; the
type is known from `Matrix([6]float64{a, b, c, d, e, f})` in `draw2d_stack_gc.go`. -/

/-- Embeds `type Matrix [6]float64`. -/
structure Matrix where
  a : ℚ
  b : ℚ
  c : ℚ
  d : ℚ
  e : ℚ
  f : ℚ
deriving DecidableEq, Repr

/-- The methods of `Matrix` that `draw2d_stack_gc.go` calls.  Their bodies are not
among the sources, so the context operations take them as a parameter.  A method
with a pointer receiver is given as the function from the old to the new matrix. -/
structure MatrixMethods where
  NewIdentityMatrix : Matrix
  Copy : Matrix → Matrix
  Compose : Matrix → Matrix → Matrix
  Rotate : Matrix → ℚ → Matrix
  Translate : Matrix → ℚ → ℚ → Matrix
  Scale : Matrix → ℚ → ℚ → Matrix
  TransformPoint : Matrix → ℚ → ℚ → ℚ × ℚ

/-- Modelled from the spec: the methods of `Matrix`, whose source file is missing.
The spec gives the layout `[a,b,c,d,e,f]` with `x' = a·x + c·y + e`,
`y' = b·x + d·y + f`, the identity `[1,0,0,1,0,0]`, and composition as
right-multiplication with the new transform applied before the previous one; the
elementary transforms are composed in that way. -/
def specMatrix (M : MathFuncs) : MatrixMethods :=
  let compose : Matrix → Matrix → Matrix := fun tr t =>
    { a := tr.a * t.a + tr.c * t.b
      b := tr.b * t.a + tr.d * t.b
      c := tr.a * t.c + tr.c * t.d
      d := tr.b * t.c + tr.d * t.d
      e := tr.a * t.e + tr.c * t.f + tr.e
      f := tr.b * t.e + tr.d * t.f + tr.f }
  { NewIdentityMatrix := { a := 1, b := 0, c := 0, d := 1, e := 0, f := 0 }
    Copy := fun tr => tr
    Compose := compose
    Rotate := fun tr angle =>
      compose tr { a := M.Cos angle, b := M.Sin angle, c := -M.Sin angle, d := M.Cos angle,
                   e := 0, f := 0 }
    Translate := fun tr tx ty => compose tr { a := 1, b := 0, c := 0, d := 1, e := tx, f := ty }
    Scale := fun tr sx sy => compose tr { a := sx, b := 0, c := 0, d := sy, e := 0, f := 0 }
    TransformPoint := fun tr x y => (tr.a * x + tr.c * y + tr.e, tr.b * x + tr.d * y + tr.f) }

/-- A rational stand-in for `math.Cos` and `math.Sin` (Taylor polynomials of
degree 4 and 3), for evaluating the definitions on concrete inputs. -/
def taylorMath : MathFuncs :=
  { Cos := fun t => 1 - t ^ 2 / 2 + t ^ 4 / 24
    Sin := fun t => t - t ^ 3 / 6 }

/-! ## draw2d_stack_gc.go -/

/-- The fields of `type ContextStack struct` other than `Previous`.  `Path` is a
`*Path`: the address of a `Path` object in the store of the context. -/
structure ContextFields where
  Tr : Matrix
  mask : Option image.Alpha
  Path : Nat
  LineWidth : ℚ
  GlobalAlpha : ℚ
  Dash : List ℚ
  DashOffset : ℚ
  MiterLimit : ℚ
  StrokePattern : Pattern
  FillPattern : Pattern
  FillRule : FillRule
  Cap : LineCap
  Join : LineJoin
  GlobalCompositeOperation : CompositeOperation
  ShadowOffsetX : ℚ
  ShadowOffsetY : ℚ
  ShadowBlur : ℚ
  ShadowColor : color.Color
  Font : Option Font
  TextAlign : TextAlign
  TextBaseline : TextBaseline

/-- Embeds `type ContextStack struct`: the fields and the link `Previous *ContextStack`
(`none` is the nil pointer). -/
inductive ContextStack where
  | mk (fields : ContextFields) (Previous : Option ContextStack)

/-- The fields of a frame. -/
def ContextStack.fields : ContextStack → ContextFields
  | .mk v _ => v

/-- The field `Previous` of a frame. -/
def ContextStack.Previous : ContextStack → Option ContextStack
  | .mk _ p => p

/-- Number of frames reachable from a frame through `Previous`, itself included. -/
def ContextStack.depth : ContextStack → Nat
  | .mk _ none => 1
  | .mk _ (some p) => p.depth + 1

/-- Embeds `type StackGraphicContext struct { Current *ContextStack }` together with the
store of the `Path` objects its frames point to: `paths[a]` is the object at
address `a`. -/
structure StackGraphicContext where
  Current : ContextStack
  paths : List Path

/-- Embeds `func NewStackGraphicContext() *StackGraphicContext`; `NewPath()` allocates the
first object of the store. -/
def NewStackGraphicContext (MM : MatrixMethods) : StackGraphicContext :=
  { Current := .mk
      { Tr := MM.NewIdentityMatrix
        mask := none
        Path := 0
        LineWidth := 1
        GlobalAlpha := 1
        Dash := []
        DashOffset := 0
        StrokePattern := NewSolidPattern color.Black
        FillPattern := NewSolidPattern color.Black
        Cap := .LineCapButt
        FillRule := .FillRuleEvenOdd
        Join := .LineJoinMiter
        MiterLimit := 10
        GlobalCompositeOperation := SourceOver
        Font := some defaultFont
        TextAlign := .AlignLeft
        TextBaseline := .AlignAlphabetic
        ShadowBlur := 0
        ShadowOffsetX := 0
        ShadowOffsetY := 0
        ShadowColor := color.Transparent } none
    paths := [NewPath] }

namespace StackGraphicContext

/-- Assignment to fields of `gc.Current`: the frame keeps its `Previous` link. -/
def setCurrent (gc : StackGraphicContext) (f : ContextFields → ContextFields) :
    StackGraphicContext :=
  { gc with Current := .mk (f gc.Current.fields) gc.Current.Previous }

/-- A call of a `*Path` method on `gc.Current.Path`: the object at that address is
replaced by the result of the method. -/
def onPath (gc : StackGraphicContext) (f : Path → Path) : StackGraphicContext :=
  { gc with paths := gc.paths.modify f gc.Current.fields.Path }

/-- Embeds `func (gc *StackGraphicContext) GetPath() *Path`, dereferenced: the value of the
object `gc.Current.Path` points to (the zero `Path` when the address is not
allocated, which never holds for frames made by `NewStackGraphicContext` and `Save`). -/
def GetPath (gc : StackGraphicContext) : Path :=
  gc.paths.getD gc.Current.fields.Path NewPath

/-- Embeds `func (gc *StackGraphicContext) Transform(a, b, c, d, e, f float64)`. -/
def Transform (MM : MatrixMethods) (gc : StackGraphicContext) (a b c d e f : ℚ) :
    StackGraphicContext :=
  gc.setCurrent fun v => { v with Tr := MM.Compose v.Tr { a := a, b := b, c := c, d := d, e := e, f := f } }

/-- Embeds `func (gc *StackGraphicContext) SetTransform(a, b, c, d, e, f float64)`. -/
def SetTransform (gc : StackGraphicContext) (a b c d e f : ℚ) : StackGraphicContext :=
  gc.setCurrent fun v => { v with Tr := { a := a, b := b, c := c, d := d, e := e, f := f } }

/-- Embeds `func (gc *StackGraphicContext) SetMatrixTransform(tr Matrix)`. -/
def SetMatrixTransform (gc : StackGraphicContext) (tr : Matrix) : StackGraphicContext :=
  gc.setCurrent fun v => { v with Tr := tr }

/-- Embeds `func (gc *StackGraphicContext) ResetTransform()`. -/
def ResetTransform (MM : MatrixMethods) (gc : StackGraphicContext) : StackGraphicContext :=
  gc.setCurrent fun v => { v with Tr := MM.NewIdentityMatrix }

/-- Embeds `func (gc *StackGraphicContext) MatrixTransform() Matrix`. -/
def MatrixTransform (gc : StackGraphicContext) : Matrix := gc.Current.fields.Tr

/-- Embeds `func (gc *StackGraphicContext) ComposeMatrixTransform(Tr Matrix)`. -/
def ComposeMatrixTransform (MM : MatrixMethods) (gc : StackGraphicContext) (Tr : Matrix) :
    StackGraphicContext :=
  gc.setCurrent fun v => { v with Tr := MM.Compose v.Tr Tr }

/-- Embeds `func (gc *StackGraphicContext) Rotate(angle float64)`. -/
def Rotate (MM : MatrixMethods) (gc : StackGraphicContext) (angle : ℚ) : StackGraphicContext :=
  gc.setCurrent fun v => { v with Tr := MM.Rotate v.Tr angle }

/-- Embeds `func (gc *StackGraphicContext) Translate(tx, ty float64)`. -/
def Translate (MM : MatrixMethods) (gc : StackGraphicContext) (tx ty : ℚ) :
    StackGraphicContext :=
  gc.setCurrent fun v => { v with Tr := MM.Translate v.Tr tx ty }

/-- Embeds `func (gc *StackGraphicContext) Scale(sx, sy float64)`. -/
def Scale (MM : MatrixMethods) (gc : StackGraphicContext) (sx sy : ℚ) : StackGraphicContext :=
  gc.setCurrent fun v => { v with Tr := MM.Scale v.Tr sx sy }

/-- Embeds `func (gc *StackGraphicContext) RotateAbout(angle, x, y float64)`. -/
def RotateAbout (MM : MatrixMethods) (gc : StackGraphicContext) (angle x y : ℚ) :
    StackGraphicContext :=
  Translate MM (Rotate MM (Translate MM gc x y) angle) (-x) (-y)

/-- Embeds `func (gc *StackGraphicContext) ScaleAbout(sx, sy, x, y float64)`. -/
def ScaleAbout (MM : MatrixMethods) (gc : StackGraphicContext) (sx sy x y : ℚ) :
    StackGraphicContext :=
  Translate MM (Scale MM (Translate MM gc x y) sx sy) (-x) (-y)

/-- Embeds `func (gc *StackGraphicContext) SetStrokeStyle(pattern Pattern)`. -/
def SetStrokeStyle (gc : StackGraphicContext) (pattern : Pattern) : StackGraphicContext :=
  gc.setCurrent fun v => { v with StrokePattern := pattern }

/-- Embeds `func (gc *StackGraphicContext) StrokeStyle() Pattern`. -/
def StrokeStyle (gc : StackGraphicContext) : Pattern := gc.Current.fields.StrokePattern

/-- Embeds `func (gc *StackGraphicContext) SetStrokeColor(c color.Color)`. -/
def SetStrokeColor (gc : StackGraphicContext) (c : color.Color) : StackGraphicContext :=
  gc.setCurrent fun v => { v with StrokePattern := NewSolidPattern c }

/-- Embeds `func (gc *StackGraphicContext) SetFillStyle(pattern Pattern)`. -/
def SetFillStyle (gc : StackGraphicContext) (pattern : Pattern) : StackGraphicContext :=
  gc.setCurrent fun v => { v with FillPattern := pattern }

/-- Embeds `func (gc *StackGraphicContext) FillStyle() Pattern`. -/
def FillStyle (gc : StackGraphicContext) : Pattern := gc.Current.fields.FillPattern

/-- Embeds `func (gc *StackGraphicContext) SetFillColor(c color.Color)`. -/
def SetFillColor (gc : StackGraphicContext) (c : color.Color) : StackGraphicContext :=
  gc.setCurrent fun v => { v with FillPattern := NewSolidPattern c }

/-- Embeds `func (gc *StackGraphicContext) SetFillRule(f FillRule)`. -/
def SetFillRule (gc : StackGraphicContext) (f : FillRule) : StackGraphicContext :=
  gc.setCurrent fun v => { v with FillRule := f }

/-- Embeds `func (gc *StackGraphicContext) SetLineWidth(lineWidth float64)`. -/
def SetLineWidth (gc : StackGraphicContext) (lineWidth : ℚ) : StackGraphicContext :=
  gc.setCurrent fun v => { v with LineWidth := lineWidth }

/-- Embeds `func (gc *StackGraphicContext) LineWidth() float64`. -/
def LineWidth (gc : StackGraphicContext) : ℚ := gc.Current.fields.LineWidth

/-- Embeds `func (gc *StackGraphicContext) SetLineCap(cap LineCap)`. -/
def SetLineCap (gc : StackGraphicContext) (cap : LineCap) : StackGraphicContext :=
  gc.setCurrent fun v => { v with Cap := cap }

/-- Embeds `func (gc *StackGraphicContext) SetLineJoin(join LineJoin)`. -/
def SetLineJoin (gc : StackGraphicContext) (join : LineJoin) : StackGraphicContext :=
  gc.setCurrent fun v => { v with Join := join }

/-- Embeds `func (gc *StackGraphicContext) SetMiterLimit(limit float64)`. -/
def SetMiterLimit (gc : StackGraphicContext) (limit : ℚ) : StackGraphicContext :=
  gc.setCurrent fun v => { v with MiterLimit := limit }

/-- Embeds `func (gc *StackGraphicContext) SetLineDash(dash []float64)` on the elements
of the slice: the frame holds the elements of `dash`, twice for an odd length.  In the
source the frame holds the slice of the caller, and `append` may write into its backing
array; the slices with their backing arrays are in `DashFrames.SetLineDash`. -/
def SetLineDash (gc : StackGraphicContext) (dash : List ℚ) : StackGraphicContext :=
  let gc1 := gc.setCurrent fun v => { v with Dash := dash }
  if dash.length % 2 ≠ 0 then
    gc1.setCurrent fun v => { v with Dash := v.Dash ++ dash }
  else gc1

/-- Embeds `func (gc *StackGraphicContext) LineDash() []float64`. -/
def LineDash (gc : StackGraphicContext) : List ℚ := gc.Current.fields.Dash

/-- Embeds `func (gc *StackGraphicContext) SetLineDashOffset(offset float64)`. -/
def SetLineDashOffset (gc : StackGraphicContext) (offset : ℚ) : StackGraphicContext :=
  gc.setCurrent fun v => { v with DashOffset := offset }

/-- Embeds `func (gc *StackGraphicContext) SetFont(f *Font)`. -/
def SetFont (gc : StackGraphicContext) (f : Option Font) : StackGraphicContext :=
  gc.setCurrent fun v => { v with Font := f }

/-- Embeds `func (gc *StackGraphicContext) SetTextAlign(align TextAlign)`. -/
def SetTextAlign (gc : StackGraphicContext) (align : TextAlign) : StackGraphicContext :=
  gc.setCurrent fun v => { v with TextAlign := align }

/-- Embeds `func (gc *StackGraphicContext) SetTextBaseline(base TextBaseline)`. -/
def SetTextBaseline (gc : StackGraphicContext) (base : TextBaseline) : StackGraphicContext :=
  gc.setCurrent fun v => { v with TextBaseline := base }

/-- Embeds `func (gc *StackGraphicContext) BeginPath()`. -/
def BeginPath (gc : StackGraphicContext) : StackGraphicContext :=
  gc.onPath Path.Clear

/-- Embeds `func (gc *StackGraphicContext) IsEmpty() bool`. -/
def IsEmpty (gc : StackGraphicContext) : Bool := gc.GetPath.IsEmpty

/-- Embeds `func (gc *StackGraphicContext) LastPoint() (float64, float64)`. -/
def LastPoint (gc : StackGraphicContext) : ℚ × ℚ := gc.GetPath.LastPoint

/-- Embeds `func (gc *StackGraphicContext) TransformPoint(x, y float64) (float64, float64)`. -/
def TransformPoint (MM : MatrixMethods) (gc : StackGraphicContext) (x y : ℚ) : ℚ × ℚ :=
  MM.TransformPoint gc.Current.fields.Tr x y

/-- Embeds `func (gc *StackGraphicContext) MoveTo(x, y float64)`. -/
def MoveTo (MM : MatrixMethods) (gc : StackGraphicContext) (x y : ℚ) : StackGraphicContext :=
  let q := gc.TransformPoint MM x y
  gc.onPath fun p => p.MoveTo q.1 q.2

/-- Embeds `func (gc *StackGraphicContext) LineTo(x, y float64)`. -/
def LineTo (MM : MatrixMethods) (gc : StackGraphicContext) (x y : ℚ) : StackGraphicContext :=
  let q := gc.TransformPoint MM x y
  gc.onPath fun p => p.LineTo q.1 q.2

/-- Embeds `func (gc *StackGraphicContext) QuadraticCurveTo(cx, cy, x, y float64)`. -/
def QuadraticCurveTo (MM : MatrixMethods) (gc : StackGraphicContext) (cx cy x y : ℚ) :
    StackGraphicContext :=
  let q := gc.TransformPoint MM x y
  let c := gc.TransformPoint MM cx cy
  gc.onPath fun p => p.QuadraticCurveTo c.1 c.2 q.1 q.2

/-- Embeds `func (gc *StackGraphicContext) BezierCurveTo(cx1, cy1, cx2, cy2, x, y float64)`. -/
def BezierCurveTo (MM : MatrixMethods) (gc : StackGraphicContext) (cx1 cy1 cx2 cy2 x y : ℚ) :
    StackGraphicContext :=
  let c1 := gc.TransformPoint MM cx1 cy1
  let c2 := gc.TransformPoint MM cx2 cy2
  let q := gc.TransformPoint MM x y
  gc.onPath fun p => p.BezierCurveTo c1.1 c1.2 c2.1 c2.2 q.1 q.2

/-- One turn of the loop of `StackGraphicContext.ArcAngle`, for the index `i`. -/
def arcAngleStep (MM : MatrixMethods) (M : MathFuncs) (x y rx ry startAngle sweepAngle : ℚ)
    (gc : StackGraphicContext) (i : Nat) : StackGraphicContext :=
  let p1 : ℚ := ((i + 0 : Nat) : ℚ) / 16
  let p2 : ℚ := ((i + 1 : Nat) : ℚ) / 16
  let a1 := startAngle + sweepAngle * p1
  let a2 := startAngle + sweepAngle * p2
  let x0 := x + rx * M.Cos a1
  let y0 := y + ry * M.Sin a1
  let x1 := x + rx * M.Cos (a1 + (a2 - a1) / 2)
  let y1 := y + ry * M.Sin (a1 + (a2 - a1) / 2)
  let x2 := x + rx * M.Cos a2
  let y2 := y + ry * M.Sin a2
  let cx := 2 * x1 - x0 / 2 - x2 / 2
  let cy := 2 * y1 - y0 / 2 - y2 / 2
  let gc1 := if i = 0 then gc.LineTo MM x0 y0 else gc
  gc1.QuadraticCurveTo MM cx cy x2 y2

/-- Embeds `func (gc *StackGraphicContext) ArcAngle(x, y, rx, ry, startAngle, sweepAngle float64)`:
the loop `for i := 0; i < n; i++` with `n = 16`. -/
def ArcAngle (MM : MatrixMethods) (M : MathFuncs) (gc : StackGraphicContext)
    (x y rx ry startAngle sweepAngle : ℚ) : StackGraphicContext :=
  (List.range 16).foldl (arcAngleStep MM M x y rx ry startAngle sweepAngle) gc

/-- Embeds `func (gc *StackGraphicContext) Arc(cx, cy, radius, startAngle, endAngle float64,
counterclockwise bool)`. -/
def Arc (MM : MatrixMethods) (M : MathFuncs) (gc : StackGraphicContext)
    (cx cy radius startAngle endAngle : ℚ) (counterclockwise : Bool) : StackGraphicContext :=
  -- check circle
  if !counterclockwise && decide (endAngle - startAngle ≥ 2 * Pi) then
    gc.ArcAngle MM M cx cy radius radius startAngle (2 * Pi)
  else if counterclockwise && decide (startAngle - endAngle ≥ 2 * Pi) then
    gc.ArcAngle MM M cx cy radius radius startAngle (-2 * Pi)
  else
    -- norm angle
    let startAngle := normAngle startAngle
    let endAngle := normAngle endAngle
    let endAngle :=
      if !counterclockwise && decide (endAngle ≤ startAngle) then endAngle + Pi * 2
      else if counterclockwise && decide (endAngle ≥ startAngle) then endAngle - Pi * 2
      else endAngle
    gc.ArcAngle MM M cx cy radius radius startAngle (endAngle - startAngle)

/-- Embeds `func (gc *StackGraphicContext) ClosePath()`. -/
def ClosePath (gc : StackGraphicContext) : StackGraphicContext :=
  gc.onPath Path.Close

/-- Embeds `func (gc *StackGraphicContext) Save()`: `new(ContextStack)` is the fresh frame,
`gc.Current.Path.Copy()` allocates a fresh `Path` object at the end of the store.
`context.Dash = gc.Current.Dash` is on the elements here; the source copies the slice, so
that both frames share one backing array: see `DashFrames.Save`. -/
def Save (MM : MatrixMethods) (gc : StackGraphicContext) : StackGraphicContext :=
  let cur := gc.Current.fields
  let context : ContextFields :=
    { mask := cur.mask
      LineWidth := cur.LineWidth
      GlobalAlpha := cur.GlobalAlpha
      StrokePattern := cur.StrokePattern
      FillPattern := cur.FillPattern
      FillRule := cur.FillRule
      Dash := cur.Dash
      DashOffset := cur.DashOffset
      Cap := cur.Cap
      Join := cur.Join
      MiterLimit := cur.MiterLimit
      GlobalCompositeOperation := cur.GlobalCompositeOperation
      Path := gc.paths.length
      Font := cur.Font
      TextAlign := cur.TextAlign
      TextBaseline := cur.TextBaseline
      ShadowOffsetX := cur.ShadowOffsetX
      ShadowOffsetY := cur.ShadowOffsetY
      ShadowBlur := cur.ShadowBlur
      ShadowColor := cur.ShadowColor
      Tr := MM.Copy cur.Tr }
  { Current := .mk context (some gc.Current)
    paths := gc.paths ++ [gc.GetPath.Copy] }

/-- Embeds `func (gc *StackGraphicContext) Restore()`.  The assignment
`oldContext.Previous = nil` changes only the popped frame, which no pointer of the
context reaches any more. -/
def Restore (gc : StackGraphicContext) : StackGraphicContext :=
  match gc.Current.Previous with
  | some previous => { gc with Current := previous }
  | none => gc

/-- Embeds `func (gc *StackGraphicContext) SetGlobalAlpha(alpha float64)`. -/
def SetGlobalAlpha (gc : StackGraphicContext) (alpha : ℚ) : StackGraphicContext :=
  if alpha < 0 ∨ alpha > 1 then gc
  else gc.setCurrent fun v => { v with GlobalAlpha := alpha }

/-- Embeds `func (gc *StackGraphicContext) GlobalAlpha() float64`. -/
def GlobalAlpha (gc : StackGraphicContext) : ℚ := gc.Current.fields.GlobalAlpha

/-- Embeds `func (gc *StackGraphicContext) SetGlobalCompositeOperation(op CompositeOperation)`. -/
def SetGlobalCompositeOperation (gc : StackGraphicContext) (op : CompositeOperation) :
    StackGraphicContext :=
  gc.setCurrent fun v => { v with GlobalCompositeOperation := op }

/-- Embeds `func (gc *StackGraphicContext) SetShadowOffset(x float64, y float64)`. -/
def SetShadowOffset (gc : StackGraphicContext) (x y : ℚ) : StackGraphicContext :=
  gc.setCurrent fun v => { v with ShadowOffsetX := x, ShadowOffsetY := y }

/-- Embeds `func (gc *StackGraphicContext) SetShadowBlur(blur float64)`. -/
def SetShadowBlur (gc : StackGraphicContext) (blur : ℚ) : StackGraphicContext :=
  gc.setCurrent fun v => { v with ShadowBlur := blur }

/-- Embeds `func (gc *StackGraphicContext) SetShadowColor(clr color.Color)`. -/
def SetShadowColor (gc : StackGraphicContext) (clr : color.Color) : StackGraphicContext :=
  gc.setCurrent fun v => { v with ShadowColor := clr }

end StackGraphicContext

/-! ## Calls on a context, as data -/

/-- The style setters and the path-building methods of `StackGraphicContext`, each
with its arguments. -/
inductive Call where
  | SetLineWidth (lineWidth : ℚ)
  | SetLineCap (cap : LineCap)
  | SetLineJoin (join : LineJoin)
  | SetMiterLimit (limit : ℚ)
  | SetLineDash (dash : List ℚ)
  | SetLineDashOffset (offset : ℚ)
  | SetFillStyle (pattern : Pattern)
  | SetStrokeStyle (pattern : Pattern)
  | SetFillColor (c : color.Color)
  | SetStrokeColor (c : color.Color)
  | SetFillRule (f : FillRule)
  | SetGlobalAlpha (alpha : ℚ)
  | SetGlobalCompositeOperation (op : CompositeOperation)
  | SetShadowOffset (x y : ℚ)
  | SetShadowBlur (blur : ℚ)
  | SetShadowColor (clr : color.Color)
  | Transform (a b c d e f : ℚ)
  | SetTransform (a b c d e f : ℚ)
  | SetMatrixTransform (tr : Matrix)
  | ResetTransform
  | ComposeMatrixTransform (tr : Matrix)
  | Rotate (angle : ℚ)
  | Translate (tx ty : ℚ)
  | Scale (sx sy : ℚ)
  | RotateAbout (angle x y : ℚ)
  | ScaleAbout (sx sy x y : ℚ)
  | SetFont (f : Option Font)
  | SetTextAlign (align : TextAlign)
  | SetTextBaseline (base : TextBaseline)
  | MoveTo (x y : ℚ)
  | LineTo (x y : ℚ)
  | QuadraticCurveTo (cx cy x y : ℚ)
  | BezierCurveTo (cx1 cy1 cx2 cy2 x y : ℚ)
  | ArcAngle (x y rx ry startAngle sweepAngle : ℚ)
  | Arc (cx cy radius startAngle endAngle : ℚ) (counterclockwise : Bool)
  | ClosePath
  | BeginPath

/-- The effect of one call on the context. -/
def Call.run (MM : MatrixMethods) (M : MathFuncs) (gc : StackGraphicContext) :
    Call → StackGraphicContext
  | .SetLineWidth w => gc.SetLineWidth w
  | .SetLineCap cap => gc.SetLineCap cap
  | .SetLineJoin join => gc.SetLineJoin join
  | .SetMiterLimit limit => gc.SetMiterLimit limit
  | .SetLineDash dash => gc.SetLineDash dash
  | .SetLineDashOffset offset => gc.SetLineDashOffset offset
  | .SetFillStyle pattern => gc.SetFillStyle pattern
  | .SetStrokeStyle pattern => gc.SetStrokeStyle pattern
  | .SetFillColor c => gc.SetFillColor c
  | .SetStrokeColor c => gc.SetStrokeColor c
  | .SetFillRule f => gc.SetFillRule f
  | .SetGlobalAlpha alpha => gc.SetGlobalAlpha alpha
  | .SetGlobalCompositeOperation op => gc.SetGlobalCompositeOperation op
  | .SetShadowOffset x y => gc.SetShadowOffset x y
  | .SetShadowBlur blur => gc.SetShadowBlur blur
  | .SetShadowColor clr => gc.SetShadowColor clr
  | .Transform a b c d e f => gc.Transform MM a b c d e f
  | .SetTransform a b c d e f => gc.SetTransform a b c d e f
  | .SetMatrixTransform tr => gc.SetMatrixTransform tr
  | .ResetTransform => gc.ResetTransform MM
  | .ComposeMatrixTransform tr => gc.ComposeMatrixTransform MM tr
  | .Rotate angle => gc.Rotate MM angle
  | .Translate tx ty => gc.Translate MM tx ty
  | .Scale sx sy => gc.Scale MM sx sy
  | .RotateAbout angle x y => gc.RotateAbout MM angle x y
  | .ScaleAbout sx sy x y => gc.ScaleAbout MM sx sy x y
  | .SetFont f => gc.SetFont f
  | .SetTextAlign align => gc.SetTextAlign align
  | .SetTextBaseline base => gc.SetTextBaseline base
  | .MoveTo x y => gc.MoveTo MM x y
  | .LineTo x y => gc.LineTo MM x y
  | .QuadraticCurveTo cx cy x y => gc.QuadraticCurveTo MM cx cy x y
  | .BezierCurveTo cx1 cy1 cx2 cy2 x y => gc.BezierCurveTo MM cx1 cy1 cx2 cy2 x y
  | .ArcAngle x y rx ry startAngle sweepAngle => gc.ArcAngle MM M x y rx ry startAngle sweepAngle
  | .Arc cx cy radius startAngle endAngle ccw => gc.Arc MM M cx cy radius startAngle endAngle ccw
  | .ClosePath => gc.ClosePath
  | .BeginPath => gc.BeginPath

/-- A sequence of calls, made one after the other. -/
def runCalls (MM : MatrixMethods) (M : MathFuncs) (calls : List Call)
    (gc : StackGraphicContext) : StackGraphicContext :=
  calls.foldl (fun g c => c.run MM M g) gc

/-- Embeds `n` calls of `Save` in a row. -/
def saveN (MM : MatrixMethods) : Nat → StackGraphicContext → StackGraphicContext
  | 0, gc => gc
  | n + 1, gc => saveN MM n (gc.Save MM)

/-- Embeds `n` calls of `Restore` in a row. -/
def restoreN : Nat → StackGraphicContext → StackGraphicContext
  | 0, gc => gc
  | n + 1, gc => restoreN n gc.Restore

/-- The states a context reaches from `NewStackGraphicContext()` by calls of `Save`
and `Restore`. -/
inductive SaveRestoreReachable (MM : MatrixMethods) : StackGraphicContext → Prop where
  | init : SaveRestoreReachable MM (NewStackGraphicContext MM)
  | save (gc : StackGraphicContext) :
      SaveRestoreReachable MM gc → SaveRestoreReachable MM (gc.Save MM)
  | restore (gc : StackGraphicContext) :
      SaveRestoreReachable MM gc → SaveRestoreReachable MM gc.Restore

/-- The paths the builder methods of `Path` produce from the empty path; the
argument of `AddPath` is a path built in the same way. -/
inductive Path.Built (M : MathFuncs) : Path → Prop where
  | NewPath : Path.Built M NewPath
  | MoveTo (p : Path) (x y : ℚ) : Path.Built M p → Path.Built M (p.MoveTo x y)
  | LineTo (p : Path) (x y : ℚ) : Path.Built M p → Path.Built M (p.LineTo x y)
  | QuadraticCurveTo (p : Path) (cx cy x y : ℚ) :
      Path.Built M p → Path.Built M (p.QuadraticCurveTo cx cy x y)
  | BezierCurveTo (p : Path) (cx1 cy1 cx2 cy2 x y : ℚ) :
      Path.Built M p → Path.Built M (p.BezierCurveTo cx1 cy1 cx2 cy2 x y)
  | ArcAngle (p : Path) (cx cy rx ry startAngle sweepAngle : ℚ) :
      Path.Built M p → Path.Built M (p.ArcAngle M cx cy rx ry startAngle sweepAngle)
  | Arc (p : Path) (cx cy radius startAngle endAngle : ℚ) (counterclockwise : Bool) :
      Path.Built M p → Path.Built M (p.Arc M cx cy radius startAngle endAngle counterclockwise)
  | Close (p : Path) : Path.Built M p → Path.Built M p.Close
  | AddRectangle (p : Path) (x y width height : ℚ) :
      Path.Built M p → Path.Built M (p.AddRectangle x y width height)
  | AddPath (p o : Path) : Path.Built M p → Path.Built M o → Path.Built M (p.AddPath o)
  | Clear (p : Path) : Path.Built M p → Path.Built M p.Clear

/-! ## draw2d_painter.go -/

/-- Conversion to `uint32`. -/
def u32 (n : Nat) : Nat := n % 4294967296

/-- Conversion to `uint8`. -/
def u8 (n : Nat) : Nat := n % 256

/-- Subtraction of `uint32` values, which wraps around. -/
def u32sub (a b : Nat) : Nat := (a + 4294967296 - b % 4294967296) % 4294967296

/-- Embeds `raster.Span` of the imported package `freetype/raster`. -/
structure Span where
  Y : Int
  X0 : Int
  X1 : Int
  Alpha : Nat
deriving DecidableEq, Repr

/-- Embeds `type RGBAPainter struct`.  `Image` and `canvas` are pointers to images;
`canvasIsImage` records that they point to the same image object (`Begin` assigns
`r.canvas = r.Image`), in which case a write through `canvas` is a write to `Image`. -/
structure RGBAPainter where
  Image : image.RGBA
  Mask : Option image.Alpha
  Op : CompositeOperation
  empty : image.RGBA
  canvas : image.RGBA
  canvasIsImage : Bool
  canvasOp : CompositeOperation
  shadow : Option image.RGBA
  spanRect : image.Rectangle
  pattern : Option Pattern
  solid : Bool
  solidColor : color.Color
  canvasAlpha : ℚ
  shadowOffsetX : ℚ
  shadowOffsetY : ℚ
  shadowBlur : ℚ
  shadowColor : color.Color
  hasShadow : Bool

/-- Read of `Pix[i]`; `none` is the run-time panic for an index out of range. -/
def pixGet (pix : List Nat) (i : Int) : Option Nat :=
  if 0 ≤ i then pix.get? i.toNat else none

/-- Assignment `Pix[i] = v`; `none` is the run-time panic for an index out of range. -/
def pixSet (pix : List Nat) (i : Int) (v : Nat) : Option (List Nat) :=
  if 0 ≤ i ∧ i.toNat < pix.length then some (pix.set i.toNat v) else none

/-- Embeds `uint32(float64(ma) * r.canvasAlpha)`: the product truncated to an integer. -/
def scaleAlpha (ma : Nat) (canvasAlpha : ℚ) : Nat :=
  u32 (Int.toNat ⌊(ma : ℚ) * canvasAlpha⌋)

namespace RGBAPainter

/-- Body of the loop `for i := i0; i < i1; i += 4` in the `SourceOver` branch of
`paintSolid`, with `m = 1<<16 - 1`. -/
def solidOverPixel (c : color.Color) (ma : Nat) (pix : List Nat) (i : Int) :
    Option (List Nat) := do
  let dr ← pixGet pix (i + 0)
  let dg ← pixGet pix (i + 1)
  let db ← pixGet pix (i + 2)
  let da ← pixGet pix (i + 3)
  let a := u32 (u32sub 65535 (u32 (c.a * ma) / 65535) * 0x101)
  let pix ← pixSet pix (i + 0) (u8 ((u32 (dr * a + c.r * ma) / 65535) >>> 8))
  let pix ← pixSet pix (i + 1) (u8 ((u32 (dg * a + c.g * ma) / 65535) >>> 8))
  let pix ← pixSet pix (i + 2) (u8 ((u32 (db * a + c.b * ma) / 65535) >>> 8))
  pixSet pix (i + 3) (u8 ((u32 (da * a + c.a * ma) / 65535) >>> 8))

/-- Body of the loop `for i := i0; i < i1; i += 4` in the other branch of
`paintSolid`. -/
def solidCopyPixel (c : color.Color) (ma : Nat) (pix : List Nat) (i : Int) :
    Option (List Nat) := do
  let pix ← pixSet pix (i + 0) (u8 ((u32 (c.r * ma) / 65535) >>> 8))
  let pix ← pixSet pix (i + 1) (u8 ((u32 (c.g * ma) / 65535) >>> 8))
  let pix ← pixSet pix (i + 2) (u8 ((u32 (c.b * ma) / 65535) >>> 8))
  pixSet pix (i + 3) (u8 ((u32 (c.a * ma) / 65535) >>> 8))

/-- The loop `for i := i0; i < i1; i += 4 { body }`, by the number of turns left. -/
def pixelLoop (body : List Nat → Int → Option (List Nat)) :
    Nat → Int → List Nat → Option (List Nat)
  | 0, _, pix => some pix
  | n + 1, i, pix =>
    match body pix i with
    | none => none
    | some pix1 => pixelLoop body n (i + 4) pix1

/-- Number of turns of `for i := i0; i < i1; i += 4`. -/
def pixelTurns (i0 i1 : Int) : Nat := ((i1 - i0 + 3) / 4).toNat

/-- A write of the whole of `r.canvas.Pix`; it reaches `r.Image` when both
pointers are the same. -/
def setCanvasPix (r : RGBAPainter) (pix : List Nat) : RGBAPainter :=
  { r with
    canvas := { r.canvas with Pix := pix }
    Image := if r.canvasIsImage then { r.Image with Pix := pix } else r.Image }

/-- Embeds `func (r *RGBAPainter) paintSolid(ss []raster.Span, done bool)`; the argument
`done` is not used by the source.  `none` is a run-time panic. -/
def paintSolid (r : RGBAPainter) : List Span → Option RGBAPainter
  | [] => some r
  | s :: ss =>
    let c := r.solidColor
    let b := r.canvas.Rect
    if s.Y < b.Min.Y then paintSolid r ss
    else if s.Y ≥ b.Max.Y then some r
    else
      let X0 := if s.X0 < b.Min.X then b.Min.X else s.X0
      let X1 := if s.X1 > b.Max.X then b.Max.X else s.X1
      if X0 ≥ X1 then paintSolid r ss
      else
        let sr := r.spanRect
        let minX := if sr.Min.X > X0 then X0 else sr.Min.X
        let minY := if sr.Min.Y > s.Y then s.Y else sr.Min.Y
        let maxY := if sr.Max.Y < s.Y then s.Y else sr.Max.Y
        let maxX := if sr.Max.X < X1 then X1 else sr.Max.X
        let r1 := { r with spanRect := { Min := { X := minX, Y := minY },
                                         Max := { X := maxX, Y := maxY } } }
        let ma := scaleAlpha s.Alpha r.canvasAlpha
        let i0 := (s.Y - r.canvas.Rect.Min.Y) * r.canvas.Stride + (X0 - r.canvas.Rect.Min.X) * 4
        let i1 := i0 + (X1 - X0) * 4
        let body := if r.canvasOp = SourceOver then solidOverPixel c ma else solidCopyPixel c ma
        match pixelLoop body (pixelTurns i0 i1) i0 r.canvas.Pix with
        | none => none
        | some pix => paintSolid (r1.setCanvasPix pix) ss

end RGBAPainter

/-- A path whose components consume exactly the points it stores. -/
def Path.WellFormed (p : Path) : Prop := coordCount p.Components = p.Points.length

/-- The last frame of the chain of `Previous` links that starts at a frame. -/
def ContextStack.bottom : ContextStack → ContextStack
  | .mk v none => .mk v none
  | .mk _ (some p) => p.bottom

/-- The state `g` has, on top of the current frame of `gc`, one more frame whose
path object was allocated after every path object of `gc`, and no path object of
`gc` has changed in `g`. -/
def StackGraphicContext.FrameAbove (g gc : StackGraphicContext) : Prop :=
  g.Current.Previous = some gc.Current
  ∧ g.Current.fields.Path = gc.paths.length
  ∧ ∀ a, a < gc.paths.length → g.paths[a]? = gc.paths[a]?

/-- An example context: a fresh context after `MoveTo(1, 2)`. -/
def exampleContext : StackGraphicContext :=
  (NewStackGraphicContext (specMatrix taylorMath)).MoveTo (specMatrix taylorMath) 1 2

/-- An example sequence of style setters and path-building calls. -/
def exampleCalls : List Call :=
  [.SetLineWidth 5, .SetLineDash [1, 2, 3], .Translate 10 10, .SetGlobalAlpha 0,
   .BeginPath, .MoveTo 7 7, .LineTo 3 4, .ClosePath]

/-- Embeds `func (p *RGBA) PixOffset(x, y int) int` of the imported package `image`. -/
def image.RGBA.PixOffset (p : image.RGBA) (x y : Int) : Int :=
  (y - p.Rect.Min.Y) * p.Stride + (x - p.Rect.Min.X) * 4

/-- The four bytes `Pix[i+0]`, `Pix[i+1]`, `Pix[i+2]`, `Pix[i+3]` of the pixel
`(x, y)`, where `i = p.PixOffset(x, y)`. -/
def image.RGBA.pixelBytes (p : image.RGBA) (x y : Int) : Option (List Nat) := do
  let r ← pixGet p.Pix (p.PixOffset x y + 0)
  let g ← pixGet p.Pix (p.PixOffset x y + 1)
  let b ← pixGet p.Pix (p.PixOffset x y + 2)
  let a ← pixGet p.Pix (p.PixOffset x y + 3)
  some [r, g, b, a]

/-- An example painter: a 2 x 1 canvas holding two grey pixels, an opaque orange
solid colour, `SourceOver`, global alpha 1. -/
def examplePainter : RGBAPainter :=
  { Image := { Pix := [9, 9, 9, 9, 7, 7, 7, 7], Stride := 8,
               Rect := { Min := { X := 0, Y := 0 }, Max := { X := 2, Y := 1 } } }
    Mask := none
    Op := SourceOver
    empty := { Pix := [0, 0, 0, 0, 0, 0, 0, 0], Stride := 8,
               Rect := { Min := { X := 0, Y := 0 }, Max := { X := 2, Y := 1 } } }
    canvas := { Pix := [9, 9, 9, 9, 7, 7, 7, 7], Stride := 8,
                Rect := { Min := { X := 0, Y := 0 }, Max := { X := 2, Y := 1 } } }
    canvasIsImage := true
    canvasOp := SourceOver
    shadow := none
    spanRect := { Min := { X := 1000000000, Y := 1000000000 },
                  Max := { X := -1000000000, Y := -1000000000 } }
    pattern := none
    solid := true
    solidColor := { r := 0xffff, g := 0x8080, b := 0, a := 0xffff }
    canvasAlpha := 1
    shadowOffsetX := 0
    shadowOffsetY := 0
    shadowBlur := 0
    shadowColor := color.Transparent
    hasShadow := false }

/-! ## The painting cycle: `Begin`, `Paint`, `End` -/

namespace color

/-- Embeds `color.RGBA` of the imported package `image/color`: four bytes. -/
structure RGBA where
  R : Nat
  G : Nat
  B : Nat
  A : Nat
deriving DecidableEq, Repr

end color

/-- Subtraction of `uint8` values, which wraps around. -/
def u8sub (a b : Nat) : Nat := (a + 256 - b % 256) % 256

/-- Embeds `func makeRGBA(r, g, b, a uint32) color.RGBA` of canvas.go. -/
def makeRGBA (r g b a : Nat) : color.RGBA :=
  let r := if r > 0xff then 0xff else r
  let g := if g > 0xff then 0xff else g
  let b := if b > 0xff then 0xff else b
  let a := if a > 0xff then 0xff else a
  { R := u8 r, G := u8 g, B := u8 b, A := u8 a }

/-- Embeds `func (op CompositeOperation) ComposeRGBA(a, b color.RGBA) color.RGBA` of
canvas.go; the arithmetic is that of `uint32`, converted to `uint8` where the source
converts. -/
def ComposeRGBA (op : CompositeOperation) (a b : color.RGBA) : color.RGBA :=
  if op = SourceOver then
    let mb := u32 (u8sub 0xff a.A)
    { R := u8 (u32 (u32 a.R + u32 (u32 b.R * mb) / 0xff))
      G := u8 (u32 (u32 a.G + u32 (u32 b.G * mb) / 0xff))
      B := u8 (u32 (u32 a.B + u32 (u32 b.B * mb) / 0xff))
      A := u8 (u32 (u32 a.A + u32 (u32 b.A * mb) / 0xff)) }
  else if op = SourceIn then
    { R := u8 (u32 (u32 a.R * u32 b.A) / 0xff)
      G := u8 (u32 (u32 a.G * u32 b.A) / 0xff)
      B := u8 (u32 (u32 a.B * u32 b.A) / 0xff)
      A := u8 (u32 (u32 a.A * u32 b.A) / 0xff) }
  else if op = SourceOut then
    let ma := u32 (u8sub 0xff b.A)
    { R := u8 (u32 (u32 a.R * ma) / 0xff)
      G := u8 (u32 (u32 a.G * ma) / 0xff)
      B := u8 (u32 (u32 a.B * ma) / 0xff)
      A := u8 (u32 (u32 a.A * ma) / 0xff) }
  else if op = SourceAtop then
    let mb := u32 (u8sub 0xff a.A)
    { R := u8 (u32 (u32 (u32 a.R * u32 b.A) / 0xff + u32 (u32 b.R * mb) / 0xff))
      G := u8 (u32 (u32 (u32 a.G * u32 b.A) / 0xff + u32 (u32 b.G * mb) / 0xff))
      B := u8 (u32 (u32 (u32 a.B * u32 b.A) / 0xff + u32 (u32 b.B * mb) / 0xff))
      A := u8 (u32 (u32 (u32 a.A * u32 b.A) / 0xff + u32 (u32 b.A * mb) / 0xff)) }
  else if op = DestinationOver then
    let ma := u32 (u8sub 0xff b.A)
    { R := u8 (u32 (u32 (u32 a.R * ma) / 0xff + u32 b.R))
      G := u8 (u32 (u32 (u32 a.G * ma) / 0xff + u32 b.G))
      B := u8 (u32 (u32 (u32 a.B * ma) / 0xff + u32 b.B))
      A := u8 (u32 (u32 (u32 a.A * ma) / 0xff + u32 b.A)) }
  else if op = DestinationIn then
    { R := u8 (u32 (u32 b.R * u32 a.A) / 0xff)
      G := u8 (u32 (u32 b.G * u32 a.A) / 0xff)
      B := u8 (u32 (u32 b.B * u32 a.A) / 0xff)
      A := u8 (u32 (u32 b.A * u32 a.A) / 0xff) }
  else if op = DestinationOut then
    let mb := u32 (u8sub 0xff a.A)
    { R := u8 (u32 (u32 b.R * mb) / 0xff)
      G := u8 (u32 (u32 b.G * mb) / 0xff)
      B := u8 (u32 (u32 b.B * mb) / 0xff)
      A := u8 (u32 (u32 b.A * mb) / 0xff) }
  else if op = DestinationAtop then
    let ma := u32 (u8sub 0xff b.A)
    { R := u8 (u32 (u32 (u32 a.R * ma) / 0xff + u32 (u32 b.R * u32 a.A) / 0xff))
      G := u8 (u32 (u32 (u32 a.G * ma) / 0xff + u32 (u32 b.G * u32 a.A) / 0xff))
      B := u8 (u32 (u32 (u32 a.B * ma) / 0xff + u32 (u32 b.B * u32 a.A) / 0xff))
      A := u8 (u32 (u32 (u32 a.A * ma) / 0xff + u32 (u32 b.A * u32 a.A) / 0xff)) }
  else if op = Lighter then
    makeRGBA (u32 (u32 a.R + u32 b.R)) (u32 (u32 a.G + u32 b.G))
      (u32 (u32 a.B + u32 b.B)) (u32 (u32 a.A + u32 b.A))
  else if op = Copy then a
  else if op = Xor then
    let ma := u32 (u8sub 0xff b.A)
    let mb := u32 (u8sub 0xff a.A)
    makeRGBA (u32 (u32 (u32 a.R * ma) / 0xff + u32 (u32 b.R * mb) / 0xff))
      (u32 (u32 (u32 a.G * ma) / 0xff + u32 (u32 b.G * mb) / 0xff))
      (u32 (u32 (u32 a.B * ma) / 0xff + u32 (u32 b.B * mb) / 0xff))
      (u32 (u32 (u32 a.A * ma) / 0xff + u32 (u32 b.A * mb) / 0xff))
  else { R := 0, G := 0, B := 0, A := 0 }

/-- Embeds `func (r Rectangle) Dx() int` of the imported package `image`. -/
def image.Rectangle.Dx (r : image.Rectangle) : Int := r.Max.X - r.Min.X

/-- Embeds `func (r Rectangle) Dy() int` of the imported package `image`. -/
def image.Rectangle.Dy (r : image.Rectangle) : Int := r.Max.Y - r.Min.Y

/-- Embeds `func NewRGBA(r Rectangle) *RGBA` of the imported package `image`: a zeroed
buffer of `4 * w * h` bytes with stride `4 * w`; `none` is its panic for a negative
width or height. -/
def image.NewRGBA (r : image.Rectangle) : Option image.RGBA :=
  if r.Dx < 0 ∨ r.Dy < 0 then none
  else some { Pix := List.replicate (4 * r.Dx * r.Dy).toNat 0, Stride := 4 * r.Dx, Rect := r }

/-- Embeds `func (p *Alpha) AlphaAt(x, y int) color.Alpha` of the imported package
`image`, giving the field `A`: zero outside `p.Rect`, else `p.Pix[p.PixOffset(x, y)]`
with `PixOffset(x, y) = (y - Rect.Min.Y) * Stride + (x - Rect.Min.X)`. -/
def image.Alpha.AlphaAt (p : image.Alpha) (x y : Int) : Option Nat :=
  if p.Rect.Min.X ≤ x ∧ x < p.Rect.Max.X ∧ p.Rect.Min.Y ≤ y ∧ y < p.Rect.Max.Y then
    pixGet p.Pix ((y - p.Rect.Min.Y) * p.Stride + (x - p.Rect.Min.X))
  else some 0

/-- Embeds the conversion `int(f)` of a `float64`: truncation toward zero. -/
def truncInt (f : ℚ) : Int := if 0 ≤ f then ⌊f⌋ else ⌈f⌉

/-- The loop `for v := 0; v < n; v++ { body }` over a state; `none` is a panic. -/
def forRange {σ : Type} (n : Int) (body : σ → Int → Option σ) (s : σ) : Option σ :=
  (List.range n.toNat).foldlM (fun s (v : Nat) => body s (v : Int)) s

namespace RGBAPainter

/-- The loop `for i, x := i0, x0; i < i1; i, x = i+4, x+1 { body }`, by the number of
turns left. -/
def pixelLoopXY (body : List Nat → Int → Int → Option (List Nat)) :
    Nat → Int → Int → List Nat → Option (List Nat)
  | 0, _, _, pix => some pix
  | n + 1, i, x, pix =>
    match body pix i x with
    | none => none
    | some pix1 => pixelLoopXY body n (i + 4) (x + 1) pix1

/-- The part that `paintSolidMask`, `paintPattern` and `paintPatternMask` have in
common, word for word: the loop over the spans, the clipping of a span to the bounds
of `r.canvas`, the growth of `r.spanRect`, the indices `y`, `x0`, `i0`, `i1`, and the
choice between the loop of the `SourceOver` branch and the loop of the other branch.
`pixel over r s y` is the body of the loop over the pixels (`over` tells the
branch).  `none` is a run-time panic. -/
def paintSpans (pixel : Bool → RGBAPainter → Span → Int → List Nat → Int → Int → Option (List Nat))
    (r : RGBAPainter) : List Span → Option RGBAPainter
  | [] => some r
  | s :: ss =>
    let b := r.canvas.Rect
    if s.Y < b.Min.Y then paintSpans pixel r ss
    else if s.Y ≥ b.Max.Y then some r
    else
      let X0 := if s.X0 < b.Min.X then b.Min.X else s.X0
      let X1 := if s.X1 > b.Max.X then b.Max.X else s.X1
      if X0 ≥ X1 then paintSpans pixel r ss
      else
        let sr := r.spanRect
        let minX := if sr.Min.X > X0 then X0 else sr.Min.X
        let minY := if sr.Min.Y > s.Y then s.Y else sr.Min.Y
        let maxY := if sr.Max.Y < s.Y then s.Y else sr.Max.Y
        let maxX := if sr.Max.X < X1 then X1 else sr.Max.X
        let r1 := { r with spanRect := { Min := { X := minX, Y := minY },
                                         Max := { X := maxX, Y := maxY } } }
        let y := s.Y - r.canvas.Rect.Min.Y
        let x0 := X0 - r.canvas.Rect.Min.X
        let i0 := (s.Y - r.canvas.Rect.Min.Y) * r.canvas.Stride + (X0 - r.canvas.Rect.Min.X) * 4
        let i1 := i0 + (X1 - X0) * 4
        let body := pixel (decide (r.canvasOp = SourceOver)) r s y
        match pixelLoopXY body (pixelTurns i0 i1) i0 x0 r.canvas.Pix with
        | none => none
        | some pix => paintSpans pixel (r1.setCanvasPix pix) ss

/-- Body of the loops over the pixels in `paintSolidMask`: the coverage is scaled by
the global alpha and by the mask, and a pixel with coverage zero is left alone.  A nil
`r.Mask` panics. -/
def solidMaskPixel (over : Bool) (r : RGBAPainter) (s : Span) (y : Int)
    (pix : List Nat) (i x : Int) : Option (List Nat) := do
  let ma := scaleAlpha s.Alpha r.canvasAlpha
  let mask ← r.Mask
  let a ← mask.AlphaAt x y
  let ma := u32 (ma * u32 a) / 255
  if ma = 0 then some pix
  else if over then solidOverPixel r.solidColor ma pix i
  else solidCopyPixel r.solidColor ma pix i

/-- Body of the loops over the pixels in `paintPattern`.  A nil `r.pattern` panics. -/
def patternPixel (over : Bool) (r : RGBAPainter) (s : Span) (y : Int)
    (pix : List Nat) (i x : Int) : Option (List Nat) := do
  let ma := scaleAlpha s.Alpha r.canvasAlpha
  let p ← r.pattern
  let c := p.ColorAt x y
  if over then solidOverPixel c ma pix i else solidCopyPixel c ma pix i

/-- Body of the loops over the pixels in `paintPatternMask`. -/
def patternMaskPixel (over : Bool) (r : RGBAPainter) (s : Span) (y : Int)
    (pix : List Nat) (i x : Int) : Option (List Nat) := do
  let ma := scaleAlpha s.Alpha r.canvasAlpha
  let mask ← r.Mask
  let a ← mask.AlphaAt x y
  let ma := u32 (ma * u32 a) / 255
  if ma = 0 then some pix
  else
    let p ← r.pattern
    let c := p.ColorAt x y
    if over then solidOverPixel c ma pix i else solidCopyPixel c ma pix i

/-- Embeds `func (r *RGBAPainter) paintSolidMask(ss []raster.Span, done bool)`. -/
def paintSolidMask (r : RGBAPainter) (ss : List Span) : Option RGBAPainter :=
  paintSpans solidMaskPixel r ss

/-- Embeds `func (r *RGBAPainter) paintPattern(ss []raster.Span, done bool)`. -/
def paintPattern (r : RGBAPainter) (ss : List Span) : Option RGBAPainter :=
  paintSpans patternPixel r ss

/-- Embeds `func (r *RGBAPainter) paintPatternMask(ss []raster.Span, done bool)`. -/
def paintPatternMask (r : RGBAPainter) (ss : List Span) : Option RGBAPainter :=
  paintSpans patternMaskPixel r ss

/-- Embeds `func (r *RGBAPainter) Paint(ss []raster.Span, done bool)`. -/
def Paint (r : RGBAPainter) (ss : List Span) : Option RGBAPainter :=
  if r.solid then
    if r.Mask.isSome ∧ ¬ r.hasShadow then r.paintSolidMask ss else r.paintSolid ss
  else
    if r.Mask.isSome ∧ ¬ r.hasShadow then r.paintPatternMask ss else r.paintPattern ss

/-- Embeds `func (r *RGBAPainter) Begin()`; `none` is the panic of `image.NewRGBA`. -/
def Begin (r : RGBAPainter) : Option RGBAPainter :=
  let r := { r with spanRect := { Min := { X := 1000000000, Y := 1000000000 },
                                  Max := { X := -1000000000, Y := -1000000000 } } }
  if ¬ r.hasShadow ∧ r.Op = SourceOver then
    some { r with canvas := r.Image, canvasIsImage := true, canvasOp := SourceOver }
  else
    let rect := r.Image.Rect
    let rect :=
      if r.hasShadow then
        let rect :=
          if r.shadowOffsetX > 0 then
            { rect with Min := { rect.Min with X := rect.Min.X - truncInt r.shadowOffsetX } }
          else if r.shadowOffsetX < 0 then
            { rect with Max := { rect.Max with X := rect.Max.X - truncInt r.shadowOffsetX } }
          else rect
        if r.shadowOffsetY > 0 then
          { rect with Min := { rect.Min with Y := rect.Min.Y - truncInt r.shadowOffsetY } }
        else if r.shadowOffsetY < 0 then
          { rect with Max := { rect.Max with Y := rect.Max.Y - truncInt r.shadowOffsetY } }
        else rect
      else rect
    match image.NewRGBA rect with
    | none => none
    | some canvas => some { r with canvas := canvas, canvasIsImage := false, canvasOp := Copy }

/-- A write of the whole of `r.Image.Pix`; it reaches `r.canvas` when both pointers
are the same. -/
def setImagePix (r : RGBAPainter) (pix : List Nat) : RGBAPainter :=
  { r with
    Image := { r.Image with Pix := pix }
    canvas := if r.canvasIsImage then { r.canvas with Pix := pix } else r.canvas }

/-- Body of the loops over `x` in `End`: the pixel of `r.canvas` at `(x, y)` is composed
with the bytes of `r.Image` at the same index, and the result is stored in `r.Image`. -/
def composeAt (r : RGBAPainter) (x y : Int) : Option RGBAPainter := do
  let i := r.canvas.PixOffset x y
  let s0 ← pixGet r.canvas.Pix (i + 0)
  let s1 ← pixGet r.canvas.Pix (i + 1)
  let s2 ← pixGet r.canvas.Pix (i + 2)
  let s3 ← pixGet r.canvas.Pix (i + 3)
  let d0 ← pixGet r.Image.Pix (i + 0)
  let d1 ← pixGet r.Image.Pix (i + 1)
  let d2 ← pixGet r.Image.Pix (i + 2)
  let d3 ← pixGet r.Image.Pix (i + 3)
  let rgba := ComposeRGBA r.Op { R := s0, G := s1, B := s2, A := s3 }
    { R := d0, G := d1, B := d2, A := d3 }
  let pix ← pixSet r.Image.Pix i rgba.R
  let pix ← pixSet pix (i + 1) rgba.G
  let pix ← pixSet pix (i + 2) rgba.B
  let pix ← pixSet pix (i + 3) rgba.A
  some (r.setImagePix pix)

/-- Embeds `func (r *RGBAPainter) End()`.  `endShadow` stands for the method of that
name, which needs the blur of an imported package. -/
def End (endShadow : RGBAPainter → Option RGBAPainter) (r : RGBAPainter) :
    Option RGBAPainter :=
  if r.hasShadow then endShadow r
  else if r.Op = SourceOver then some r
  else if r.Op = SourceAtop ∨ r.Op = DestinationOver ∨ r.Op = DestinationOut
      ∨ r.Op = Lighter ∨ r.Op = Xor then
    let dx := r.Image.Rect.Dx
    let dy := r.Image.Rect.Dy
    forRange dy (fun r y =>
      if y < r.spanRect.Min.Y ∨ y > r.spanRect.Max.Y then some r
      else forRange dx (fun r x =>
        if x < r.spanRect.Min.X ∨ x > r.spanRect.Max.X then some r
        else r.composeAt x y) r) r
  else
    let dx := r.Image.Rect.Dx
    let dy := r.Image.Rect.Dy
    forRange dy (fun r y => forRange dx (fun r x => r.composeAt x y) r) r

/-- One cycle `r.Begin()`, `r.Paint(ss, done)`, `r.End()`, as `Fill` and `Stroke` of
draw2d_gc.go run it with the spans of one rasterisation. -/
def cycle (endShadow : RGBAPainter → Option RGBAPainter) (r : RGBAPainter)
    (ss : List Span) : Option RGBAPainter := do
  let r ← r.Begin
  let r ← r.Paint ss
  r.End endShadow

end RGBAPainter

/-- A painter on a 1 x 1 image holding the opaque pixel `(10, 20, 30, 255)`, with a
1 x 1 clip mask whose alpha is 0, the operator `op`, an opaque red solid colour,
global alpha 1 and no shadow: the state after `NewRGBAPainter`, `SetMask`,
`SetGlobalAlpha`, `SetPattern`, `SetCompositeOperation` and `SetShadow`. -/
def clippedPainter (op : CompositeOperation) : RGBAPainter :=
  { Image := { Pix := [10, 20, 30, 255], Stride := 4,
               Rect := { Min := { X := 0, Y := 0 }, Max := { X := 1, Y := 1 } } }
    Mask := some { Pix := [0], Stride := 1,
                   Rect := { Min := { X := 0, Y := 0 }, Max := { X := 1, Y := 1 } } }
    Op := op
    empty := { Pix := [0, 0, 0, 0], Stride := 4,
               Rect := { Min := { X := 0, Y := 0 }, Max := { X := 1, Y := 1 } } }
    canvas := { Pix := [0, 0, 0, 0], Stride := 4,
                Rect := { Min := { X := 0, Y := 0 }, Max := { X := 1, Y := 1 } } }
    canvasIsImage := false
    canvasOp := op
    shadow := none
    spanRect := { Min := { X := 0, Y := 0 }, Max := { X := 0, Y := 0 } }
    pattern := none
    solid := true
    solidColor := { r := 0xffff, g := 0, b := 0, a := 0xffff }
    canvasAlpha := 1
    shadowOffsetX := 0
    shadowOffsetY := 0
    shadowBlur := 0
    shadowColor := color.Transparent
    hasShadow := false }

/-! ## draw2d_flattener.go -/

/-- The result of running code that may panic or loop: `ok` is a normal return,
`panic` a run-time panic (index out of range), `outOfFuel` means the loop was still
running when the allowed number of turns was used up. -/
inductive Outcome (α : Type) where
  | ok (a : α)
  | panic
  | outOfFuel
deriving DecidableEq, Repr

/-- Sequencing of two computations. -/
def Outcome.bind {α β : Type} (o : Outcome α) (f : α → Outcome β) : Outcome β :=
  match o with
  | .ok a => f a
  | .panic => .panic
  | .outOfFuel => .outOfFuel

/-- A read `s[k]`, or an assignment, that panics when it yields nothing. -/
def Outcome.ofOption {α : Type} : Option α → Outcome α
  | some a => .ok a
  | none => .panic

/-- The calls a `Flattener` receives (`type Flattener interface`), as data. -/
inductive FlattenerCall where
  | MoveTo (x y : ℚ)
  | LineTo (x y : ℚ)
  | LineJoin
  | Close
  | End
deriving DecidableEq, Repr

/-- Embeds `CurveRecursionLimit = 32`. -/
def CurveRecursionLimit : Nat := 32

/-- Read of `s[i]` in a slice of `float64` with an `int` index; `none` is the panic for an index
out of range. -/
def pointsGet (points : List ℚ) (i : Int) : Option ℚ :=
  if 0 ≤ i then points[i.toNat]? else none

/-- The slice expression `s[i:]` with an `int` index; `none` is the panic
for a bound out of range. -/
def pointsFrom (points : List ℚ) (i : Int) : Option (List ℚ) :=
  if 0 ≤ i ∧ i.toNat ≤ points.length then some (points.drop i.toNat) else none

/-- Embeds `func SubdivideCubic(c, c1, c2 []float64)`.  The three slices are views of
one buffer `buf`, starting at the offsets `c`, `c1`, `c2`; the assignments are made
in the order of the source, each reading the buffer as the earlier ones left it.
The function reads `c[0..7]` and writes `c1[0..7]` and `c2[0..7]` whatever the
values are, so it panics (`none`) exactly when one of these indices is out of range. -/
def SubdivideCubic (buf : List ℚ) (c c1 c2 : Nat) : Option (List ℚ) :=
  if c + 7 < buf.length ∧ c1 + 7 < buf.length ∧ c2 + 7 < buf.length then
    -- c1[0], c1[1] = c[0], c[1]
    let v0 := buf.getD (c + 0) 0
    let v1 := buf.getD (c + 1) 0
    let buf := (buf.set (c1 + 0) v0).set (c1 + 1) v1
    -- c2[6], c2[7] = c[6], c[7]
    let v6 := buf.getD (c + 6) 0
    let v7 := buf.getD (c + 7) 0
    let buf := (buf.set (c2 + 6) v6).set (c2 + 7) v7
    -- c1[2] = (c[0] + c[2]) / 2
    let buf := buf.set (c1 + 2) ((buf.getD (c + 0) 0 + buf.getD (c + 2) 0) / 2)
    -- c1[3] = (c[1] + c[3]) / 2
    let buf := buf.set (c1 + 3) ((buf.getD (c + 1) 0 + buf.getD (c + 3) 0) / 2)
    let midX := (buf.getD (c + 2) 0 + buf.getD (c + 4) 0) / 2
    let midY := (buf.getD (c + 3) 0 + buf.getD (c + 5) 0) / 2
    -- c2[4] = (c[4] + c[6]) / 2
    let buf := buf.set (c2 + 4) ((buf.getD (c + 4) 0 + buf.getD (c + 6) 0) / 2)
    -- c2[5] = (c[5] + c[7]) / 2
    let buf := buf.set (c2 + 5) ((buf.getD (c + 5) 0 + buf.getD (c + 7) 0) / 2)
    -- c1[4] = (c1[2] + midX) / 2
    let buf := buf.set (c1 + 4) ((buf.getD (c1 + 2) 0 + midX) / 2)
    -- c1[5] = (c1[3] + midY) / 2
    let buf := buf.set (c1 + 5) ((buf.getD (c1 + 3) 0 + midY) / 2)
    -- c2[2] = (midX + c2[4]) / 2
    let buf := buf.set (c2 + 2) ((midX + buf.getD (c2 + 4) 0) / 2)
    -- c2[3] = (midY + c2[5]) / 2
    let buf := buf.set (c2 + 3) ((midY + buf.getD (c2 + 5) 0) / 2)
    -- c1[6] = (c1[4] + c2[2]) / 2
    let buf := buf.set (c1 + 6) ((buf.getD (c1 + 4) 0 + buf.getD (c2 + 2) 0) / 2)
    -- c1[7] = (c1[5] + c2[3]) / 2
    let buf := buf.set (c1 + 7) ((buf.getD (c1 + 5) 0 + buf.getD (c2 + 3) 0) / 2)
    -- c2[0], c2[1] = c1[6], c1[7]
    let h6 := buf.getD (c1 + 6) 0
    let h7 := buf.getD (c1 + 7) 0
    some ((buf.set (c2 + 0) h6).set (c2 + 1) h7)
  else none

/-- Embeds `func SubdivideQuad(c, c1, c2 []float64)`, with the slices as views of one
buffer as in `SubdivideCubic`; it reads `c[0..5]` and writes `c1[0..5]` and
`c2[0..5]`. -/
def SubdivideQuad (buf : List ℚ) (c c1 c2 : Nat) : Option (List ℚ) :=
  if c + 5 < buf.length ∧ c1 + 5 < buf.length ∧ c2 + 5 < buf.length then
    -- c1[0], c1[1] = c[0], c[1]
    let v0 := buf.getD (c + 0) 0
    let v1 := buf.getD (c + 1) 0
    let buf := (buf.set (c1 + 0) v0).set (c1 + 1) v1
    -- c2[4], c2[5] = c[4], c[5]
    let v4 := buf.getD (c + 4) 0
    let v5 := buf.getD (c + 5) 0
    let buf := (buf.set (c2 + 4) v4).set (c2 + 5) v5
    -- c1[2] = (c[0] + c[2]) / 2
    let buf := buf.set (c1 + 2) ((buf.getD (c + 0) 0 + buf.getD (c + 2) 0) / 2)
    -- c1[3] = (c[1] + c[3]) / 2
    let buf := buf.set (c1 + 3) ((buf.getD (c + 1) 0 + buf.getD (c + 3) 0) / 2)
    -- c2[2] = (c[2] + c[4]) / 2
    let buf := buf.set (c2 + 2) ((buf.getD (c + 2) 0 + buf.getD (c + 4) 0) / 2)
    -- c2[3] = (c[3] + c[5]) / 2
    let buf := buf.set (c2 + 3) ((buf.getD (c + 3) 0 + buf.getD (c + 5) 0) / 2)
    -- c1[4] = (c1[2] + c2[2]) / 2
    let buf := buf.set (c1 + 4) ((buf.getD (c1 + 2) 0 + buf.getD (c2 + 2) 0) / 2)
    -- c1[5] = (c1[3] + c2[3]) / 2
    let buf := buf.set (c1 + 5) ((buf.getD (c1 + 3) 0 + buf.getD (c2 + 3) 0) / 2)
    -- c2[0], c2[1] = c1[4], c1[5]
    let h4 := buf.getD (c1 + 4) 0
    let h5 := buf.getD (c1 + 5) 0
    some ((buf.set (c2 + 0) h4).set (c2 + 1) h5)
  else none

/-- The variables of the loops of `TraceCubic` and `TraceQuad`: the array `curves`,
the index `i`, and the points passed to `t.LineTo` so far. -/
structure TraceState where
  curves : List ℚ
  i : Int
  lines : List (ℚ × ℚ)
deriving DecidableEq, Repr

/-- One turn of the loop `for i >= 0` of `TraceCubic`, entered with `i >= 0`; `none`
is a panic.  The slices `c = curves[i:]`, `curves[i+8:]` and `curves[i:]` are views of
the array from index `i` on: `SubdivideCubic` runs on that part, at the offsets 0, 8
and 0, and the part is put back behind the first `i` entries.  `len(curves) - 8` is
`CurveRecursionLimit * 8 - 8`. -/
def cubicTurn (flatteningThreshold : ℚ) (s : TraceState) : Option TraceState := do
  let c ← pointsFrom s.curves s.i
  let c0 ← c.get? 0
  let c1 ← c.get? 1
  let c2 ← c.get? 2
  let c3 ← c.get? 3
  let c4 ← c.get? 4
  let c5 ← c.get? 5
  let c6 ← c.get? 6
  let c7 ← c.get? 7
  let dx := c6 - c0
  let dy := c7 - c1
  let d2 := |(c2 - c6) * dy - (c3 - c7) * dx|
  let d3 := |(c4 - c6) * dy - (c5 - c7) * dx|
  if (d2 + d3) * (d2 + d3) ≤ flatteningThreshold * (dx * dx + dy * dy)
      ∨ s.i = ((CurveRecursionLimit * 8 - 8 : Nat) : Int) then
    some { s with lines := s.lines ++ [(c6, c7)], i := s.i - 8 }
  else
    let part ← SubdivideCubic c 0 8 0
    some { s with curves := s.curves.take s.i.toNat ++ part, i := s.i + 8 }

/-- One turn of the loop `for i >= 0` of `TraceQuad`, entered with `i >= 0`, with the
slices as in `cubicTurn`. -/
def quadTurn (flatteningThreshold : ℚ) (s : TraceState) : Option TraceState := do
  let c ← pointsFrom s.curves s.i
  let c0 ← c.get? 0
  let c1 ← c.get? 1
  let c2 ← c.get? 2
  let c3 ← c.get? 3
  let c4 ← c.get? 4
  let c5 ← c.get? 5
  let dx := c4 - c0
  let dy := c5 - c1
  let d := |(c2 - c4) * dy - (c3 - c5) * dx|
  if d * d ≤ flatteningThreshold * (dx * dx + dy * dy)
      ∨ s.i = ((CurveRecursionLimit * 6 - 6 : Nat) : Int) then
    some { s with lines := s.lines ++ [(c4, c5)], i := s.i - 6 }
  else
    let part ← SubdivideQuad c 0 6 0
    some { s with curves := s.curves.take s.i.toNat ++ part, i := s.i + 6 }

/-- The loop `for i >= 0 { turn }`, allowed `fuel` turns. -/
def traceLoop (turn : TraceState → Option TraceState) :
    Nat → TraceState → Outcome (List (ℚ × ℚ))
  | 0, s => if s.i ≥ 0 then .outOfFuel else .ok s.lines
  | fuel + 1, s =>
    if s.i ≥ 0 then
      match turn s with
      | none => .panic
      | some s1 => traceLoop turn fuel s1
    else .ok s.lines

/-- What `TraceCubic` and `TraceQuad` give back: the points passed to `t.LineTo`, in
order, and whether the returned `error` is non-nil. -/
structure TraceResult where
  lines : List (ℚ × ℚ)
  err : Bool
deriving DecidableEq, Repr

/-- Embeds `func TraceCubic(t Liner, cubic []float64, flatteningThreshold float64) error`;
the loop is allowed `fuel` turns. -/
def TraceCubic (fuel : Nat) (cubic : List ℚ) (flatteningThreshold : ℚ) : Outcome TraceResult :=
  if cubic.length < 8 then .ok { lines := [], err := true }
  else
    let curves := cubic.take 8 ++ List.replicate (CurveRecursionLimit * 8 - 8) 0
    (traceLoop (cubicTurn flatteningThreshold) fuel { curves := curves, i := 0, lines := [] }).bind
      fun lines => .ok { lines := lines, err := false }

/-- Embeds `func TraceQuad(t Liner, quad []float64, flatteningThreshold float64) error`;
the loop is allowed `fuel` turns. -/
def TraceQuad (fuel : Nat) (quad : List ℚ) (flatteningThreshold : ℚ) : Outcome TraceResult :=
  if quad.length < 6 then .ok { lines := [], err := true }
  else
    let curves := quad.take 6 ++ List.replicate (CurveRecursionLimit * 6 - 6) 0
    (traceLoop (quadTurn flatteningThreshold) fuel { curves := curves, i := 0, lines := [] }).bind
      fun lines => .ok { lines := lines, err := false }

/-- The variables of the loop of `TraceArc`: the running `angle` and the points
passed to `t.LineTo` so far. -/
structure ArcState where
  angle : ℚ
  lines : List (ℚ × ℚ)
deriving DecidableEq, Repr

/-- The loop `for { ... }` of `TraceArc`, allowed `fuel` turns; it gives back the
points passed to `t.LineTo` and the returned point `(curX, curY)`. -/
def traceArcLoop (M : MathFuncs) (x y rx ry endA da : ℚ) (clockWise : Bool) :
    Nat → ArcState → Outcome (List (ℚ × ℚ) × (ℚ × ℚ))
  | 0, s =>
    if decide (s.angle < endA - da / 4) != clockWise then
      .ok (s.lines, (x + M.Cos endA * rx, y + M.Sin endA * ry))
    else .outOfFuel
  | fuel + 1, s =>
    if decide (s.angle < endA - da / 4) != clockWise then
      .ok (s.lines, (x + M.Cos endA * rx, y + M.Sin endA * ry))
    else
      let curX := x + M.Cos s.angle * rx
      let curY := y + M.Sin s.angle * ry
      traceArcLoop M x y rx ry endA da clockWise fuel
        { angle := s.angle + da, lines := s.lines ++ [(curX, curY)] }

/-- Embeds `func TraceArc(t Liner, x, y, rx, ry, start, angle, scale float64) (lastX, lastY
float64)`; `acos` stands for `math.Acos`, and the loop is allowed `fuel` turns.  The
result holds the points passed to `t.LineTo` and the returned point. -/
def TraceArc (M : MathFuncs) (acos : ℚ → ℚ) (fuel : Nat) (x y rx ry start angle scale : ℚ) :
    Outcome (List (ℚ × ℚ) × (ℚ × ℚ)) :=
  let endA := start + angle
  let clockWise := if angle < 0 then false else true
  let ra := (|rx| + |ry|) / 2
  let da := acos (ra / (ra + 0.125 / scale)) * 2
  -- normalize
  let da := if !clockWise then -da else da
  let angle := start + da
  traceArcLoop M x y rx ry endA da clockWise fuel { angle := angle, lines := [] }

/-- The local variables of `Flatten`: the first point, the current point, and the
index `i` into `path.Points`. -/
structure FlattenState where
  startX : ℚ
  startY : ℚ
  x : ℚ
  y : ℚ
  i : Int
deriving DecidableEq, Repr

/-- The calls `t.LineTo(p)` for the points a tracer passed to its `Liner`. -/
def lineCalls (lines : List (ℚ × ℚ)) : List FlattenerCall :=
  lines.map fun p => FlattenerCall.LineTo p.1 p.2

/-- One turn of the loop `for _, cmp := range path.Components` of `Flatten`: the calls
made on the flattener and the new values of the local variables.  The error that
`TraceQuad` and `TraceCubic` return is dropped, as in the source. -/
def flattenTurn (M : MathFuncs) (acos : ℚ → ℚ) (fuel : Nat) (points : List ℚ) (scale : ℚ)
    (s : FlattenState) : PathCmp → Outcome (List FlattenerCall × FlattenState)
  | .MoveToCmp =>
    (Outcome.ofOption (pointsGet points s.i)).bind fun x =>
    (Outcome.ofOption (pointsGet points (s.i + 1))).bind fun y =>
    .ok ((if s.i ≠ 0 then [FlattenerCall.End] else []) ++ [.MoveTo x y],
         { startX := x, startY := y, x := x, y := y, i := s.i + 2 })
  | .LineToCmp =>
    (Outcome.ofOption (pointsGet points s.i)).bind fun x =>
    (Outcome.ofOption (pointsGet points (s.i + 1))).bind fun y =>
    .ok ([.LineTo x y, .LineJoin], { s with x := x, y := y, i := s.i + 2 })
  | .QuadCurveToCmp =>
    (Outcome.ofOption (pointsFrom points (s.i - 2))).bind fun quad =>
    (TraceQuad fuel quad 0.5).bind fun r =>
    (Outcome.ofOption (pointsGet points (s.i + 2))).bind fun x =>
    (Outcome.ofOption (pointsGet points (s.i + 3))).bind fun y =>
    .ok (lineCalls r.lines ++ [.LineTo x y], { s with x := x, y := y, i := s.i + 4 })
  | .CubicCurveToCmp =>
    (Outcome.ofOption (pointsFrom points (s.i - 2))).bind fun cubic =>
    (TraceCubic fuel cubic 0.5).bind fun r =>
    (Outcome.ofOption (pointsGet points (s.i + 4))).bind fun x =>
    (Outcome.ofOption (pointsGet points (s.i + 5))).bind fun y =>
    .ok (lineCalls r.lines ++ [.LineTo x y], { s with x := x, y := y, i := s.i + 6 })
  | .ArcAngleCmp =>
    (Outcome.ofOption (pointsGet points s.i)).bind fun a0 =>
    (Outcome.ofOption (pointsGet points (s.i + 1))).bind fun a1 =>
    (Outcome.ofOption (pointsGet points (s.i + 2))).bind fun a2 =>
    (Outcome.ofOption (pointsGet points (s.i + 3))).bind fun a3 =>
    (Outcome.ofOption (pointsGet points (s.i + 4))).bind fun a4 =>
    (Outcome.ofOption (pointsGet points (s.i + 5))).bind fun a5 =>
    (TraceArc M acos fuel a0 a1 a2 a3 a4 a5 scale).bind fun r =>
    .ok (lineCalls r.1 ++ [.LineTo r.2.1 r.2.2],
         { s with x := r.2.1, y := r.2.2, i := s.i + 6 })
  | .CloseCmp =>
    .ok ([.LineTo s.startX s.startY, .Close], s)

/-- The loop `for _, cmp := range path.Components` of `Flatten`. -/
def flattenLoop (M : MathFuncs) (acos : ℚ → ℚ) (fuel : Nat) (points : List ℚ) (scale : ℚ) :
    List PathCmp → FlattenState → Outcome (List FlattenerCall × FlattenState)
  | [], s => .ok ([], s)
  | cmp :: rest, s =>
    (flattenTurn M acos fuel points scale s cmp).bind fun r1 =>
    (flattenLoop M acos fuel points scale rest r1.2).bind fun r2 =>
    .ok (r1.1 ++ r2.1, r2.2)

/-- Embeds `func Flatten(path *Path, flattener Flattener, scale float64)`: the calls
made on the flattener, in order.  Each tracing loop is allowed `fuel` turns. -/
def Flatten (M : MathFuncs) (acos : ℚ → ℚ) (fuel : Nat) (path : Path) (scale : ℚ) :
    Outcome (List FlattenerCall) :=
  (flattenLoop M acos fuel path.Points scale path.Components
    { startX := 0, startY := 0, x := 0, y := 0, i := 0 }).bind fun r =>
  .ok (r.1 ++ [.End])

/-- The point of the last `MoveTo` among the components `cmps`, read in `points` at
the place the walk of the components assigns to it (`i` is the index of the first
coordinate of `cmps`); `none` when `cmps` holds no `MoveTo`. -/
def lastMoveToPoint (points : List ℚ) : List PathCmp → Nat → Option (ℚ × ℚ)
  | [], _ => none
  | cmp :: rest, i =>
    match lastMoveToPoint points rest (i + cmp.coords) with
    | some q => some q
    | none =>
      if cmp = .MoveToCmp then
        match points[i]?, points[i + 1]? with
        | some x, some y => some (x, y)
        | _, _ => none
      else none

/-- The point at parameter `t` of the cubic Bézier curve whose control points are
`(c[0], c[1])`, `(c[2], c[3])`, `(c[4], c[5])`, `(c[6], c[7])`: the curve itself, in
Bernstein form, against which the traced polyline is measured. -/
def cubicBezierPoint (c : List ℚ) (t : ℚ) : ℚ × ℚ :=
  ((1 - t) ^ 3 * c.getD 0 0 + 3 * (1 - t) ^ 2 * t * c.getD 2 0
      + 3 * (1 - t) * t ^ 2 * c.getD 4 0 + t ^ 3 * c.getD 6 0,
   (1 - t) ^ 3 * c.getD 1 0 + 3 * (1 - t) ^ 2 * t * c.getD 3 0
      + 3 * (1 - t) * t ^ 2 * c.getD 5 0 + t ^ 3 * c.getD 7 0)

/-- The x-coordinates of the curve stored at `l[n..n+7]` do not decrease from one
control point to the next, and the last is greater than the first. -/
def MonoAt (l : List ℚ) (n : Nat) : Prop :=
  l.getD n 0 ≤ l.getD (n + 2) 0 ∧ l.getD (n + 2) 0 ≤ l.getD (n + 4) 0
    ∧ l.getD (n + 4) 0 ≤ l.getD (n + 6) 0 ∧ l.getD n 0 < l.getD (n + 6) 0

/-- An invariant of the loop of `TraceCubic` on a curve that runs from left to right:
the array keeps its length, `i` is `8 * k` for a depth `k` of at most 31, and each of
the curves stored at the depths `0..k` satisfies `MonoAt`. -/
def CubicStackInv (s : TraceState) : Prop :=
  s.curves.length = 256 ∧ ∃ k : Nat, k ≤ 31 ∧ s.i = ((8 * k : Nat) : Int)
    ∧ ∀ j : Nat, j ≤ k → MonoAt s.curves (8 * j)

/-! ## canvas.go: `FRGBA` and `Compose` -/

/-- Embeds `type FRGBA struct { R, G, B, A float64 }`. -/
structure FRGBA where
  R : ℚ
  G : ℚ
  B : ℚ
  A : ℚ
deriving DecidableEq, Repr

/-- Embeds `func (c FRGBA) Mul(alpha float64) FRGBA`. -/
def FRGBA.Mul (c : FRGBA) (alpha : ℚ) : FRGBA :=
  { R := c.R * alpha, G := c.G * alpha, B := c.B * alpha, A := c.A * alpha }

/-- Embeds `func (c FRGBA) Add(x FRGBA) FRGBA`. -/
def FRGBA.Add (c x : FRGBA) : FRGBA :=
  let r := c.R + x.R
  let g := c.G + x.G
  let b := c.B + x.B
  let a := c.A + x.A
  { R := if r > 1 then 1 else r, G := if g > 1 then 1 else g,
    B := if b > 1 then 1 else b, A := if a > 1 then 1 else a }

/-- Embeds `func (op CompositeOperation) Compose(a, b FRGBA) FRGBA`; `none` is the
`panic` of the `default` case. -/
def Compose (op : CompositeOperation) (a b : FRGBA) : Option FRGBA :=
  let factors : Option (ℚ × ℚ) :=
    if op = SourceOver then some (1, 1 - a.A)
    else if op = SourceIn then some (b.A, 0)
    else if op = SourceOut then some (1 - b.A, 0)
    else if op = SourceAtop then some (b.A, 1 - a.A)
    else if op = DestinationOver then some (1 - b.A, 1)
    else if op = DestinationIn then some (0, a.A)
    else if op = DestinationOut then some (0, 1 - a.A)
    else if op = DestinationAtop then some (1 - b.A, a.A)
    else if op = Lighter then some (1, 1)
    else if op = Copy then some (1, 0)
    else if op = Xor then some (1 - b.A, 1 - a.A)
    else none
  match factors with
  | none => none
  | some (fa, fb) => some ((a.Mul fa).Add (b.Mul fb))

/-! ## draw2d_stroker.go, draw2d_stroker_capper.go, draw2d_stroker_joiner.go -/

/-- The external functions of package `math` that the stroker calls, beside
`math.Cos` and `math.Sin`. -/
structure StrokerMath where
  Sqrt : ℚ → ℚ
  Hypot : ℚ → ℚ → ℚ
  Asin : ℚ → ℚ
  Atan : ℚ → ℚ
  Tan : ℚ → ℚ
  Acos : ℚ → ℚ

/-- Embeds `func vectorDistance(dx, dy float64) float64`. -/
def vectorDistance (S : StrokerMath) (dx dy : ℚ) : ℚ := S.Sqrt (dx * dx + dy * dy)

/-- Embeds `func pointLineRelationship(x1, y1, x2, y2, x, y float64) float64`. -/
def pointLineRelationship (x1 y1 x2 y2 x y : ℚ) : ℚ :=
  (y2 - y1) * x + (x1 - x2) * y + (x2 * y1 - x1 * y2)

/-- Embeds `func GeneralEquation(x1, y1, x2, y2 float64) (float64, float64, float64)`. -/
def GeneralEquation (x1 y1 x2 y2 : ℚ) : ℚ × ℚ × ℚ :=
  (y2 - y1, x1 - x2, x2 * y1 - x1 * y2)

/-- Embeds `func GetIntersectPointofLines(x1, y1, x2, y2, x3, y3, x4, y4 float64)
(float64, float64, bool)`. -/
def GetIntersectPointofLines (x1 y1 x2 y2 x3 y3 x4 y4 : ℚ) : ℚ × ℚ × Bool :=
  let e1 := GeneralEquation x1 y1 x2 y2
  let e2 := GeneralEquation x3 y3 x4 y4
  let a1 := e1.1
  let b1 := e1.2.1
  let c1 := e1.2.2
  let a2 := e2.1
  let b2 := e2.2.1
  let c2 := e2.2.2
  let m := a1 * b2 - a2 * b1
  if m = 0 then (0, 0, false)
  else ((c2 * b1 - c1 * b2) / m, (c1 * a2 - c2 * a1) / m, true)

/-- Embeds `func callVerticesIntersect(ar1 []float64, ar2 []float64) (float64, float64,
bool)`; `none` is the panic for an index out of range. -/
def callVerticesIntersect (ar1 ar2 : List ℚ) : Option (ℚ × ℚ × Bool) := do
  let p0 ← ar1.get? 0
  let p1 ← ar1.get? 1
  let p2 ← ar1.get? 2
  let p3 ← ar1.get? 3
  let q0 ← ar2.get? 0
  let q1 ← ar2.get? 1
  let q2 ← ar2.get? 2
  let q3 ← ar2.get? 3
  some (GetIntersectPointofLines p0 p1 p2 p3 q0 q1 q2 q3)

/-- Embeds `func callAngle(x1, y1, x2, y2 float64) (angle float64)`. -/
def callAngle (S : StrokerMath) (x1 y1 x2 y2 : ℚ) : ℚ :=
  let xx := x2 - x1
  let yy := y2 - y1
  let angle := if xx = 0 then Pi / 2 else S.Atan |yy / xx|
  if xx < 0 ∧ yy ≥ 0 then Pi - angle
  else if xx < 0 ∧ yy < 0 then Pi + angle
  else if xx ≥ 0 ∧ yy < 0 then Pi * 2 - angle
  else angle

/-- The `Points` of a fresh path `p := NewPath()` after it has received, as a `Liner`,
the calls `p.LineTo(x, y)` for the points `lines`. -/
def linerPoints (lines : List (ℚ × ℚ)) : List ℚ :=
  (lines.foldl (fun (p : Path) q => p.LineTo q.1 q.2) NewPath).Points

/-- Embeds `func traceCapRound(x1, y1, x2, y2, halfLineWidth float64) []float64`; the
loop of `TraceArc` is allowed `fuel` turns. -/
def traceCapRound (S : StrokerMath) (M : MathFuncs) (fuel : Nat)
    (x1 y1 x2 y2 halfLineWidth : ℚ) : Outcome (List ℚ) :=
  let x := x2 + (x1 - x2) / 2
  let y := y1 + (y2 - y1) / 2
  let angle := callAngle S x1 y1 x2 y2
  (TraceArc M S.Acos fuel x y halfLineWidth halfLineWidth angle Pi 1).bind fun r =>
  .ok (linerPoints r.1)

/-- Embeds `func traceCapSquare(x1, y1, x2, y2, halfLineWidth float64) []float64`. -/
def traceCapSquare (S : StrokerMath) (M : MathFuncs) (x1 y1 x2 y2 halfLineWidth : ℚ) :
    List ℚ :=
  let angle := S.Asin ((x1 - x2) / (2 * halfLineWidth))
  let xoff := halfLineWidth * M.Cos angle
  let yoff := halfLineWidth * M.Sin angle
  let xoff := if y2 < y1 then xoff * -1 else xoff
  ((NewPath.LineTo (x2 - xoff) (y2 - yoff)).LineTo (x1 - xoff) (y1 - yoff)).Points

/-- Embeds `func capRound(vertices []float64, rewind []float64, halfLineWidth float64)
([]float64, []float64)`. -/
def capRound (S : StrokerMath) (M : MathFuncs) (fuel : Nat)
    (vertices rewind : List ℚ) (halfLineWidth : ℚ) : Outcome (List ℚ × List ℚ) :=
  (Outcome.ofOption (pointsGet vertices 0)).bind fun x1 =>
  (Outcome.ofOption (pointsGet vertices 1)).bind fun y1 =>
  (Outcome.ofOption (pointsGet rewind 0)).bind fun x2 =>
  (Outcome.ofOption (pointsGet rewind 1)).bind fun y2 =>
  (traceCapRound S M fuel x1 y1 x2 y2 halfLineWidth).bind fun pts1 =>
  (Outcome.ofOption (pointsGet vertices ((vertices.length : Int) - 2))).bind fun x2 =>
  (Outcome.ofOption (pointsGet vertices ((vertices.length : Int) - 1))).bind fun y2 =>
  (Outcome.ofOption (pointsGet rewind ((rewind.length : Int) - 2))).bind fun x1 =>
  (Outcome.ofOption (pointsGet rewind ((rewind.length : Int) - 1))).bind fun y1 =>
  (traceCapRound S M fuel x1 y1 x2 y2 halfLineWidth).bind fun pts2 =>
  .ok (pts1, pts2)

/-- Embeds `func capSquare(vertices []float64, rewind []float64, halfLineWidth float64)
([]float64, []float64)`. -/
def capSquare (S : StrokerMath) (M : MathFuncs)
    (vertices rewind : List ℚ) (halfLineWidth : ℚ) : Outcome (List ℚ × List ℚ) :=
  (Outcome.ofOption (pointsGet vertices 0)).bind fun x1 =>
  (Outcome.ofOption (pointsGet vertices 1)).bind fun y1 =>
  (Outcome.ofOption (pointsGet rewind 0)).bind fun x2 =>
  (Outcome.ofOption (pointsGet rewind 1)).bind fun y2 =>
  let pts1 := traceCapSquare S M x1 y1 x2 y2 halfLineWidth
  (Outcome.ofOption (pointsGet vertices ((vertices.length : Int) - 2))).bind fun x2 =>
  (Outcome.ofOption (pointsGet vertices ((vertices.length : Int) - 1))).bind fun y2 =>
  (Outcome.ofOption (pointsGet rewind ((rewind.length : Int) - 2))).bind fun x1 =>
  (Outcome.ofOption (pointsGet rewind ((rewind.length : Int) - 1))).bind fun y1 =>
  let pts2 := traceCapSquare S M x1 y1 x2 y2 halfLineWidth
  .ok (pts1, pts2)

/-- Embeds `type CapperFunc`, applied to the arguments `(vertices, rewind,
halfLineWidth)`. -/
abbrev CapperFunc := List ℚ → List ℚ → ℚ → Outcome (List ℚ × List ℚ)

/-- Embeds `func (c LineCap) Capper() CapperFunc`; `none` is the nil function. -/
def LineCap.Capper (S : StrokerMath) (M : MathFuncs) (fuel : Nat) : LineCap → Option CapperFunc
  | .LineCapButt => none
  | .LineCapRound => some (capRound S M fuel)
  | .LineCapSquare => some (capSquare S M)

/-- Embeds `func traceJoinRound(x0, y0, x1, y1, x2, y2 float64, ar []float64, clockWise
bool) []float64`. -/
def traceJoinRound (S : StrokerMath) (M : MathFuncs) (fuel : Nat)
    (x0 y0 x1 y1 x2 y2 : ℚ) (ar : List ℚ) (clockWise : Bool) : Outcome (List ℚ) :=
  (Outcome.ofOption (pointsGet ar 0)).bind fun ar0 =>
  (Outcome.ofOption (pointsGet ar 1)).bind fun ar1 =>
  let ab := S.Hypot (ar0 - x0) (ar1 - y0)
  let ac := S.Hypot (x0 - x1) (y0 - y1)
  let a_acp := S.Asin (ab / 2 / ac)
  let ap := ac * S.Tan a_acp
  let cp := ac / M.Cos a_acp
  let cd := S.Hypot (x1 - x2) (y1 - y2)
  let px := x2 + (cd - cp) / cd * (x1 - x2)
  let py := y2 + (cd - cp) / cd * (y1 - y2)
  let a_start := callAngle S px py x0 y0
  let a_angle := (90 * Pi / 180 - a_acp) * 2
  (if clockWise then TraceArc M S.Acos fuel px py ap ap a_start a_angle 1
   else TraceArc M S.Acos fuel px py ap ap a_start (-a_angle) 1).bind fun r =>
  .ok (linerPoints r.1)

/-- Embeds `type JoinerFunc`, applied to the arguments `(vertices, rewind,
halfLineWidth, miterLimitCheck, clockWise, inputVertex, inputRewin)`. -/
abbrev JoinerFunc :=
  List ℚ → List ℚ → ℚ → ℚ → Bool → List ℚ → List ℚ → Outcome (List ℚ × List ℚ)

/-- The part of `joinRound` after the two calls of `callVerticesIntersect`, which is
the same in its two branches. -/
def joinRoundTail (S : StrokerMath) (M : MathFuncs) (fuel : Nat) (vertices rewind : List ℚ)
    (clockWise : Bool) (ar1 ar2 : List ℚ) (i1 i2 : ℚ × ℚ × Bool) :
    Outcome (List ℚ × List ℚ) :=
  let x1 := i1.1
  let y1 := i1.2.1
  let b1 := i1.2.2
  let x2 := i2.1
  let y2 := i2.2.1
  let b2 := i2.2.2
  if b1 && b2 then
    if clockWise then
      (Outcome.ofOption (pointsGet vertices ((vertices.length : Int) - 2))).bind fun x0 =>
      (Outcome.ofOption (pointsGet vertices ((vertices.length : Int) - 1))).bind fun y0 =>
      (traceJoinRound S M fuel x0 y0 x1 y1 x2 y2 ar1 clockWise).bind fun ar =>
      .ok (ar ++ ar1, ar2)
    else
      (Outcome.ofOption (pointsGet rewind ((rewind.length : Int) - 2))).bind fun x0 =>
      (Outcome.ofOption (pointsGet rewind ((rewind.length : Int) - 1))).bind fun y0 =>
      (traceJoinRound S M fuel x0 y0 x2 y2 x1 y1 ar2 clockWise).bind fun ar =>
      .ok (ar1, ar ++ ar2)
  else .ok (ar1, ar2)

/-- Embeds `func joinRound(vertices, rewind []float64, halfLineWidth, miterLimitCheck
float64, clockWise bool, ar1, ar2 []float64) ([]float64, []float64)`. -/
def joinRound (S : StrokerMath) (M : MathFuncs) (fuel : Nat) : JoinerFunc :=
  fun vertices rewind _halfLineWidth _miterLimitCheck clockWise ar1 ar2 =>
  if ar1.length = 2 then
    (Outcome.ofOption (pointsFrom vertices ((vertices.length : Int) - 4))).bind fun vlast =>
    (Outcome.ofOption (callVerticesIntersect vertices vlast)).bind fun i1 =>
    (Outcome.ofOption (pointsFrom rewind ((rewind.length : Int) - 4))).bind fun rlast =>
    (Outcome.ofOption (callVerticesIntersect rewind rlast)).bind fun i2 =>
    joinRoundTail S M fuel vertices rewind clockWise ar1 ar2 i1 i2
  else
    (Outcome.ofOption (pointsFrom vertices ((vertices.length : Int) - 4))).bind fun vlast =>
    (Outcome.ofOption (callVerticesIntersect vlast ar1)).bind fun i1 =>
    (Outcome.ofOption (pointsFrom rewind ((rewind.length : Int) - 4))).bind fun rlast =>
    (Outcome.ofOption (callVerticesIntersect rlast ar2)).bind fun i2 =>
    joinRoundTail S M fuel vertices rewind clockWise ar1 ar2 i1 i2

/-- Embeds `func joinMiter(vertices, rewind []float64, halfLineWidth, miterLimitCheck
float64, clockWise bool, ar1, ar2 []float64) ([]float64, []float64)`. -/
def joinMiter (S : StrokerMath) : JoinerFunc :=
  fun vertices rewind _halfLineWidth miterLimitCheck clockWise ar1 ar2 =>
  if ar1.length = 2 then
    -- close path
    (Outcome.ofOption (pointsFrom vertices ((vertices.length : Int) - 4))).bind fun vlast =>
    (Outcome.ofOption (callVerticesIntersect vertices vlast)).bind fun i1 =>
    (Outcome.ofOption (pointsFrom rewind ((rewind.length : Int) - 4))).bind fun rlast =>
    (Outcome.ofOption (callVerticesIntersect rewind rlast)).bind fun i2 =>
    if i1.2.2 && i2.2.2 then
      if S.Hypot (i1.1 - i2.1) (i1.2.1 - i2.2.1) > miterLimitCheck then .ok (ar1, ar2)
      else if clockWise then
        (Outcome.ofOption (pointsGet vertices 0)).bind fun v0 =>
        (Outcome.ofOption (pointsGet vertices 1)).bind fun v1 =>
        .ok ([i1.1, i1.2.1], [v0, v1])
      else
        (Outcome.ofOption (pointsGet rewind 0)).bind fun r0 =>
        (Outcome.ofOption (pointsGet rewind 1)).bind fun r1 =>
        .ok ([r0, r1], [i2.1, i2.2.1])
    else .ok (ar1, ar2)
  else
    (Outcome.ofOption (pointsFrom vertices ((vertices.length : Int) - 4))).bind fun vlast =>
    (Outcome.ofOption (callVerticesIntersect vlast ar1)).bind fun i1 =>
    (Outcome.ofOption (pointsFrom rewind ((rewind.length : Int) - 4))).bind fun rlast =>
    (Outcome.ofOption (callVerticesIntersect rlast ar2)).bind fun i2 =>
    if i1.2.2 && i2.2.2 then
      if S.Hypot (i1.1 - i2.1) (i1.2.1 - i2.2.1) > miterLimitCheck then .ok (ar1, ar2)
      else if clockWise then
        (Outcome.ofOption (pointsGet ar1 2)).bind fun a2 =>
        (Outcome.ofOption (pointsGet ar1 3)).bind fun a3 =>
        .ok ([i1.1, i1.2.1, a2, a3], ar2)
      else
        (Outcome.ofOption (pointsGet ar2 2)).bind fun a2 =>
        (Outcome.ofOption (pointsGet ar2 3)).bind fun a3 =>
        .ok (ar1, [i2.1, i2.2.1, a2, a3])
    else .ok (ar1, ar2)

/-- Embeds `func (join LineJoin) Joiner() JoinerFunc`; `none` is the nil function. -/
def LineJoin.Joiner (S : StrokerMath) (M : MathFuncs) (fuel : Nat) : LineJoin → Option JoinerFunc
  | .LineJoinBevel => none
  | .LineJoinRound => some (joinRound S M fuel)
  | .LineJoinMiter => some (joinMiter S)

/-- Embeds `type LineStroker struct`, without the field `Flattener`: the calls made on
the downstream flattener are collected in the results of the methods. -/
structure LineStroker where
  HalfLineWidth : ℚ
  MiterLimitCheck : ℚ
  Cap : LineCap
  Join : LineJoin
  vertices : List ℚ
  rewind : List ℚ
  x : ℚ
  y : ℚ
  nx : ℚ
  ny : ℚ
  secondx : ℚ
  secondy : ℚ
  lastx : ℚ
  lasty : ℚ
  join : Int
  closepath : Bool
deriving DecidableEq, Repr

namespace LineStroker

/-- Embeds `func (l *LineStroker) MoveTo(x, y float64)`. -/
def MoveTo (l : LineStroker) (x y : ℚ) : LineStroker :=
  { l with x := x, y := y, lastx := x, lasty := y, join := 0, closepath := false }

/-- The call `fn(l.vertices, l.rewind, l.HalfLineWidth, l.MiterLimitCheck, chk < 0, ar1,
ar2)` of `l.Join.Joiner()`, made when `chk != 0` and the function is not nil; otherwise
`ar1`, `ar2` stay as they are. -/
def joined (S : StrokerMath) (M : MathFuncs) (fuel : Nat) (l : LineStroker) (chk : ℚ)
    (ar1 ar2 : List ℚ) : Outcome (List ℚ × List ℚ) :=
  if chk ≠ 0 then
    match l.Join.Joiner S M fuel with
    | some fn => fn l.vertices l.rewind l.HalfLineWidth l.MiterLimitCheck (decide (chk < 0)) ar1 ar2
    | none => .ok (ar1, ar2)
  else .ok (ar1, ar2)

/-- Embeds `func (l *LineStroker) line(x1, y1, x2, y2 float64)`. -/
def line (S : StrokerMath) (M : MathFuncs) (fuel : Nat) (l : LineStroker)
    (x1 y1 x2 y2 : ℚ) : Outcome LineStroker :=
  let dx := x2 - x1
  let dy := y2 - y1
  let d := vectorDistance S dx dy
  if d ≠ 0 then
    let join := l.join + 1
    let nx := dy * l.HalfLineWidth / d
    let ny := -(dx * l.HalfLineWidth / d)
    let chk := pointLineRelationship l.lastx l.lasty x1 y1 x2 y2
    let ar1 := [x1 + nx, y1 + ny, x2 + nx, y2 + ny]
    let ar2 := [x1 - nx, y1 - ny, x2 - nx, y2 - ny]
    (joined S M fuel { l with join := join } chk ar1 ar2).bind fun ar =>
    .ok { l with
          join := join
          vertices := l.vertices ++ ar.1
          rewind := l.rewind ++ ar.2
          lastx := l.x
          lasty := l.y
          x := x2
          y := y2
          nx := nx
          ny := ny
          secondx := if join = 1 then x2 else l.secondx
          secondy := if join = 1 then y2 else l.secondy }
  else .ok l

/-- Embeds `func (l *LineStroker) LineTo(x, y float64)`. -/
def LineTo (S : StrokerMath) (M : MathFuncs) (fuel : Nat) (l : LineStroker) (x y : ℚ) :
    Outcome LineStroker :=
  l.line S M fuel l.x l.y x y

/-- Embeds `func (l *LineStroker) LineCap()`. -/
def LineCap (S : StrokerMath) (M : MathFuncs) (fuel : Nat) (l : LineStroker) :
    Outcome LineStroker :=
  if l.closepath then .ok l
  else
    match l.Cap.Capper S M fuel with
    | some fn =>
      (fn l.vertices l.rewind l.HalfLineWidth).bind fun pts =>
      .ok { l with vertices := (pts.1 ++ l.vertices) ++ pts.2 }
    | none => .ok l

/-- Embeds `func (l *LineStroker) LineJoin()`. -/
def LineJoin (l : LineStroker) : LineStroker := l

/-- Embeds `func (l *LineStroker) Close()`. -/
def Close (S : StrokerMath) (M : MathFuncs) (fuel : Nat) (l : LineStroker) :
    Outcome LineStroker :=
  (if l.vertices.length > 1 then
    (Outcome.ofOption (pointsGet l.vertices 0)).bind fun v0 =>
    (Outcome.ofOption (pointsGet l.vertices 1)).bind fun v1 =>
    (Outcome.ofOption (pointsGet l.rewind 0)).bind fun r0 =>
    (Outcome.ofOption (pointsGet l.rewind 1)).bind fun r1 =>
    let chk := pointLineRelationship l.lastx l.lasty l.x l.y l.secondx l.secondy
    (joined S M fuel l chk [v0, v1] [r0, r1]).bind fun ar =>
    .ok { l with vertices := l.vertices ++ ar.1, rewind := l.rewind ++ ar.2 }
  else .ok l).bind fun l1 =>
  .ok { l1 with closepath := true }

/-- The calls of the loop `for i, j := 2, 3; j < len(l.vertices); i, j = i+2, j+2` of
`End`, on the entries of `l.vertices` from index 2 on. -/
def vertexCalls : List ℚ → List FlattenerCall
  | x :: y :: rest => .LineTo x y :: vertexCalls rest
  | _ => []

/-- The calls of the loop `for i, j := len(l.rewind)-2, len(l.rewind)-1; j > 0;
i, j = i-2, j-2` of `End`, entered with the value `j`; `none` is the panic for an
index out of range. -/
def rewindCalls (rewind : List ℚ) : Nat → Option (List FlattenerCall)
  | 0 => some []
  | 1 => do
    let x ← rewind.get? 0
    let y ← rewind.get? 1
    some [.LineTo x y]
  | j + 2 => do
    let x ← rewind.get? (j + 1)
    let y ← rewind.get? (j + 2)
    let rest ← rewindCalls rewind j
    some (.LineTo x y :: rest)

/-- Embeds `func (l *LineStroker) End()`: the calls made on `l.Flattener`, in order,
and the stroker afterwards. -/
def End (S : StrokerMath) (M : MathFuncs) (fuel : Nat) (l : LineStroker) :
    Outcome (List FlattenerCall × LineStroker) :=
  (if l.vertices.length > 1 then
    (l.LineCap S M fuel).bind fun l1 =>
    (Outcome.ofOption (pointsGet l1.vertices 0)).bind fun v0 =>
    (Outcome.ofOption (pointsGet l1.vertices 1)).bind fun v1 =>
    .ok (FlattenerCall.MoveTo v0 v1 :: vertexCalls (l1.vertices.drop 2), l1)
  else .ok ([], l)).bind fun r1 =>
  let l1 := r1.2
  (Outcome.ofOption (rewindCalls l1.rewind (l1.rewind.length - 1))).bind fun c2 =>
  (if l1.vertices.length > 1 then
    (Outcome.ofOption (pointsGet l1.vertices 0)).bind fun v0 =>
    (Outcome.ofOption (pointsGet l1.vertices 1)).bind fun v1 =>
    .ok [FlattenerCall.LineTo v0 v1]
  else .ok []).bind fun c3 =>
  .ok (r1.1 ++ c2 ++ c3 ++ [.End],
    { l1 with vertices := [], rewind := [], join := 0, lastx := 0, lasty := 0,
              secondx := 0, secondy := 0, x := 0, y := 0, nx := 0, ny := 0 })

/-- The stroker as a `Flattener`: one call it receives gives the calls it makes on
the downstream flattener and the stroker afterwards. -/
def receive (S : StrokerMath) (M : MathFuncs) (fuel : Nat) (l : LineStroker) :
    FlattenerCall → Outcome (List FlattenerCall × LineStroker)
  | .MoveTo x y => .ok ([], l.MoveTo x y)
  | .LineTo x y => (l.LineTo S M fuel x y).bind fun l1 => .ok ([], l1)
  | .LineJoin => .ok ([], l.LineJoin)
  | .Close => (l.Close S M fuel).bind fun l1 => .ok ([], l1)
  | .End => l.End S M fuel

/-- The stroker fed a stream of calls, in order. -/
def feed (S : StrokerMath) (M : MathFuncs) (fuel : Nat) :
    List FlattenerCall → LineStroker → Outcome (List FlattenerCall × LineStroker)
  | [], l => .ok ([], l)
  | c :: cs, l =>
    (l.receive S M fuel c).bind fun r1 =>
    (feed S M fuel cs r1.2).bind fun r2 =>
    .ok (r1.1 ++ r2.1, r2.2)

end LineStroker

/-- Embeds `stroker := &LineStroker{}` with the fields that `stroke` of draw2d_gc.go
assigns: a stroker that has received no call yet. -/
def newLineStroker (halfLineWidth miterLimitCheck : ℚ) (cap : LineCap) (join : LineJoin) :
    LineStroker :=
  { HalfLineWidth := halfLineWidth, MiterLimitCheck := miterLimitCheck, Cap := cap,
    Join := join, vertices := [], rewind := [], x := 0, y := 0, nx := 0, ny := 0,
    secondx := 0, secondy := 0, lastx := 0, lasty := 0, join := 0, closepath := false }

/-- The largest `r ≤ k` with `r * r ≤ n`. -/
def natSqrtBelow (n : Nat) : Nat → Nat
  | 0 => 0
  | k + 1 => if (k + 1) * (k + 1) ≤ n then k + 1 else natSqrtBelow n k

/-- A rational stand-in for `math.Sqrt`, exact on the squares of rationals, for
evaluating the definitions on concrete inputs. -/
def ratSqrt (q : ℚ) : ℚ :=
  (natSqrtBelow q.num.toNat q.num.toNat : ℚ) / (natSqrtBelow q.den q.den : ℚ)

/-- Rational stand-ins for `math.Cos` and `math.Sin` that satisfy
`cos² + sin² = 1` exactly: the point of the unit circle with the parameter `t`. -/
def circleMath : MathFuncs :=
  { Cos := fun t => (1 - t ^ 2) / (1 + t ^ 2)
    Sin := fun t => 2 * t / (1 + t ^ 2) }

/-- Rational stand-ins for the functions of `StrokerMath`, for evaluating the
definitions on concrete inputs: `Sqrt` and `Hypot` are exact on squares, `Asin`
is the inverse of `circleMath.Sin` where that is rational, and the others are
constants. -/
def circleStroker : StrokerMath :=
  { Sqrt := ratSqrt
    Hypot := fun x y => ratSqrt (x * x + y * y)
    Asin := fun t => if t = 0 then 0 else (1 - ratSqrt (1 - t * t)) / t
    Atan := fun _ => 0
    Tan := fun _ => 0
    Acos := fun _ => 1 / 4 }

/-! ## Collinear points; coordinate lists -/

/-- The three points `(x1, y1)`, `(x2, y2)`, `(x, y)` lie on one line: some equation
`a·X + b·Y + c = 0` with `a` and `b` not both zero holds at each of them. -/
def Collinear3 (x1 y1 x2 y2 x y : ℚ) : Prop :=
  ∃ a b c : ℚ, (a ≠ 0 ∨ b ≠ 0) ∧ a * x1 + b * y1 + c = 0 ∧ a * x2 + b * y2 + c = 0
    ∧ a * x + b * y + c = 0

/-- The coordinates `x0, y0, x1, y1, ...` of a list of points, as the stroker keeps
them in `vertices` and `rewind`. -/
def coords : List (ℚ × ℚ) → List ℚ
  | [] => []
  | p :: ps => p.1 :: p.2 :: coords ps

/-! ## draw2d_paths.go: `Translate` -/

/-- The loop `for i := 0; i < len(p.Points); i += 2 { p.Points[i] += dx; p.Points[i+1] += dy }`
of `Path.Translate`, on the entries that are left; `none` is the panic of
`p.Points[i+1]` when a single entry is left. -/
def translateLoop (dx dy : ℚ) : List ℚ → Option (List ℚ)
  | [] => some []
  | [_] => none
  | x :: y :: rest => (translateLoop dx dy rest).map fun r => (x + dx) :: (y + dy) :: r

namespace Path

/-- Embeds `func (p *Path) Translate(dx, dy float64)`. -/
def Translate (p : Path) (dx dy : ℚ) : Option Path :=
  (translateLoop dx dy p.Points).map fun pts => { p with Points := pts }

/-- Embeds `func (p *Path) Translated(dx, dy float64) *Path`. -/
def Translated (p : Path) (dx dy : ℚ) : Option Path :=
  p.Copy.Translate dx dy

end Path

/-! ## draw2d_pattern.go: `surfacePattern` -/

/-- Embeds `type RepeatOp int` with its constants `Repeat`, `RepeatX`, `RepeatY`,
`RepeatNone`. -/
inductive RepeatOp where
  | Repeat
  | RepeatX
  | RepeatY
  | RepeatNone
deriving DecidableEq, Repr

/-- An `image.Image` of the imported package `image`, as observed through its methods
`Bounds()` and `At(x, y)`. -/
structure image.Image where
  Bounds : image.Rectangle
  At : Int → Int → color.Color

/-- Embeds `func (p Point) In(r Rectangle) bool` of the imported package `image`. -/
def image.Point.In (p : image.Point) (r : image.Rectangle) : Bool :=
  decide (r.Min.X ≤ p.X ∧ p.X < r.Max.X ∧ r.Min.Y ≤ p.Y ∧ p.Y < r.Max.Y)

/-- The operator `%` of Go on `int` values: the remainder of the division that
truncates toward zero, which has the sign of `x`; `none` is the run-time panic of a
division by zero. -/
def intRem (x m : Int) : Option Int :=
  if m = 0 then none else some (Int.tmod x m)

/-- Embeds `type surfacePattern struct { im image.Image; op RepeatOp }`. -/
structure surfacePattern where
  im : image.Image
  op : RepeatOp

/-- Embeds `func (p *surfacePattern) ColorAt(x, y int) color.Color`; `none` is a
run-time panic. -/
def surfacePattern.ColorAt (p : surfacePattern) (x y : Int) : Option color.Color :=
  let b := p.im.Bounds
  let rest := fun (x y : Int) =>
    if !(image.Point.In { X := x, Y := y } b) then color.Transparent else p.im.At x y
  match p.op with
  | .RepeatX => (intRem x b.Dx).bind fun x => some (p.im.At x y)
  | .RepeatY => (intRem y b.Dy).bind fun y => some (rest x y)
  | .Repeat => (intRem x b.Dx).bind fun x => (intRem y b.Dy).bind fun y => some (rest x y)
  | .RepeatNone => some (rest x y)

/-- A 2 x 1 image whose two pixels are opaque black, and transparent elsewhere. -/
def twoBlackPixels : image.Image :=
  { Bounds := { Min := { X := 0, Y := 0 }, Max := { X := 2, Y := 1 } }
    At := fun x y => if 0 ≤ x ∧ x < 2 ∧ y = 0 then color.Black else color.Transparent }

/-! ## ComposeRGBA in unbounded integers -/

/-- One channel of `ComposeRGBA` as the source writes it, `a·fa + b·fb` with its integer
divisions, computed in unbounded integers: `x`, `y` are the channel of `a` and of `b`,
`aA`, `bA` their alphas.  For `Lighter` and `Xor` the sum is clamped to 255, as
`makeRGBA` does before it converts.  This is what the result of `ComposeRGBA` is
compared with. -/
def composeWide (op : CompositeOperation) (x y aA bA : Nat) : Nat :=
  if op = SourceOver then x + y * (255 - aA) / 255
  else if op = SourceIn then x * bA / 255
  else if op = SourceOut then x * (255 - bA) / 255
  else if op = SourceAtop then x * bA / 255 + y * (255 - aA) / 255
  else if op = DestinationOver then x * (255 - bA) / 255 + y
  else if op = DestinationIn then y * aA / 255
  else if op = DestinationOut then y * (255 - aA) / 255
  else if op = DestinationAtop then x * (255 - bA) / 255 + y * aA / 255
  else if op = Lighter then min (x + y) 255
  else if op = Copy then x
  else if op = Xor then min (x * (255 - bA) / 255 + y * (255 - aA) / 255) 255
  else 0

/-- The example painter with the fully transparent solid colour. -/
def transparentPainter : RGBAPainter :=
  { examplePainter with solidColor := color.Transparent }

/-! ## The `Dash` slices of the frames, with their backing arrays -/

/-- A Go slice of `float64` as the program holds it: a window on a backing array.
`array` is the address of the backing array in the heap, `offset` the index in it of the
first element of the slice, `len` and `cap` the length and the capacity of the slice. -/
structure FloatSlice where
  array : Nat
  offset : Nat
  len : Nat
  cap : Nat
deriving DecidableEq, Repr

/-- The elements `s[0], ..., s[len(s)-1]` of a slice; `heap[a]` is the backing array at
address `a`. -/
def FloatSlice.elems (heap : List (List ℚ)) (s : FloatSlice) : List ℚ :=
  ((heap.getD s.array []).drop s.offset).take s.len

/-- Embeds the slice expression `s[:hi]`; `none` is the panic for `hi > cap(s)`.  The
result is a window on the same backing array. -/
def FloatSlice.upTo (s : FloatSlice) (hi : Nat) : Option FloatSlice :=
  if hi ≤ s.cap then some { s with len := hi } else none

/-- Embeds the composite literal `[]float64{...}`: a fresh backing array with the
elements `xs`, and the slice of all of it. -/
def makeFloats (heap : List (List ℚ)) (xs : List ℚ) : List (List ℚ) × FloatSlice :=
  (heap ++ [xs], { array := heap.length, offset := 0, len := xs.length, cap := xs.length })

/-- The array `arr` with the elements `xs` written from index `k` on. -/
def writeFloats (arr : List ℚ) (k : Nat) (xs : List ℚ) : List ℚ :=
  arr.take k ++ xs ++ arr.drop (k + xs.length)

/-- Embeds the built-in `append(s, t...)`.  When the capacity of `s` holds the elements
of `t` as well, they are written into the backing array of `s` right after its last
element and the result is a window on that same array; otherwise the elements of both
are copied to a fresh array.  The capacity of a fresh array is chosen by the runtime (at
least the new length); the model takes the new length. -/
def appendFloats (heap : List (List ℚ)) (s t : FloatSlice) : List (List ℚ) × FloatSlice :=
  let xs := t.elems heap
  if s.len + xs.length ≤ s.cap then
    (heap.set s.array (writeFloats (heap.getD s.array []) (s.offset + s.len) xs),
     { s with len := s.len + xs.length })
  else
    (heap ++ [s.elems heap ++ xs],
     { array := heap.length, offset := 0, len := s.len + xs.length,
       cap := s.len + xs.length })

/-- The field `Dash` of the frames of a `StackGraphicContext` as the program holds it:
the heap of the backing arrays, the `Dash` slice of the current frame, and the `Dash`
slices of the frames reached through `Previous`, the nearest first.  The other fields
of the frames are those of `ContextFields`. -/
structure DashFrames where
  heap : List (List ℚ)
  Current : FloatSlice
  Previous : List FloatSlice

namespace DashFrames

/-- The `Dash` of `NewStackGraphicContext()`: the nil slice, on an empty heap. -/
def New : DashFrames :=
  { heap := [], Current := { array := 0, offset := 0, len := 0, cap := 0 }, Previous := [] }

/-- Embeds `func (gc *StackGraphicContext) SetLineDash(dash []float64)`:
`gc.Current.Dash = dash`, and for an odd length
`gc.Current.Dash = append(gc.Current.Dash, dash...)`.  The frame keeps the slice of the
caller, not a copy of its elements. -/
def SetLineDash (gc : DashFrames) (dash : FloatSlice) : DashFrames :=
  let gc1 := { gc with Current := dash }
  if dash.len % 2 ≠ 0 then
    let r := appendFloats gc1.heap gc1.Current dash
    { gc1 with heap := r.1, Current := r.2 }
  else gc1

/-- Embeds `func (gc *StackGraphicContext) LineDash() []float64`. -/
def LineDash (gc : DashFrames) : FloatSlice := gc.Current

/-- Embeds what `func (gc *StackGraphicContext) Save()` does with `Dash`:
`context.Dash = gc.Current.Dash` copies the slice, not its backing array;
`context.Previous = gc.Current; gc.Current = context`. -/
def Save (gc : DashFrames) : DashFrames :=
  { gc with Current := gc.Current, Previous := gc.Current :: gc.Previous }

/-- Embeds what `func (gc *StackGraphicContext) Restore()` does with `Dash`: the frame
`Previous` is current again, when there is one. -/
def Restore (gc : DashFrames) : DashFrames :=
  match gc.Previous with
  | previous :: rest => { gc with Current := previous, Previous := rest }
  | [] => gc

end DashFrames

/-- The context after `buf := []float64{a, b, c, d}; gc.SetLineDash(buf)` on a new
context, together with the slice `buf` of the caller. -/
def dashExample (a b c d : ℚ) : DashFrames × FloatSlice :=
  let r := makeFloats DashFrames.New.heap [a, b, c, d]
  (({ DashFrames.New with heap := r.1 }).SetLineDash r.2, r.2)

/-! ## The rounding of `float64` sums; `normAngle` and `Arc` with it -/

/-- The integer nearest to `r`, the even one of the two when `r` lies half-way. -/
def roundHalfEven (r : ℚ) : ℤ :=
  if r - ⌊r⌋ < 1 / 2 then ⌊r⌋
  else if 1 / 2 < r - ⌊r⌋ then ⌊r⌋ + 1
  else if ⌊r⌋ % 2 = 0 then ⌊r⌋ else ⌊r⌋ + 1

/-- The `float64` nearest to a positive rational `x`: with `2^e ≤ x < 2^(e+1)`, the
multiple of `2^(e-52)` nearest to `x`, the even multiple in a tie (53 significant
bits). -/
def roundPos (x : ℚ) : ℚ :=
  roundHalfEven (x / 2 ^ (Int.log 2 x - 52)) * 2 ^ (Int.log 2 x - 52)

/-- The rounding of an exact result to `float64` (IEEE 754, round to nearest, ties to
even).  The range of the exponent is not bounded: overflow to an infinity and gradual
underflow are not represented. -/
def roundF64 (x : ℚ) : ℚ :=
  if x = 0 then 0 else if x < 0 then -roundPos (-x) else roundPos x

/-- The `float64` sum `a + b`. -/
def F64.add (a b : ℚ) : ℚ := roundF64 (a + b)

/-- The `float64` difference `a - b`. -/
def F64.sub (a b : ℚ) : ℚ := roundF64 (a - b)

namespace Rounded

/-- Embeds `func normAngle(angle float64) float64` with the rounding of the sum
`angle += math.Pi * 2`.  `math.Mod` is exact, and `math.Pi * 2` is a constant, the
`float64` nearest to 2π, which is twice `math.Pi`. -/
def normAngle (angle : ℚ) : ℚ :=
  let angle := Mod angle (Pi * 2)
  if angle < 0 then F64.add angle (Pi * 2) else angle

/-- Embeds `func (p *Path) Arc(cx, cy, radius, startAngle, endAngle float64,
counterclockwise bool)` with the rounding of its sums and differences of angles. -/
def Path.Arc (M : MathFuncs) (p : Path) (cx cy radius startAngle endAngle : ℚ)
    (counterclockwise : Bool) : Path :=
  if !counterclockwise && decide (F64.sub endAngle startAngle ≥ 2 * Pi) then
    p.ArcAngle M cx cy radius radius startAngle (2 * Pi)
  else if counterclockwise && decide (F64.sub startAngle endAngle ≥ 2 * Pi) then
    p.ArcAngle M cx cy radius radius startAngle (-2 * Pi)
  else
    -- norm angle
    let startAngle := normAngle startAngle
    let endAngle := normAngle endAngle
    let endAngle :=
      if !counterclockwise && decide (endAngle ≤ startAngle) then F64.add endAngle (Pi * 2)
      else if counterclockwise && decide (endAngle ≥ startAngle) then
        F64.sub endAngle (Pi * 2)
      else endAngle
    p.ArcAngle M cx cy radius radius startAngle (F64.sub endAngle startAngle)

/-- Embeds `func (gc *StackGraphicContext) Arc(cx, cy, radius, startAngle, endAngle float64,
counterclockwise bool)` with the rounding of its sums and differences of angles. -/
def StackGraphicContext.Arc (MM : MatrixMethods) (M : MathFuncs) (gc : StackGraphicContext)
    (cx cy radius startAngle endAngle : ℚ) (counterclockwise : Bool) : StackGraphicContext :=
  -- check circle
  if !counterclockwise && decide (F64.sub endAngle startAngle ≥ 2 * Pi) then
    gc.ArcAngle MM M cx cy radius radius startAngle (2 * Pi)
  else if counterclockwise && decide (F64.sub startAngle endAngle ≥ 2 * Pi) then
    gc.ArcAngle MM M cx cy radius radius startAngle (-2 * Pi)
  else
    -- norm angle
    let startAngle := normAngle startAngle
    let endAngle := normAngle endAngle
    let endAngle :=
      if !counterclockwise && decide (endAngle ≤ startAngle) then F64.add endAngle (Pi * 2)
      else if counterclockwise && decide (endAngle ≥ startAngle) then
        F64.sub endAngle (Pi * 2)
      else endAngle
    gc.ArcAngle MM M cx cy radius radius startAngle (F64.sub endAngle startAngle)

end Rounded

/-! ## Stand-ins for the library functions of `callAngle` -/

/-- Rational stand-ins for `math.Cos` and `math.Sin` on the upper half of the circle:
`circleMath` up to a quarter turn, and its mirror image in the vertical axis from a
quarter turn to a half turn, so that the functions take opposite, respectively equal,
values at `a` and `Pi - a`; `cos² + sin² = 1` holds exactly. -/
def reflectMath : MathFuncs :=
  { Cos := fun t => if Pi / 2 < t ∧ t ≤ Pi then -circleMath.Cos (Pi - t) else circleMath.Cos t
    Sin := fun t => if Pi / 2 < t ∧ t ≤ Pi then circleMath.Sin (Pi - t) else circleMath.Sin t }

/-- The stand-ins of `circleStroker` with, for `math.Atan`, the inverse of the
tangent of `circleMath` where that is rational: `Atan t` is the parameter `a` with
`circleMath.Sin a = t · circleMath.Cos a`, exact when `1 + t²` is the square of a
rational. -/
def atanStroker : StrokerMath :=
  { circleStroker with
    Atan := fun t => if t = 0 then 0 else (ratSqrt (1 + t * t) - 1) / t }

/-! # Theorems -/

/-! ## Path: components and points -/

theorem coordCount_append (xs ys : List PathCmp) :
    coordCount (xs ++ ys) = coordCount xs + coordCount ys := by
  induction xs with
  | nil => simp [coordCount]
  | cons c cs ih => simp [coordCount, ih, Nat.add_assoc]

theorem Path.wellFormed_appendToPath (p : Path) (cmd : PathCmp) (points : List ℚ)
    (hp : p.WellFormed) (hc : cmd.coords = points.length) :
    (p.appendToPath cmd points).WellFormed := by
  unfold Path.WellFormed at *
  simp [Path.appendToPath, coordCount_append, coordCount, hp, hc]

theorem Path.wellFormed_MoveTo (p : Path) (x y : ℚ) (hp : p.WellFormed) :
    (p.MoveTo x y).WellFormed :=
  Path.wellFormed_appendToPath p .MoveToCmp [x, y] hp rfl

theorem Path.wellFormed_LineTo (p : Path) (x y : ℚ) (hp : p.WellFormed) :
    (p.LineTo x y).WellFormed := by
  unfold Path.LineTo
  split_ifs
  · exact Path.wellFormed_MoveTo p x y hp
  · exact Path.wellFormed_appendToPath p .LineToCmp [x, y] hp rfl

theorem Path.wellFormed_QuadraticCurveTo (p : Path) (cx cy x y : ℚ) (hp : p.WellFormed) :
    (p.QuadraticCurveTo cx cy x y).WellFormed := by
  unfold Path.QuadraticCurveTo
  split_ifs
  · exact Path.wellFormed_MoveTo p x y hp
  · exact Path.wellFormed_appendToPath p .QuadCurveToCmp [cx, cy, x, y] hp rfl

theorem Path.wellFormed_BezierCurveTo (p : Path) (cx1 cy1 cx2 cy2 x y : ℚ)
    (hp : p.WellFormed) : (p.BezierCurveTo cx1 cy1 cx2 cy2 x y).WellFormed := by
  unfold Path.BezierCurveTo
  split_ifs
  · exact Path.wellFormed_MoveTo p x y hp
  · exact Path.wellFormed_appendToPath p .CubicCurveToCmp [cx1, cy1, cx2, cy2, x, y] hp rfl

theorem Path.wellFormed_arcTail (p1 : Path) (pts : List ℚ) (u v : ℚ)
    (h1 : p1.WellFormed) (hc : PathCmp.ArcAngleCmp.coords = pts.length) :
    Path.WellFormed { p1.appendToPath .ArcAngleCmp pts with x := u, y := v } :=
  Path.wellFormed_appendToPath p1 .ArcAngleCmp pts h1 hc

theorem Path.wellFormed_lineOrMove (p : Path) (x y : ℚ) (hp : p.WellFormed) :
    (if p.Components.length > 0 then p.LineTo x y else p.MoveTo x y).WellFormed := by
  split_ifs
  · exact Path.wellFormed_LineTo p x y hp
  · exact Path.wellFormed_MoveTo p x y hp

theorem Path.wellFormed_ArcAngle (M : MathFuncs) (p : Path)
    (cx cy rx ry startAngle sweepAngle : ℚ) (hp : p.WellFormed) :
    (p.ArcAngle M cx cy rx ry startAngle sweepAngle).WellFormed := by
  unfold Path.ArcAngle
  exact Path.wellFormed_arcTail _ _ _ _ (Path.wellFormed_lineOrMove p _ _ hp) rfl

theorem Path.wellFormed_Arc (M : MathFuncs) (p : Path)
    (cx cy radius startAngle endAngle : ℚ) (ccw : Bool) (hp : p.WellFormed) :
    (p.Arc M cx cy radius startAngle endAngle ccw).WellFormed := by
  unfold Path.Arc
  split_ifs <;> exact Path.wellFormed_ArcAngle M p _ _ _ _ _ _ hp

theorem Path.wellFormed_Close (p : Path) (hp : p.WellFormed) : p.Close.WellFormed :=
  Path.wellFormed_appendToPath p .CloseCmp [] hp rfl

theorem Path.wellFormed_AddPath (p o : Path) (hp : p.WellFormed) (ho : o.WellFormed) :
    (p.AddPath o).WellFormed := by
  unfold Path.WellFormed at *
  simp [Path.AddPath, coordCount_append, hp, ho]

theorem Path.wellFormed_Clear (p : Path) : p.Clear.WellFormed := by
  simp [Path.WellFormed, Path.Clear, coordCount]

/-- C1: every path obtained from the empty path by calls of MoveTo, LineTo,
QuadraticCurveTo, BezierCurveTo, ArcAngle, Arc, Close, AddRectangle, AddPath (of a
path obtained in the same way) and Clear stores exactly as many numbers in Points
as its Components consume (MoveTo 2, LineTo 2, QuadCurveTo 4, CubicCurveTo 6,
ArcAngle 6, Close 0). -/
theorem Path.built_coordCount (M : MathFuncs) (p : Path) (h : Path.Built M p) :
    coordCount p.Components = p.Points.length := by
  induction h with
  | NewPath => rfl
  | MoveTo p x y _ ih => exact Path.wellFormed_MoveTo p x y ih
  | LineTo p x y _ ih => exact Path.wellFormed_LineTo p x y ih
  | QuadraticCurveTo p cx cy x y _ ih => exact Path.wellFormed_QuadraticCurveTo p cx cy x y ih
  | BezierCurveTo p a b c d x y _ ih => exact Path.wellFormed_BezierCurveTo p a b c d x y ih
  | ArcAngle p cx cy rx ry sa sw _ ih => exact Path.wellFormed_ArcAngle M p cx cy rx ry sa sw ih
  | Arc p cx cy r sa ea ccw _ ih => exact Path.wellFormed_Arc M p cx cy r sa ea ccw ih
  | Close p _ ih => exact Path.wellFormed_Close p ih
  | AddRectangle p x y w h _ ih =>
    exact Path.wellFormed_Close _ (Path.wellFormed_LineTo _ _ _ (Path.wellFormed_LineTo _ _ _
      (Path.wellFormed_LineTo _ _ _ (Path.wellFormed_MoveTo p x y ih))))
  | AddPath p o _ _ ihp iho => exact Path.wellFormed_AddPath p o ihp iho
  | Clear p _ _ => exact Path.wellFormed_Clear p

/-- Witness of C1: a rectangle, a closed arc added from a second path, and a curve. -/
theorem Path.built_coordCount_witness :
    Path.Built taylorMath
      (((NewPath.AddRectangle 0 0 4 3).AddPath
          (((NewPath.LineTo 1 1).ArcAngle taylorMath 5 5 2 2 0 1).Close)).QuadraticCurveTo 1 2 3 4)
    ∧ coordCount (((NewPath.AddRectangle 0 0 4 3).AddPath
          (((NewPath.LineTo 1 1).ArcAngle taylorMath 5 5 2 2 0 1).Close)).QuadraticCurveTo
            1 2 3 4).Components
      = (((NewPath.AddRectangle 0 0 4 3).AddPath
          (((NewPath.LineTo 1 1).ArcAngle taylorMath 5 5 2 2 0 1).Close)).QuadraticCurveTo
            1 2 3 4).Points.length :=
  have hb : Path.Built taylorMath
      (((NewPath.AddRectangle 0 0 4 3).AddPath
          (((NewPath.LineTo 1 1).ArcAngle taylorMath 5 5 2 2 0 1).Close)).QuadraticCurveTo 1 2 3 4) :=
    .QuadraticCurveTo _ 1 2 3 4
      (.AddPath _ _ (.AddRectangle _ 0 0 4 3 .NewPath)
        (.Close _ (.ArcAngle _ 5 5 2 2 0 1 (.LineTo _ 1 1 .NewPath))))
  ⟨hb, Path.built_coordCount taylorMath _ hb⟩

/-! ## Path: drawing before any MoveTo -/

theorem Path.LineTo_NewPath (x y : ℚ) :
    NewPath.LineTo x y = { Components := [.MoveToCmp], Points := [x, y], x := x, y := y } := by
  simp [Path.LineTo, Path.MoveTo, Path.appendToPath, NewPath]

theorem Path.QuadraticCurveTo_NewPath (cx cy x y : ℚ) :
    NewPath.QuadraticCurveTo cx cy x y
      = { Components := [.MoveToCmp], Points := [x, y], x := x, y := y } := by
  simp [Path.QuadraticCurveTo, Path.MoveTo, Path.appendToPath, NewPath]

theorem Path.BezierCurveTo_NewPath (cx1 cy1 cx2 cy2 x y : ℚ) :
    NewPath.BezierCurveTo cx1 cy1 cx2 cy2 x y
      = { Components := [.MoveToCmp], Points := [x, y], x := x, y := y } := by
  simp [Path.BezierCurveTo, Path.MoveTo, Path.appendToPath, NewPath]

/-- C2, the code at the failing input: the path made by one call of Close on the
empty path holds no MoveTo, yet LineTo, QuadraticCurveTo and BezierCurveTo append
their own command to it and insert no MoveTo. -/
theorem Path.draw_after_Close_appends :
    PathCmp.MoveToCmp ∉ NewPath.Close.Components
    ∧ (NewPath.Close.LineTo 1 2).Components = [.CloseCmp, .LineToCmp]
    ∧ (NewPath.Close.LineTo 1 2).Points = [1, 2]
    ∧ (NewPath.Close.QuadraticCurveTo 5 6 1 2).Components = [.CloseCmp, .QuadCurveToCmp]
    ∧ (NewPath.Close.QuadraticCurveTo 5 6 1 2).Points = [5, 6, 1, 2]
    ∧ (NewPath.Close.BezierCurveTo 5 6 7 8 1 2).Components = [.CloseCmp, .CubicCurveToCmp]
    ∧ (NewPath.Close.BezierCurveTo 5 6 7 8 1 2).Points = [5, 6, 7, 8, 1, 2] := by
  simp [Path.LineTo, Path.QuadraticCurveTo, Path.BezierCurveTo, Path.Close, Path.appendToPath,
    NewPath]

/-! ## The frame stack -/

theorem StackGraphicContext.depth_Save (MM : MatrixMethods) (gc : StackGraphicContext) :
    (gc.Save MM).Current.depth = gc.Current.depth + 1 := by
  simp [StackGraphicContext.Save, ContextStack.depth]

theorem ContextStack.one_le_depth (c : ContextStack) : 1 ≤ c.depth := by
  cases c with
  | mk v p => cases p <;> simp [ContextStack.depth]

theorem StackGraphicContext.depth_Restore (gc : StackGraphicContext)
    (h : 1 < gc.Current.depth) : gc.Restore.Current.depth = gc.Current.depth - 1 := by
  obtain ⟨cur, paths⟩ := gc
  cases cur with
  | mk v p =>
    cases p with
    | none => simp [ContextStack.depth] at h
    | some q => simp [StackGraphicContext.Restore, ContextStack.Previous, ContextStack.depth]

theorem StackGraphicContext.Restore_of_none (gc : StackGraphicContext)
    (h : gc.Current.Previous = none) : gc.Restore = gc := by
  simp [StackGraphicContext.Restore, h]

theorem StackGraphicContext.Restore_Save (MM : MatrixMethods) (gc : StackGraphicContext) :
    (gc.Save MM).Restore
      = { Current := gc.Current, paths := gc.paths ++ [gc.GetPath.Copy] } := by
  simp [StackGraphicContext.Restore, StackGraphicContext.Save, ContextStack.Previous]

theorem restoreN_succ (n : Nat) (gc : StackGraphicContext) :
    restoreN (n + 1) gc = (restoreN n gc).Restore := by
  induction n generalizing gc with
  | zero => rfl
  | succ k ih =>
    show restoreN (k + 1) gc.Restore = (restoreN (k + 1) gc).Restore
    rw [ih gc.Restore]
    rfl

theorem restoreN_saveN (MM : MatrixMethods) (n : Nat) (gc : StackGraphicContext) :
    ∃ extra, restoreN n (saveN MM n gc) = { Current := gc.Current, paths := gc.paths ++ extra } := by
  induction n generalizing gc with
  | zero => exact ⟨[], by simp [restoreN, saveN]⟩
  | succ k ih =>
    obtain ⟨extra, he⟩ := ih (gc.Save MM)
    refine ⟨[gc.GetPath.Copy] ++ extra, ?_⟩
    rw [restoreN_succ]
    show (restoreN k (saveN MM k (gc.Save MM))).Restore = _
    rw [he]
    simp [StackGraphicContext.Restore, StackGraphicContext.Save, ContextStack.Previous]

theorem ContextStack.bottom_some (v : ContextFields) (p : ContextStack) :
    (ContextStack.mk v (some p)).bottom = p.bottom := rfl

theorem StackGraphicContext.bottom_Save (MM : MatrixMethods) (gc : StackGraphicContext) :
    (gc.Save MM).Current.bottom = gc.Current.bottom := by
  simp [StackGraphicContext.Save, ContextStack.bottom]

theorem StackGraphicContext.bottom_Restore (gc : StackGraphicContext) :
    gc.Restore.Current.bottom = gc.Current.bottom := by
  obtain ⟨cur, paths⟩ := gc
  cases cur with
  | mk v p =>
    cases p with
    | none => simp [StackGraphicContext.Restore, ContextStack.Previous]
    | some q => simp [StackGraphicContext.Restore, ContextStack.Previous, ContextStack.bottom]

theorem SaveRestoreReachable.bottom_eq (MM : MatrixMethods) (gc : StackGraphicContext)
    (h : SaveRestoreReachable MM gc) :
    gc.Current.bottom = (NewStackGraphicContext MM).Current := by
  induction h with
  | init => simp [NewStackGraphicContext, ContextStack.bottom]
  | save g _ ih => rw [StackGraphicContext.bottom_Save, ih]
  | restore g _ ih => rw [StackGraphicContext.bottom_Restore, ih]

/-- C4: Restore on a context whose current frame has no Previous frame returns the
context as it was: the current frame, all its fields and the path objects are the
same, and the call completes (Restore is a total function of the state). -/
theorem StackGraphicContext.Restore_bottom_noop (gc : StackGraphicContext)
    (h : gc.Current.Previous = none) :
    gc.Restore = gc ∧ gc.Restore.Current = gc.Current
      ∧ gc.Restore.Current.fields = gc.Current.fields := by
  rw [StackGraphicContext.Restore_of_none gc h]
  exact ⟨rfl, rfl, rfl⟩

/-- Witness of C4: the context made by NewStackGraphicContext. -/
theorem StackGraphicContext.Restore_bottom_noop_witness :
    (NewStackGraphicContext (specMatrix taylorMath)).Current.Previous = none
    ∧ (NewStackGraphicContext (specMatrix taylorMath)).Restore
        = NewStackGraphicContext (specMatrix taylorMath) :=
  ⟨rfl, (StackGraphicContext.Restore_bottom_noop
    (NewStackGraphicContext (specMatrix taylorMath)) rfl).1⟩

/-- C5: in every state reachable from NewStackGraphicContext by Save and Restore,
the stack holds at least one frame and its bottom frame is the one
NewStackGraphicContext made; Save adds exactly one frame; Restore removes exactly
one frame when there is more than one, and changes nothing when there is one; and
n Saves followed by n Restores give back the frame that was current before the
first Save, over an unchanged store of the earlier path objects. -/
theorem StackGraphicContext.stack_lifo (MM : MatrixMethods) (gc : StackGraphicContext)
    (h : SaveRestoreReachable MM gc) :
    1 ≤ gc.Current.depth
    ∧ gc.Current.bottom = (NewStackGraphicContext MM).Current
    ∧ (gc.Save MM).Current.depth = gc.Current.depth + 1
    ∧ (1 < gc.Current.depth → gc.Restore.Current.depth = gc.Current.depth - 1)
    ∧ (gc.Current.depth = 1 → gc.Restore = gc)
    ∧ ∀ n, ∃ extra,
        restoreN n (saveN MM n gc) = { Current := gc.Current, paths := gc.paths ++ extra } := by
  refine ⟨gc.Current.one_le_depth, SaveRestoreReachable.bottom_eq MM gc h,
    StackGraphicContext.depth_Save MM gc, StackGraphicContext.depth_Restore gc, ?_,
    fun n => restoreN_saveN MM n gc⟩
  intro hd
  apply StackGraphicContext.Restore_of_none
  obtain ⟨cur, paths⟩ := gc
  cases cur with
  | mk v p =>
    cases p with
    | none => rfl
    | some q =>
      have := q.one_le_depth
      simp [ContextStack.depth] at hd
      omega

/-- Witness of C5: the state after Save, Save, Restore. -/
theorem StackGraphicContext.stack_lifo_witness :
    SaveRestoreReachable (specMatrix taylorMath)
      (((NewStackGraphicContext (specMatrix taylorMath)).Save (specMatrix taylorMath)).Save
        (specMatrix taylorMath)).Restore
    ∧ (((NewStackGraphicContext (specMatrix taylorMath)).Save (specMatrix taylorMath)).Save
        (specMatrix taylorMath)).Restore.Current.depth = 2
    ∧ ((((NewStackGraphicContext (specMatrix taylorMath)).Save (specMatrix taylorMath)).Save
        (specMatrix taylorMath)).Restore.Save (specMatrix taylorMath)).Current.depth = 2 + 1 :=
  have hr : SaveRestoreReachable (specMatrix taylorMath)
      (((NewStackGraphicContext (specMatrix taylorMath)).Save (specMatrix taylorMath)).Save
        (specMatrix taylorMath)).Restore := .restore _ (.save _ (.save _ .init))
  ⟨hr, rfl, (StackGraphicContext.stack_lifo (specMatrix taylorMath) _ hr).2.2.1⟩

/-! ## BeginPath -/

theorem List.getD_modify_same {α : Type} (f : α → α) (l : List α) (n : Nat) (d : α)
    (h : n < l.length) : (l.modify f n).getD n d = f (l.getD n d) := by
  induction l generalizing n with
  | nil => simp at h
  | cons a as ih =>
    cases n with
    | zero => simp [List.modify]
    | succ k =>
      have hk : k < as.length := by simpa using h
      simpa [List.modify] using ih k hk

theorem List.getElem?_modify_ne {α : Type} (f : α → α) (l : List α) (n a : Nat)
    (h : a ≠ n) : (l.modify f n)[a]? = l[a]? := by
  induction l generalizing n a with
  | nil => simp [List.modify]
  | cons x xs ih =>
    cases n with
    | zero =>
      cases a with
      | zero => exact absurd rfl h
      | succ b => simp [List.modify]
    | succ k =>
      cases a with
      | zero => simp [List.modify]
      | succ b =>
        have hb : b ≠ k := fun e => h (by rw [e])
        simpa [List.modify] using ih k b hb

/-- C6: on a context whose current frame points to an allocated Path object,
BeginPath leaves that path with no component and no point (IsEmpty is true), leaves
the current frame with every field (transform, patterns, line style, dash, alpha,
composite operation, shadow, mask, font) and the whole chain of earlier frames as
they were, and changes no other path object. -/
theorem StackGraphicContext.BeginPath_clears_only_path (gc : StackGraphicContext)
    (h : gc.Current.fields.Path < gc.paths.length) :
    gc.BeginPath.GetPath.Components = []
    ∧ gc.BeginPath.GetPath.Points = []
    ∧ gc.BeginPath.IsEmpty = true
    ∧ gc.BeginPath.Current = gc.Current
    ∧ ∀ a, a ≠ gc.Current.fields.Path → gc.BeginPath.paths[a]? = gc.paths[a]? := by
  have hg : gc.BeginPath.GetPath = gc.GetPath.Clear := by
    simp only [StackGraphicContext.BeginPath, StackGraphicContext.onPath,
      StackGraphicContext.GetPath]
    exact List.getD_modify_same _ _ _ _ h
  refine ⟨?_, ?_, ?_, rfl, ?_⟩
  · rw [hg]; simp [Path.Clear]
  · rw [hg]; simp [Path.Clear]
  · simp only [StackGraphicContext.IsEmpty]
    rw [hg]; simp [Path.Clear, Path.IsEmpty]
  · intro a ha
    simp only [StackGraphicContext.BeginPath, StackGraphicContext.onPath]
    exact List.getElem?_modify_ne _ _ _ _ ha

/-- Witness of C6: BeginPath after MoveTo and LineTo on a fresh context. -/
theorem StackGraphicContext.BeginPath_clears_only_path_witness :
    (((NewStackGraphicContext (specMatrix taylorMath)).MoveTo (specMatrix taylorMath) 1 2).LineTo
        (specMatrix taylorMath) 3 4).GetPath.Components = [.MoveToCmp, .LineToCmp]
    ∧ (((NewStackGraphicContext (specMatrix taylorMath)).MoveTo (specMatrix taylorMath) 1 2).LineTo
        (specMatrix taylorMath) 3 4).BeginPath.GetPath.Components = [] :=
  ⟨by decide,
   (StackGraphicContext.BeginPath_clears_only_path
      (((NewStackGraphicContext (specMatrix taylorMath)).MoveTo (specMatrix taylorMath) 1 2).LineTo
        (specMatrix taylorMath) 3 4)
      (by decide)).1⟩

/-! ## Style setters -/

/-- C7: SetGlobalAlpha with alpha below 0 or above 1 leaves the whole context as it
was; with alpha between 0 and 1, both included, GlobalAlpha returns alpha afterwards. -/
theorem StackGraphicContext.SetGlobalAlpha_range (gc : StackGraphicContext) (alpha : ℚ) :
    (alpha < 0 ∨ alpha > 1 → gc.SetGlobalAlpha alpha = gc)
    ∧ (0 ≤ alpha ∧ alpha ≤ 1 → (gc.SetGlobalAlpha alpha).GlobalAlpha = alpha) := by
  constructor
  · intro h
    simp [StackGraphicContext.SetGlobalAlpha, h]
  · intro h
    have hn : ¬(alpha < 0 ∨ alpha > 1) := by
      rintro (h1 | h1)
      · exact absurd h.1 (not_le.mpr h1)
      · exact absurd h.2 (not_le.mpr h1)
    simp [StackGraphicContext.SetGlobalAlpha, hn, StackGraphicContext.GlobalAlpha,
      StackGraphicContext.setCurrent, ContextStack.fields]

/-- Witness of C7: alpha = 2 is rejected and alpha = 1/2 is stored. -/
theorem StackGraphicContext.SetGlobalAlpha_range_witness :
    (NewStackGraphicContext (specMatrix taylorMath)).SetGlobalAlpha 2
        = NewStackGraphicContext (specMatrix taylorMath)
    ∧ ((NewStackGraphicContext (specMatrix taylorMath)).SetGlobalAlpha (1 / 2)).GlobalAlpha
        = 1 / 2 :=
  ⟨(StackGraphicContext.SetGlobalAlpha_range
      (NewStackGraphicContext (specMatrix taylorMath)) 2).1 (Or.inr (by norm_num)),
   (StackGraphicContext.SetGlobalAlpha_range
      (NewStackGraphicContext (specMatrix taylorMath)) (1 / 2)).2
      ⟨by norm_num, by norm_num⟩⟩

/-- C8: parserCompositeOperation returns SourceOver for every string that is none
of the eleven operator names, and for each of the eleven CompositeOperation values
(0 to 10) it gives back the value whose String it is given. -/
theorem parserCompositeOperation_spec :
    (∀ x : String, x ∉ operatorNames → parserCompositeOperation x = SourceOver)
    ∧ (∀ op : CompositeOperation, 0 ≤ op → op ≤ 10 →
        parserCompositeOperation op.String = op) := by
  constructor
  · intro x hx
    simp only [operatorNames, List.mem_cons, List.mem_singleton, List.not_mem_nil, or_false,
      not_or] at hx
    obtain ⟨h1, h2, h3, h4, h5, h6, h7, h8, h9, h10, h11⟩ := hx
    simp [parserCompositeOperation, h1, h2, h3, h4, h5, h6, h7, h8, h9, h10, h11]
  · intro op h0 h10
    interval_cases op <;> decide

/-- Witness of C8: an unknown token, and the round trip of Xor. -/
theorem parserCompositeOperation_spec_witness :
    parserCompositeOperation "multiply" = SourceOver
    ∧ parserCompositeOperation (CompositeOperation.String Xor) = Xor :=
  ⟨parserCompositeOperation_spec.1 "multiply" (by decide),
   parserCompositeOperation_spec.2 Xor (by decide) (by decide)⟩

/-- C9: after SetLineDash(d), LineDash has even length; it is d when the length of
d is even and d followed by d when the length of d is odd. -/
theorem StackGraphicContext.SetLineDash_even (gc : StackGraphicContext) (d : List ℚ) :
    (gc.SetLineDash d).LineDash.length % 2 = 0
    ∧ (d.length % 2 = 0 → (gc.SetLineDash d).LineDash = d)
    ∧ (d.length % 2 = 1 → (gc.SetLineDash d).LineDash = d ++ d) := by
  by_cases h : d.length % 2 = 0
  · have e : (gc.SetLineDash d).LineDash = d := by
      simp [StackGraphicContext.SetLineDash, h, StackGraphicContext.LineDash,
        StackGraphicContext.setCurrent, ContextStack.fields]
    refine ⟨by rw [e]; exact h, fun _ => e, fun h1 => by omega⟩
  · have e : (gc.SetLineDash d).LineDash = d ++ d := by
      simp [StackGraphicContext.SetLineDash, h, StackGraphicContext.LineDash,
        StackGraphicContext.setCurrent, ContextStack.fields]
    refine ⟨by rw [e, List.length_append]; omega, fun h0 => absurd h0 h, fun _ => e⟩

/-- Witness of C9: a dash list of length 3 is doubled, one of length 2 is kept. -/
theorem StackGraphicContext.SetLineDash_even_witness :
    ((NewStackGraphicContext (specMatrix taylorMath)).SetLineDash [5, 3, 2]).LineDash
        = [5, 3, 2, 5, 3, 2]
    ∧ ((NewStackGraphicContext (specMatrix taylorMath)).SetLineDash [5, 3]).LineDash = [5, 3] :=
  ⟨(StackGraphicContext.SetLineDash_even
      (NewStackGraphicContext (specMatrix taylorMath)) [5, 3, 2]).2.2 (by decide),
   (StackGraphicContext.SetLineDash_even
      (NewStackGraphicContext (specMatrix taylorMath)) [5, 3]).2.1 (by decide)⟩

/-! ## Save, calls, Restore -/

theorem StackGraphicContext.frameAbove_setCurrent (gc g : StackGraphicContext)
    (f : ContextFields → ContextFields) (hf : ∀ v, (f v).Path = v.Path)
    (h : g.FrameAbove gc) : (g.setCurrent f).FrameAbove gc := by
  obtain ⟨h1, h2, h3⟩ := h
  exact ⟨h1, by simpa [StackGraphicContext.setCurrent, ContextStack.fields, hf] using h2, h3⟩

theorem StackGraphicContext.frameAbove_onPath (gc g : StackGraphicContext) (f : Path → Path)
    (h : g.FrameAbove gc) : (g.onPath f).FrameAbove gc := by
  obtain ⟨h1, h2, h3⟩ := h
  refine ⟨h1, h2, ?_⟩
  intro a ha
  simp only [StackGraphicContext.onPath]
  rw [List.getElem?_modify_ne _ _ _ _ (by omega)]
  exact h3 a ha

theorem StackGraphicContext.frameAbove_Save (MM : MatrixMethods) (gc : StackGraphicContext) :
    (gc.Save MM).FrameAbove gc := by
  refine ⟨rfl, rfl, ?_⟩
  intro a ha
  simp only [StackGraphicContext.Save]
  exact List.getElem?_append_left ha

theorem StackGraphicContext.frameAbove_arcAngleStep (MM : MatrixMethods) (M : MathFuncs)
    (gc g : StackGraphicContext) (x y rx ry startAngle sweepAngle : ℚ) (i : Nat)
    (h : g.FrameAbove gc) :
    (StackGraphicContext.arcAngleStep MM M x y rx ry startAngle sweepAngle g i).FrameAbove gc := by
  unfold StackGraphicContext.arcAngleStep
  simp only [StackGraphicContext.QuadraticCurveTo, StackGraphicContext.LineTo]
  refine StackGraphicContext.frameAbove_onPath _ _ _ ?_
  split_ifs
  · exact StackGraphicContext.frameAbove_onPath _ _ _ h
  · exact h

theorem StackGraphicContext.frameAbove_foldl {α : Type} (gc : StackGraphicContext)
    (step : StackGraphicContext → α → StackGraphicContext)
    (hstep : ∀ g i, g.FrameAbove gc → (step g i).FrameAbove gc)
    (l : List α) (g : StackGraphicContext) (h : g.FrameAbove gc) :
    (l.foldl step g).FrameAbove gc := by
  induction l generalizing g with
  | nil => exact h
  | cons i is ih => exact ih (step g i) (hstep g i h)

theorem StackGraphicContext.frameAbove_ArcAngle (MM : MatrixMethods) (M : MathFuncs)
    (gc g : StackGraphicContext) (x y rx ry startAngle sweepAngle : ℚ)
    (h : g.FrameAbove gc) : (g.ArcAngle MM M x y rx ry startAngle sweepAngle).FrameAbove gc :=
  StackGraphicContext.frameAbove_foldl gc _
    (fun g i hg => StackGraphicContext.frameAbove_arcAngleStep MM M gc g _ _ _ _ _ _ i hg) _ g h

theorem Call.frameAbove_run (MM : MatrixMethods) (M : MathFuncs) (gc g : StackGraphicContext)
    (c : Call) (h : g.FrameAbove gc) : (c.run MM M g).FrameAbove gc := by
  cases c
  case ArcAngle x y rx ry sa sw => exact StackGraphicContext.frameAbove_ArcAngle MM M gc g _ _ _ _ _ _ h
  case Arc cx cy r sa ea ccw =>
    simp only [Call.run, StackGraphicContext.Arc]
    split_ifs <;> exact StackGraphicContext.frameAbove_ArcAngle MM M gc g _ _ _ _ _ _ h
  case SetGlobalAlpha alpha =>
    simp only [Call.run, StackGraphicContext.SetGlobalAlpha]
    split_ifs
    · exact h
    · exact StackGraphicContext.frameAbove_setCurrent _ _ _ (fun _ => rfl) h
  case SetLineDash dash =>
    simp only [Call.run, StackGraphicContext.SetLineDash]
    split_ifs
    · exact StackGraphicContext.frameAbove_setCurrent _ _ _ (fun _ => rfl)
        (StackGraphicContext.frameAbove_setCurrent _ _ _ (fun _ => rfl) h)
    · exact StackGraphicContext.frameAbove_setCurrent _ _ _ (fun _ => rfl) h
  all_goals
    simp only [Call.run, StackGraphicContext.SetLineWidth, StackGraphicContext.SetLineCap,
      StackGraphicContext.SetLineJoin, StackGraphicContext.SetMiterLimit,
      StackGraphicContext.SetLineDashOffset, StackGraphicContext.SetFillStyle,
      StackGraphicContext.SetStrokeStyle, StackGraphicContext.SetFillColor,
      StackGraphicContext.SetStrokeColor, StackGraphicContext.SetFillRule,
      StackGraphicContext.SetGlobalCompositeOperation, StackGraphicContext.SetShadowOffset,
      StackGraphicContext.SetShadowBlur, StackGraphicContext.SetShadowColor,
      StackGraphicContext.Transform, StackGraphicContext.SetTransform,
      StackGraphicContext.SetMatrixTransform, StackGraphicContext.ResetTransform,
      StackGraphicContext.ComposeMatrixTransform, StackGraphicContext.Rotate,
      StackGraphicContext.Translate, StackGraphicContext.Scale,
      StackGraphicContext.RotateAbout, StackGraphicContext.ScaleAbout,
      StackGraphicContext.SetFont, StackGraphicContext.SetTextAlign,
      StackGraphicContext.SetTextBaseline, StackGraphicContext.MoveTo,
      StackGraphicContext.LineTo, StackGraphicContext.QuadraticCurveTo,
      StackGraphicContext.BezierCurveTo, StackGraphicContext.ClosePath,
      StackGraphicContext.BeginPath]
    first
      | exact StackGraphicContext.frameAbove_onPath _ _ _ h
      | exact StackGraphicContext.frameAbove_setCurrent _ _ _ (fun _ => rfl) h

theorem frameAbove_runCalls (MM : MatrixMethods) (M : MathFuncs) (gc : StackGraphicContext)
    (calls : List Call) (g : StackGraphicContext) (h : g.FrameAbove gc) :
    (runCalls MM M calls g).FrameAbove gc :=
  StackGraphicContext.frameAbove_foldl gc _ (fun g c hg => Call.frameAbove_run MM M gc g c hg)
    calls g h

/-- The frames and the paths, the elements of a dash slice being held in the frame.
Save, then any sequence of style setters (line width, cap, join, miter limit, dash,
dash offset, fill and stroke pattern or colour, fill rule, global alpha, composite
operation, shadow, transform, font, text align and baseline) and path-building calls
(MoveTo, LineTo, QuadraticCurveTo, BezierCurveTo, ArcAngle, Arc, ClosePath, BeginPath),
then Restore: the current frame is the frame that was current before Save, with its
fields and its chain of earlier frames, and the path it points to has the Components,
the Points and the last point it had before Save; no path object that existed before
Save has changed.  What the frame holds of `Dash` in the source is a slice, whose
backing array is outside the frame and may be shared with the slice of another frame:
the slices with their backing arrays are in `DashFrames`. -/
theorem StackGraphicContext.Save_calls_Restore (MM : MatrixMethods) (M : MathFuncs)
    (gc : StackGraphicContext) (calls : List Call)
    (h : gc.Current.fields.Path < gc.paths.length) :
    (runCalls MM M calls (gc.Save MM)).Restore.Current = gc.Current
    ∧ (runCalls MM M calls (gc.Save MM)).Restore.GetPath.Components = gc.GetPath.Components
    ∧ (runCalls MM M calls (gc.Save MM)).Restore.GetPath.Points = gc.GetPath.Points
    ∧ (runCalls MM M calls (gc.Save MM)).Restore.LastPoint = gc.LastPoint
    ∧ ∀ a, a < gc.paths.length →
        (runCalls MM M calls (gc.Save MM)).Restore.paths[a]? = gc.paths[a]? := by
  obtain ⟨h1, _, h3⟩ := frameAbove_runCalls MM M gc calls (gc.Save MM)
    (StackGraphicContext.frameAbove_Save MM gc)
  have hc : (runCalls MM M calls (gc.Save MM)).Restore.Current = gc.Current := by
    simp [StackGraphicContext.Restore, h1]
  have hp : (runCalls MM M calls (gc.Save MM)).Restore.paths
      = (runCalls MM M calls (gc.Save MM)).paths := by
    simp [StackGraphicContext.Restore, h1]
  have hg : (runCalls MM M calls (gc.Save MM)).Restore.GetPath = gc.GetPath := by
    simp only [StackGraphicContext.GetPath, hc, hp, List.getD_eq_getElem?_getD]
    rw [h3 _ h]
  refine ⟨hc, by rw [hg], by rw [hg], ?_, ?_⟩
  · simp only [StackGraphicContext.LastPoint]
    rw [hg]
  · intro a ha
    rw [hp]
    exact h3 a ha


/-- Example: on the example context, the calls of `exampleCalls` between Save and
Restore change line width, dash, transform, alpha and the path; after Restore the frame
and its path are back. -/
theorem StackGraphicContext.Save_calls_Restore_witness :
    exampleContext.Current.fields.Path < exampleContext.paths.length
    ∧ (runCalls (specMatrix taylorMath) taylorMath exampleCalls
        (exampleContext.Save (specMatrix taylorMath))).GetPath.Components
        = [.MoveToCmp, .LineToCmp, .CloseCmp]
    ∧ (runCalls (specMatrix taylorMath) taylorMath exampleCalls
        (exampleContext.Save (specMatrix taylorMath))).LineDash.length = 6
    ∧ (runCalls (specMatrix taylorMath) taylorMath exampleCalls
        (exampleContext.Save (specMatrix taylorMath))).Restore.Current = exampleContext.Current
    ∧ (runCalls (specMatrix taylorMath) taylorMath exampleCalls
        (exampleContext.Save (specMatrix taylorMath))).Restore.GetPath.Components
        = exampleContext.GetPath.Components :=
  ⟨by decide, by decide, by decide,
   (StackGraphicContext.Save_calls_Restore (specMatrix taylorMath) taylorMath exampleContext
      exampleCalls (by decide)).1,
   (StackGraphicContext.Save_calls_Restore (specMatrix taylorMath) taylorMath exampleContext
      exampleCalls (by decide)).2.1⟩


/-! ## paintSolid: opaque colour, full coverage, source-over -/

theorem pixGet_some (pix : List Nat) (i : Int) (h0 : 0 ≤ i) (h1 : i < pix.length) :
    ∃ v, pixGet pix i = some v := by
  have hlt : i.toNat < pix.length := by omega
  exact ⟨pix[i.toNat], by simp [pixGet, h0, hlt]⟩

theorem pixSet_spec (pix : List Nat) (i : Int) (v : Nat) (h0 : 0 ≤ i) (h1 : i < pix.length) :
    ∃ pix1, pixSet pix i v = some pix1 ∧ pix1.length = pix.length
      ∧ pixGet pix1 i = some v ∧ ∀ j, j ≠ i → pixGet pix1 j = pixGet pix j := by
  have hlt : i.toNat < pix.length := by omega
  refine ⟨pix.set i.toNat v, by simp [pixSet, h0, hlt], by simp, ?_, ?_⟩
  · simp [pixGet, h0, hlt]
  · intro j hj
    by_cases hj0 : 0 ≤ j
    · have hne : i.toNat ≠ j.toNat := by omega
      simp [pixGet, hj0, List.getElem?_set_ne hne]
    · simp [pixGet, hj0]

theorem opaque_channel (d x : Nat) (hx : x ≤ 65535) :
    u8 ((u32 (d * u32 (u32sub 65535 (u32 (65535 * 65535) / 65535) * 0x101) + x * 65535)
      / 65535) >>> 8) = x >>> 8 := by
  have ha : u32 (u32sub 65535 (u32 (65535 * 65535) / 65535) * 0x101) = 0 := by decide
  rw [ha, Nat.mul_zero, Nat.zero_add]
  have h1 : u32 (x * 65535) = x * 65535 := by
    unfold u32
    apply Nat.mod_eq_of_lt
    omega
  rw [h1, Nat.mul_div_cancel x (by decide : 0 < 65535), Nat.shiftRight_eq_div_pow]
  unfold u8
  apply Nat.mod_eq_of_lt
  omega

theorem scaleAlpha_full : scaleAlpha 0xffff 1 = 65535 := by
  simp [scaleAlpha, u32]

theorem RGBAPainter.solidOverPixel_opaque (c : color.Color) (pix : List Nat) (i : Int)
    (ha : c.a = 0xffff) (hr : c.r ≤ 0xffff) (hg : c.g ≤ 0xffff) (hb : c.b ≤ 0xffff)
    (h0 : 0 ≤ i) (h1 : i + 3 < pix.length) :
    ∃ pix1, RGBAPainter.solidOverPixel c 65535 pix i = some pix1
      ∧ pix1.length = pix.length
      ∧ pixGet pix1 (i + 0) = some (c.r >>> 8)
      ∧ pixGet pix1 (i + 1) = some (c.g >>> 8)
      ∧ pixGet pix1 (i + 2) = some (c.b >>> 8)
      ∧ pixGet pix1 (i + 3) = some (c.a >>> 8)
      ∧ ∀ j, (j < i ∨ i + 4 ≤ j) → pixGet pix1 j = pixGet pix j := by
  obtain ⟨dr, hdr⟩ := pixGet_some pix (i + 0) (by omega) (by omega)
  obtain ⟨dg, hdg⟩ := pixGet_some pix (i + 1) (by omega) (by omega)
  obtain ⟨db, hdb⟩ := pixGet_some pix (i + 2) (by omega) (by omega)
  obtain ⟨da, hda⟩ := pixGet_some pix (i + 3) (by omega) (by omega)
  have haa : c.a ≤ 65535 := by omega
  obtain ⟨p1, e1, l1, g1, o1⟩ := pixSet_spec pix (i + 0) (c.r >>> 8) (by omega) (by omega)
  obtain ⟨p2, e2, l2, g2, o2⟩ := pixSet_spec p1 (i + 1) (c.g >>> 8) (by omega) (by omega)
  obtain ⟨p3, e3, l3, g3, o3⟩ := pixSet_spec p2 (i + 2) (c.b >>> 8) (by omega) (by omega)
  obtain ⟨p4, e4, l4, g4, o4⟩ := pixSet_spec p3 (i + 3) (c.a >>> 8) (by omega) (by omega)
  refine ⟨p4, ?_, by omega, ?_, ?_, ?_, g4, ?_⟩
  · have k1 := opaque_channel dr c.r hr
    have k2 := opaque_channel dg c.g hg
    have k3 := opaque_channel db c.b hb
    have k4 := opaque_channel da c.a haa
    simp only [RGBAPainter.solidOverPixel, hdr, hdg, hdb, hda, Option.bind_eq_bind,
      Option.some_bind, ha] at *
    rw [k1, e1]
    simp only [Option.some_bind]
    rw [k2, e2]
    simp only [Option.some_bind]
    rw [k3, e3]
    simp only [Option.some_bind]
    rw [k4, e4]
  · rw [o4 _ (by omega), o3 _ (by omega), o2 _ (by omega), g1]
  · rw [o4 _ (by omega), o3 _ (by omega), g2]
  · rw [o4 _ (by omega), g3]
  · intro j hj
    rw [o4 _ (by omega), o3 _ (by omega), o2 _ (by omega), o1 _ (by omega)]

theorem RGBAPainter.pixelLoop_opaque (c : color.Color)
    (ha : c.a = 0xffff) (hr : c.r ≤ 0xffff) (hg : c.g ≤ 0xffff) (hb : c.b ≤ 0xffff)
    (n : Nat) (i : Int) (pix : List Nat) (h0 : 0 ≤ i) (h1 : i + 4 * n ≤ pix.length) :
    ∃ pix1, RGBAPainter.pixelLoop (RGBAPainter.solidOverPixel c 65535) n i pix = some pix1
      ∧ pix1.length = pix.length
      ∧ (∀ j, j < i → pixGet pix1 j = pixGet pix j)
      ∧ ∀ k : Nat, k < n →
          pixGet pix1 (i + 4 * k + 0) = some (c.r >>> 8)
          ∧ pixGet pix1 (i + 4 * k + 1) = some (c.g >>> 8)
          ∧ pixGet pix1 (i + 4 * k + 2) = some (c.b >>> 8)
          ∧ pixGet pix1 (i + 4 * k + 3) = some (c.a >>> 8) := by
  induction n generalizing i pix with
  | zero => exact ⟨pix, rfl, rfl, fun _ _ => rfl, fun k hk => absurd hk (Nat.not_lt_zero k)⟩
  | succ m ih =>
    obtain ⟨p1, e1, l1, gr, gg, gb, ga, o1⟩ :=
      RGBAPainter.solidOverPixel_opaque c pix i ha hr hg hb h0 (by push_cast at h1; omega)
    obtain ⟨p2, e2, l2, o2, w2⟩ := ih (i + 4) p1 (by omega) (by push_cast at h1; omega)
    refine ⟨p2, ?_, by omega, ?_, ?_⟩
    · simp only [RGBAPainter.pixelLoop, e1]
      exact e2
    · intro j hj
      rw [o2 j (by omega), o1 j (Or.inl hj)]
    · intro k hk
      cases k with
      | zero =>
        simp only [Nat.cast_zero, mul_zero, add_zero]
        refine ⟨?_, ?_, ?_, ?_⟩
        · have := o2 i (by omega); rw [this]; simpa using gr
        · rw [o2 (i + 1) (by omega)]; exact gg
        · rw [o2 (i + 2) (by omega)]; exact gb
        · rw [o2 (i + 3) (by omega)]; exact ga
      | succ k1 =>
        obtain ⟨a0, a1, a2, a3⟩ := w2 k1 (by omega)
        have e : i + 4 * ((k1 + 1 : Nat) : Int) = i + 4 + 4 * (k1 : Int) := by
          push_cast; ring
        rw [e]
        exact ⟨a0, a1, a2, a3⟩

theorem pixelTurns_span (i0 w : Int) :
    RGBAPainter.pixelTurns i0 (i0 + w * 4) = w.toNat := by
  unfold RGBAPainter.pixelTurns
  have : (i0 + w * 4 - i0 + 3) / 4 = w := by omega
  rw [this]

theorem RGBAPainter.paintSolid_painted (r : RGBAPainter) (s : Span) (X0 X1 i0 : Int)
    (pix1 : List Nat)
    (hY1 : ¬ s.Y < r.canvas.Rect.Min.Y) (hY2 : ¬ s.Y ≥ r.canvas.Rect.Max.Y)
    (hX0 : X0 = if s.X0 < r.canvas.Rect.Min.X then r.canvas.Rect.Min.X else s.X0)
    (hX1 : X1 = if s.X1 > r.canvas.Rect.Max.X then r.canvas.Rect.Max.X else s.X1)
    (hlt : ¬ X0 ≥ X1)
    (hi0 : i0 = (s.Y - r.canvas.Rect.Min.Y) * r.canvas.Stride + (X0 - r.canvas.Rect.Min.X) * 4)
    (hop : r.canvasOp = SourceOver)
    (hloop : RGBAPainter.pixelLoop
        (RGBAPainter.solidOverPixel r.solidColor (scaleAlpha s.Alpha r.canvasAlpha))
        (RGBAPainter.pixelTurns i0 (i0 + (X1 - X0) * 4)) i0 r.canvas.Pix = some pix1) :
    ∃ r1, r.paintSolid [s] = some r1 ∧ r1.canvas = { r.canvas with Pix := pix1 } := by
  subst hX0 hX1 hi0
  simp only [RGBAPainter.paintSolid, hY1, hY2, hlt, hop, if_true, if_false, hloop,
    RGBAPainter.setCanvasPix]
  exact ⟨_, rfl, rfl⟩

/-- C10: paintSolid with canvasOp = SourceOver, global alpha 1, one span of full
coverage (Alpha = 0xffff) and an opaque solid colour (alpha 0xffff, colour channels
16-bit values) on a canvas whose Pix holds all rows of its rectangle: the call
completes, and every pixel of the span clipped to the canvas holds exactly the
bytes (r >> 8, g >> 8, b >> 8, a >> 8) of the colour, whatever Pix held before. -/
theorem RGBAPainter.paintSolid_opaque (r : RGBAPainter) (s : Span)
    (hop : r.canvasOp = SourceOver) (halpha : r.canvasAlpha = 1) (hs : s.Alpha = 0xffff)
    (ha : r.solidColor.a = 0xffff) (hr : r.solidColor.r ≤ 0xffff)
    (hg : r.solidColor.g ≤ 0xffff) (hb : r.solidColor.b ≤ 0xffff)
    (hstride : 4 * (r.canvas.Rect.Max.X - r.canvas.Rect.Min.X) ≤ r.canvas.Stride)
    (hlen : (r.canvas.Rect.Max.Y - r.canvas.Rect.Min.Y - 1) * r.canvas.Stride
        + 4 * (r.canvas.Rect.Max.X - r.canvas.Rect.Min.X) ≤ r.canvas.Pix.length) :
    ∃ r1, r.paintSolid [s] = some r1
      ∧ r1.canvas.Rect = r.canvas.Rect ∧ r1.canvas.Stride = r.canvas.Stride
      ∧ ∀ x : Int, r.canvas.Rect.Min.Y ≤ s.Y → s.Y < r.canvas.Rect.Max.Y →
          s.X0 ≤ x → r.canvas.Rect.Min.X ≤ x → x < s.X1 → x < r.canvas.Rect.Max.X →
          r1.canvas.pixelBytes x s.Y
            = some [r.solidColor.r >>> 8, r.solidColor.g >>> 8, r.solidColor.b >>> 8,
                    r.solidColor.a >>> 8] := by
  by_cases hY1 : s.Y < r.canvas.Rect.Min.Y
  · refine ⟨r, by simp [RGBAPainter.paintSolid, hY1], rfl, rfl, ?_⟩
    intro x h1
    omega
  by_cases hY2 : s.Y ≥ r.canvas.Rect.Max.Y
  · refine ⟨r, by simp [RGBAPainter.paintSolid, hY1, hY2], rfl, rfl, ?_⟩
    intro x _ h2
    omega
  obtain ⟨X0, hX0⟩ : ∃ X0, X0 = if s.X0 < r.canvas.Rect.Min.X then r.canvas.Rect.Min.X
      else s.X0 := ⟨_, rfl⟩
  obtain ⟨X1, hX1⟩ : ∃ X1, X1 = if s.X1 > r.canvas.Rect.Max.X then r.canvas.Rect.Max.X
      else s.X1 := ⟨_, rfl⟩
  have hX0a : r.canvas.Rect.Min.X ≤ X0 ∧ s.X0 ≤ X0
      ∧ (X0 = r.canvas.Rect.Min.X ∨ X0 = s.X0) := by
    rw [hX0]; split_ifs <;> omega
  have hX1a : X1 ≤ r.canvas.Rect.Max.X ∧ X1 ≤ s.X1
      ∧ (X1 = r.canvas.Rect.Max.X ∨ X1 = s.X1) := by
    rw [hX1]; split_ifs <;> omega
  by_cases hlt : X0 ≥ X1
  · refine ⟨r, ?_, rfl, rfl, ?_⟩
    · rw [hX0, hX1] at hlt
      simp [RGBAPainter.paintSolid, hY1, hY2, hlt]
    · intro x _ _ h3 h4 h5 h6
      omega
  obtain ⟨i0, hi0⟩ : ∃ i0, i0 = (s.Y - r.canvas.Rect.Min.Y) * r.canvas.Stride
      + (X0 - r.canvas.Rect.Min.X) * 4 := ⟨_, rfl⟩
  have hS : 0 ≤ r.canvas.Stride := by omega
  have hrow0 : 0 ≤ (s.Y - r.canvas.Rect.Min.Y) * r.canvas.Stride :=
    mul_nonneg (by omega) hS
  have hrow1 : (s.Y - r.canvas.Rect.Min.Y) * r.canvas.Stride
      ≤ (r.canvas.Rect.Max.Y - r.canvas.Rect.Min.Y - 1) * r.canvas.Stride :=
    mul_le_mul_of_nonneg_right (by omega) hS
  have hi0nn : 0 ≤ i0 := by omega
  have hw : 0 ≤ X1 - X0 := by omega
  have hbound : i0 + 4 * ((X1 - X0).toNat : Int) ≤ r.canvas.Pix.length := by
    rw [Int.toNat_of_nonneg hw]
    omega
  obtain ⟨pix1, e1, l1, _, w1⟩ :=
    RGBAPainter.pixelLoop_opaque r.solidColor ha hr hg hb (X1 - X0).toNat i0 r.canvas.Pix
      hi0nn hbound
  have hloop : RGBAPainter.pixelLoop
      (RGBAPainter.solidOverPixel r.solidColor (scaleAlpha s.Alpha r.canvasAlpha))
      (RGBAPainter.pixelTurns i0 (i0 + (X1 - X0) * 4)) i0 r.canvas.Pix = some pix1 := by
    rw [hs, halpha, scaleAlpha_full, pixelTurns_span]
    exact e1
  obtain ⟨r1, er, ec⟩ :=
    RGBAPainter.paintSolid_painted r s X0 X1 i0 pix1 hY1 hY2 hX0 hX1 hlt hi0 hop hloop
  refine ⟨r1, er, by rw [ec], by rw [ec], ?_⟩
  intro x _ _ h3 h4 h5 h6
  have hk : (x - X0).toNat < (X1 - X0).toNat := by omega
  obtain ⟨a0, a1, a2, a3⟩ := w1 (x - X0).toNat hk
  have hoff : ({ r.canvas with Pix := pix1 } : image.RGBA).PixOffset x s.Y
      = i0 + 4 * ((x - X0).toNat : Int) := by
    simp only [image.RGBA.PixOffset]
    rw [Int.toNat_of_nonneg (by omega), hi0]
    ring
  rw [ec]
  simp only [image.RGBA.pixelBytes, hoff, a0, a1, a2, a3, Option.bind_eq_bind,
    Option.some_bind]

/-- Witness of C10: on the example painter, the span (y = 0, x from -3 to 1) of full
coverage is clipped to the first pixel, which becomes (0xff, 0x80, 0, 0xff). -/
theorem RGBAPainter.paintSolid_opaque_witness :
    examplePainter.canvasOp = SourceOver ∧ examplePainter.canvasAlpha = 1
    ∧ examplePainter.solidColor.a = 0xffff
    ∧ ∃ r1, examplePainter.paintSolid [{ Y := 0, X0 := -3, X1 := 1, Alpha := 0xffff }] = some r1
        ∧ r1.canvas.pixelBytes 0 0 = some [0xff, 0x80, 0, 0xff] :=
  ⟨rfl, rfl, rfl,
    (RGBAPainter.paintSolid_opaque examplePainter { Y := 0, X0 := -3, X1 := 1, Alpha := 0xffff }
      rfl rfl rfl rfl (by decide) (by decide) (by decide) (by decide) (by decide)).imp
      fun _ h => ⟨h.1, h.2.2.2 0 (by decide) (by decide) (by decide) (by decide) (by decide)
        (by decide)⟩⟩

/-! ## Path.Arc: full circles and the sign of the sweep -/

theorem Pi_pos : (0 : ℚ) < Pi := by norm_num [Pi]

theorem arcEndLoop_of_le (s e : ℚ) (h : s ≤ e) : arcEndLoop s e = e := by
  rw [arcEndLoop]
  exact if_neg (not_lt.mpr h)

theorem arcStartLoop_of_le (s e : ℚ) (h : e ≤ s) : arcStartLoop s e = s := by
  rw [arcStartLoop]
  exact if_neg (not_lt.mpr h)

theorem Path.ArcAngle_nonneg (M : MathFuncs) (p : Path) (cx cy rx ry s w : ℚ) (hw : 0 ≤ w) :
    p.ArcAngle M cx cy rx ry s w
      = { (if p.Components.length > 0 then p.LineTo (cx + M.Cos s * rx) (cy + M.Sin s * ry)
            else p.MoveTo (cx + M.Cos s * rx) (cy + M.Sin s * ry)).appendToPath .ArcAngleCmp
            [cx, cy, rx, ry, s, s + w] with
          x := cx + M.Cos (s + w) * rx, y := cy + M.Sin (s + w) * ry } := by
  have h1 : ¬ w < 0 := not_lt.mpr hw
  simp only [Path.ArcAngle, h1, if_false, if_true, arcEndLoop_of_le s (s + w) (by linarith)]

theorem Path.ArcAngle_neg (M : MathFuncs) (p : Path) (cx cy rx ry s w : ℚ) (hw : w < 0) :
    p.ArcAngle M cx cy rx ry s w
      = { (if p.Components.length > 0 then p.LineTo (cx + M.Cos s * rx) (cy + M.Sin s * ry)
            else p.MoveTo (cx + M.Cos s * rx) (cy + M.Sin s * ry)).appendToPath .ArcAngleCmp
            [cx, cy, rx, ry, s, s + w] with
          x := cx + M.Cos (s + w) * rx, y := cy + M.Sin (s + w) * ry } := by
  simp [Path.ArcAngle, hw, arcStartLoop_of_le s (s + w) (by linarith)]

theorem Path.lineOrMove_components (p : Path) (x y : ℚ) :
    (if p.Components.length > 0 then p.LineTo x y else p.MoveTo x y).Components
      = p.Components ++ [if p.Components.length > 0 then PathCmp.LineToCmp else PathCmp.MoveToCmp]
    ∧ (if p.Components.length > 0 then p.LineTo x y else p.MoveTo x y).Points
      = p.Points ++ [x, y] := by
  by_cases h : p.Components.length > 0
  · have h0 : p.Components.length ≠ 0 := by omega
    simp [h, h0, Path.LineTo, Path.appendToPath]
  · simp [h, Path.MoveTo, Path.appendToPath]

/-- C12: Path.Arc with a requested sweep of at least 2π in the requested direction
(end − start ≥ 2π when counterclockwise is false, start − end ≥ 2π when it is true)
appends the joining LineTo (MoveTo on an empty path) and exactly one ArcAngle
command, whose stored angle pair is (start, start + 2π), respectively
(start, start − 2π): a full circle from start. -/
theorem Path.Arc_full_circle (M : MathFuncs) (p : Path) (cx cy radius startAngle endAngle : ℚ)
    (ccw : Bool)
    (h : (ccw = false ∧ endAngle - startAngle ≥ 2 * Pi)
       ∨ (ccw = true ∧ startAngle - endAngle ≥ 2 * Pi)) :
    (p.Arc M cx cy radius startAngle endAngle ccw).Components
        = p.Components
          ++ [if p.Components.length > 0 then PathCmp.LineToCmp else PathCmp.MoveToCmp,
              PathCmp.ArcAngleCmp]
    ∧ (p.Arc M cx cy radius startAngle endAngle ccw).Points
        = p.Points ++ [cx + M.Cos startAngle * radius, cy + M.Sin startAngle * radius,
            cx, cy, radius, radius, startAngle,
            if ccw then startAngle - 2 * Pi else startAngle + 2 * Pi]
    ∧ |(if ccw then startAngle - 2 * Pi else startAngle + 2 * Pi) - startAngle| = 2 * Pi := by
  have hpi := Pi_pos
  have hl := Path.lineOrMove_components p (cx + M.Cos startAngle * radius)
    (cy + M.Sin startAngle * radius)
  rcases h with ⟨hc, hs⟩ | ⟨hc, hs⟩
  · subst hc
    have e : p.Arc M cx cy radius startAngle endAngle false
        = p.ArcAngle M cx cy radius radius startAngle (2 * Pi) := by
      simp [Path.Arc, hs]
    rw [e, Path.ArcAngle_nonneg M p cx cy radius radius startAngle (2 * Pi) (by linarith)]
    refine ⟨?_, ?_, ?_⟩
    · simp [Path.appendToPath, hl.1]
    · simp [Path.appendToPath, hl.2]
    · simp [abs_of_pos hpi, hpi.le]
  · subst hc
    have hn : ¬ (2 * Pi ≤ endAngle - startAngle) := by
      intro h2; linarith
    have e : p.Arc M cx cy radius startAngle endAngle true
        = p.ArcAngle M cx cy radius radius startAngle (-2 * Pi) := by
      simp [Path.Arc, hs]
    rw [e, Path.ArcAngle_neg M p cx cy radius radius startAngle (-2 * Pi) (by linarith)]
    refine ⟨?_, ?_, ?_⟩
    · simp [Path.appendToPath, hl.1]
    · simp [Path.appendToPath, hl.2]
      ring
    · simp [abs_of_pos hpi, hpi.le]

/-- Witness of C12: a clockwise request from 1 to 8 (more than one turn) on a path
that already has a MoveTo. -/
theorem Path.Arc_full_circle_witness :
    ((NewPath.MoveTo 9 9).Arc taylorMath 0 0 5 1 8 false).Components
      = [.MoveToCmp, .LineToCmp, .ArcAngleCmp] :=
  (Path.Arc_full_circle taylorMath (NewPath.MoveTo 9 9) 0 0 5 1 8 false
    (Or.inl ⟨rfl, by norm_num [Pi]⟩)).1

theorem Mod_bounds (x y : ℚ) (hy : 0 < y) :
    (0 ≤ x → 0 ≤ Mod x y ∧ Mod x y < y) ∧ (x < 0 → -y < Mod x y ∧ Mod x y ≤ 0) := by
  constructor
  · intro hx
    have hq : 0 ≤ x / y := div_nonneg hx hy.le
    have h1 := Int.floor_le (x / y)
    have h2 := Int.lt_floor_add_one (x / y)
    have e : x = x / y * y := by field_simp
    simp only [Mod, hq, if_true]
    constructor
    · nlinarith
    · nlinarith
  · intro hx
    have hq : ¬ 0 ≤ x / y := not_le.mpr (div_neg_of_neg_of_pos hx hy)
    have h1 := Int.le_ceil (x / y)
    have h2 := Int.ceil_lt_add_one (x / y)
    have e : x = x / y * y := by field_simp
    simp only [Mod, hq, if_false]
    constructor
    · nlinarith
    · nlinarith

theorem normAngle_range (a : ℚ) : 0 ≤ normAngle a ∧ normAngle a < 2 * Pi := by
  have hpi := Pi_pos
  have hy : (0 : ℚ) < Pi * 2 := by linarith
  have hb := Mod_bounds a (Pi * 2) hy
  simp only [normAngle]
  by_cases ha : 0 ≤ a
  · obtain ⟨h1, h2⟩ := hb.1 ha
    rw [if_neg (not_lt.mpr h1)]
    exact ⟨h1, by linarith⟩
  · obtain ⟨h1, h2⟩ := hb.2 (not_le.mp ha)
    split_ifs with h
    · exact ⟨by linarith, by linarith⟩
    · exact ⟨not_lt.mp h, by linarith⟩

/-- In exact arithmetic: for every Arc request that is not a full circle, normAngle maps
both angles into [0, 2π), and Path.Arc and StackGraphicContext.Arc call ArcAngle with
the normalized start angle and one same sweep, which lies in (0, 2π] when
counterclockwise is false and in [−2π, 0) when counterclockwise is true.  With the sums
rounded to `float64` the half-open ends are lost: see `Rounded.normAngle`. -/
theorem Arc_sweep_sign (startAngle endAngle : ℚ) (ccw : Bool)
    (h1 : ¬ (ccw = false ∧ endAngle - startAngle ≥ 2 * Pi))
    (h2 : ¬ (ccw = true ∧ startAngle - endAngle ≥ 2 * Pi)) :
    (0 ≤ normAngle startAngle ∧ normAngle startAngle < 2 * Pi)
    ∧ (0 ≤ normAngle endAngle ∧ normAngle endAngle < 2 * Pi)
    ∧ ∃ sweep : ℚ,
        (∀ (M : MathFuncs) (p : Path) (cx cy radius : ℚ),
          p.Arc M cx cy radius startAngle endAngle ccw
            = p.ArcAngle M cx cy radius radius (normAngle startAngle) sweep)
        ∧ (∀ (MM : MatrixMethods) (M : MathFuncs) (gc : StackGraphicContext) (cx cy radius : ℚ),
          gc.Arc MM M cx cy radius startAngle endAngle ccw
            = gc.ArcAngle MM M cx cy radius radius (normAngle startAngle) sweep)
        ∧ (ccw = false → 0 < sweep ∧ sweep ≤ 2 * Pi)
        ∧ (ccw = true → -(2 * Pi) ≤ sweep ∧ sweep < 0) := by
  have hs := normAngle_range startAngle
  have he := normAngle_range endAngle
  refine ⟨hs, he, ?_⟩
  cases ccw with
  | false =>
    have hn : ¬ (2 * Pi ≤ endAngle - startAngle) := fun hh => h1 ⟨rfl, hh⟩
    by_cases hle : normAngle endAngle ≤ normAngle startAngle
    · refine ⟨normAngle endAngle + Pi * 2 - normAngle startAngle, ?_, ?_, ?_, ?_⟩
      · intro M p cx cy radius
        simp [Path.Arc, hn, hle]
      · intro MM M gc cx cy radius
        simp [StackGraphicContext.Arc, hn, hle]
      · intro _
        constructor <;> linarith [hs.1, hs.2, he.1, he.2]
      · intro hc
        exact absurd hc (by decide)
    · refine ⟨normAngle endAngle - normAngle startAngle, ?_, ?_, ?_, ?_⟩
      · intro M p cx cy radius
        simp [Path.Arc, hn, hle]
      · intro MM M gc cx cy radius
        simp [StackGraphicContext.Arc, hn, hle]
      · intro _
        constructor <;> linarith [hs.1, hs.2, he.1, he.2]
      · intro hc
        exact absurd hc (by decide)
  | true =>
    have hn : ¬ (2 * Pi ≤ startAngle - endAngle) := fun hh => h2 ⟨rfl, hh⟩
    by_cases hge : normAngle startAngle ≤ normAngle endAngle
    · refine ⟨normAngle endAngle - Pi * 2 - normAngle startAngle, ?_, ?_, ?_, ?_⟩
      · intro M p cx cy radius
        simp [Path.Arc, hn, hge]
      · intro MM M gc cx cy radius
        simp [StackGraphicContext.Arc, hn, hge]
      · intro hc
        exact absurd hc (by decide)
      · intro _
        constructor <;> linarith [hs.1, hs.2, he.1, he.2]
    · refine ⟨normAngle endAngle - normAngle startAngle, ?_, ?_, ?_, ?_⟩
      · intro M p cx cy radius
        simp [Path.Arc, hn, hge]
      · intro MM M gc cx cy radius
        simp [StackGraphicContext.Arc, hn, hge]
      · intro hc
        exact absurd hc (by decide)
      · intro _
        constructor <;> linarith [hs.1, hs.2, he.1, he.2]

/-- Example in exact arithmetic: the counterclockwise request from 1 to 2. -/
theorem Arc_sweep_sign_witness :
    (0 ≤ normAngle 1 ∧ normAngle 1 < 2 * Pi)
    ∧ (0 ≤ normAngle 2 ∧ normAngle 2 < 2 * Pi) :=
  ⟨(Arc_sweep_sign 1 2 true (by decide) (by norm_num [Pi])).1,
   (Arc_sweep_sign 1 2 true (by decide) (by norm_num [Pi])).2.1⟩

/-! ## Flatten -/

theorem Outcome.bind_eq_ok {α β : Type} (o : Outcome α) (f : α → Outcome β) (b : β) :
    o.bind f = .ok b ↔ ∃ a, o = .ok a ∧ f a = .ok b := by
  cases o <;> simp [Outcome.bind]

theorem Outcome.ofOption_eq_ok {α : Type} (o : Option α) (a : α) :
    Outcome.ofOption o = .ok a ↔ o = some a := by
  cases o <;> simp [Outcome.ofOption]

theorem Outcome.bind_assoc {α β γ : Type} (o : Outcome α) (f : α → Outcome β)
    (g : β → Outcome γ) : (o.bind f).bind g = o.bind fun a => (f a).bind g := by
  cases o <;> rfl

theorem flattenLoop_append (M : MathFuncs) (acos : ℚ → ℚ) (fuel : Nat) (points : List ℚ)
    (scale : ℚ) (pre post : List PathCmp) (s : FlattenState) :
    flattenLoop M acos fuel points scale (pre ++ post) s
      = (flattenLoop M acos fuel points scale pre s).bind fun r1 =>
        (flattenLoop M acos fuel points scale post r1.2).bind fun r2 =>
        .ok (r1.1 ++ r2.1, r2.2) := by
  induction pre generalizing s with
  | nil =>
    simp only [List.nil_append, flattenLoop, Outcome.bind, List.nil_append]
    cases flattenLoop M acos fuel points scale post s <;> rfl
  | cons c cs ih =>
    simp only [List.cons_append, flattenLoop, Outcome.bind_assoc]
    congr 1
    funext r1
    rw [show cs.append post = cs ++ post from rfl, ih]
    simp only [Outcome.bind_assoc]
    congr 1
    funext r2
    simp only [Outcome.bind]
    cases flattenLoop M acos fuel points scale post r2.2 with
    | ok r3 => simp [List.append_assoc]
    | panic => rfl
    | outOfFuel => rfl

theorem pointsGet_nat (points : List ℚ) (n : Nat) : pointsGet points (n : Int) = points[n]? := by
  simp [pointsGet]

theorem flattenTurn_state (M : MathFuncs) (acos : ℚ → ℚ) (fuel : Nat) (points : List ℚ)
    (scale : ℚ) (s : FlattenState) (cmp : PathCmp) (r : List FlattenerCall × FlattenState)
    (h : flattenTurn M acos fuel points scale s cmp = .ok r) :
    r.2.i = s.i + cmp.coords
    ∧ (cmp ≠ .MoveToCmp → r.2.startX = s.startX ∧ r.2.startY = s.startY)
    ∧ (cmp = .MoveToCmp → pointsGet points s.i = some r.2.startX
        ∧ pointsGet points (s.i + 1) = some r.2.startY) := by
  cases cmp <;>
    simp only [flattenTurn, Outcome.bind_eq_ok, Outcome.ofOption_eq_ok, Outcome.ok.injEq] at h
  case MoveToCmp =>
    obtain ⟨x, hx, y, hy, rfl⟩ := h
    simp [PathCmp.coords, hx, hy]
  case LineToCmp =>
    obtain ⟨x, hx, y, hy, rfl⟩ := h
    simp [PathCmp.coords]
  case QuadCurveToCmp =>
    obtain ⟨q, _, t, _, x, _, y, _, rfl⟩ := h
    simp [PathCmp.coords]
  case CubicCurveToCmp =>
    obtain ⟨q, _, t, _, x, _, y, _, rfl⟩ := h
    simp [PathCmp.coords]
  case ArcAngleCmp =>
    obtain ⟨a0, _, a1, _, a2, _, a3, _, a4, _, a5, _, t, _, rfl⟩ := h
    simp [PathCmp.coords]
  case CloseCmp =>
    subst h
    simp [PathCmp.coords]

theorem flattenLoop_start (M : MathFuncs) (acos : ℚ → ℚ) (fuel : Nat) (points : List ℚ)
    (scale : ℚ) (cmps : List PathCmp) (s : FlattenState) (n : Nat) (hn : s.i = n)
    (r : List FlattenerCall × FlattenState)
    (h : flattenLoop M acos fuel points scale cmps s = .ok r) :
    r.2.i = ((n + coordCount cmps : Nat) : Int)
    ∧ (r.2.startX, r.2.startY)
        = (lastMoveToPoint points cmps n).getD (s.startX, s.startY) := by
  induction cmps generalizing s n r with
  | nil =>
    simp only [flattenLoop, Outcome.ok.injEq] at h
    subst h
    simp [coordCount, lastMoveToPoint, hn]
  | cons c cs ih =>
    simp only [flattenLoop, Outcome.bind_eq_ok, Outcome.ok.injEq] at h
    obtain ⟨r1, h1, r2, h2, rfl⟩ := h
    obtain ⟨hi, hkeep, hmove⟩ := flattenTurn_state M acos fuel points scale s c r1 h1
    have hi1 : r1.2.i = ((n + c.coords : Nat) : Int) := by
      rw [hi, hn]; push_cast; rfl
    obtain ⟨hi2, hst⟩ := ih r1.2 (n + c.coords) hi1 r2 h2
    refine ⟨?_, ?_⟩
    · simp only [hi2, coordCount]
      push_cast
      ring
    · simp only [hst, lastMoveToPoint]
      cases hl : lastMoveToPoint points cs (n + c.coords) with
      | some q => simp
      | none =>
        by_cases hc : c = .MoveToCmp
        · obtain ⟨hx, hy⟩ := hmove hc
          rw [hn, pointsGet_nat] at hx
          have hy1 : points[n + 1]? = some r1.2.startY := by
            have : s.i + 1 = ((n + 1 : Nat) : Int) := by rw [hn]; push_cast; rfl
            rw [this, pointsGet_nat] at hy
            exact hy
          simp [hc, hx, hy1]
        · obtain ⟨hx, hy⟩ := hkeep hc
          simp [hc, hx, hy]

/-- Whenever Flatten returns, each Close command of the path makes it call
LineTo(startX, startY) and then Close on the flattener, right after the calls made
for the commands before it, where (startX, startY) is the point of the most recent
MoveTo command that precedes the Close in the path. -/
theorem Flatten_Close (M : MathFuncs) (acos : ℚ → ℚ) (fuel : Nat) (path : Path) (scale : ℚ)
    (pre post : List PathCmp) (calls : List FlattenerCall)
    (hc : path.Components = pre ++ PathCmp.CloseCmp :: post)
    (hf : Flatten M acos fuel path scale = .ok calls) :
    ∃ (before after : List FlattenerCall) (s : FlattenState),
      flattenLoop M acos fuel path.Points scale pre
          { startX := 0, startY := 0, x := 0, y := 0, i := 0 } = .ok (before, s)
      ∧ calls = before ++ [.LineTo s.startX s.startY, .Close] ++ after
      ∧ ∀ q, lastMoveToPoint path.Points pre 0 = some q → (s.startX, s.startY) = q := by
  simp only [Flatten, hc, Outcome.bind_eq_ok, Outcome.ok.injEq] at hf
  obtain ⟨r, hr, rfl⟩ := hf
  rw [flattenLoop_append] at hr
  simp only [Outcome.bind_eq_ok, Outcome.ok.injEq] at hr
  obtain ⟨r1, h1, r2, h2, rfl⟩ := hr
  simp only [flattenLoop, flattenTurn, Outcome.bind_eq_ok, Outcome.ok.injEq] at h2
  obtain ⟨r3, rfl, r4, h4, rfl⟩ := h2
  refine ⟨r1.1, r4.1 ++ [.End], r1.2, ?_, ?_, ?_⟩
  · exact h1
  · simp [List.append_assoc]
  · intro q hq
    have := (flattenLoop_start M acos fuel path.Points scale pre _ 0 rfl r1 h1).2
    rw [this, hq]
    rfl

/-- Example: the path MoveTo(1, 2), LineTo(3, 4), Close, LineTo(5, 6). -/
theorem Flatten_Close_witness :
    Flatten taylorMath (fun _ => 1) 10 (((NewPath.MoveTo 1 2).LineTo 3 4).Close.LineTo 5 6) 1
      = .ok [.MoveTo 1 2, .LineTo 3 4, .LineJoin, .LineTo 1 2, .Close, .LineTo 5 6, .LineJoin,
             .End]
    ∧ ∃ (before after : List FlattenerCall) (s : FlattenState),
      flattenLoop taylorMath (fun _ => 1) 10
          (((NewPath.MoveTo 1 2).LineTo 3 4).Close.LineTo 5 6).Points 1
          [.MoveToCmp, .LineToCmp]
          { startX := 0, startY := 0, x := 0, y := 0, i := 0 } = .ok (before, s)
      ∧ [FlattenerCall.MoveTo 1 2, .LineTo 3 4, .LineJoin, .LineTo 1 2, .Close, .LineTo 5 6,
          .LineJoin, .End]
        = before ++ [.LineTo s.startX s.startY, .Close] ++ after
      ∧ ∀ q, lastMoveToPoint (((NewPath.MoveTo 1 2).LineTo 3 4).Close.LineTo 5 6).Points
          [.MoveToCmp, .LineToCmp] 0 = some q → (s.startX, s.startY) = q :=
  have hf : Flatten taylorMath (fun _ => 1) 10
      (((NewPath.MoveTo 1 2).LineTo 3 4).Close.LineTo 5 6) 1
      = .ok [.MoveTo 1 2, .LineTo 3 4, .LineJoin, .LineTo 1 2, .Close, .LineTo 5 6, .LineJoin,
             .End] := by
    decide
  ⟨hf, Flatten_Close taylorMath (fun _ => 1) 10
    (((NewPath.MoveTo 1 2).LineTo 3 4).Close.LineTo 5 6) 1 [.MoveToCmp, .LineToCmp] [.LineToCmp]
    _ (by decide) hf⟩

/-- C15, the code at the failing input: the path made by Close and then
QuadraticCurveTo (or BezierCurveTo) on the empty path is built with the public
builder calls, and Flatten panics on it: the slice expression path.Points[i-2:] is
evaluated with i = 0. -/
theorem Flatten_panics_after_Close (M : MathFuncs) (acos : ℚ → ℚ) (fuel : Nat) (scale : ℚ) :
    Path.Built M (NewPath.Close.QuadraticCurveTo 5 6 1 2)
    ∧ Path.Built M (NewPath.Close.BezierCurveTo 5 6 7 8 1 2)
    ∧ Flatten M acos fuel (NewPath.Close.QuadraticCurveTo 5 6 1 2) scale = .panic
    ∧ Flatten M acos fuel (NewPath.Close.BezierCurveTo 5 6 7 8 1 2) scale = .panic := by
  refine ⟨.QuadraticCurveTo _ 5 6 1 2 (.Close _ .NewPath),
    .BezierCurveTo _ 5 6 7 8 1 2 (.Close _ .NewPath), ?_, ?_⟩
  · simp [Flatten, flattenLoop, flattenTurn, Outcome.bind, Outcome.ofOption, pointsFrom,
      Path.QuadraticCurveTo, Path.Close, Path.appendToPath, NewPath]
  · simp [Flatten, flattenLoop, flattenTurn, Outcome.bind, Outcome.ofOption, pointsFrom,
      Path.BezierCurveTo, Path.Close, Path.appendToPath, NewPath]

theorem flattenTurn_scale (M : MathFuncs) (acos : ℚ → ℚ) (fuel : Nat) (points : List ℚ)
    (s1 s2 : ℚ) (s : FlattenState) (cmp : PathCmp) (h : cmp ≠ .ArcAngleCmp) :
    flattenTurn M acos fuel points s1 s cmp = flattenTurn M acos fuel points s2 s cmp := by
  cases cmp <;> first | rfl | exact absurd rfl h

theorem flattenLoop_scale (M : MathFuncs) (acos : ℚ → ℚ) (fuel : Nat) (points : List ℚ)
    (s1 s2 : ℚ) (cmps : List PathCmp) (s : FlattenState) (h : PathCmp.ArcAngleCmp ∉ cmps) :
    flattenLoop M acos fuel points s1 cmps s = flattenLoop M acos fuel points s2 cmps s := by
  induction cmps generalizing s with
  | nil => rfl
  | cons c cs ih =>
    have hc : c ≠ .ArcAngleCmp := fun e => h (by simp [e])
    have hcs : PathCmp.ArcAngleCmp ∉ cs := fun e => h (by simp [e])
    simp only [flattenLoop, flattenTurn_scale M acos fuel points s1 s2 s c hc]
    congr 1
    funext r1
    rw [ih r1.2 hcs]

/-- C18, as amended: in Flatten the flatness tolerance passed to TraceQuad and
TraceCubic is the constant 0.5 and the scale argument reaches TraceArc only, so for
a path with no ArcAngle command the calls Flatten makes on the flattener are the same
for every scale. -/
theorem Flatten_scale_only_arcs (M : MathFuncs) (acos : ℚ → ℚ) (fuel : Nat) (path : Path)
    (scale1 scale2 : ℚ) (h : PathCmp.ArcAngleCmp ∉ path.Components) :
    Flatten M acos fuel path scale1 = Flatten M acos fuel path scale2 := by
  simp only [Flatten, flattenLoop_scale M acos fuel path.Points scale1 scale2 _ _ h]

/-- Witness of C18 as amended: a path with one quadratic curve, at scales 1 and 4. -/
theorem Flatten_scale_only_arcs_witness :
    PathCmp.ArcAngleCmp ∉ ((NewPath.MoveTo 0 0).QuadraticCurveTo 4 8 8 0).Components
    ∧ Flatten taylorMath (fun _ => 1) 10 ((NewPath.MoveTo 0 0).QuadraticCurveTo 4 8 8 0) 1
      = Flatten taylorMath (fun _ => 1) 10 ((NewPath.MoveTo 0 0).QuadraticCurveTo 4 8 8 0) 4 :=
  ⟨by decide,
   Flatten_scale_only_arcs taylorMath (fun _ => 1) 10
     ((NewPath.MoveTo 0 0).QuadraticCurveTo 4 8 8 0) 1 4 (by decide)⟩

/-- C18, counterexample: for the curve from (0, 0) to (8, 0) with control point
(4, 8), Flatten at scale 4 makes the calls of the tolerance 0.5 (four segments), the
same as at scale 1, and not those of the tolerance 0.5 · 4, which gives two segments. -/
theorem Flatten_curve_tolerance_not_scaled :
    Flatten taylorMath (fun _ => 1) 10 ((NewPath.MoveTo 0 0).QuadraticCurveTo 4 8 8 0) 4
      = .ok [.MoveTo 0 0, .LineTo 2 3, .LineTo 4 4, .LineTo 6 3, .LineTo 8 0, .LineTo 8 0, .End]
    ∧ Flatten taylorMath (fun _ => 1) 10 ((NewPath.MoveTo 0 0).QuadraticCurveTo 4 8 8 0) 1
      = .ok [.MoveTo 0 0, .LineTo 2 3, .LineTo 4 4, .LineTo 6 3, .LineTo 8 0, .LineTo 8 0, .End]
    ∧ TraceQuad 10 [0, 0, 4, 8, 8, 0] (0.5 * 4)
      = .ok { lines := [(4, 4), (8, 0)], err := false } := by
  refine ⟨?_, ?_, ?_⟩ <;> decide!

/-! ## TraceCubic: the loop and the depth cap -/

theorem exists_cons_of_succ_le (l : List ℚ) (n : Nat) (h : n + 1 ≤ l.length) :
    ∃ a t, l = a :: t ∧ n ≤ t.length := by
  cases l with
  | nil => simp at h
  | cons a t => exact ⟨a, t, rfl, by simpa using h⟩

theorem getD_append_add (pre l : List ℚ) (n m : Nat) (h : pre.length = n) :
    (pre ++ l).getD (n + m) 0 = l.getD m 0 := by
  subst h
  rw [List.getD_append_right _ _ _ _ (Nat.le_add_right _ _)]
  simp

theorem MonoAt_append_left (pre l : List ℚ) (n : Nat) (h : n + 6 < pre.length) :
    MonoAt (pre ++ l) n ↔ MonoAt pre n := by
  unfold MonoAt
  rw [List.getD_append _ _ _ _ (by omega : n < pre.length),
    List.getD_append _ _ _ _ (by omega : n + 2 < pre.length),
    List.getD_append _ _ _ _ (by omega : n + 4 < pre.length),
    List.getD_append _ _ _ _ (by omega : n + 6 < pre.length)]

theorem SubdivideCubic_in_place (a0 a1 a2 a3 a4 a5 a6 a7 e0 e1 e2 e3 e4 e5 e6 e7 : ℚ)
    (post : List ℚ) :
    SubdivideCubic (a0 :: a1 :: a2 :: a3 :: a4 :: a5 :: a6 :: a7
        :: e0 :: e1 :: e2 :: e3 :: e4 :: e5 :: e6 :: e7 :: post) 0 8 0
      = some (
        ((((a0 + a2) / 2 + (a2 + a4) / 2) / 2 + ((a2 + a4) / 2 + (a4 + a6) / 2) / 2) / 2)
        :: ((((a1 + a3) / 2 + (a3 + a5) / 2) / 2 + ((a3 + a5) / 2 + (a5 + a7) / 2) / 2) / 2)
        :: (((a2 + a4) / 2 + (a4 + a6) / 2) / 2)
        :: (((a3 + a5) / 2 + (a5 + a7) / 2) / 2)
        :: ((a4 + a6) / 2)
        :: ((a5 + a7) / 2)
        :: a6 :: a7
        :: a0 :: a1
        :: ((a0 + a2) / 2)
        :: ((a1 + a3) / 2)
        :: (((a0 + a2) / 2 + (a2 + a4) / 2) / 2)
        :: (((a1 + a3) / 2 + (a3 + a5) / 2) / 2)
        :: ((((a0 + a2) / 2 + (a2 + a4) / 2) / 2 + ((a2 + a4) / 2 + (a4 + a6) / 2) / 2) / 2)
        :: ((((a1 + a3) / 2 + (a3 + a5) / 2) / 2 + ((a3 + a5) / 2 + (a5 + a7) / 2) / 2) / 2)
        :: post) := by
  unfold SubdivideCubic
  rw [if_pos (by simp)]
  simp only [Nat.zero_add, Nat.add_zero, Nat.reduceAdd, List.set_cons_succ, List.set_cons_zero,
    List.getD_cons_succ, List.getD_cons_zero]

theorem cubicTurn_cons (thr : ℚ) (s : TraceState) (a0 a1 a2 a3 a4 a5 a6 a7 : ℚ)
    (rest : List ℚ)
    (hc : pointsFrom s.curves s.i = some (a0 :: a1 :: a2 :: a3 :: a4 :: a5 :: a6 :: a7 :: rest)) :
    cubicTurn thr s =
      if (|(a2 - a6) * (a7 - a1) - (a3 - a7) * (a6 - a0)|
            + |(a4 - a6) * (a7 - a1) - (a5 - a7) * (a6 - a0)|)
          * (|(a2 - a6) * (a7 - a1) - (a3 - a7) * (a6 - a0)|
            + |(a4 - a6) * (a7 - a1) - (a5 - a7) * (a6 - a0)|)
          ≤ thr * ((a6 - a0) * (a6 - a0) + (a7 - a1) * (a7 - a1))
          ∨ s.i = ((CurveRecursionLimit * 8 - 8 : Nat) : Int) then
        some { s with lines := s.lines ++ [(a6, a7)], i := s.i - 8 }
      else
        (SubdivideCubic (a0 :: a1 :: a2 :: a3 :: a4 :: a5 :: a6 :: a7 :: rest) 0 8 0).bind
          fun part => some { s with curves := s.curves.take s.i.toNat ++ part, i := s.i + 8 } := by
  unfold cubicTurn
  rw [hc]
  rfl


theorem cubic_not_flat (a0 a1 a2 a3 a4 a5 a6 a7 : ℚ) (h : a0 < a6) :
    ¬ ((|(a2 - a6) * (a7 - a1) - (a3 - a7) * (a6 - a0)|
            + |(a4 - a6) * (a7 - a1) - (a5 - a7) * (a6 - a0)|)
          * (|(a2 - a6) * (a7 - a1) - (a3 - a7) * (a6 - a0)|
            + |(a4 - a6) * (a7 - a1) - (a5 - a7) * (a6 - a0)|)
          ≤ (-1) * ((a6 - a0) * (a6 - a0) + (a7 - a1) * (a7 - a1))) := by
  intro hle
  have h1 := mul_self_nonneg (|(a2 - a6) * (a7 - a1) - (a3 - a7) * (a6 - a0)|
            + |(a4 - a6) * (a7 - a1) - (a5 - a7) * (a6 - a0)|)
  have h2 : 0 < (a6 - a0) * (a6 - a0) := mul_pos (by linarith) (by linarith)
  have h3 := mul_self_nonneg (a7 - a1)
  linarith

theorem exists_eight_cons (l : List ℚ) (h : 8 ≤ l.length) :
    ∃ a0 a1 a2 a3 a4 a5 a6 a7 rest,
      l = a0 :: a1 :: a2 :: a3 :: a4 :: a5 :: a6 :: a7 :: rest := by
  obtain ⟨a0, t0, rfl, h0⟩ := exists_cons_of_succ_le l 7 h
  obtain ⟨a1, t1, rfl, h1⟩ := exists_cons_of_succ_le t0 6 h0
  obtain ⟨a2, t2, rfl, h2⟩ := exists_cons_of_succ_le t1 5 h1
  obtain ⟨a3, t3, rfl, h3⟩ := exists_cons_of_succ_le t2 4 h2
  obtain ⟨a4, t4, rfl, h4⟩ := exists_cons_of_succ_le t3 3 h3
  obtain ⟨a5, t5, rfl, h5⟩ := exists_cons_of_succ_le t4 2 h4
  obtain ⟨a6, t6, rfl, h6⟩ := exists_cons_of_succ_le t5 1 h5
  obtain ⟨a7, t7, rfl, -⟩ := exists_cons_of_succ_le t6 0 h6
  exact ⟨a0, a1, a2, a3, a4, a5, a6, a7, t7, rfl⟩

theorem cubicTurn_inv (s : TraceState) (h : CubicStackInv s) :
    ∃ s1, cubicTurn (-1) s = some s1 ∧ CubicStackInv s1 := by
  obtain ⟨hlen, k, hk, hi, hmono⟩ := h
  obtain ⟨pre, hpredef⟩ : ∃ pre, s.curves.take (8 * k) = pre := ⟨_, rfl⟩
  obtain ⟨c, hcdef⟩ : ∃ c, s.curves.drop (8 * k) = c := ⟨_, rfl⟩
  have hfrom : pointsFrom s.curves s.i = some c := by
    unfold pointsFrom
    rw [hi, if_pos ⟨by omega, by simp only [Int.toNat_ofNat]; omega⟩, Int.toNat_ofNat, hcdef]
  have hsplit : pre ++ c = s.curves := by
    rw [← hpredef, ← hcdef]
    exact List.take_append_drop _ _
  have hpre : pre.length = 8 * k := by
    rw [← hpredef, List.length_take]; omega
  have hdrop : 8 ≤ c.length := by
    rw [← hcdef, List.length_drop]; omega
  obtain ⟨a0, a1, a2, a3, a4, a5, a6, a7, rest, rfl⟩ := exists_eight_cons c hdrop
  rw [cubicTurn_cons _ _ _ _ _ _ _ _ _ _ _ hfrom]
  by_cases hk31 : k = 31
  · -- the line forced at the last depth
    subst hk31
    rw [if_pos (Or.inr (by rw [hi]; rfl))]
    refine ⟨_, rfl, hlen, 30, by omega, ?_, ?_⟩
    · show s.i - 8 = _
      rw [hi]; rfl
    · intro j hj
      exact hmono j (by omega)
  · have hk30 : k ≤ 30 := by omega
    have hm := hmono k le_rfl
    rw [← hsplit] at hm hlen
    unfold MonoAt at hm
    have z0 := getD_append_add pre (a0 :: a1 :: a2 :: a3 :: a4 :: a5 :: a6 :: a7 :: rest)
      (8 * k) 0 hpre
    rw [Nat.add_zero] at z0
    rw [z0, getD_append_add _ _ _ 2 hpre, getD_append_add _ _ _ 4 hpre,
      getD_append_add _ _ _ 6 hpre] at hm
    simp only [List.getD_cons_succ, List.getD_cons_zero] at hm
    obtain ⟨m1, m2, m3, m4⟩ := hm
    have hne : ¬ s.i = ((CurveRecursionLimit * 8 - 8 : Nat) : Int) := by
      rw [hi]
      simp only [CurveRecursionLimit]
      omega
    rw [if_neg (not_or.mpr ⟨cubic_not_flat _ _ _ _ _ _ _ _ m4, hne⟩)]
    have hrest : 8 ≤ rest.length := by
      simp only [List.length_append, List.length_cons, hpre] at hlen
      omega
    obtain ⟨e0, e1, e2, e3, e4, e5, e6, e7, post, rfl⟩ := exists_eight_cons rest hrest
    rw [SubdivideCubic_in_place]
    refine ⟨_, rfl, ?_, k + 1, by omega, ?_, ?_⟩
    · show (s.curves.take s.i.toNat ++ _).length = 256
      rw [hi, Int.toNat_ofNat, hpredef]
      simp only [List.length_append, List.length_cons] at hlen ⊢
      omega
    · show s.i + 8 = _
      rw [hi]
      push_cast
      ring
    · intro j hj
      show MonoAt (s.curves.take s.i.toNat ++ _) (8 * j)
      rw [hi, Int.toNat_ofNat, hpredef]
      rcases Nat.lt_or_ge j k with hjk | hjk
      · have hold := hmono j (by omega)
        rw [← hsplit] at hold
        rw [MonoAt_append_left _ _ _ (by omega)]
        exact (MonoAt_append_left _ _ _ (by omega)).mp hold
      · rcases Nat.eq_or_lt_of_le hjk with hjk | hjk
        · subst hjk
          unfold MonoAt
          have i0 : 8 * k = 8 * k + 0 := rfl
          rw [getD_append_add _ _ _ 2 hpre, getD_append_add _ _ _ 4 hpre,
            getD_append_add _ _ _ 6 hpre, i0, getD_append_add _ _ _ 0 hpre]
          simp only [List.getD_cons_succ, List.getD_cons_zero]
          refine ⟨?_, ?_, ?_, ?_⟩ <;> linarith
        · have hj1 : j = k + 1 := by omega
          subst hj1
          unfold MonoAt
          have i0 : 8 * (k + 1) = 8 * k + 8 := by ring
          have i2 : 8 * (k + 1) + 2 = 8 * k + 10 := by ring
          have i4 : 8 * (k + 1) + 4 = 8 * k + 12 := by ring
          have i6 : 8 * (k + 1) + 6 = 8 * k + 14 := by ring
          rw [i2, i4, i6, i0, getD_append_add _ _ _ 8 hpre, getD_append_add _ _ _ 10 hpre,
            getD_append_add _ _ _ 12 hpre, getD_append_add _ _ _ 14 hpre]
          simp only [List.getD_cons_succ, List.getD_cons_zero]
          refine ⟨?_, ?_, ?_, ?_⟩ <;> linarith

theorem traceLoop_cubic_never_done :
    ∀ (fuel : Nat) (s : TraceState), CubicStackInv s →
      traceLoop (cubicTurn (-1)) fuel s = .outOfFuel := by
  intro fuel
  induction fuel with
  | zero =>
    intro s h
    obtain ⟨_, k, _, hi, _⟩ := h
    rw [traceLoop, if_pos (by rw [hi]; omega)]
  | succ n ih =>
    intro s h
    obtain ⟨s1, h1, h2⟩ := cubicTurn_inv s h
    obtain ⟨_, k, _, hi, _⟩ := h
    rw [traceLoop, if_pos (by rw [hi]; omega), h1]
    exact ih s1 h2

/-- C16, the code at the failing input: for the cubic from (0, 0) to (1, 0) with both
control points at (0, 0) and the flattening threshold -1, the loop of TraceCubic
never ends: whatever number of turns it is allowed, it is still running when they are
used up.  The depth cap forces a line at depth 31 and the loop then goes on with the
second half that was left at depth 30, for ever. -/
theorem TraceCubic_never_returns (fuel : Nat) :
    TraceCubic fuel [0, 0, 0, 0, 0, 0, 1, 0] (-1) = .outOfFuel := by
  have h2 : ¬ ([0, 0, 0, 0, 0, 0, 1, 0] : List ℚ).length < 8 := by decide
  rw [TraceCubic, if_neg h2]
  simp only []
  rw [traceLoop_cubic_never_done]
  · rfl
  · refine ⟨?_, 0, by omega, rfl, ?_⟩
    · show (List.take 8 [0, 0, 0, 0, 0, 0, 1, 0]
          ++ List.replicate (CurveRecursionLimit * 8 - 8) (0 : ℚ)).length = 256
      rw [List.length_append, List.length_replicate]
      rfl
    intro j hj
    have : j = 0 := by omega
    subst this
    unfold MonoAt
    refine ⟨?_, ?_, ?_, ?_⟩ <;> decide!

/-! ## TraceCubic on a closed curve; TraceArc -/

theorem traceLoop_done (turn : TraceState → Option TraceState) (fuel : Nat) (s : TraceState)
    (h : s.i < 0) : traceLoop turn fuel s = .ok s.lines := by
  cases fuel <;> simp [traceLoop, not_le.mpr h]

/-- C17, the code at the failing input: for the closed cubic that starts and ends at
(0, 0) with the control points (100, 100) and (-100, 100), and the threshold 1/2,
TraceCubic returns after one turn with the single point (0, 0), so the polyline is
the point (0, 0), while the curve passes through (0, 75) at the parameter 1/2. -/
theorem TraceCubic_closed_curve_one_point (fuel : Nat) :
    TraceCubic (fuel + 1) [0, 0, 100, 100, -100, 100, 0, 0] (1 / 2)
        = .ok { lines := [(0, 0)], err := false }
      ∧ cubicBezierPoint [0, 0, 100, 100, -100, 100, 0, 0] (1 / 2) = (0, 75) := by
  refine ⟨?_, by decide!⟩
  have h1 : cubicTurn (1 / 2)
      { curves := List.take 8 [0, 0, 100, 100, -100, 100, 0, 0]
          ++ List.replicate (CurveRecursionLimit * 8 - 8) 0, i := 0, lines := [] }
      = some { curves := List.take 8 [0, 0, 100, 100, -100, 100, 0, 0]
          ++ List.replicate (CurveRecursionLimit * 8 - 8) 0, i := -8, lines := [(0, 0)] } := by
    decide!
  have h2 : ¬ ([0, 0, 100, 100, -100, 100, 0, 0] : List ℚ).length < 8 := by decide
  rw [TraceCubic, if_neg h2]
  simp only [traceLoop, h1]
  rw [if_pos (by decide), traceLoop_done _ _ _ (by decide)]
  rfl

theorem traceArcLoop_ok (M : MathFuncs) (x y rx ry endA da : ℚ) (clockWise : Bool) :
    ∀ (fuel : Nat) (s : ArcState) (r : List (ℚ × ℚ) × (ℚ × ℚ)),
      traceArcLoop M x y rx ry endA da clockWise fuel s = .ok r →
      r.2 = (x + M.Cos endA * rx, y + M.Sin endA * ry)
        ∧ ∃ m, r.1 = s.lines ++ (List.range m).map fun (k : Nat) =>
            (x + M.Cos (s.angle + (k : ℚ) * da) * rx, y + M.Sin (s.angle + (k : ℚ) * da) * ry) := by
  intro fuel
  induction fuel with
  | zero =>
    intro s r h
    rw [traceArcLoop] at h
    split at h
    · cases h
      exact ⟨rfl, 0, by simp⟩
    · cases h
  | succ n ih =>
    intro s r h
    rw [traceArcLoop] at h
    split at h
    · cases h
      exact ⟨rfl, 0, by simp⟩
    · obtain ⟨h2, m, hm⟩ := ih _ r h
      refine ⟨h2, m + 1, ?_⟩
      rw [hm, List.range_succ_eq_map]
      simp only [List.append_assoc, List.singleton_append, List.map_cons, List.map_map,
        Nat.cast_zero, zero_mul, add_zero]
      congr 2
      apply List.map_congr_left
      intro k _
      simp only [Function.comp, Nat.cast_succ]
      have e : s.angle + da + (k : ℚ) * da = s.angle + ((k : ℚ) + 1) * da := by ring
      rw [e]

/-- C19: when TraceArc returns, the point it returns is
(x + cos(start + angle) · rx, y + sin(start + angle) · ry), computed from the end angle,
and the k-th point it emitted before (k = 1, 2, ...) is the point of the ellipse at the
angle start + k · dθ, where dθ is the step 2 · acos(ra / (ra + 0.125 / scale)) with the
sign of the sweep. -/
theorem TraceArc_points (M : MathFuncs) (acos : ℚ → ℚ) (fuel : Nat)
    (x y rx ry start angle scale : ℚ) (lines : List (ℚ × ℚ)) (last : ℚ × ℚ)
    (h : TraceArc M acos fuel x y rx ry start angle scale = .ok (lines, last)) :
    last = (x + M.Cos (start + angle) * rx, y + M.Sin (start + angle) * ry)
      ∧ ∃ da : ℚ,
          da = (if angle < 0 then -1 else 1)
                * (acos ((|rx| + |ry|) / 2 / ((|rx| + |ry|) / 2 + 0.125 / scale)) * 2)
          ∧ ∀ k : Nat, k < lines.length →
              lines[k]? = some (x + M.Cos (start + ((k : ℚ) + 1) * da) * rx,
                                y + M.Sin (start + ((k : ℚ) + 1) * da) * ry) := by
  unfold TraceArc at h
  obtain ⟨h1, m, hm⟩ := traceArcLoop_ok _ _ _ _ _ _ _ _ _ _ _ h
  refine ⟨h1, _, rfl, ?_⟩
  simp only [List.nil_append] at hm
  intro k hk
  rw [hm] at hk ⊢
  simp only [List.length_map, List.length_range] at hk
  rw [List.getElem?_map, List.getElem?_range hk]
  simp only [Option.map_some']
  have key : ∀ D : ℚ,
      (start + (if (!(if angle < 0 then false else true)) = true then -D else D))
          + (k : ℚ) * (if (!(if angle < 0 then false else true)) = true then -D else D)
        = start + ((k : ℚ) + 1) * ((if angle < 0 then -1 else 1) * D) := by
    intro D
    by_cases ha : angle < 0 <;> simp [ha] <;> ring
  rw [key]

/-- Witness of C19: a sweep of 1 radian from angle 0 on the unit circle, with a step
of 1/2; one point is emitted before the returned end point. -/
theorem TraceArc_points_witness :
    TraceArc taylorMath (fun _ => 1 / 4) 100 0 0 1 1 0 1 1
        = .ok ([(337 / 384, 23 / 48)], (13 / 24, 5 / 6))
      ∧ ((13 / 24, 5 / 6) : ℚ × ℚ)
          = (0 + taylorMath.Cos (0 + 1) * 1, 0 + taylorMath.Sin (0 + 1) * 1) :=
  ⟨by decide!, (TraceArc_points taylorMath (fun _ => 1 / 4) 100 0 0 1 1 0 1 1
      [(337 / 384, 23 / 48)] (13 / 24, 5 / 6) (by decide!)).1⟩

theorem traceArcLoop_returns_clockwise (M : MathFuncs) (x y rx ry endA da : ℚ) :
    ∀ (n : Nat) (s : ArcState), endA - da / 4 - s.angle ≤ n * da →
      ∃ r, traceArcLoop M x y rx ry endA da true n s = .ok r := by
  intro n
  induction n with
  | zero =>
    intro s h
    have h1 : ¬ s.angle < endA - da / 4 := by
      simp only [Nat.cast_zero, zero_mul] at h
      linarith
    rw [traceArcLoop, if_pos (by simp [h1])]
    exact ⟨_, rfl⟩
  | succ n ih =>
    intro s h
    rw [traceArcLoop]
    split
    · exact ⟨_, rfl⟩
    · apply ih
      show endA - da / 4 - (s.angle + da) ≤ n * da
      push_cast at h
      linarith

theorem traceArcLoop_returns_counterclockwise (M : MathFuncs) (x y rx ry endA da : ℚ) :
    ∀ (n : Nat) (s : ArcState), s.angle - (endA - da / 4) < n * (-da) →
      ∃ r, traceArcLoop M x y rx ry endA da false n s = .ok r := by
  intro n
  induction n with
  | zero =>
    intro s h
    have h1 : s.angle < endA - da / 4 := by
      simp only [Nat.cast_zero, zero_mul] at h
      linarith
    rw [traceArcLoop, if_pos (by simp [h1])]
    exact ⟨_, rfl⟩
  | succ n ih =>
    intro s h
    rw [traceArcLoop]
    split
    · exact ⟨_, rfl⟩
    · apply ih
      show s.angle + da - (endA - da / 4) < n * (-da)
      push_cast at h
      linarith

/-- With a step that is not zero the loop of TraceArc ends: if `acos` gives a positive
value for the ratio ra / (ra + 0.125 / scale), some number of turns is enough for
TraceArc to return. -/
theorem TraceArc_returns_of_step_pos (M : MathFuncs) (acos : ℚ → ℚ)
    (x y rx ry start angle scale : ℚ)
    (h0 : 0 < acos ((|rx| + |ry|) / 2 / ((|rx| + |ry|) / 2 + 0.125 / scale))) :
    ∃ fuel r, TraceArc M acos fuel x y rx ry start angle scale = .ok r := by
  unfold TraceArc
  by_cases ha : angle < 0
  · simp only [ha, if_true, Bool.not_false]
    generalize acos ((|rx| + |ry|) / 2 / ((|rx| + |ry|) / 2 + 0.125 / scale)) = a at h0
    obtain ⟨n, hn⟩ := exists_nat_gt ((start + -(a * 2) - (start + angle - -(a * 2) / 4)) / (a * 2))
    refine ⟨n, ?_⟩
    apply traceArcLoop_returns_counterclockwise
    show start + -(a * 2) - (start + angle - -(a * 2) / 4) < n * (- -(a * 2))
    rw [div_lt_iff₀ (by linarith)] at hn
    linarith
  · simp only [ha, if_false, Bool.not_true, Bool.false_eq_true]
    generalize acos ((|rx| + |ry|) / 2 / ((|rx| + |ry|) / 2 + 0.125 / scale)) = a at h0
    obtain ⟨n, hn⟩ := exists_nat_ge ((start + angle - a * 2 / 4 - (start + a * 2)) / (a * 2))
    refine ⟨n, ?_⟩
    apply traceArcLoop_returns_clockwise
    show start + angle - a * 2 / 4 - (start + a * 2) ≤ n * (a * 2)
    rw [div_le_iff₀ (by linarith)] at hn
    linarith

theorem traceArcLoop_stuck (M : MathFuncs) (x y rx ry endA : ℚ) (clockWise : Bool) :
    ∀ (fuel : Nat) (s : ArcState), (decide (s.angle < endA - 0 / 4) != clockWise) = false →
      traceArcLoop M x y rx ry endA 0 clockWise fuel s = .outOfFuel := by
  intro fuel
  induction fuel with
  | zero =>
    intro s h
    rw [traceArcLoop, h]
    rfl
  | succ n ih =>
    intro s h
    rw [traceArcLoop, h]
    simp only [Bool.false_eq_true, if_false]
    apply ih
    simpa using h

/-- C20, the code where the step is zero: when `math.Acos` gives 0 for the ratio
ra / (ra + 0.125 / scale), which it does when the ratio is 1, the step dθ is 0 and for
a sweep other than 0 the loop of TraceArc never ends: whatever number of turns it is
allowed, it is still running when they are used up. -/
theorem TraceArc_zero_step_never_returns (M : MathFuncs) (acos : ℚ → ℚ)
    (x y rx ry start angle scale : ℚ)
    (h0 : acos ((|rx| + |ry|) / 2 / ((|rx| + |ry|) / 2 + 0.125 / scale)) = 0)
    (ha : angle ≠ 0) (fuel : Nat) :
    TraceArc M acos fuel x y rx ry start angle scale = .outOfFuel := by
  unfold TraceArc
  simp only [h0, zero_mul, neg_zero, ite_self, add_zero]
  apply traceArcLoop_stuck
  rcases lt_or_gt_of_ne ha with h | h
  · have : ¬ start < start + angle := by linarith
    simp [h, this]
  · have h1 : ¬ angle < 0 := by linarith
    have : start < start + angle := by linarith
    simp [h1, this]

/-- Witness of C20 at a step of zero: the unit circle, a sweep of 1 radian, 1000
turns. -/
theorem TraceArc_zero_step_never_returns_witness :
    TraceArc taylorMath (fun _ => 0) 1000 0 0 1 1 0 1 1 = .outOfFuel :=
  TraceArc_zero_step_never_returns taylorMath (fun _ => 0) 0 0 1 1 0 1 1 rfl (by norm_num) 1000

/-! ## The painting cycle and the clip mask -/

/-- The painter of `clippedPainter`, one cycle with a span that covers the pixel, for
each of the eleven operators in the order of their constants: the pixel under the
mask alpha 0 is kept by SourceAtop, SourceOver, DestinationOut, DestinationOver,
Lighter and Xor, and cleared by SourceIn, SourceOut, DestinationAtop, DestinationIn
and Copy. -/
theorem RGBAPainter.cycle_masked_pixel_by_operator :
    [SourceAtop, SourceIn, SourceOut, SourceOver, DestinationAtop, DestinationIn,
      DestinationOut, DestinationOver, Lighter, Copy, Xor].map (fun op =>
        (RGBAPainter.cycle (fun _ => none) (clippedPainter op)
          [{ Y := 0, X0 := 0, X1 := 1, Alpha := 0xffff }]).bind
        fun r => r.Image.pixelBytes 0 0)
      = [some [10, 20, 30, 255], some [0, 0, 0, 0], some [0, 0, 0, 0], some [10, 20, 30, 255],
         some [0, 0, 0, 0], some [0, 0, 0, 0], some [10, 20, 30, 255], some [10, 20, 30, 255],
         some [10, 20, 30, 255], some [0, 0, 0, 0], some [10, 20, 30, 255]] := by
  decide!

theorem RGBAPainter.End_noShadow (e1 e2 : RGBAPainter → Option RGBAPainter) (r : RGBAPainter)
    (h : r.hasShadow = false) : r.End e1 = r.End e2 := by
  unfold RGBAPainter.End
  simp [h]

/-- C11, the code at the failing input: a 1 x 1 image holds the pixel
(10, 20, 30, 255), the clip mask has alpha 0 at that pixel, the operator is Copy and
there is no shadow.  One cycle Begin, Paint, End with a span that covers the pixel
leaves the pixel (0, 0, 0, 0): End composes the whole image and does not look at the
mask. -/
theorem RGBAPainter.cycle_changes_masked_pixel (endShadow : RGBAPainter → Option RGBAPainter) :
    ((clippedPainter Copy).Mask.bind fun m => m.AlphaAt 0 0) = some 0
    ∧ (clippedPainter Copy).Image.pixelBytes 0 0 = some [10, 20, 30, 255]
    ∧ ((RGBAPainter.cycle endShadow (clippedPainter Copy)
          [{ Y := 0, X0 := 0, X1 := 1, Alpha := 0xffff }]).bind
        fun r => r.Image.pixelBytes 0 0) = some [0, 0, 0, 0] := by
  refine ⟨by decide!, by decide!, ?_⟩
  have h1 : (((clippedPainter Copy).Begin.bind fun r =>
      r.Paint [{ Y := 0, X0 := 0, X1 := 1, Alpha := 0xffff }]).map fun r => r.hasShadow)
      = some false := by decide!
  have h2 : ((RGBAPainter.cycle (fun _ => none) (clippedPainter Copy)
          [{ Y := 0, X0 := 0, X1 := 1, Alpha := 0xffff }]).bind
        fun r => r.Image.pixelBytes 0 0) = some [0, 0, 0, 0] := by decide!
  have e : RGBAPainter.cycle endShadow (clippedPainter Copy)
        [{ Y := 0, X0 := 0, X1 := 1, Alpha := 0xffff }]
      = RGBAPainter.cycle (fun _ => none) (clippedPainter Copy)
        [{ Y := 0, X0 := 0, X1 := 1, Alpha := 0xffff }] := by
    unfold RGBAPainter.cycle
    cases hB : (clippedPainter Copy).Begin with
    | none => rfl
    | some rB =>
      rw [hB] at h1
      simp only [Option.bind_eq_bind, Option.some_bind] at h1 ⊢
      cases hP : rB.Paint [{ Y := 0, X0 := 0, X1 := 1, Alpha := 0xffff }] with
      | none => rfl
      | some rP =>
        rw [hP] at h1
        simp only [Option.some_bind, Option.map_some', Option.some.injEq] at h1 ⊢
        exact RGBAPainter.End_noShadow _ _ _ h1
  rw [e]
  exact h2

/-! ## LineStroker: segments, zero-length segments -/

theorem Outcome.ok_bind {α β : Type} (a : α) (f : α → Outcome β) :
    (Outcome.ok a).bind f = f a := rfl

theorem LineStroker.joined_of_zero (S : StrokerMath) (M : MathFuncs) (fuel : Nat)
    (l : LineStroker) (ar1 ar2 : List ℚ) :
    l.joined S M fuel 0 ar1 ar2 = .ok (ar1, ar2) := by
  simp [LineStroker.joined]

theorem LineStroker.LineTo_current_point (S : StrokerMath) (M : MathFuncs) (fuel : Nat)
    (l : LineStroker) (h0 : S.Sqrt 0 = 0) : l.LineTo S M fuel l.x l.y = .ok l := by
  simp [LineStroker.LineTo, LineStroker.line, vectorDistance, h0]

theorem LineStroker.feed_append (S : StrokerMath) (M : MathFuncs) (fuel : Nat)
    (cs ds : List FlattenerCall) (l : LineStroker) :
    l.feed S M fuel (cs ++ ds)
      = (l.feed S M fuel cs).bind fun r1 =>
          (r1.2.feed S M fuel ds).bind fun r2 => .ok (r1.1 ++ r2.1, r2.2) := by
  induction cs generalizing l with
  | nil =>
    simp only [List.nil_append, LineStroker.feed, Outcome.bind, List.nil_append]
    cases l.feed S M fuel ds <;> rfl
  | cons c cs ih =>
    simp only [List.cons_append, LineStroker.feed, Outcome.bind_assoc]
    congr 1
    funext r1
    rw [show cs.append ds = cs ++ ds from rfl, ih]
    simp only [Outcome.bind_assoc]
    congr 1
    funext r2
    simp only [Outcome.bind]
    cases r2.2.feed S M fuel ds with
    | ok r3 => simp [List.append_assoc]
    | panic => rfl
    | outOfFuel => rfl

theorem LineStroker.feed_zero_lines (S : StrokerMath) (M : MathFuncs) (fuel : Nat)
    (h0 : S.Sqrt 0 = 0) (n : Nat) (l : LineStroker) :
    l.feed S M fuel (List.replicate n (.LineTo l.x l.y)) = .ok ([], l) := by
  induction n with
  | zero => rfl
  | succ n ih =>
    simp only [List.replicate_succ, LineStroker.feed, LineStroker.receive,
      LineStroker.LineTo_current_point S M fuel l h0, Outcome.ok_bind, ih, List.append_nil]

theorem LineStroker.End_of_empty (S : StrokerMath) (M : MathFuncs) (fuel : Nat)
    (l : LineStroker) (hv : l.vertices = []) (hr : l.rewind = []) :
    ∃ l1, l.End S M fuel = .ok ([.End], l1) ∧ l1.vertices = [] ∧ l1.rewind = [] := by
  refine ⟨{ l with vertices := [], rewind := [], join := 0, lastx := 0, lasty := 0,
                   secondx := 0, secondy := 0, x := 0, y := 0, nx := 0, ny := 0 }, ?_, rfl, rfl⟩
  simp [LineStroker.End, hv, hr, Outcome.bind, Outcome.ofOption, LineStroker.rewindCalls]

/-- C27: a zero-length segment is skipped.  LineTo to the current point gives back the
stroker with every field as it was (vertices, rewind, the join counter and the rest),
math.Sqrt being 0 at 0; and fed MoveTo and then any number of LineTo to that same point
and End, a stroker whose lists were empty emits no polygon: the only call made on the
downstream flattener is End, and the lists are empty afterwards. -/
theorem LineStroker.zero_length_segment_skipped (S : StrokerMath) (M : MathFuncs) (fuel : Nat)
    (l : LineStroker) (h0 : S.Sqrt 0 = 0) :
    l.LineTo S M fuel l.x l.y = .ok l
    ∧ ∀ (x y : ℚ) (n : Nat), l.vertices = [] → l.rewind = [] →
        ∃ l1, l.feed S M fuel (.MoveTo x y :: (List.replicate n (.LineTo x y) ++ [.End]))
            = .ok ([.End], l1) ∧ l1.vertices = [] ∧ l1.rewind = [] := by
  refine ⟨LineStroker.LineTo_current_point S M fuel l h0, ?_⟩
  intro x y n hv hr
  obtain ⟨l1, h1, h2, h3⟩ := LineStroker.End_of_empty S M fuel (l.MoveTo x y) hv hr
  refine ⟨l1, ?_, h2, h3⟩
  have hz := LineStroker.feed_zero_lines S M fuel h0 n (l.MoveTo x y)
  have hxy : (l.MoveTo x y).x = x ∧ (l.MoveTo x y).y = y := ⟨rfl, rfl⟩
  rw [hxy.1, hxy.2] at hz
  rw [LineStroker.feed, LineStroker.receive, Outcome.ok_bind, LineStroker.feed_append, hz,
    Outcome.ok_bind]
  simp only [LineStroker.feed, LineStroker.receive, h1, Outcome.ok_bind, List.nil_append,
    List.append_nil]

/-- Witness of C27: a stroker of half width 5 with round cap and round join, at its
current point (0, 0). -/
theorem LineStroker.zero_length_segment_skipped_witness :
    circleStroker.Sqrt 0 = 0
    ∧ (newLineStroker 5 40 .LineCapRound .LineJoinRound).LineTo circleStroker circleMath 10 0 0
        = .ok (newLineStroker 5 40 .LineCapRound .LineJoinRound) :=
  ⟨by decide!, (LineStroker.zero_length_segment_skipped circleStroker circleMath 10
      (newLineStroker 5 40 .LineCapRound .LineJoinRound) (by decide!)).1⟩

/-- C21: a horizontal segment from (x1, y) to (x2, y) with x1 < x2, stroked with butt cap
and any join style at half line width h, fed as MoveTo, LineTo, End, makes the stroker
emit exactly MoveTo (x1, y − h), LineTo (x2, y − h), LineTo (x2, y + h), LineTo
(x1, y + h), LineTo (x1, y − h), End: the outline is 2h across.  The square root of
the squared length is taken to be x2 − x1, its exact value. -/
theorem LineStroker.horizontal_segment (S : StrokerMath) (M : MathFuncs) (fuel : Nat)
    (l : LineStroker) (x1 x2 y : ℚ) (hx : x1 < x2)
    (hS : S.Sqrt ((x2 - x1) * (x2 - x1) + (y - y) * (y - y)) = x2 - x1)
    (hcap : l.Cap = .LineCapButt) (hv : l.vertices = []) (hr : l.rewind = []) :
    ∃ l1, l.feed S M fuel [.MoveTo x1 y, .LineTo x2 y, .End]
      = .ok ([.MoveTo x1 (y - l.HalfLineWidth), .LineTo x2 (y - l.HalfLineWidth),
              .LineTo x2 (y + l.HalfLineWidth), .LineTo x1 (y + l.HalfLineWidth),
              .LineTo x1 (y - l.HalfLineWidth), .End], l1) := by
  have hd : x2 - x1 ≠ 0 := by linarith
  have hdiv : (x2 - x1) * l.HalfLineWidth / (x2 - x1) = l.HalfLineWidth := by
    field_simp
  have hplr : pointLineRelationship x1 y x1 y x2 y = 0 := by
    unfold pointLineRelationship; ring
  have hline : (l.MoveTo x1 y).LineTo S M fuel x2 y
      = .ok { l.MoveTo x1 y with
              join := 1
              vertices := [x1, y - l.HalfLineWidth, x2, y - l.HalfLineWidth]
              rewind := [x1, y + l.HalfLineWidth, x2, y + l.HalfLineWidth]
              lastx := x1
              lasty := y
              x := x2
              y := y
              nx := 0
              ny := -l.HalfLineWidth
              secondx := x2
              secondy := y } := by
    simp only [LineStroker.LineTo, LineStroker.line, LineStroker.MoveTo, vectorDistance, hS,
      hplr, LineStroker.joined_of_zero, Outcome.ok_bind, if_pos hd, hv, hr, hdiv]
    simp [sub_eq_add_neg]
  refine ⟨{ l.MoveTo x1 y with
            join := 0, vertices := [], rewind := [], lastx := 0, lasty := 0, x := 0, y := 0,
            nx := 0, ny := 0, secondx := 0, secondy := 0 }, ?_⟩
  simp only [LineStroker.feed, LineStroker.receive, Outcome.ok_bind, hline]
  simp [LineStroker.End, LineStroker.LineCap, LineStroker.MoveTo, hcap, LineCap.Capper,
    Outcome.bind, Outcome.ofOption, pointsGet, LineStroker.vertexCalls,
    LineStroker.rewindCalls]

/-- Witness of C21: the segment from (0, 10) to (100, 10) at line width 10, which gives
the band between y = 5 and y = 15. -/
theorem LineStroker.horizontal_segment_witness :
    (0 : ℚ) < 100
    ∧ ∃ l1, (newLineStroker 5 40 .LineCapButt .LineJoinRound).feed circleStroker circleMath 10
        [.MoveTo 0 10, .LineTo 100 10, .End]
      = .ok ([.MoveTo 0 (10 - 5), .LineTo 100 (10 - 5), .LineTo 100 (10 + 5), .LineTo 0 (10 + 5),
              .LineTo 0 (10 - 5), .End], l1) :=
  ⟨by norm_num, LineStroker.horizontal_segment circleStroker circleMath 10
      (newLineStroker 5 40 .LineCapButt .LineJoinRound) 0 100 10 (by norm_num) (by decide!)
      rfl rfl rfl⟩

/-! ## pointLineRelationship, GetIntersectPointofLines, Compose -/

theorem pointLineRelationship_eq_zero_iff (x1 y1 x2 y2 x y : ℚ) :
    pointLineRelationship x1 y1 x2 y2 x y = 0 ↔ Collinear3 x1 y1 x2 y2 x y := by
  unfold pointLineRelationship Collinear3
  constructor
  · intro h
    by_cases h12 : y2 - y1 ≠ 0 ∨ x1 - x2 ≠ 0
    · exact ⟨y2 - y1, x1 - x2, x2 * y1 - x1 * y2, h12, by ring, by ring, h⟩
    · have hy : y2 = y1 := by
        by_contra hne
        exact h12 (Or.inl (sub_ne_zero.mpr hne))
      have hx : x1 = x2 := by
        by_contra hne
        exact h12 (Or.inr (sub_ne_zero.mpr hne))
      subst hy hx
      by_cases hp : y - y2 ≠ 0 ∨ x1 - x ≠ 0
      · exact ⟨y - y2, x1 - x, x * y2 - x1 * y, hp, by ring, by ring, by ring⟩
      · exact ⟨1, 0, -x1, Or.inl one_ne_zero, by ring, by ring, by
          have hx : x1 = x := by
            by_contra hne
            exact hp (Or.inr (sub_ne_zero.mpr hne))
          rw [hx]; ring⟩
  · rintro ⟨a, b, c, hab, h1, h2, h3⟩
    have ha : a * ((y2 - y1) * x + (x1 - x2) * y + (x2 * y1 - x1 * y2)) = 0 := by
      linear_combination (y - y2) * h1 + (y1 - y) * h2 + (y2 - y1) * h3
    have hb : b * ((y2 - y1) * x + (x1 - x2) * y + (x2 * y1 - x1 * y2)) = 0 := by
      linear_combination (x2 - x) * h1 + (x - x1) * h2 + (x1 - x2) * h3
    rcases hab with h | h
    · exact (mul_eq_zero.mp ha).resolve_left h
    · exact (mul_eq_zero.mp hb).resolve_left h

/-- C29: pointLineRelationship is 0 exactly when the three points lie on one line, it
is the negated cross product of P2 − P1 and P − P1, it is 0 whenever P1 = P2, and the
first LineTo after a MoveTo does not call the joiner: its result is the one the stroker
gives with the bevel join, which has no joiner, whatever join style is set. -/
theorem pointLineRelationship_spec (x1 y1 x2 y2 x y : ℚ) :
    (pointLineRelationship x1 y1 x2 y2 x y = 0 ↔ Collinear3 x1 y1 x2 y2 x y)
    ∧ pointLineRelationship x1 y1 x2 y2 x y
        = -((x2 - x1) * (y - y1) - (y2 - y1) * (x - x1))
    ∧ pointLineRelationship x1 y1 x1 y1 x y = 0
    ∧ ∀ (S : StrokerMath) (M : MathFuncs) (fuel : Nat) (l : LineStroker),
        (l.MoveTo x1 y1).LineTo S M fuel x y
          = (({ l with Join := .LineJoinBevel }.MoveTo x1 y1).LineTo S M fuel x y).bind
              fun r => .ok { r with Join := l.Join } := by
  refine ⟨pointLineRelationship_eq_zero_iff x1 y1 x2 y2 x y, ?_, ?_, ?_⟩
  · unfold pointLineRelationship; ring
  · unfold pointLineRelationship; ring
  · intro S M fuel l
    have h0 : pointLineRelationship x1 y1 x1 y1 x y = 0 := by
      unfold pointLineRelationship; ring
    simp only [LineStroker.LineTo, LineStroker.line, LineStroker.MoveTo, h0,
      LineStroker.joined_of_zero]
    split <;> simp [Outcome.bind]

/-- Witness of C29: the points (0, 0), (2, 2), (1, 1) give 0 and lie on one line. -/
theorem pointLineRelationship_spec_witness :
    pointLineRelationship 0 0 2 2 1 1 = 0 ∧ Collinear3 0 0 2 2 1 1 :=
  ⟨by decide!, (pointLineRelationship_spec 0 0 2 2 1 1).1.mp (by decide!)⟩

/-- C30: GetIntersectPointofLines answers ok = false exactly when a1·b2 − a2·b1 = 0
for the coefficients GeneralEquation gives the two lines, which is when their direction
vectors have cross product 0 (parallel lines, or a line given by two equal points);
when ok = true the returned point satisfies the general equation of both lines. -/
theorem GetIntersectPointofLines_spec (x1 y1 x2 y2 x3 y3 x4 y4 : ℚ) :
    ((GetIntersectPointofLines x1 y1 x2 y2 x3 y3 x4 y4).2.2 = false
      ↔ (GeneralEquation x1 y1 x2 y2).1 * (GeneralEquation x3 y3 x4 y4).2.1
          - (GeneralEquation x3 y3 x4 y4).1 * (GeneralEquation x1 y1 x2 y2).2.1 = 0)
    ∧ ((GetIntersectPointofLines x1 y1 x2 y2 x3 y3 x4 y4).2.2 = false
      ↔ (x2 - x1) * (y4 - y3) - (x4 - x3) * (y2 - y1) = 0)
    ∧ ((GetIntersectPointofLines x1 y1 x2 y2 x3 y3 x4 y4).2.2 = true →
        (GeneralEquation x1 y1 x2 y2).1 * (GetIntersectPointofLines x1 y1 x2 y2 x3 y3 x4 y4).1
          + (GeneralEquation x1 y1 x2 y2).2.1
              * (GetIntersectPointofLines x1 y1 x2 y2 x3 y3 x4 y4).2.1
          + (GeneralEquation x1 y1 x2 y2).2.2 = 0
        ∧ (GeneralEquation x3 y3 x4 y4).1 * (GetIntersectPointofLines x1 y1 x2 y2 x3 y3 x4 y4).1
          + (GeneralEquation x3 y3 x4 y4).2.1
              * (GetIntersectPointofLines x1 y1 x2 y2 x3 y3 x4 y4).2.1
          + (GeneralEquation x3 y3 x4 y4).2.2 = 0) := by
  unfold GetIntersectPointofLines GeneralEquation
  simp only []
  by_cases hm : (y2 - y1) * (x3 - x4) - (y4 - y3) * (x1 - x2) = 0
  · rw [if_pos hm]
    refine ⟨⟨fun _ => hm, fun _ => rfl⟩, ⟨fun _ => by linear_combination hm, fun _ => rfl⟩, ?_⟩
    intro h
    exact Bool.noConfusion h
  · rw [if_neg hm]
    refine ⟨⟨fun h => Bool.noConfusion h, fun h => absurd h hm⟩,
      ⟨fun h => Bool.noConfusion h, fun h => absurd (by linear_combination h) hm⟩, ?_⟩
    intro _
    constructor
    · field_simp
      ring
    · field_simp
      ring

/-- Witness of C30: the diagonals of the square with corners (0, 0) and (2, 2). -/
theorem GetIntersectPointofLines_spec_witness :
    (GetIntersectPointofLines 0 0 2 2 0 2 2 0).2.2 = true
    ∧ (GeneralEquation 0 0 2 2).1 * (GetIntersectPointofLines 0 0 2 2 0 2 2 0).1
        + (GeneralEquation 0 0 2 2).2.1 * (GetIntersectPointofLines 0 0 2 2 0 2 2 0).2.1
        + (GeneralEquation 0 0 2 2).2.2 = 0 :=
  ⟨by decide!, ((GetIntersectPointofLines_spec 0 0 2 2 0 2 2 0).2.2 (by decide!)).1⟩

/-- C28, counterexample: Compose on the value 11, which is none of the eleven named
operators, reaches the default case of its switch, which panics. -/
theorem Compose_invalid_value_panics :
    Compose 11 { R := 1, G := 0, B := 0, A := 1 } { R := 0, G := 0, B := 1, A := 1 } = none := by
  decide!

theorem Compose_isSome_iff (op : Int) (a b : FRGBA) :
    (Compose op a b).isSome = true ↔ 0 ≤ op ∧ op ≤ 10 := by
  constructor
  · intro h
    by_contra hne
    have h1 : ∀ k : Int, 0 ≤ k → k ≤ 10 → op ≠ k := by
      intro k hk0 hk1 e
      exact hne (e ▸ ⟨hk0, hk1⟩)
    simp [Compose, SourceOver, SourceIn, SourceOut, SourceAtop, DestinationOver, DestinationIn,
      DestinationOut, DestinationAtop, Lighter, Copy, Xor,
      h1 0 (by norm_num) (by norm_num), h1 1 (by norm_num) (by norm_num),
      h1 2 (by norm_num) (by norm_num), h1 3 (by norm_num) (by norm_num),
      h1 4 (by norm_num) (by norm_num), h1 5 (by norm_num) (by norm_num),
      h1 6 (by norm_num) (by norm_num), h1 7 (by norm_num) (by norm_num),
      h1 8 (by norm_num) (by norm_num), h1 9 (by norm_num) (by norm_num),
      h1 10 (by norm_num) (by norm_num)] at h
  · rintro ⟨h0, h1⟩
    have : op = 0 ∨ op = 1 ∨ op = 2 ∨ op = 3 ∨ op = 4 ∨ op = 5 ∨ op = 6 ∨ op = 7 ∨ op = 8
        ∨ op = 9 ∨ op = 10 := by omega
    rcases this with h | h | h | h | h | h | h | h | h | h | h <;> subst h <;>
      simp [Compose, SourceOver, SourceIn, SourceOut, SourceAtop, DestinationOver,
        DestinationIn, DestinationOut, DestinationAtop, Lighter, Copy, Xor]

theorem ComposeRGBA_invalid_value (op : Int) (a b : color.RGBA) (h : op < 0 ∨ 10 < op) :
    ComposeRGBA op a b = { R := 0, G := 0, B := 0, A := 0 } := by
  have h1 : ∀ k : Int, 0 ≤ k → k ≤ 10 → op ≠ k := by
    intro k hk0 hk1 e
    omega
  simp [ComposeRGBA, SourceOver, SourceIn, SourceOut, SourceAtop, DestinationOver, DestinationIn,
    DestinationOut, DestinationAtop, Lighter, Copy, Xor,
    h1 0 (by norm_num) (by norm_num), h1 1 (by norm_num) (by norm_num),
    h1 2 (by norm_num) (by norm_num), h1 3 (by norm_num) (by norm_num),
    h1 4 (by norm_num) (by norm_num), h1 5 (by norm_num) (by norm_num),
    h1 6 (by norm_num) (by norm_num), h1 7 (by norm_num) (by norm_num),
    h1 8 (by norm_num) (by norm_num), h1 9 (by norm_num) (by norm_num),
    h1 10 (by norm_num) (by norm_num)]

/-- C28, as amended: Compose returns a colour exactly for the eleven named operators
(the values 0 to 10) and panics for every other value; ComposeRGBA returns a colour for
every value, the zero colour for a value outside the eleven. -/
theorem Compose_ComposeRGBA_values (op : CompositeOperation) :
    (∀ a b : FRGBA, (Compose op a b).isSome = true ↔ 0 ≤ op ∧ op ≤ 10)
    ∧ (∀ a b : color.RGBA, (op < 0 ∨ 10 < op) →
        ComposeRGBA op a b = { R := 0, G := 0, B := 0, A := 0 }) :=
  ⟨Compose_isSome_iff op, ComposeRGBA_invalid_value op⟩

/-- Witness of C28 as amended: ComposeRGBA on the value 11 gives the zero colour. -/
theorem Compose_ComposeRGBA_values_witness :
    ((11 : Int) < 0 ∨ (10 : Int) < 11)
    ∧ ComposeRGBA 11 { R := 1, G := 2, B := 3, A := 4 } { R := 5, G := 6, B := 7, A := 8 }
        = { R := 0, G := 0, B := 0, A := 0 } :=
  ⟨by decide, (Compose_ComposeRGBA_values 11).2 _ _ (by decide)⟩

/-! ## LineStroker.End and the caps -/

theorem coords_length (qs : List (ℚ × ℚ)) : (coords qs).length = 2 * qs.length := by
  induction qs with
  | nil => rfl
  | cons q qs ih => simp only [coords, List.length_cons, ih]; ring

theorem coords_get_even (qs : List (ℚ × ℚ)) (k : Nat) :
    (coords qs).get? (2 * k) = (qs.get? k).map Prod.fst := by
  induction qs generalizing k with
  | nil => simp [coords]
  | cons q qs ih =>
    cases k with
    | zero => simp [coords]
    | succ k =>
      have e : 2 * (k + 1) = (2 * k + 1) + 1 := by ring
      rw [e]
      simp only [coords, List.get?_cons_succ, ih]

theorem coords_get_odd (qs : List (ℚ × ℚ)) (k : Nat) :
    (coords qs).get? (2 * k + 1) = (qs.get? k).map Prod.snd := by
  induction qs generalizing k with
  | nil => simp [coords]
  | cons q qs ih =>
    cases k with
    | zero => simp [coords]
    | succ k =>
      have e : 2 * (k + 1) + 1 = (2 * k + 1 + 1) + 1 := by ring
      rw [e]
      simp only [coords, List.get?_cons_succ, ih]

theorem LineStroker.vertexCalls_coords (ps : List (ℚ × ℚ)) :
    LineStroker.vertexCalls (coords ps) = ps.map fun q => FlattenerCall.LineTo q.1 q.2 := by
  induction ps with
  | nil => rfl
  | cons p ps ih => simp only [coords, LineStroker.vertexCalls, ih, List.map_cons]

theorem LineStroker.rewindCalls_coords (qs : List (ℚ × ℚ)) :
    ∀ k : Nat, k < qs.length →
      LineStroker.rewindCalls (coords qs) (2 * k + 1)
        = some ((qs.take (k + 1)).reverse.map fun q => FlattenerCall.LineTo q.1 q.2) := by
  intro k
  induction k with
  | zero =>
    intro hk
    obtain ⟨q, hq⟩ : ∃ q, qs.get? 0 = some q := by
      cases qs with
      | nil => simp at hk
      | cons q qs => exact ⟨q, rfl⟩
    have h0 := coords_get_even qs 0
    have h1 := coords_get_odd qs 0
    simp only [Nat.mul_zero, Nat.zero_add, hq, Option.map_some'] at h0 h1
    have htake : qs.take 1 = [q] := by
      cases qs with
      | nil => simp at hk
      | cons q1 qs =>
        simp only [List.get?_cons_zero, Option.some.injEq] at hq
        subst hq
        rfl
    show LineStroker.rewindCalls (coords qs) 1 = _
    rw [LineStroker.rewindCalls, h0, h1, htake]
    rfl
  | succ k ih =>
    intro hk
    have hk1 : k < qs.length := by omega
    obtain ⟨q, hq⟩ : ∃ q, qs.get? (k + 1) = some q := by
      rw [List.get?_eq_get hk]
      exact ⟨_, rfl⟩
    have h0 := coords_get_even qs (k + 1)
    have h1 := coords_get_odd qs (k + 1)
    rw [hq] at h0 h1
    simp only [Option.map_some'] at h0 h1
    have e0 : 2 * (k + 1) = (2 * k + 1) + 1 := by ring
    have e1 : 2 * (k + 1) + 1 = (2 * k + 1) + 2 := by ring
    rw [e0] at h0
    rw [e1] at h1
    rw [e1, LineStroker.rewindCalls, h0, h1, ih hk1]
    have htake : qs.take (k + 1 + 1) = qs.take (k + 1) ++ [q] := by
      rw [List.take_succ, ← List.get?_eq_getElem?, hq]
      rfl
    rw [htake]
    simp

theorem LineStroker.rewindCalls_all (qs : List (ℚ × ℚ)) :
    LineStroker.rewindCalls (coords qs) ((coords qs).length - 1)
      = some (qs.reverse.map fun q => FlattenerCall.LineTo q.1 q.2) := by
  rw [coords_length]
  cases h : qs.length with
  | zero =>
    have : qs = [] := List.length_eq_zero.mp h
    subst this
    rfl
  | succ n =>
    have e : 2 * (n + 1) - 1 = 2 * n + 1 := by omega
    rw [e, LineStroker.rewindCalls_coords qs n (by omega)]
    have : qs.take (n + 1) = qs := by
      rw [← h]
      exact List.take_length qs
    rw [this]

theorem LineStroker.LineCap_rewind (S : StrokerMath) (M : MathFuncs) (fuel : Nat)
    (l l1 : LineStroker) (h : l.LineCap S M fuel = .ok l1) : l1.rewind = l.rewind := by
  unfold LineStroker.LineCap at h
  split at h
  · cases h; rfl
  · split at h
    · rename_i fn _
      cases hf : fn l.vertices l.rewind l.HalfLineWidth with
      | ok pts =>
        rw [hf] at h
        cases h
        rfl
      | panic => rw [hf] at h; cases h
      | outOfFuel => rw [hf] at h; cases h
    · cases h; rfl

/-- C22: when the stroker holds at least one segment (more than one entry in vertices),
the caps have been applied with result l1, and the lists hold the points p, ps (outer
side, caps included) and qs (rewind side), End emits one closed polygon: MoveTo p,
LineTo each point of ps in order, LineTo each point of qs in reverse order, LineTo p,
End; the first and last emitted points are both p, and afterwards vertices and rewind
are empty. -/
theorem LineStroker.End_polygon (S : StrokerMath) (M : MathFuncs) (fuel : Nat)
    (l l1 : LineStroker) (p : ℚ × ℚ) (ps qs : List (ℚ × ℚ))
    (hlen : 1 < l.vertices.length) (hcap : l.LineCap S M fuel = .ok l1)
    (hv : l1.vertices = coords (p :: ps)) (hr : l.rewind = coords qs) :
    ∃ l2, l.End S M fuel
        = .ok ([FlattenerCall.MoveTo p.1 p.2]
                ++ (ps.map fun q => FlattenerCall.LineTo q.1 q.2)
                ++ (qs.reverse.map fun q => FlattenerCall.LineTo q.1 q.2)
                ++ [FlattenerCall.LineTo p.1 p.2, FlattenerCall.End], l2)
      ∧ l2.vertices = [] ∧ l2.rewind = [] := by
  have hr1 : l1.rewind = coords qs := by
    rw [LineStroker.LineCap_rewind S M fuel l l1 hcap, hr]
  have hlen1 : 1 < l1.vertices.length := by
    rw [hv]; simp [coords]
  refine ⟨{ l1 with vertices := [], rewind := [], join := 0, lastx := 0, lasty := 0,
                    secondx := 0, secondy := 0, x := 0, y := 0, nx := 0, ny := 0 }, ?_, rfl, rfl⟩
  unfold LineStroker.End
  rw [if_pos hlen, hcap]
  simp only [Outcome.ok_bind]
  have g0 : pointsGet l1.vertices 0 = some p.1 := by rw [hv]; simp [pointsGet, coords]
  have g1 : pointsGet l1.vertices 1 = some p.2 := by rw [hv]; simp [pointsGet, coords]
  have hdrop : l1.vertices.drop 2 = coords ps := by rw [hv]; rfl
  simp only [g0, g1, Outcome.ofOption, Outcome.ok_bind, if_pos hlen1, hr1,
    LineStroker.rewindCalls_all, hdrop, LineStroker.vertexCalls_coords]
  simp

/-- Witness of C22: a stroker with butt cap holding the outline of one horizontal
segment. -/
theorem LineStroker.End_polygon_witness :
    ∃ l2, ({ newLineStroker 5 40 .LineCapButt .LineJoinMiter with
              vertices := [0, 5, 100, 5], rewind := [0, 15, 100, 15] } : LineStroker).End
            circleStroker circleMath 10
        = .ok ([FlattenerCall.MoveTo 0 5]
                ++ ([((100 : ℚ), (5 : ℚ))].map fun q => FlattenerCall.LineTo q.1 q.2)
                ++ ([((0 : ℚ), (15 : ℚ)), (100, 15)].reverse.map fun q => FlattenerCall.LineTo q.1 q.2)
                ++ [FlattenerCall.LineTo 0 5, FlattenerCall.End], l2)
      ∧ l2.vertices = [] ∧ l2.rewind = [] :=
  LineStroker.End_polygon circleStroker circleMath 10 _ _ (0, 5) [(100, 5)] [(0, 15), (100, 15)]
    (by decide) rfl rfl rfl

theorem LineStroker.line_cap (S : StrokerMath) (M : MathFuncs) (fuel : Nat)
    (l : LineStroker) (c : Canvas.LineCap) (x1 y1 x2 y2 : ℚ) :
    LineStroker.line S M fuel { l with Cap := c } x1 y1 x2 y2
      = (l.line S M fuel x1 y1 x2 y2).bind fun r => .ok { r with Cap := c } := by
  unfold LineStroker.line
  by_cases hd : vectorDistance S (x2 - x1) (y2 - y1) ≠ 0
  · simp only [if_pos hd, Outcome.bind_assoc, Outcome.ok_bind]
    rfl
  · simp only [if_neg hd, Outcome.ok_bind]

theorem LineStroker.Close_cap (S : StrokerMath) (M : MathFuncs) (fuel : Nat)
    (l : LineStroker) (c : Canvas.LineCap) :
    LineStroker.Close S M fuel { l with Cap := c }
      = (l.Close S M fuel).bind fun r => .ok { r with Cap := c } := by
  unfold LineStroker.Close
  by_cases hv : l.vertices.length > 1
  · simp only [if_pos hv, Outcome.bind_assoc, Outcome.ok_bind]
    rfl
  · simp only [if_neg hv, Outcome.ok_bind]

theorem LineStroker.receive_cap (S : StrokerMath) (M : MathFuncs) (fuel : Nat)
    (l : LineStroker) (c : Canvas.LineCap) (call : FlattenerCall) (h : call ≠ .End) :
    LineStroker.receive S M fuel { l with Cap := c } call
      = (l.receive S M fuel call).bind fun r => .ok (r.1, { r.2 with Cap := c }) := by
  cases call with
  | MoveTo x y => rfl
  | LineTo x y =>
    simp only [LineStroker.receive, LineStroker.LineTo]
    rw [show ({ l with Cap := c } : LineStroker).x = l.x from rfl,
      show ({ l with Cap := c } : LineStroker).y = l.y from rfl, LineStroker.line_cap]
    simp only [Outcome.bind_assoc, Outcome.ok_bind]
  | LineJoin => rfl
  | Close =>
    simp only [LineStroker.receive, LineStroker.Close_cap, Outcome.bind_assoc, Outcome.ok_bind]
  | End => exact absurd rfl h

theorem LineStroker.feed_cap (S : StrokerMath) (M : MathFuncs) (fuel : Nat)
    (c : Canvas.LineCap) (cs : List FlattenerCall) (h : FlattenerCall.End ∉ cs)
    (l : LineStroker) :
    LineStroker.feed S M fuel cs { l with Cap := c }
      = (l.feed S M fuel cs).bind fun r => .ok (r.1, { r.2 with Cap := c }) := by
  induction cs generalizing l with
  | nil => rfl
  | cons d ds ih =>
    have hd : d ≠ .End := fun e => h (by simp [e])
    have hds : FlattenerCall.End ∉ ds := fun e => h (by simp [e])
    simp only [LineStroker.feed, LineStroker.receive_cap S M fuel l c d hd,
      Outcome.bind_assoc, Outcome.ok_bind]
    congr 1
    funext r1
    rw [ih hds]
    simp only [Outcome.bind_assoc, Outcome.ok_bind]

theorem LineStroker.Close_closepath (S : StrokerMath) (M : MathFuncs) (fuel : Nat)
    (l l1 : LineStroker) (h : l.Close S M fuel = .ok l1) : l1.closepath = true := by
  unfold LineStroker.Close at h
  obtain ⟨l2, _, h2⟩ := (Outcome.bind_eq_ok _ _ _).mp h
  cases h2
  rfl

theorem LineStroker.End_cap (S : StrokerMath) (M : MathFuncs) (fuel : Nat)
    (l : LineStroker) (c : Canvas.LineCap) (h : l.closepath = true) :
    LineStroker.End S M fuel { l with Cap := c }
      = (l.End S M fuel).bind fun r => .ok (r.1, { r.2 with Cap := c }) := by
  have hc : ∀ c1 : Canvas.LineCap,
      LineStroker.LineCap S M fuel { l with Cap := c1 } = .ok { l with Cap := c1 } := by
    intro c1
    simp [LineStroker.LineCap, h]
  have hl : l.LineCap S M fuel = .ok l := by
    simp [LineStroker.LineCap, h]
  unfold LineStroker.End
  by_cases hv : l.vertices.length > 1
  · simp only [if_pos hv, hc, hl, Outcome.bind_assoc, Outcome.ok_bind]
  · simp only [if_neg hv, Outcome.bind_assoc, Outcome.ok_bind]

theorem LineStroker.closed_stream_cap (S : StrokerMath) (M : MathFuncs) (fuel : Nat)
    (l : LineStroker) (c : Canvas.LineCap) (pre : List FlattenerCall)
    (h : FlattenerCall.End ∉ pre) :
    LineStroker.feed S M fuel (pre ++ [.Close, .End]) { l with Cap := c }
      = (l.feed S M fuel (pre ++ [.Close, .End])).bind fun r =>
          .ok (r.1, { r.2 with Cap := c }) := by
  rw [LineStroker.feed_append, LineStroker.feed_append, LineStroker.feed_cap S M fuel c pre h]
  simp only [Outcome.bind_assoc, Outcome.ok_bind]
  congr 1
  funext r1
  simp only [LineStroker.feed, LineStroker.receive, Outcome.bind_assoc, Outcome.ok_bind,
    LineStroker.Close_cap]
  cases hcl : r1.2.Close S M fuel with
  | ok l2 =>
    simp only [Outcome.ok_bind]
    rw [LineStroker.End_cap S M fuel l2 c (LineStroker.Close_closepath S M fuel _ _ hcl)]
    simp only [Outcome.bind_assoc, Outcome.ok_bind]
  | panic => rfl
  | outOfFuel => rfl

/-- C23: caps go to open subpaths only.  For a stream of calls without End followed by
Close, End the calls the stroker emits are the same for any two cap styles; and for the
butt cap LineCap leaves the stroker, hence its vertices, as it is. -/
theorem LineStroker.caps_only_on_open_subpaths (S : StrokerMath) (M : MathFuncs) (fuel : Nat)
    (l : LineStroker) (pre : List FlattenerCall) (h : FlattenerCall.End ∉ pre) :
    (∀ c1 c2 : Canvas.LineCap,
      ((LineStroker.feed S M fuel (pre ++ [.Close, .End]) { l with Cap := c1 }).bind
          fun r => .ok r.1)
        = ((LineStroker.feed S M fuel (pre ++ [.Close, .End]) { l with Cap := c2 }).bind
          fun r => .ok r.1))
    ∧ (l.Cap = .LineCapButt → l.LineCap S M fuel = .ok l) := by
  constructor
  · intro c1 c2
    rw [LineStroker.closed_stream_cap S M fuel l c1 pre h,
      LineStroker.closed_stream_cap S M fuel l c2 pre h]
    simp only [Outcome.bind_assoc, Outcome.ok_bind]
  · intro hb
    unfold LineStroker.LineCap
    split
    · rfl
    · simp [hb, LineCap.Capper]

/-- Witness of C23: a closed triangle, stroked with the round and with the square cap. -/
theorem LineStroker.caps_only_on_open_subpaths_witness :
    FlattenerCall.End ∉ [FlattenerCall.MoveTo 0 0, .LineTo 4 0, .LineTo 4 3, .LineTo 0 0]
    ∧ ((LineStroker.feed circleStroker circleMath 10
          ([FlattenerCall.MoveTo 0 0, .LineTo 4 0, .LineTo 4 3, .LineTo 0 0] ++ [.Close, .End])
          { newLineStroker 1 40 .LineCapButt .LineJoinBevel with Cap := .LineCapButt }).bind
        fun r => .ok r.1)
      = ((LineStroker.feed circleStroker circleMath 10
          ([FlattenerCall.MoveTo 0 0, .LineTo 4 0, .LineTo 4 3, .LineTo 0 0] ++ [.Close, .End])
          { newLineStroker 1 40 .LineCapButt .LineJoinBevel with Cap := .LineCapSquare }).bind
        fun r => .ok r.1) :=
  ⟨by decide, (LineStroker.caps_only_on_open_subpaths circleStroker circleMath 10
      (newLineStroker 1 40 .LineCapButt .LineJoinBevel)
      [FlattenerCall.MoveTo 0 0, .LineTo 4 0, .LineTo 4 3, .LineTo 0 0] (by decide)).1
      .LineCapButt .LineCapSquare⟩

/-! ## capSquare -/

theorem Path.two_LineTo_points (a b c d : ℚ) :
    ((NewPath.LineTo a b).LineTo c d).Points = [a, b, c, d] := by
  simp [Path.LineTo, Path.MoveTo, Path.appendToPath, NewPath]

theorem square_cap_cos (c dx dy d : ℚ) (hd0 : 0 < d) (hd : d * d = dx * dx + dy * dy)
    (hc0 : 0 ≤ c) (hc : c ^ 2 = 1 - (dy / d) ^ 2) : c = |dx| / d := by
  have h1 : c ^ 2 = (|dx| / d) ^ 2 := by
    rw [hc, div_pow, div_pow, sq_abs]
    field_simp
    nlinarith
  have h2 : 0 ≤ |dx| / d := div_nonneg (abs_nonneg dx) hd0.le
  nlinarith [sq_nonneg (c - |dx| / d), sq_nonneg (c + |dx| / d)]

theorem capSquare_four (S : StrokerMath) (M : MathFuncs)
    (a0 a1 a2 a3 b0 b1 b2 b3 h : ℚ) :
    capSquare S M [a0, a1, a2, a3] [b0, b1, b2, b3] h
      = .ok (traceCapSquare S M a0 a1 b0 b1 h, traceCapSquare S M b2 b3 a2 a3 h) := by
  have g0 : pointsGet [a0, a1, a2, a3] 0 = some a0 := rfl
  have g1 : pointsGet [a0, a1, a2, a3] 1 = some a1 := rfl
  have g2 : pointsGet [b0, b1, b2, b3] 0 = some b0 := rfl
  have g3 : pointsGet [b0, b1, b2, b3] 1 = some b1 := rfl
  have g4 : pointsGet [a0, a1, a2, a3] ((([a0, a1, a2, a3] : List ℚ).length : Int) - 2) = some a2 := rfl
  have g5 : pointsGet [a0, a1, a2, a3] ((([a0, a1, a2, a3] : List ℚ).length : Int) - 1) = some a3 := rfl
  have g6 : pointsGet [b0, b1, b2, b3] ((([b0, b1, b2, b3] : List ℚ).length : Int) - 2) = some b2 := rfl
  have g7 : pointsGet [b0, b1, b2, b3] ((([b0, b1, b2, b3] : List ℚ).length : Int) - 1) = some b3 := rfl
  unfold capSquare
  rw [g0, g1, g2, g3, g4, g5, g6, g7]
  rfl

/-- C24: for a single segment from P to Q of length d > 0, stroked at half line width
h > 0, the stroker holds the offset points P + n, Q + n (vertices) and P − n, Q − n
(rewind), n being h times the unit normal, and capSquare returns for the start the
points P − n and P + n displaced by h along the direction from Q to P, and for the end
the points Q + n and Q − n displaced by h along the direction from P to Q, whatever the
orientation.  Arithmetic is exact: d is the value of the square root, and the sine and
cosine of the arcsine that traceCapSquare takes are its argument and the non-negative
root of one minus its square. -/
theorem capSquare_single_segment (S : StrokerMath) (M : MathFuncs) (fuel : Nat)
    (px py qx qy h d mlc : ℚ) (cap : LineCap) (join : LineJoin)
    (hh : 0 < h) (hd0 : 0 < d)
    (hS : S.Sqrt ((qx - px) * (qx - px) + (qy - py) * (qy - py)) = d)
    (hd : d * d = (qx - px) * (qx - px) + (qy - py) * (qy - py))
    (hs1 : M.Sin (S.Asin ((qy - py) / d)) = (qy - py) / d)
    (hc1 : 0 ≤ M.Cos (S.Asin ((qy - py) / d))
      ∧ M.Cos (S.Asin ((qy - py) / d)) ^ 2 = 1 - ((qy - py) / d) ^ 2)
    (hs2 : M.Sin (S.Asin (-((qy - py) / d))) = -((qy - py) / d))
    (hc2 : 0 ≤ M.Cos (S.Asin (-((qy - py) / d)))
      ∧ M.Cos (S.Asin (-((qy - py) / d))) ^ 2 = 1 - ((qy - py) / d) ^ 2) :
    ∃ l, (newLineStroker h mlc cap join).feed S M fuel [.MoveTo px py, .LineTo qx qy]
          = .ok ([], l)
      ∧ l.vertices = [px + (qy - py) * h / d, py + -((qx - px) * h / d),
                      qx + (qy - py) * h / d, qy + -((qx - px) * h / d)]
      ∧ l.rewind = [px - (qy - py) * h / d, py - -((qx - px) * h / d),
                    qx - (qy - py) * h / d, qy - -((qx - px) * h / d)]
      ∧ capSquare S M l.vertices l.rewind h
          = .ok ([px - (qy - py) * h / d - h * ((qx - px) / d),
                  py - -((qx - px) * h / d) - h * ((qy - py) / d),
                  px + (qy - py) * h / d - h * ((qx - px) / d),
                  py + -((qx - px) * h / d) - h * ((qy - py) / d)],
                 [qx + (qy - py) * h / d + h * ((qx - px) / d),
                  qy + -((qx - px) * h / d) + h * ((qy - py) / d),
                  qx - (qy - py) * h / d + h * ((qx - px) / d),
                  qy - -((qx - px) * h / d) + h * ((qy - py) / d)]) := by
  have hdne : d ≠ 0 := hd0.ne'
  have hhne : h ≠ 0 := hh.ne'
  have hplr : pointLineRelationship px py px py qx qy = 0 := by
    unfold pointLineRelationship; ring
  refine ⟨{ newLineStroker h mlc cap join with
            join := 1
            vertices := [px + (qy - py) * h / d, py + -((qx - px) * h / d),
                         qx + (qy - py) * h / d, qy + -((qx - px) * h / d)]
            rewind := [px - (qy - py) * h / d, py - -((qx - px) * h / d),
                       qx - (qy - py) * h / d, qy - -((qx - px) * h / d)]
            lastx := px
            lasty := py
            x := qx
            y := qy
            nx := (qy - py) * h / d
            ny := -((qx - px) * h / d)
            secondx := qx
            secondy := qy }, ?_, rfl, rfl, ?_⟩
  · simp only [LineStroker.feed, LineStroker.receive, LineStroker.LineTo, LineStroker.line,
      LineStroker.MoveTo, newLineStroker, vectorDistance, hS, if_pos hdne, hplr,
      LineStroker.joined_of_zero, Outcome.ok_bind, List.nil_append, List.append_nil]
    simp
  · have e1 : (px + (qy - py) * h / d - (px - (qy - py) * h / d)) / (2 * h) = (qy - py) / d := by
      field_simp
      ring
    have e2 : (qx - (qy - py) * h / d - (qx + (qy - py) * h / d)) / (2 * h)
        = -((qy - py) / d) := by
      field_simp
      ring
    have c1 := square_cap_cos _ (qx - px) (qy - py) d hd0 hd hc1.1 hc1.2
    have c2 := square_cap_cos _ (qx - px) (qy - py) d hd0 hd hc2.1 hc2.2
    have hy1 : (py - -((qx - px) * h / d) < py + -((qx - px) * h / d)) ↔ qx - px < 0 := by
      have hpos : 0 < h / d := div_pos hh hd0
      constructor
      · intro hlt
        have : (qx - px) * (h / d) < 0 := by
          have e : (qx - px) * h / d = (qx - px) * (h / d) := by ring
          linarith
        by_contra hge
        push_neg at hge
        have := mul_nonneg hge hpos.le
        linarith
      · intro hlt
        have : (qx - px) * (h / d) < 0 := mul_neg_of_neg_of_pos hlt hpos
        have e : (qx - px) * h / d = (qx - px) * (h / d) := by ring
        linarith
    have hy2 : (qy + -((qx - px) * h / d) < qy - -((qx - px) * h / d)) ↔ 0 < qx - px := by
      have hpos : 0 < h / d := div_pos hh hd0
      constructor
      · intro hlt
        have : 0 < (qx - px) * (h / d) := by
          have e : (qx - px) * h / d = (qx - px) * (h / d) := by ring
          linarith
        by_contra hge
        push_neg at hge
        have := mul_nonpos_of_nonpos_of_nonneg hge hpos.le
        linarith
      · intro hlt
        have : 0 < (qx - px) * (h / d) := mul_pos hlt hpos
        have e : (qx - px) * h / d = (qx - px) * (h / d) := by ring
        linarith
    simp only [capSquare_four, traceCapSquare, Path.two_LineTo_points]
    simp only [e1, e2, hs1, hs2, c1, c2, hy1, hy2]
    by_cases hneg : qx - px < 0
    · have hnpos : ¬ 0 < qx - px := by linarith
      simp only [hneg, hnpos, if_true, if_false, abs_of_neg hneg, Outcome.ok.injEq,
        Prod.mk.injEq, List.cons.injEq]
      repeat' constructor
      all_goals ring
    · by_cases hpos : 0 < qx - px
      · simp only [hneg, hpos, if_true, if_false, abs_of_pos hpos, Outcome.ok.injEq,
          Prod.mk.injEq, List.cons.injEq]
        repeat' constructor
        all_goals ring
      · have hq : px = qx := by linarith
        subst hq
        simp only [sub_self, abs_zero, lt_self_iff_false, if_false, Outcome.ok.injEq,
          Prod.mk.injEq, List.cons.injEq]
        repeat' constructor
        all_goals ring

/-- Witness of C24: the segment from (0, 0) to (3, 4), of length 5, at half line
width 5. -/
theorem capSquare_single_segment_witness :
    (0 : ℚ) < 5
    ∧ ∃ l, (newLineStroker 5 40 .LineCapSquare .LineJoinMiter).feed circleStroker circleMath 10
            [.MoveTo 0 0, .LineTo 3 4] = .ok ([], l)
        ∧ capSquare circleStroker circleMath l.vertices l.rewind 5
            = .ok ([-7, -1, 1, -7], [10, 5, 2, 11]) := by
  obtain ⟨l, h1, _, _, h4⟩ := capSquare_single_segment circleStroker circleMath 10 0 0 3 4 5 5 40
    .LineCapSquare .LineJoinMiter (by norm_num) (by norm_num) (by decide!) (by norm_num)
    (by decide!) (by decide!) (by decide!) (by decide!)
  refine ⟨by norm_num, l, h1, ?_⟩
  rw [h4]
  norm_num

/-! ## traceCapRound and joinMiter -/

theorem linerPoints_foldl (lines : List (ℚ × ℚ)) (p : Path) :
    (lines.foldl (fun (p : Path) q => p.LineTo q.1 q.2) p).Points = p.Points ++ coords lines := by
  induction lines generalizing p with
  | nil => simp [coords]
  | cons q qs ih =>
    rw [List.foldl_cons, ih]
    have : (p.LineTo q.1 q.2).Points = p.Points ++ [q.1, q.2] := by
      unfold Path.LineTo
      split <;> rfl
    rw [this]
    simp [coords]

theorem linerPoints_eq_coords (lines : List (ℚ × ℚ)) : linerPoints lines = coords lines := by
  unfold linerPoints
  rw [linerPoints_foldl]
  rfl

theorem traceArcLoop_clockwise_points (M : MathFuncs) (x y rx ry endA da : ℚ) :
    ∀ (fuel : Nat) (s : ArcState) (r : List (ℚ × ℚ) × (ℚ × ℚ)),
      traceArcLoop M x y rx ry endA da true fuel s = .ok r →
      ∃ m : Nat, r.1 = s.lines ++ (List.range m).map (fun (k : Nat) =>
            (x + M.Cos (s.angle + (k : ℚ) * da) * rx, y + M.Sin (s.angle + (k : ℚ) * da) * ry))
        ∧ (∀ k : Nat, k < m → s.angle + (k : ℚ) * da < endA - da / 4)
        ∧ endA - da / 4 ≤ s.angle + (m : ℚ) * da := by
  intro fuel
  induction fuel with
  | zero =>
    intro s r h
    rw [traceArcLoop] at h
    split at h
    · rename_i hcond
      cases h
      refine ⟨0, by simp, fun k hk => absurd hk (Nat.not_lt_zero k), ?_⟩
      by_contra hlt
      rw [Nat.cast_zero, zero_mul, add_zero, not_le] at hlt
      simp [hlt] at hcond
    · cases h
  | succ n ih =>
    intro s r h
    rw [traceArcLoop] at h
    split at h
    · rename_i hcond
      cases h
      refine ⟨0, by simp, fun k hk => absurd hk (Nat.not_lt_zero k), ?_⟩
      by_contra hlt
      rw [Nat.cast_zero, zero_mul, add_zero, not_le] at hlt
      simp [hlt] at hcond
    · rename_i hcond
      have hlt : s.angle < endA - da / 4 := by
        by_contra hge
        apply hcond
        simp [hge]
      obtain ⟨m, hm, hb, he⟩ := ih _ r h
      refine ⟨m + 1, ?_, ?_, ?_⟩
      · rw [hm, List.range_succ_eq_map]
        simp only [List.append_assoc, List.singleton_append, List.map_cons, List.map_map,
          Nat.cast_zero, zero_mul, add_zero]
        congr 2
        apply List.map_congr_left
        intro k _
        simp only [Function.comp, Nat.cast_succ]
        have e : s.angle + da + (k : ℚ) * da = s.angle + ((k : ℚ) + 1) * da := by ring
        rw [e]
      · intro k hk
        cases k with
        | zero => simpa using hlt
        | succ k =>
          have := hb k (by omega)
          simp only at this
          push_cast
          linarith
      · simp only at he
        push_cast
        linarith

/-- With cos² + sin² = 1 and a positive angular step, traceCapRound returns, and
every point it returns is at distance exactly h from the midpoint of (x1, y1) and
(x2, y2); the points are those of the circle of radius h about the midpoint at the
angles callAngle + da, callAngle + 2·da, ... (da the step of TraceArc), which all stay
below callAngle + π and whose last one is at most 5/4 steps away from it: a sweep of π
from callAngle, the angle the code takes for the direction from (x1, y1) to (x2, y2). -/
theorem traceCapRound_arc_points (S : StrokerMath) (M : MathFuncs) (x1 y1 x2 y2 h : ℚ)
    (hcs : ∀ a : ℚ, M.Cos a ^ 2 + M.Sin a ^ 2 = 1)
    (hacos : 0 < S.Acos ((|h| + |h|) / 2 / ((|h| + |h|) / 2 + 0.125 / 1))) :
    (∃ fuel pts, traceCapRound S M fuel x1 y1 x2 y2 h = .ok pts)
    ∧ ∀ fuel pts, traceCapRound S M fuel x1 y1 x2 y2 h = .ok pts →
        ∃ lines : List (ℚ × ℚ), pts = coords lines
          ∧ (∀ q ∈ lines, (q.1 - (x1 + x2) / 2) ^ 2 + (q.2 - (y1 + y2) / 2) ^ 2 = h ^ 2)
          ∧ ∃ m : Nat,
              lines = (List.range m).map (fun (k : Nat) =>
                ((x1 + x2) / 2
                  + M.Cos (callAngle S x1 y1 x2 y2
                      + S.Acos ((|h| + |h|) / 2 / ((|h| + |h|) / 2 + 0.125 / 1)) * 2
                      + (k : ℚ) * (S.Acos ((|h| + |h|) / 2 / ((|h| + |h|) / 2 + 0.125 / 1)) * 2))
                    * h,
                 (y1 + y2) / 2
                  + M.Sin (callAngle S x1 y1 x2 y2
                      + S.Acos ((|h| + |h|) / 2 / ((|h| + |h|) / 2 + 0.125 / 1)) * 2
                      + (k : ℚ) * (S.Acos ((|h| + |h|) / 2 / ((|h| + |h|) / 2 + 0.125 / 1)) * 2))
                    * h))
              ∧ (∀ k : Nat, k < m →
                  callAngle S x1 y1 x2 y2
                      + S.Acos ((|h| + |h|) / 2 / ((|h| + |h|) / 2 + 0.125 / 1)) * 2
                      + (k : ℚ) * (S.Acos ((|h| + |h|) / 2 / ((|h| + |h|) / 2 + 0.125 / 1)) * 2)
                    < callAngle S x1 y1 x2 y2 + Pi)
              ∧ callAngle S x1 y1 x2 y2 + Pi
                  ≤ callAngle S x1 y1 x2 y2
                      + S.Acos ((|h| + |h|) / 2 / ((|h| + |h|) / 2 + 0.125 / 1)) * 2
                      + (m : ℚ) * (S.Acos ((|h| + |h|) / 2 / ((|h| + |h|) / 2 + 0.125 / 1)) * 2)
                      + S.Acos ((|h| + |h|) / 2 / ((|h| + |h|) / 2 + 0.125 / 1)) * 2 / 4 := by
  constructor
  · obtain ⟨fuel, r, hr⟩ := TraceArc_returns_of_step_pos M S.Acos (x2 + (x1 - x2) / 2)
      (y1 + (y2 - y1) / 2) h h (callAngle S x1 y1 x2 y2) Pi 1 hacos
    refine ⟨fuel, linerPoints r.1, ?_⟩
    unfold traceCapRound
    simp only [hr, Outcome.ok_bind]
  · intro fuel pts hret
    unfold traceCapRound at hret
    obtain ⟨r, hr, hpts⟩ := (Outcome.bind_eq_ok _ _ _).mp hret
    cases hpts
    refine ⟨r.1, linerPoints_eq_coords r.1, ?_⟩
    unfold TraceArc at hr
    have hpi : ¬ Pi < 0 := not_lt.mpr Pi_pos.le
    simp only [hpi, if_false, Bool.not_true, Bool.false_eq_true] at hr
    obtain ⟨m, hm, hb, he⟩ := traceArcLoop_clockwise_points M _ _ _ _ _ _ _ _ _ hr
    have hx : x2 + (x1 - x2) / 2 = (x1 + x2) / 2 := by ring
    have hy : y1 + (y2 - y1) / 2 = (y1 + y2) / 2 := by ring
    simp only [List.nil_append, hx, hy] at hm
    simp only at hb he
    generalize S.Acos ((|h| + |h|) / 2 / ((|h| + |h|) / 2 + 0.125 / 1)) = a at hacos hb he hm ⊢
    refine ⟨?_, m, hm, ?_, ?_⟩
    · intro q hq
      rw [hm] at hq
      obtain ⟨k, _, rfl⟩ := List.mem_map.mp hq
      have := hcs (callAngle S x1 y1 x2 y2 + a * 2 + (k : ℚ) * (a * 2))
      simp only
      linear_combination h ^ 2 * this
    · intro k hk
      have := hb k hk
      linarith
    · linarith

/-- The angle `callAngle` gives the four directions along the axes, `math.Atan` being 0
at 0. -/
theorem callAngle_axes (S : StrokerMath) (h0 : S.Atan 0 = 0) (x y d : ℚ) (hd : 0 < d) :
    callAngle S x y (x + d) y = 0 ∧ callAngle S x y x (y + d) = Pi / 2
    ∧ callAngle S x y (x - d) y = Pi - 0 ∧ callAngle S x y x (y - d) = Pi * 2 - Pi / 2 := by
  have hd1 : ¬ d < 0 := not_lt.mpr hd.le
  have hd2 : d ≠ 0 := hd.ne.symm
  have hd3 : ¬ (0 : ℚ) ≤ -d := by linarith
  have hd4 : -d < 0 := by linarith
  refine ⟨?_, ?_, ?_, ?_⟩
  · simp [callAngle, hd1, hd2, h0]
  · simp [callAngle, hd1, hd.le]
  · simp [callAngle, hd2, hd4, h0]
  · simp [callAngle, hd4]

theorem circleMath_unit (a : ℚ) : circleMath.Cos a ^ 2 + circleMath.Sin a ^ 2 = 1 := by
  have h : (1 : ℚ) + a ^ 2 ≠ 0 := by positivity
  simp only [circleMath]
  field_simp
  ring

theorem pointsFrom_append_four (pre : List ℚ) (v0 v1 v2 v3 : ℚ) :
    pointsFrom (pre ++ [v0, v1, v2, v3]) (((pre ++ [v0, v1, v2, v3]).length : Int) - 4)
      = some [v0, v1, v2, v3] := by
  have e : (((pre ++ [v0, v1, v2, v3]).length : Int) - 4) = (pre.length : Int) := by
    simp
  rw [e]
  unfold pointsFrom
  rw [if_pos ⟨Int.natCast_nonneg _, by simp⟩, Int.toNat_ofNat, List.drop_left]

theorem joinMiter_four (S : StrokerMath) (pre1 pre2 : List ℚ)
    (v0 v1 v2 v3 r0 r1 r2 r3 h mlc : ℚ) (clockWise : Bool) (a0 a1 a2 a3 b0 b1 b2 b3 : ℚ) :
    joinMiter S (pre1 ++ [v0, v1, v2, v3]) (pre2 ++ [r0, r1, r2, r3]) h mlc clockWise
        [a0, a1, a2, a3] [b0, b1, b2, b3]
      = .ok (
          if (GetIntersectPointofLines v0 v1 v2 v3 a0 a1 a2 a3).2.2 = false
              ∨ (GetIntersectPointofLines r0 r1 r2 r3 b0 b1 b2 b3).2.2 = false
              ∨ S.Hypot ((GetIntersectPointofLines v0 v1 v2 v3 a0 a1 a2 a3).1
                          - (GetIntersectPointofLines r0 r1 r2 r3 b0 b1 b2 b3).1)
                        ((GetIntersectPointofLines v0 v1 v2 v3 a0 a1 a2 a3).2.1
                          - (GetIntersectPointofLines r0 r1 r2 r3 b0 b1 b2 b3).2.1) > mlc
          then ([a0, a1, a2, a3], [b0, b1, b2, b3])
          else if clockWise then
            ([(GetIntersectPointofLines v0 v1 v2 v3 a0 a1 a2 a3).1,
              (GetIntersectPointofLines v0 v1 v2 v3 a0 a1 a2 a3).2.1, a2, a3], [b0, b1, b2, b3])
          else
            ([a0, a1, a2, a3], [(GetIntersectPointofLines r0 r1 r2 r3 b0 b1 b2 b3).1,
              (GetIntersectPointofLines r0 r1 r2 r3 b0 b1 b2 b3).2.1, b2, b3])) := by
  have hlen : ¬ ([a0, a1, a2, a3] : List ℚ).length = 2 := by simp
  have c1 : callVerticesIntersect [v0, v1, v2, v3] [a0, a1, a2, a3]
      = some (GetIntersectPointofLines v0 v1 v2 v3 a0 a1 a2 a3) := rfl
  have c2 : callVerticesIntersect [r0, r1, r2, r3] [b0, b1, b2, b3]
      = some (GetIntersectPointofLines r0 r1 r2 r3 b0 b1 b2 b3) := rfl
  have ga2 : pointsGet [a0, a1, a2, a3] 2 = some a2 := rfl
  have ga3 : pointsGet [a0, a1, a2, a3] 3 = some a3 := rfl
  have gb2 : pointsGet [b0, b1, b2, b3] 2 = some b2 := rfl
  have gb3 : pointsGet [b0, b1, b2, b3] 3 = some b3 := rfl
  unfold joinMiter
  simp only [if_neg hlen, pointsFrom_append_four, Outcome.ofOption, Outcome.ok_bind, c1, c2,
    ga2, ga3, gb2, gb3]
  generalize GetIntersectPointofLines v0 v1 v2 v3 a0 a1 a2 a3 = i1
  generalize GetIntersectPointofLines r0 r1 r2 r3 b0 b1 b2 b3 = i2
  obtain ⟨x1, y1, ok1⟩ := i1
  obtain ⟨x2, y2, ok2⟩ := i2
  cases ok1 <;> cases ok2 <;> simp only [Bool.false_and, Bool.and_false, Bool.and_self,
    Bool.false_eq_true, if_false, if_true, true_or, or_true, false_or, Bool.true_eq_false]
  by_cases hh : S.Hypot (x1 - x2) (y1 - y2) > mlc
  · simp only [hh, if_true]
  · simp only [hh, if_false]
    cases clockWise <;> simp

theorem offset_intersections_symmetric (ax ay vx vy bx yb n1x n1y n2x n2y : ℚ)
    (h : (GetIntersectPointofLines (ax + n1x) (ay + n1y) (vx + n1x) (vy + n1y)
            (vx + n2x) (vy + n2y) (bx + n2x) (yb + n2y)).2.2 = true) :
    GetIntersectPointofLines (ax - n1x) (ay - n1y) (vx - n1x) (vy - n1y)
        (vx - n2x) (vy - n2y) (bx - n2x) (yb - n2y)
      = (2 * vx - (GetIntersectPointofLines (ax + n1x) (ay + n1y) (vx + n1x) (vy + n1y)
            (vx + n2x) (vy + n2y) (bx + n2x) (yb + n2y)).1,
         2 * vy - (GetIntersectPointofLines (ax + n1x) (ay + n1y) (vx + n1x) (vy + n1y)
            (vx + n2x) (vy + n2y) (bx + n2x) (yb + n2y)).2.1, true) := by
  unfold GetIntersectPointofLines GeneralEquation at h ⊢
  simp only [] at h ⊢
  have e : (vy - n1y - (ay - n1y)) * (vx - n2x - (bx - n2x))
      - (yb - n2y - (vy - n2y)) * (ax - n1x - (vx - n1x))
      = (vy + n1y - (ay + n1y)) * (vx + n2x - (bx + n2x))
      - (yb + n2y - (vy + n2y)) * (ax + n1x - (vx + n1x)) := by ring
  by_cases hm : (vy + n1y - (ay + n1y)) * (vx + n2x - (bx + n2x))
      - (yb + n2y - (vy + n2y)) * (ax + n1x - (vx + n1x)) = 0
  · rw [if_pos hm] at h
    exact Bool.noConfusion h
  · rw [if_neg hm, if_neg (by rw [e]; exact hm)]
    simp only [Prod.mk.injEq, and_true]
    rw [e]
    constructor
    · rw [eq_sub_iff_add_eq, ← add_div, div_eq_iff hm]
      ring
    · rw [eq_sub_iff_add_eq, ← add_div, div_eq_iff hm]
      ring

/-- C26, counterexample: at the vertex (0, 0) between the segments from (−5, 0) and to
(7, 24), with line width 2 and miter limit 1 (miterLimitCheck 2), the offset lines meet
at (3/4, −1), at distance 5/4 from the vertex, which is below miterLimit × lineWidth =
2; yet joinMiter returns the bevel points unchanged, and so does the stroker fed these
segments. -/
theorem joinMiter_limit_counterexample :
    joinMiter circleStroker [-5, -1, 0, -1] [-5, 1, 0, 1] 1 2 true
        [0 + 24 / 25, 0 - 7 / 25, 7 + 24 / 25, 24 - 7 / 25]
        [0 - 24 / 25, 0 + 7 / 25, 7 - 24 / 25, 24 + 7 / 25]
      = .ok ([0 + 24 / 25, 0 - 7 / 25, 7 + 24 / 25, 24 - 7 / 25],
             [0 - 24 / 25, 0 + 7 / 25, 7 - 24 / 25, 24 + 7 / 25])
    ∧ ((LineStroker.feed circleStroker circleMath 10
        [.MoveTo (-5) 0, .LineTo 0 0, .LineTo 7 24]
        (newLineStroker 1 2 .LineCapButt .LineJoinMiter)).bind fun r => .ok r.2.vertices)
      = .ok [-5, -1, 0, -1, 0 + 24 / 25, 0 - 7 / 25, 7 + 24 / 25, 24 - 7 / 25]
    ∧ GetIntersectPointofLines (-5) (-1) 0 (-1) (0 + 24 / 25) (0 - 7 / 25) (7 + 24 / 25)
        (24 - 7 / 25) = (3 / 4, -1, true)
    ∧ circleStroker.Hypot (3 / 4 - 0) (-1 - 0) = 5 / 4
    ∧ (5 / 4 : ℚ) ≤ 1 * (2 * 1) := by
  refine ⟨by decide!, by decide!, by decide!, by decide!, by norm_num⟩

/-- C26, as amended: called with at least one earlier segment and the four coordinates
of the new segment on each side, joinMiter returns; it gives back ar1, ar2 unchanged
exactly when one pair of offset lines has no intersection or the distance between the
two intersections, the one on the vertices side and the one on the rewind side, exceeds
miterLimitCheck; otherwise it replaces the first point of ar1 (clockwise turn) or of
ar2 by the intersection on that side.  The two intersections are mirror images in the
join vertex, so that their distance is twice the distance from the vertex to either. -/
theorem joinMiter_spec (S : StrokerMath) (pre1 pre2 : List ℚ)
    (v0 v1 v2 v3 r0 r1 r2 r3 h mlc : ℚ) (clockWise : Bool) (a0 a1 a2 a3 b0 b1 b2 b3 : ℚ) :
    joinMiter S (pre1 ++ [v0, v1, v2, v3]) (pre2 ++ [r0, r1, r2, r3]) h mlc clockWise
        [a0, a1, a2, a3] [b0, b1, b2, b3]
      = .ok (
          if (GetIntersectPointofLines v0 v1 v2 v3 a0 a1 a2 a3).2.2 = false
              ∨ (GetIntersectPointofLines r0 r1 r2 r3 b0 b1 b2 b3).2.2 = false
              ∨ S.Hypot ((GetIntersectPointofLines v0 v1 v2 v3 a0 a1 a2 a3).1
                          - (GetIntersectPointofLines r0 r1 r2 r3 b0 b1 b2 b3).1)
                        ((GetIntersectPointofLines v0 v1 v2 v3 a0 a1 a2 a3).2.1
                          - (GetIntersectPointofLines r0 r1 r2 r3 b0 b1 b2 b3).2.1) > mlc
          then ([a0, a1, a2, a3], [b0, b1, b2, b3])
          else if clockWise then
            ([(GetIntersectPointofLines v0 v1 v2 v3 a0 a1 a2 a3).1,
              (GetIntersectPointofLines v0 v1 v2 v3 a0 a1 a2 a3).2.1, a2, a3], [b0, b1, b2, b3])
          else
            ([a0, a1, a2, a3], [(GetIntersectPointofLines r0 r1 r2 r3 b0 b1 b2 b3).1,
              (GetIntersectPointofLines r0 r1 r2 r3 b0 b1 b2 b3).2.1, b2, b3]))
    ∧ ∀ ax ay vx vy bx yb n1x n1y n2x n2y : ℚ,
        (GetIntersectPointofLines (ax + n1x) (ay + n1y) (vx + n1x) (vy + n1y)
            (vx + n2x) (vy + n2y) (bx + n2x) (yb + n2y)).2.2 = true →
        GetIntersectPointofLines (ax - n1x) (ay - n1y) (vx - n1x) (vy - n1y)
            (vx - n2x) (vy - n2y) (bx - n2x) (yb - n2y)
          = (2 * vx - (GetIntersectPointofLines (ax + n1x) (ay + n1y) (vx + n1x) (vy + n1y)
                (vx + n2x) (vy + n2y) (bx + n2x) (yb + n2y)).1,
             2 * vy - (GetIntersectPointofLines (ax + n1x) (ay + n1y) (vx + n1x) (vy + n1y)
                (vx + n2x) (vy + n2y) (bx + n2x) (yb + n2y)).2.1, true) :=
  ⟨joinMiter_four S pre1 pre2 v0 v1 v2 v3 r0 r1 r2 r3 h mlc clockWise a0 a1 a2 a3 b0 b1 b2 b3,
   offset_intersections_symmetric⟩

/-- Witness of C26 as amended: the two intersections at the vertex (0, 0) between the
segments from (−5, 0) and to (7, 24), at half line width 1. -/
theorem joinMiter_spec_witness :
    (GetIntersectPointofLines (-5 + 0) (0 + -1) (0 + 0) (0 + -1)
        (0 + 24 / 25) (0 + -(7 / 25)) (7 + 24 / 25) (24 + -(7 / 25))).2.2 = true
    ∧ GetIntersectPointofLines (-5 - 0) (0 - -1) (0 - 0) (0 - -1)
        (0 - 24 / 25) (0 - -(7 / 25)) (7 - 24 / 25) (24 - -(7 / 25))
      = (2 * 0 - (GetIntersectPointofLines (-5 + 0) (0 + -1) (0 + 0) (0 + -1)
            (0 + 24 / 25) (0 + -(7 / 25)) (7 + 24 / 25) (24 + -(7 / 25))).1,
         2 * 0 - (GetIntersectPointofLines (-5 + 0) (0 + -1) (0 + 0) (0 + -1)
            (0 + 24 / 25) (0 + -(7 / 25)) (7 + 24 / 25) (24 + -(7 / 25))).2.1, true) :=
  ⟨by decide!, (joinMiter_spec circleStroker [] [] 0 0 0 0 0 0 0 0 1 2 true 0 0 0 0 0 0 0 0).2
      (-5) 0 0 0 7 24 0 (-1) (24 / 25) (-(7 / 25)) (by decide!)⟩

/-! ## SubdivideCubic and SubdivideQuad -/

/-- C31: SubdivideCubic, called on a buffer that holds the cubic c = P0 P1 P2 P3 at offset 0
with c1 at offset 8 and c2 at offset 16, returns, leaves c and what follows the two outputs
as they were, and splits c by de Casteljau at t = 1/2: c1 starts at P0, c2 ends at P3, the
last point of c1 and the first of c2 are (P0 + 3·P1 + 3·P2 + P3)/8, the inner control
points are the successive midpoints, and the two halves are equivalent to c: the point of
c1 at t is the point of c at t/2, the point of c2 at t is the point of c at (1 + t)/2. -/
theorem SubdivideCubic_de_Casteljau (x0 y0 x1 y1 x2 y2 x3 y3 : ℚ)
    (e0 e1 e2 e3 e4 e5 e6 e7 f0 f1 f2 f3 f4 f5 f6 f7 : ℚ) (post : List ℚ) :
    ∃ c1 c2 : List ℚ,
      SubdivideCubic (x0 :: y0 :: x1 :: y1 :: x2 :: y2 :: x3 :: y3
          :: e0 :: e1 :: e2 :: e3 :: e4 :: e5 :: e6 :: e7
          :: f0 :: f1 :: f2 :: f3 :: f4 :: f5 :: f6 :: f7 :: post) 0 8 16
        = some ([x0, y0, x1, y1, x2, y2, x3, y3] ++ c1 ++ c2 ++ post)
      ∧ c1 = [x0, y0, (x0 + x1) / 2, (y0 + y1) / 2,
              ((x0 + x1) / 2 + (x1 + x2) / 2) / 2, ((y0 + y1) / 2 + (y1 + y2) / 2) / 2,
              (x0 + 3 * x1 + 3 * x2 + x3) / 8, (y0 + 3 * y1 + 3 * y2 + y3) / 8]
      ∧ c2 = [(x0 + 3 * x1 + 3 * x2 + x3) / 8, (y0 + 3 * y1 + 3 * y2 + y3) / 8,
              ((x1 + x2) / 2 + (x2 + x3) / 2) / 2, ((y1 + y2) / 2 + (y2 + y3) / 2) / 2,
              (x2 + x3) / 2, (y2 + y3) / 2, x3, y3]
      ∧ ∀ t : ℚ,
          cubicBezierPoint c1 t = cubicBezierPoint [x0, y0, x1, y1, x2, y2, x3, y3] (t / 2)
          ∧ cubicBezierPoint c2 t
              = cubicBezierPoint [x0, y0, x1, y1, x2, y2, x3, y3] ((1 + t) / 2) := by
  refine ⟨_, _, ?_, rfl, rfl, ?_⟩
  · unfold SubdivideCubic
    rw [if_pos (by simp)]
    simp only [Nat.zero_add, Nat.add_zero, Nat.reduceAdd, List.set_cons_succ, List.set_cons_zero,
      List.getD_cons_succ, List.getD_cons_zero, List.cons_append, List.nil_append,
      Option.some.injEq, List.cons.injEq, true_and, and_true]
    refine ⟨?_, ?_, ?_, ?_⟩ <;> ring
  · intro t
    simp only [cubicBezierPoint, List.getD_cons_succ, List.getD_cons_zero, Prod.mk.injEq]
    refine ⟨⟨?_, ?_⟩, ⟨?_, ?_⟩⟩ <;> ring

/-- C32: alias safety.  TraceCubic calls SubdivideCubic with c2 in the storage of the
input c (offsets 0, 8, 0 of the part of the buffer that starts at c) and TraceQuad calls
SubdivideQuad likewise (offsets 0, 6, 0).  The call returns, and the c1 and c2 it leaves at
offsets 8 and 0 (6 and 0) are the ones that the call with c2 in separate storage (offset 16,
resp. 12) computes, whatever the buffers held at the places of the outputs. -/
theorem Subdivide_alias_safe (a0 a1 a2 a3 a4 a5 a6 a7 : ℚ)
    (e0 e1 e2 e3 e4 e5 e6 e7 f0 f1 f2 f3 f4 f5 f6 f7 : ℚ) (post post1 : List ℚ) :
    (∃ c1 c2 : List ℚ, c1.length = 8 ∧ c2.length = 8
      ∧ SubdivideCubic (a0 :: a1 :: a2 :: a3 :: a4 :: a5 :: a6 :: a7
          :: e0 :: e1 :: e2 :: e3 :: e4 :: e5 :: e6 :: e7 :: post) 0 8 0
        = some (c2 ++ c1 ++ post)
      ∧ SubdivideCubic (a0 :: a1 :: a2 :: a3 :: a4 :: a5 :: a6 :: a7
          :: e0 :: e1 :: e2 :: e3 :: e4 :: e5 :: e6 :: e7
          :: f0 :: f1 :: f2 :: f3 :: f4 :: f5 :: f6 :: f7 :: post1) 0 8 16
        = some ([a0, a1, a2, a3, a4, a5, a6, a7] ++ c1 ++ c2 ++ post1))
    ∧ (∃ q1 q2 : List ℚ, q1.length = 6 ∧ q2.length = 6
      ∧ SubdivideQuad (a0 :: a1 :: a2 :: a3 :: a4 :: a5
          :: e0 :: e1 :: e2 :: e3 :: e4 :: e5 :: post) 0 6 0
        = some (q2 ++ q1 ++ post)
      ∧ SubdivideQuad (a0 :: a1 :: a2 :: a3 :: a4 :: a5
          :: e0 :: e1 :: e2 :: e3 :: e4 :: e5
          :: f0 :: f1 :: f2 :: f3 :: f4 :: f5 :: post1) 0 6 12
        = some ([a0, a1, a2, a3, a4, a5] ++ q1 ++ q2 ++ post1)) := by
  constructor
  · refine ⟨[a0, a1, (a0 + a2) / 2, (a1 + a3) / 2,
        ((a0 + a2) / 2 + (a2 + a4) / 2) / 2, ((a1 + a3) / 2 + (a3 + a5) / 2) / 2,
        (((a0 + a2) / 2 + (a2 + a4) / 2) / 2 + ((a2 + a4) / 2 + (a4 + a6) / 2) / 2) / 2,
        (((a1 + a3) / 2 + (a3 + a5) / 2) / 2 + ((a3 + a5) / 2 + (a5 + a7) / 2) / 2) / 2],
      [(((a0 + a2) / 2 + (a2 + a4) / 2) / 2 + ((a2 + a4) / 2 + (a4 + a6) / 2) / 2) / 2,
        (((a1 + a3) / 2 + (a3 + a5) / 2) / 2 + ((a3 + a5) / 2 + (a5 + a7) / 2) / 2) / 2,
        ((a2 + a4) / 2 + (a4 + a6) / 2) / 2, ((a3 + a5) / 2 + (a5 + a7) / 2) / 2,
        (a4 + a6) / 2, (a5 + a7) / 2, a6, a7], rfl, rfl, ?_, ?_⟩
    · unfold SubdivideCubic
      rw [if_pos (by simp)]
      simp only [Nat.zero_add, Nat.add_zero, Nat.reduceAdd, List.set_cons_succ,
        List.set_cons_zero, List.getD_cons_succ, List.getD_cons_zero, List.cons_append,
        List.nil_append]
    · unfold SubdivideCubic
      rw [if_pos (by simp)]
      simp only [Nat.zero_add, Nat.add_zero, Nat.reduceAdd, List.set_cons_succ,
        List.set_cons_zero, List.getD_cons_succ, List.getD_cons_zero, List.cons_append,
        List.nil_append]
  · refine ⟨[a0, a1, (a0 + a2) / 2, (a1 + a3) / 2,
        ((a0 + a2) / 2 + (a2 + a4) / 2) / 2, ((a1 + a3) / 2 + (a3 + a5) / 2) / 2],
      [((a0 + a2) / 2 + (a2 + a4) / 2) / 2, ((a1 + a3) / 2 + (a3 + a5) / 2) / 2,
        (a2 + a4) / 2, (a3 + a5) / 2, a4, a5], rfl, rfl, ?_, ?_⟩
    · unfold SubdivideQuad
      rw [if_pos (by simp)]
      simp only [Nat.zero_add, Nat.add_zero, Nat.reduceAdd, List.set_cons_succ,
        List.set_cons_zero, List.getD_cons_succ, List.getD_cons_zero, List.cons_append,
        List.nil_append]
    · unfold SubdivideQuad
      rw [if_pos (by simp)]
      simp only [Nat.zero_add, Nat.add_zero, Nat.reduceAdd, List.set_cons_succ,
        List.set_cons_zero, List.getD_cons_succ, List.getD_cons_zero, List.cons_append,
        List.nil_append]

/-! ## Flatten on an ArcAngle command -/

/-- One turn of Flatten on a MoveTo command. -/
theorem flattenTurn_MoveToCmp (M : MathFuncs) (acos : ℚ → ℚ) (fuel : Nat) (points : List ℚ)
    (scale : ℚ) (s : FlattenState) (x y : ℚ)
    (hx : pointsGet points s.i = some x) (hy : pointsGet points (s.i + 1) = some y) :
    flattenTurn M acos fuel points scale s .MoveToCmp
      = .ok ((if s.i ≠ 0 then [FlattenerCall.End] else []) ++ [.MoveTo x y],
             { startX := x, startY := y, x := x, y := y, i := s.i + 2 }) := by
  rw [flattenTurn, hx, hy]
  rfl

/-- One turn of Flatten on an ArcAngle command: the six stored numbers go to TraceArc. -/
theorem flattenTurn_ArcAngleCmp (M : MathFuncs) (acos : ℚ → ℚ) (fuel : Nat) (points : List ℚ)
    (scale : ℚ) (s : FlattenState) (a0 a1 a2 a3 a4 a5 : ℚ)
    (h0 : pointsGet points s.i = some a0) (h1 : pointsGet points (s.i + 1) = some a1)
    (h2 : pointsGet points (s.i + 2) = some a2) (h3 : pointsGet points (s.i + 3) = some a3)
    (h4 : pointsGet points (s.i + 4) = some a4) (h5 : pointsGet points (s.i + 5) = some a5) :
    flattenTurn M acos fuel points scale s .ArcAngleCmp
      = (TraceArc M acos fuel a0 a1 a2 a3 a4 a5 scale).bind fun r =>
          .ok (lineCalls r.1 ++ [.LineTo r.2.1 r.2.2],
               { s with x := r.2.1, y := r.2.2, i := s.i + 6 }) := by
  rw [flattenTurn, h0, h1, h2, h3, h4, h5]
  rfl

/-- One turn of Flatten on a QuadCurveTo command: TraceQuad gets `path.Points[i-2:]`. -/
theorem flattenTurn_QuadCurveToCmp (M : MathFuncs) (acos : ℚ → ℚ) (fuel : Nat)
    (points : List ℚ) (scale : ℚ) (s : FlattenState) (quad : List ℚ) (x y : ℚ)
    (hq : pointsFrom points (s.i - 2) = some quad)
    (hx : pointsGet points (s.i + 2) = some x) (hy : pointsGet points (s.i + 3) = some y) :
    flattenTurn M acos fuel points scale s .QuadCurveToCmp
      = (TraceQuad fuel quad 0.5).bind fun r =>
          .ok (lineCalls r.lines ++ [.LineTo x y], { s with x := x, y := y, i := s.i + 4 }) := by
  rw [flattenTurn, hq, hx, hy]
  rfl

/-- One turn of Flatten on a CubicCurveTo command: TraceCubic gets `path.Points[i-2:]`. -/
theorem flattenTurn_CubicCurveToCmp (M : MathFuncs) (acos : ℚ → ℚ) (fuel : Nat)
    (points : List ℚ) (scale : ℚ) (s : FlattenState) (cubic : List ℚ) (x y : ℚ)
    (hq : pointsFrom points (s.i - 2) = some cubic)
    (hx : pointsGet points (s.i + 4) = some x) (hy : pointsGet points (s.i + 5) = some y) :
    flattenTurn M acos fuel points scale s .CubicCurveToCmp
      = (TraceCubic fuel cubic 0.5).bind fun r =>
          .ok (lineCalls r.lines ++ [.LineTo x y], { s with x := x, y := y, i := s.i + 6 }) := by
  rw [flattenTurn, hq, hx, hy]
  rfl

/-- Flatten on the two commands that ArcAngle appends to an empty path. -/
theorem flattenLoop_MoveTo_ArcAngle (M : MathFuncs) (acos : ℚ → ℚ) (fuel : Nat)
    (sx sy cx cy rx ry s e scale : ℚ) (rest : List ℚ) :
    flattenLoop M acos fuel (sx :: sy :: cx :: cy :: rx :: ry :: s :: e :: rest) scale
        [.MoveToCmp, .ArcAngleCmp] { startX := 0, startY := 0, x := 0, y := 0, i := 0 }
      = (TraceArc M acos fuel cx cy rx ry s e scale).bind fun a =>
          .ok ([FlattenerCall.MoveTo sx sy] ++ lineCalls a.1 ++ [.LineTo a.2.1 a.2.2],
               { startX := sx, startY := sy, x := a.2.1, y := a.2.2, i := 8 }) := by
  rw [flattenLoop, flattenTurn_MoveToCmp M acos fuel _ scale _ sx sy (by simp [pointsGet])
    (by simp [pointsGet]), Outcome.ok_bind, flattenLoop,
    flattenTurn_ArcAngleCmp M acos fuel _ scale _ cx cy rx ry s e (by simp [pointsGet])
      (by simp [pointsGet]) (by simp [pointsGet]) (by simp [pointsGet]) (by simp [pointsGet])
      (by simp [pointsGet])]
  cases TraceArc M acos fuel cx cy rx ry s e scale with
  | ok a =>
    simp only [Outcome.ok_bind, flattenLoop, List.append_nil, ne_eq, not_true_eq_false,
      if_false, List.nil_append, List.singleton_append, List.cons_append, Outcome.ok.injEq,
      Prod.mk.injEq, true_and]
    rfl
  | panic => rfl
  | outOfFuel => rfl

/-- The path made by ArcAngle on the empty path.  The two normalisation loops make no
turn, since the end angle s + w lies on the side of s that the sign of w tells; the pair
that is stored is (s, s + w). -/
theorem Path.ArcAngle_NewPath (M : MathFuncs) (cx cy rx ry s w : ℚ) :
    NewPath.ArcAngle M cx cy rx ry s w
      = { Components := [.MoveToCmp, .ArcAngleCmp]
          Points := [cx + M.Cos s * rx, cy + M.Sin s * ry, cx, cy, rx, ry, s, s + w]
          x := cx + M.Cos (s + w) * rx
          y := cy + M.Sin (s + w) * ry } := by
  by_cases hw : 0 ≤ w
  · rw [Path.ArcAngle_nonneg M NewPath cx cy rx ry s w hw]
    simp [NewPath, Path.MoveTo, Path.appendToPath]
  · rw [Path.ArcAngle_neg M NewPath cx cy rx ry s w (not_le.mp hw)]
    simp [NewPath, Path.MoveTo, Path.appendToPath]

/-- C33, the code: for the path made by ArcAngle(cx, cy, rx, ry, s, w) on the empty
path, LastPoint is the point of the ellipse at angle s + w.  ArcAngle stores the pair
(s, s + w), start and end angle; Flatten hands the stored pair to TraceArc, which reads it as
(start, sweep): the point TraceArc returns, which is the last one Flatten emits for the
arc, is the point at angle s + (s + w). -/
theorem Flatten_ArcAngle_end_point (M : MathFuncs) (acos : ℚ → ℚ) (fuel : Nat)
    (cx cy rx ry s w scale : ℚ) :
    (NewPath.ArcAngle M cx cy rx ry s w).LastPoint
      = (cx + M.Cos (s + w) * rx, cy + M.Sin (s + w) * ry)
    ∧ Flatten M acos fuel (NewPath.ArcAngle M cx cy rx ry s w) scale
      = ((TraceArc M acos fuel cx cy rx ry s (s + w) scale).bind fun a =>
          .ok ([FlattenerCall.MoveTo (cx + M.Cos s * rx) (cy + M.Sin s * ry)]
                ++ lineCalls a.1 ++ [.LineTo a.2.1 a.2.2, .End]))
    ∧ ∀ a, TraceArc M acos fuel cx cy rx ry s (s + w) scale = .ok a →
        a.2 = (cx + M.Cos (s + (s + w)) * rx, cy + M.Sin (s + (s + w)) * ry) := by
  refine ⟨?_, ?_, ?_⟩
  · rw [Path.ArcAngle_NewPath]
    rfl
  · rw [Path.ArcAngle_NewPath]
    unfold Flatten
    simp only []
    rw [flattenLoop_MoveTo_ArcAngle]
    cases TraceArc M acos fuel cx cy rx ry s (s + w) scale with
    | ok a =>
      simp only [Outcome.ok_bind, List.append_assoc, List.cons_append, List.nil_append]
    | panic => rfl
    | outOfFuel => rfl
  · intro a h
    unfold TraceArc at h
    exact (traceArcLoop_ok _ _ _ _ _ _ _ _ _ _ _ h).1

/-- C33 at the failing input: ArcAngle(0, 0, 10, 10, 1, 1) on the empty path, with the
rational circle functions (cos 1 = 0, sin 1 = 1).  LastPoint is the point at angle 2,
(−6, 8); Flatten emits the points at angles 1, 3/2, 2, 5/2 and then, as the last point of
the arc, the point at angle 3, (−8, 6). -/
theorem Flatten_ArcAngle_end_point_witness :
    (NewPath.ArcAngle circleMath 0 0 10 10 1 1).LastPoint = (-6, 8)
    ∧ Flatten circleMath (fun _ => 1 / 4) 10 (NewPath.ArcAngle circleMath 0 0 10 10 1 1) 1
      = .ok [.MoveTo 0 10, .LineTo (-50 / 13) (120 / 13), .LineTo (-6) 8,
             .LineTo (-210 / 29) (200 / 29), .LineTo (-8) 6, .End] := by
  refine ⟨?_, ?_⟩
  · rw [(Flatten_ArcAngle_end_point circleMath (fun _ => 1 / 4) 10 0 0 10 10 1 1 1).1]
    decide!
  · rw [(Flatten_ArcAngle_end_point circleMath (fun _ => 1 / 4) 10 0 0 10 10 1 1 1).2.1]
    decide!

/-- C34, the code: for a QuadraticCurveTo or BezierCurveTo appended after
ArcAngle(cx, cy, rx, ry, s, w), the pen position when the curve is appended is the end point
of the arc, (cx + cos(s + w)·rx, cy + sin(s + w)·ry), whereas Flatten traces the curve from
`path.Points[i-2:]`, whose first two entries are the two angles s and s + w stored by
ArcAngle. -/
theorem Flatten_curve_after_ArcAngle (M : MathFuncs) (acos : ℚ → ℚ) (fuel : Nat)
    (cx cy rx ry s w c1x c1y c2x c2y x y scale : ℚ) :
    (NewPath.ArcAngle M cx cy rx ry s w).LastPoint
      = (cx + M.Cos (s + w) * rx, cy + M.Sin (s + w) * ry)
    ∧ Flatten M acos fuel ((NewPath.ArcAngle M cx cy rx ry s w).QuadraticCurveTo c1x c1y x y)
        scale
      = ((TraceArc M acos fuel cx cy rx ry s (s + w) scale).bind fun a =>
         (TraceQuad fuel [s, s + w, c1x, c1y, x, y] 0.5).bind fun t =>
          .ok ([FlattenerCall.MoveTo (cx + M.Cos s * rx) (cy + M.Sin s * ry)]
                ++ lineCalls a.1 ++ [.LineTo a.2.1 a.2.2]
                ++ lineCalls t.lines ++ [.LineTo x y, .End]))
    ∧ Flatten M acos fuel
        ((NewPath.ArcAngle M cx cy rx ry s w).BezierCurveTo c1x c1y c2x c2y x y) scale
      = ((TraceArc M acos fuel cx cy rx ry s (s + w) scale).bind fun a =>
         (TraceCubic fuel [s, s + w, c1x, c1y, c2x, c2y, x, y] 0.5).bind fun t =>
          .ok ([FlattenerCall.MoveTo (cx + M.Cos s * rx) (cy + M.Sin s * ry)]
                ++ lineCalls a.1 ++ [.LineTo a.2.1 a.2.2]
                ++ lineCalls t.lines ++ [.LineTo x y, .End])) := by
  refine ⟨?_, ?_, ?_⟩
  · rw [Path.ArcAngle_NewPath]
    rfl
  · rw [Path.ArcAngle_NewPath]
    have hq : ({ Components := [.MoveToCmp, .ArcAngleCmp]
                 Points := [cx + M.Cos s * rx, cy + M.Sin s * ry, cx, cy, rx, ry, s, s + w]
                 x := cx + M.Cos (s + w) * rx
                 y := cy + M.Sin (s + w) * ry } : Path).QuadraticCurveTo c1x c1y x y
        = { Components := [.MoveToCmp, .ArcAngleCmp] ++ [.QuadCurveToCmp]
            Points := [cx + M.Cos s * rx, cy + M.Sin s * ry, cx, cy, rx, ry, s, s + w,
                       c1x, c1y, x, y]
            x := x
            y := y } := by
      simp [Path.QuadraticCurveTo, Path.appendToPath]
    rw [hq]
    unfold Flatten
    simp only []
    rw [flattenLoop_append, flattenLoop_MoveTo_ArcAngle]
    cases TraceArc M acos fuel cx cy rx ry s (s + w) scale with
    | ok a =>
      rw [Outcome.ok_bind, Outcome.ok_bind, flattenLoop,
        flattenTurn_QuadCurveToCmp M acos fuel _ scale _ [s, s + w, c1x, c1y, x, y] x y
          (by simp [pointsFrom]) (by simp [pointsGet]) (by simp [pointsGet])]
      cases TraceQuad fuel [s, s + w, c1x, c1y, x, y] 0.5 with
      | ok t =>
        simp only [Outcome.ok_bind, flattenLoop, List.append_assoc, List.cons_append,
          List.nil_append, List.append_nil]
      | panic => rfl
      | outOfFuel => rfl
    | panic => rfl
    | outOfFuel => rfl
  · rw [Path.ArcAngle_NewPath]
    have hq : ({ Components := [.MoveToCmp, .ArcAngleCmp]
                 Points := [cx + M.Cos s * rx, cy + M.Sin s * ry, cx, cy, rx, ry, s, s + w]
                 x := cx + M.Cos (s + w) * rx
                 y := cy + M.Sin (s + w) * ry } : Path).BezierCurveTo c1x c1y c2x c2y x y
        = { Components := [.MoveToCmp, .ArcAngleCmp] ++ [.CubicCurveToCmp]
            Points := [cx + M.Cos s * rx, cy + M.Sin s * ry, cx, cy, rx, ry, s, s + w,
                       c1x, c1y, c2x, c2y, x, y]
            x := x
            y := y } := by
      simp [Path.BezierCurveTo, Path.appendToPath]
    rw [hq]
    unfold Flatten
    simp only []
    rw [flattenLoop_append, flattenLoop_MoveTo_ArcAngle]
    cases TraceArc M acos fuel cx cy rx ry s (s + w) scale with
    | ok a =>
      rw [Outcome.ok_bind, Outcome.ok_bind, flattenLoop,
        flattenTurn_CubicCurveToCmp M acos fuel _ scale _
          [s, s + w, c1x, c1y, c2x, c2y, x, y] x y
          (by simp [pointsFrom]) (by simp [pointsGet]) (by simp [pointsGet])]
      cases TraceCubic fuel [s, s + w, c1x, c1y, c2x, c2y, x, y] 0.5 with
      | ok t =>
        simp only [Outcome.ok_bind, flattenLoop, List.append_assoc, List.cons_append,
          List.nil_append, List.append_nil]
      | panic => rfl
      | outOfFuel => rfl
    | panic => rfl
    | outOfFuel => rfl

/-- C34 at the failing input: ArcAngle(0, 0, 10, 10, 0, 1) and then
QuadraticCurveTo(10, 10, 20, 10).  The pen is at (0, 10) when the curve is appended, and
the curve from there is the straight line to (20, 10), traced as one segment; Flatten
traces it from (0, 1), the two stored angles, and emits (5, 79/16), (10, 31/4),
(15, 151/16) on the way from (0, 10) to (20, 10). -/
theorem Flatten_curve_after_ArcAngle_witness :
    (NewPath.ArcAngle circleMath 0 0 10 10 0 1).LastPoint = (0, 10)
    ∧ TraceQuad 100 [0, 10, 10, 10, 20, 10] 0.5 = .ok { lines := [(20, 10)], err := false }
    ∧ Flatten circleMath (fun _ => 1 / 4) 100
        ((NewPath.ArcAngle circleMath 0 0 10 10 0 1).QuadraticCurveTo 10 10 20 10) 1
      = .ok [.MoveTo 10 0, .LineTo 6 8, .LineTo 0 10, .LineTo 5 (79 / 16), .LineTo 10 (31 / 4),
             .LineTo 15 (151 / 16), .LineTo 20 10, .LineTo 20 10, .End] := by
  refine ⟨?_, by decide!, ?_⟩
  · rw [(Flatten_curve_after_ArcAngle circleMath (fun _ => 1 / 4) 100 0 0 10 10 0 1
      10 10 0 0 20 10 1).1]
    decide!
  · rw [(Flatten_curve_after_ArcAngle circleMath (fun _ => 1 / 4) 100 0 0 10 10 0 1
      10 10 0 0 20 10 1).2.1]
    decide!

/-! ## Path.Translate; surfacePattern.ColorAt -/

theorem translateLoop_even (dx dy : ℚ) :
    ∀ (n : Nat) (l : List ℚ), l.length = 2 * n →
      ∃ r, translateLoop dx dy l = some r ∧ r.length = l.length
        ∧ ∀ i : Nat, i < l.length →
            r.getD i 0 = l.getD i 0 + (if i % 2 = 0 then dx else dy) := by
  intro n
  induction n with
  | zero =>
    intro l hl
    have : l = [] := List.length_eq_zero.mp (by omega)
    subst this
    exact ⟨[], rfl, rfl, fun i hi => absurd hi (Nat.not_lt_zero i)⟩
  | succ n ih =>
    intro l hl
    match l, hl with
    | x :: y :: rest, hl =>
      have hr : rest.length = 2 * n := by simp at hl; omega
      obtain ⟨r, h1, h2, h3⟩ := ih rest hr
      refine ⟨(x + dx) :: (y + dy) :: r, by simp [translateLoop, h1], by simp [h2], ?_⟩
      intro i hi
      match i with
      | 0 => simp
      | 1 => simp
      | k + 2 =>
        have hk : k < rest.length := by simp at hi; omega
        have := h3 k hk
        simp only [List.getD_cons_succ]
        rw [this]
        have e : (k + 2) % 2 = k % 2 := by omega
        rw [e]

/-- C35, the code: on a path whose Points has even length (every path made by the builder
methods), Translate returns, Translated gives the same path, the components are kept, and
EVERY entry of Points is shifted: dx is added at the even indices and dy at the odd ones,
whatever command the entry belongs to; the radii and the angles of an ArcAngle command
are shifted with the rest. -/
theorem Path.Translate_shifts_every_pair (p : Path) (dx dy : ℚ)
    (h : p.Points.length % 2 = 0) :
    ∃ q, p.Translate dx dy = some q ∧ p.Translated dx dy = some q
      ∧ q.Components = p.Components ∧ q.Points.length = p.Points.length
      ∧ ∀ i : Nat, i < p.Points.length →
          q.Points.getD i 0 = p.Points.getD i 0 + (if i % 2 = 0 then dx else dy) := by
  obtain ⟨r, h1, h2, h3⟩ := translateLoop_even dx dy (p.Points.length / 2) p.Points (by omega)
  refine ⟨{ p with Points := r }, by simp [Path.Translate, h1], ?_, rfl, h2, h3⟩
  simp [Path.Translated, Path.Translate, Path.Copy, h1]

/-- C35 at the failing input: the arc ArcAngle(0, 0, 5, 5, 0, 1) translated by (10, 20):
the centre moves to (10, 20), and the radii become (15, 25), the angles (10, 21). -/
theorem Path.Translate_shifts_every_pair_witness :
    (NewPath.ArcAngle circleMath 0 0 5 5 0 1).Points = [5, 0, 0, 0, 5, 5, 0, 1]
    ∧ ∃ q, (NewPath.ArcAngle circleMath 0 0 5 5 0 1).Translate 10 20 = some q
        ∧ q.Points.getD 2 0 = 0 + 10 ∧ q.Points.getD 3 0 = 0 + 20
        ∧ q.Points.getD 4 0 = 5 + 10 ∧ q.Points.getD 5 0 = 5 + 20
        ∧ q.Points.getD 6 0 = 0 + 10 ∧ q.Points.getD 7 0 = 1 + 20 := by
  have hp : (NewPath.ArcAngle circleMath 0 0 5 5 0 1).Points = [5, 0, 0, 0, 5, 5, 0, 1] := by
    rw [Path.ArcAngle_NewPath]
    decide!
  obtain ⟨q, h1, _, _, _, h5⟩ :=
    Path.Translate_shifts_every_pair (NewPath.ArcAngle circleMath 0 0 5 5 0 1) 10 20
      (by rw [hp]; rfl)
  rw [hp] at h5
  refine ⟨hp, q, h1, ?_, ?_, ?_, ?_, ?_, ?_⟩
  · simpa using h5 2 (by decide)
  · simpa using h5 3 (by decide)
  · simpa using h5 4 (by decide)
  · simpa using h5 5 (by decide)
  · simpa using h5 6 (by decide)
  · simpa using h5 7 (by decide)

theorem intRem_of_ne_zero (x m : Int) (h : m ≠ 0) : intRem x m = some (Int.tmod x m) := by
  simp [intRem, h]

theorem tmod_neg_of_not_dvd (x m : Int) (hm : 0 < m) (hx : x < 0) (hd : ¬ m ∣ x) :
    Int.tmod x m < 0 := by
  obtain ⟨n, rfl⟩ := Int.eq_negSucc_of_lt_zero hx
  obtain ⟨k, rfl⟩ := Int.eq_ofNat_of_zero_le hm.le
  have hpos : 0 < (n + 1) % k := by
    by_contra h0
    have h00 : (n + 1) % k = 0 := by omega
    apply hd
    have h1 : (k : Int) ∣ ((n + 1 : Nat) : Int) :=
      Int.natCast_dvd_natCast.mpr (Nat.dvd_of_mod_eq_zero h00)
    rw [Int.negSucc_eq]
    push_cast at h1
    exact (Int.dvd_neg).mpr h1
  show -Int.ofNat ((n + 1) % k) < 0
  have h2 : (0 : Int) < Int.ofNat ((n + 1) % k) := Int.ofNat_lt.mpr hpos
  omega

/-- C40, the code: for an image with Bounds.Min = (0, 0), width w > 0 and height h > 0,
ColorAt in Repeat mode never fails and is periodic over the coordinates that are not
negative (x, y, k, l ≥ 0); at a negative x that is no multiple of w, or a negative y that is
no multiple of h, it returns color.Transparent whatever the image holds, because the
remainder `%` of Go has the sign of the dividend and the point falls out of the bounds. -/
theorem surfacePattern.ColorAt_Repeat (im : image.Image)
    (hmin : im.Bounds.Min = { X := 0, Y := 0 })
    (hw : 0 < im.Bounds.Dx) (hh : 0 < im.Bounds.Dy) :
    (∀ x y : Int, ∃ c, surfacePattern.ColorAt { im := im, op := .Repeat } x y = some c)
    ∧ (∀ x y k l : Int, 0 ≤ x → 0 ≤ y → 0 ≤ k → 0 ≤ l →
        surfacePattern.ColorAt { im := im, op := .Repeat }
            (x + k * im.Bounds.Dx) (y + l * im.Bounds.Dy)
          = surfacePattern.ColorAt { im := im, op := .Repeat } x y)
    ∧ (∀ x y : Int, (x < 0 ∧ ¬ im.Bounds.Dx ∣ x) ∨ (y < 0 ∧ ¬ im.Bounds.Dy ∣ y) →
        surfacePattern.ColorAt { im := im, op := .Repeat } x y = some color.Transparent) := by
  have hw0 : im.Bounds.Dx ≠ 0 := by omega
  have hh0 : im.Bounds.Dy ≠ 0 := by omega
  refine ⟨?_, ?_, ?_⟩
  · intro x y
    simp only [surfacePattern.ColorAt, intRem_of_ne_zero _ _ hw0, intRem_of_ne_zero _ _ hh0,
      Option.some_bind]
    exact ⟨_, rfl⟩
  · intro x y k l hx hy hk hl
    have ex : Int.tmod (x + k * im.Bounds.Dx) im.Bounds.Dx = Int.tmod x im.Bounds.Dx := by
      rw [Int.tmod_eq_emod (add_nonneg hx (mul_nonneg hk hw.le)) hw.le,
        Int.tmod_eq_emod hx hw.le, Int.add_mul_emod_self]
    have ey : Int.tmod (y + l * im.Bounds.Dy) im.Bounds.Dy = Int.tmod y im.Bounds.Dy := by
      rw [Int.tmod_eq_emod (add_nonneg hy (mul_nonneg hl hh.le)) hh.le,
        Int.tmod_eq_emod hy hh.le, Int.add_mul_emod_self]
    simp only [surfacePattern.ColorAt, intRem_of_ne_zero _ _ hw0, intRem_of_ne_zero _ _ hh0,
      Option.some_bind, ex, ey]
  · intro x y h
    simp only [surfacePattern.ColorAt, intRem_of_ne_zero _ _ hw0, intRem_of_ne_zero _ _ hh0,
      Option.some_bind, Option.some.injEq]
    have hin : image.Point.In { X := Int.tmod x im.Bounds.Dx, Y := Int.tmod y im.Bounds.Dy }
        im.Bounds = false := by
      simp only [image.Point.In, hmin, decide_eq_false_iff_not]
      rcases h with ⟨hx, hd⟩ | ⟨hy, hd⟩
      · have := tmod_neg_of_not_dvd x _ hw hx hd
        omega
      · have := tmod_neg_of_not_dvd y _ hh hy hd
        omega
    rw [hin]
    rfl

/-- C40 at the failing input: an image of two black pixels in one row.  At x = −1 Repeat
gives color.Transparent, one period to the right, at x = 1, it gives black. -/
theorem surfacePattern.ColorAt_Repeat_witness :
    ((-1 : Int) < 0 ∧ ¬ twoBlackPixels.Bounds.Dx ∣ (-1))
    ∧ surfacePattern.ColorAt { im := twoBlackPixels, op := .Repeat } (-1) 0
        = some color.Transparent
    ∧ surfacePattern.ColorAt { im := twoBlackPixels, op := .Repeat } (-1 + 1 * 2) 0
        = some color.Black := by
  have hd : (-1 : Int) < 0 ∧ ¬ twoBlackPixels.Bounds.Dx ∣ (-1) := by decide
  exact ⟨hd, (surfacePattern.ColorAt_Repeat twoBlackPixels rfl (by decide) (by decide)).2.2
    (-1) 0 (Or.inl hd), by decide⟩

/-! ## ComposeRGBA without wraparound -/

theorem u32_byte (x : Nat) (h : x ≤ 255) : u32 x = x := by
  unfold u32
  omega

theorem u8_byte (x : Nat) (h : x ≤ 255) : u8 x = x := by
  unfold u8
  omega

theorem u32_u8sub_byte (a : Nat) (h : a ≤ 255) : u32 (u8sub 255 a) = 255 - a := by
  unfold u32 u8sub
  omega

theorem mul_div_byte_le (x m : Nat) (hx : x ≤ 255) : x * m / 255 ≤ m := by
  apply Nat.div_le_of_le_mul
  exact Nat.mul_le_mul_right m hx

theorem u32_mul_byte (x m : Nat) (hx : x ≤ 255) (hm : m ≤ 255) : u32 (x * m) = x * m := by
  have h : x * m ≤ 255 * 255 := Nat.mul_le_mul hx hm
  unfold u32
  omega

theorem u32_add_byte (p q : Nat) (hp : p ≤ 255) (hq : q ≤ 255) : u32 (p + q) = p + q := by
  unfold u32
  omega

theorem clamp_eq_min (s : Nat) : (if s > 255 then 255 else s) = min s 255 := by
  split_ifs <;> omega

theorem ComposeRGBA_eq_wide (op : Int) (h0 : 0 ≤ op) (h1 : op ≤ 10) (a b : color.RGBA)
    (haR : a.R ≤ 255) (haG : a.G ≤ 255) (haB : a.B ≤ 255) (haA : a.A ≤ 255)
    (hbR : b.R ≤ 255) (hbG : b.G ≤ 255) (hbB : b.B ≤ 255) (hbA : b.A ≤ 255) :
    ComposeRGBA op a b
      = { R := u8 (composeWide op a.R b.R a.A b.A)
          G := u8 (composeWide op a.G b.G a.A b.A)
          B := u8 (composeWide op a.B b.B a.A b.A)
          A := u8 (composeWide op a.A b.A a.A b.A) } := by
  have hsa : 255 - a.A ≤ 255 := Nat.sub_le _ _
  have hsb : 255 - b.A ≤ 255 := Nat.sub_le _ _
  have q : ∀ x m : Nat, x ≤ 255 → m ≤ 255 → x * m / 255 ≤ 255 := fun x m hx hm =>
    le_trans (mul_div_byte_le x m hx) hm
  have hop : op = 0 ∨ op = 1 ∨ op = 2 ∨ op = 3 ∨ op = 4 ∨ op = 5 ∨ op = 6 ∨ op = 7 ∨ op = 8
      ∨ op = 9 ∨ op = 10 := by omega
  rcases hop with h | h | h | h | h | h | h | h | h | h | h <;> subst h
  · -- SourceAtop
    simp only [ComposeRGBA, composeWide, SourceOver, SourceIn, SourceOut, SourceAtop,
      DestinationOver, DestinationIn, DestinationOut, DestinationAtop, Lighter, Copy, Xor,
      Int.reduceEq, if_false, if_true, Nat.reduceMul,
      u32_byte _ haR, u32_byte _ haG, u32_byte _ haB, u32_byte _ haA,
      u32_byte _ hbR, u32_byte _ hbG, u32_byte _ hbB, u32_byte _ hbA,
      u32_u8sub_byte _ haA, u32_u8sub_byte _ hbA,
      u32_mul_byte _ _ haR hbA, u32_mul_byte _ _ haG hbA, u32_mul_byte _ _ haB hbA,
      u32_mul_byte _ _ haA hbA,
      u32_mul_byte _ _ hbR hsa, u32_mul_byte _ _ hbG hsa, u32_mul_byte _ _ hbB hsa,
      u32_mul_byte _ _ hbA hsa,
      u32_add_byte _ _ (q _ _ haR hbA) (q _ _ hbR hsa),
      u32_add_byte _ _ (q _ _ haG hbA) (q _ _ hbG hsa),
      u32_add_byte _ _ (q _ _ haB hbA) (q _ _ hbB hsa),
      u32_add_byte _ _ (q _ _ haA hbA) (q _ _ hbA hsa)]
  · -- SourceIn
    simp only [ComposeRGBA, composeWide, SourceOver, SourceIn, SourceOut, SourceAtop,
      DestinationOver, DestinationIn, DestinationOut, DestinationAtop, Lighter, Copy, Xor,
      Int.reduceEq, if_false, if_true, Nat.reduceMul,
      u32_byte _ haR, u32_byte _ haG, u32_byte _ haB, u32_byte _ haA,
      u32_byte _ hbA,
      u32_mul_byte _ _ haR hbA, u32_mul_byte _ _ haG hbA, u32_mul_byte _ _ haB hbA,
      u32_mul_byte _ _ haA hbA]
  · -- SourceOut
    simp only [ComposeRGBA, composeWide, SourceOver, SourceIn, SourceOut, SourceAtop,
      DestinationOver, DestinationIn, DestinationOut, DestinationAtop, Lighter, Copy, Xor,
      Int.reduceEq, if_false, if_true, Nat.reduceMul,
      u32_byte _ haR, u32_byte _ haG, u32_byte _ haB, u32_byte _ haA,
      u32_u8sub_byte _ hbA,
      u32_mul_byte _ _ haR hsb, u32_mul_byte _ _ haG hsb, u32_mul_byte _ _ haB hsb,
      u32_mul_byte _ _ haA hsb]
  · -- SourceOver
    simp only [ComposeRGBA, composeWide, SourceOver, SourceIn, SourceOut, SourceAtop,
      DestinationOver, DestinationIn, DestinationOut, DestinationAtop, Lighter, Copy, Xor,
      Int.reduceEq, if_false, if_true, Nat.reduceMul,
      u32_byte _ haR, u32_byte _ haG, u32_byte _ haB, u32_byte _ haA,
      u32_byte _ hbR, u32_byte _ hbG, u32_byte _ hbB, u32_byte _ hbA,
      u32_u8sub_byte _ haA,
      u32_mul_byte _ _ hbR hsa, u32_mul_byte _ _ hbG hsa, u32_mul_byte _ _ hbB hsa,
      u32_mul_byte _ _ hbA hsa,
      u32_add_byte _ _ haR (q _ _ hbR hsa), u32_add_byte _ _ haG (q _ _ hbG hsa),
      u32_add_byte _ _ haB (q _ _ hbB hsa), u32_add_byte _ _ haA (q _ _ hbA hsa)]
  · -- DestinationAtop
    simp only [ComposeRGBA, composeWide, SourceOver, SourceIn, SourceOut, SourceAtop,
      DestinationOver, DestinationIn, DestinationOut, DestinationAtop, Lighter, Copy, Xor,
      Int.reduceEq, if_false, if_true, Nat.reduceMul,
      u32_byte _ haR, u32_byte _ haG, u32_byte _ haB, u32_byte _ haA,
      u32_byte _ hbR, u32_byte _ hbG, u32_byte _ hbB, u32_byte _ hbA,
      u32_u8sub_byte _ hbA,
      u32_mul_byte _ _ haR hsb, u32_mul_byte _ _ haG hsb, u32_mul_byte _ _ haB hsb,
      u32_mul_byte _ _ haA hsb,
      u32_mul_byte _ _ hbR haA, u32_mul_byte _ _ hbG haA, u32_mul_byte _ _ hbB haA,
      u32_mul_byte _ _ hbA haA,
      u32_add_byte _ _ (q _ _ haR hsb) (q _ _ hbR haA),
      u32_add_byte _ _ (q _ _ haG hsb) (q _ _ hbG haA),
      u32_add_byte _ _ (q _ _ haB hsb) (q _ _ hbB haA),
      u32_add_byte _ _ (q _ _ haA hsb) (q _ _ hbA haA)]
  · -- DestinationIn
    simp only [ComposeRGBA, composeWide, SourceOver, SourceIn, SourceOut, SourceAtop,
      DestinationOver, DestinationIn, DestinationOut, DestinationAtop, Lighter, Copy, Xor,
      Int.reduceEq, if_false, if_true, Nat.reduceMul,
      u32_byte _ hbR, u32_byte _ hbG, u32_byte _ hbB, u32_byte _ hbA,
      u32_byte _ haA,
      u32_mul_byte _ _ hbR haA, u32_mul_byte _ _ hbG haA, u32_mul_byte _ _ hbB haA,
      u32_mul_byte _ _ hbA haA]
  · -- DestinationOut
    simp only [ComposeRGBA, composeWide, SourceOver, SourceIn, SourceOut, SourceAtop,
      DestinationOver, DestinationIn, DestinationOut, DestinationAtop, Lighter, Copy, Xor,
      Int.reduceEq, if_false, if_true, Nat.reduceMul,
      u32_byte _ hbR, u32_byte _ hbG, u32_byte _ hbB, u32_byte _ hbA,
      u32_u8sub_byte _ haA,
      u32_mul_byte _ _ hbR hsa, u32_mul_byte _ _ hbG hsa, u32_mul_byte _ _ hbB hsa,
      u32_mul_byte _ _ hbA hsa]
  · -- DestinationOver
    simp only [ComposeRGBA, composeWide, SourceOver, SourceIn, SourceOut, SourceAtop,
      DestinationOver, DestinationIn, DestinationOut, DestinationAtop, Lighter, Copy, Xor,
      Int.reduceEq, if_false, if_true, Nat.reduceMul,
      u32_byte _ haR, u32_byte _ haG, u32_byte _ haB, u32_byte _ haA,
      u32_byte _ hbR, u32_byte _ hbG, u32_byte _ hbB, u32_byte _ hbA,
      u32_u8sub_byte _ hbA,
      u32_mul_byte _ _ haR hsb, u32_mul_byte _ _ haG hsb, u32_mul_byte _ _ haB hsb,
      u32_mul_byte _ _ haA hsb,
      u32_add_byte _ _ (q _ _ haR hsb) hbR, u32_add_byte _ _ (q _ _ haG hsb) hbG,
      u32_add_byte _ _ (q _ _ haB hsb) hbB, u32_add_byte _ _ (q _ _ haA hsb) hbA]
  · -- Lighter
    simp only [ComposeRGBA, composeWide, makeRGBA, SourceOver, SourceIn, SourceOut, SourceAtop,
      DestinationOver, DestinationIn, DestinationOut, DestinationAtop, Lighter, Copy, Xor,
      Int.reduceEq, if_false, if_true, Nat.reduceMul,
      u32_byte _ haR, u32_byte _ haG, u32_byte _ haB, u32_byte _ haA,
      u32_byte _ hbR, u32_byte _ hbG, u32_byte _ hbB, u32_byte _ hbA,
      u32_add_byte _ _ haR hbR, u32_add_byte _ _ haG hbG, u32_add_byte _ _ haB hbB,
      u32_add_byte _ _ haA hbA, clamp_eq_min]
  · -- Copy
    simp only [ComposeRGBA, composeWide, SourceOver, SourceIn, SourceOut, SourceAtop,
      DestinationOver, DestinationIn, DestinationOut, DestinationAtop, Lighter, Copy, Xor,
      Int.reduceEq, if_false, if_true,
      u8_byte _ haR, u8_byte _ haG, u8_byte _ haB, u8_byte _ haA]
  · -- Xor
    simp only [ComposeRGBA, composeWide, makeRGBA, SourceOver, SourceIn, SourceOut, SourceAtop,
      DestinationOver, DestinationIn, DestinationOut, DestinationAtop, Lighter, Copy, Xor,
      Int.reduceEq, if_false, if_true, Nat.reduceMul,
      u32_byte _ haR, u32_byte _ haG, u32_byte _ haB, u32_byte _ haA,
      u32_byte _ hbR, u32_byte _ hbG, u32_byte _ hbB, u32_byte _ hbA,
      u32_u8sub_byte _ haA, u32_u8sub_byte _ hbA,
      u32_mul_byte _ _ haR hsb, u32_mul_byte _ _ haG hsb, u32_mul_byte _ _ haB hsb,
      u32_mul_byte _ _ haA hsb,
      u32_mul_byte _ _ hbR hsa, u32_mul_byte _ _ hbG hsa, u32_mul_byte _ _ hbB hsa,
      u32_mul_byte _ _ hbA hsa,
      u32_add_byte _ _ (q _ _ haR hsb) (q _ _ hbR hsa),
      u32_add_byte _ _ (q _ _ haG hsb) (q _ _ hbG hsa),
      u32_add_byte _ _ (q _ _ haB hsb) (q _ _ hbB hsa),
      u32_add_byte _ _ (q _ _ haA hsb) (q _ _ hbA hsa), clamp_eq_min]

theorem composeWide_mono (op : Int) (h0 : 0 ≤ op) (h1 : op ≤ 10) (x x1 y y1 aA bA : Nat)
    (hx : x ≤ x1) (hy : y ≤ y1) :
    composeWide op x y aA bA ≤ composeWide op x1 y1 aA bA := by
  have m : ∀ p p1 k : Nat, p ≤ p1 → p * k / 255 ≤ p1 * k / 255 := fun p p1 k h =>
    Nat.div_le_div_right (Nat.mul_le_mul_right k h)
  have hop : op = 0 ∨ op = 1 ∨ op = 2 ∨ op = 3 ∨ op = 4 ∨ op = 5 ∨ op = 6 ∨ op = 7 ∨ op = 8
      ∨ op = 9 ∨ op = 10 := by omega
  rcases hop with h | h | h | h | h | h | h | h | h | h | h <;> subst h <;>
    simp only [composeWide, SourceOver, SourceIn, SourceOut, SourceAtop, DestinationOver,
      DestinationIn, DestinationOut, DestinationAtop, Lighter, Copy, Xor, Int.reduceEq,
      if_false, if_true] <;>
    first
      | exact Nat.add_le_add hx (m _ _ _ hy)
      | exact Nat.add_le_add (m _ _ _ hx) (m _ _ _ hy)
      | exact Nat.add_le_add (m _ _ _ hx) hy
      | exact m _ _ _ hx
      | exact m _ _ _ hy
      | exact min_le_min (Nat.add_le_add hx hy) (le_refl 255)
      | exact min_le_min (Nat.add_le_add (m _ _ _ hx) (m _ _ _ hy)) (le_refl 255)
      | exact hx

theorem xor_alpha_le (aA bA : Nat) (ha : aA ≤ 255) (hb : bA ≤ 255) :
    aA * (255 - bA) / 255 + bA * (255 - aA) / 255 ≤ 255 := by
  obtain ⟨p, hp⟩ : ∃ p, aA + p = 255 := ⟨255 - aA, by omega⟩
  obtain ⟨q, hq⟩ : ∃ q, bA + q = 255 := ⟨255 - bA, by omega⟩
  have e1 : 255 - bA = q := by omega
  have e2 : 255 - aA = p := by omega
  rw [e1, e2]
  have h : aA * q + bA * p ≤ 255 * 255 := by
    have : (aA + p) * (bA + q) = 255 * 255 := by rw [hp, hq]
    nlinarith [Nat.zero_le (aA * bA), Nat.zero_le (p * q)]
  have h2 := Nat.add_div_le_add_div (aA * q) (bA * p) 255
  have h3 : (aA * q + bA * p) / 255 ≤ 255 := by omega
  omega

theorem composeWide_alpha_le (op : Int) (h0 : 0 ≤ op) (h1 : op ≤ 10) (aA bA : Nat)
    (ha : aA ≤ 255) (hb : bA ≤ 255) :
    composeWide op aA bA aA bA ≤ 255 := by
  have d1 : bA * (255 - aA) / 255 ≤ 255 - aA := mul_div_byte_le _ _ hb
  have d2 : aA * (255 - bA) / 255 ≤ 255 - bA := mul_div_byte_le _ _ ha
  have d3 : aA * bA / 255 ≤ bA := mul_div_byte_le _ _ ha
  have d4 : bA * aA / 255 ≤ aA := mul_div_byte_le _ _ hb
  have d5 : aA * bA / 255 + bA * (255 - aA) / 255 ≤ bA := by
    have h2 := Nat.add_div_le_add_div (aA * bA) (bA * (255 - aA)) 255
    have e : aA * bA + bA * (255 - aA) = bA * 255 := by
      rw [Nat.mul_comm aA bA, ← Nat.mul_add, Nat.add_sub_cancel' ha]
    rw [e, Nat.mul_div_cancel _ (by norm_num : 0 < 255)] at h2
    exact h2
  have d6 : aA * (255 - bA) / 255 + bA * aA / 255 ≤ aA := by
    have h2 := Nat.add_div_le_add_div (aA * (255 - bA)) (bA * aA) 255
    have e : aA * (255 - bA) + bA * aA = aA * 255 := by
      rw [Nat.mul_comm bA aA, ← Nat.mul_add, Nat.sub_add_cancel hb]
    rw [e, Nat.mul_div_cancel _ (by norm_num : 0 < 255)] at h2
    exact h2
  have hop : op = 0 ∨ op = 1 ∨ op = 2 ∨ op = 3 ∨ op = 4 ∨ op = 5 ∨ op = 6 ∨ op = 7 ∨ op = 8
      ∨ op = 9 ∨ op = 10 := by omega
  rcases hop with h | h | h | h | h | h | h | h | h | h | h <;> subst h <;>
    simp only [composeWide, SourceOver, SourceIn, SourceOut, SourceAtop, DestinationOver,
      DestinationIn, DestinationOut, DestinationAtop, Lighter, Copy, Xor, Int.reduceEq,
      if_false, if_true] <;>
    first
      | exact min_le_right _ _
      | exact ha
      | omega

/-- C36: for each of the eleven operators and all colours a and b with
R, G, B ≤ A ≤ 255, ComposeRGBA computes every channel without wraparound: the result is the
value of the formula in unbounded integers (`composeWide`, where the clamp of makeRGBA is
the minimum with 255), so what reaches the uint8 conversion is at most 255; and the result
is again a valid premultiplied colour, R, G, B ≤ A ≤ 255.  For Xor the sum of the two alpha
terms is at most 255 before the clamp. -/
theorem ComposeRGBA_premultiplied (op : CompositeOperation) (a b : color.RGBA)
    (hop : 0 ≤ op ∧ op ≤ 10)
    (ha : a.R ≤ a.A ∧ a.G ≤ a.A ∧ a.B ≤ a.A ∧ a.A ≤ 255)
    (hb : b.R ≤ b.A ∧ b.G ≤ b.A ∧ b.B ≤ b.A ∧ b.A ≤ 255) :
    ComposeRGBA op a b
      = { R := composeWide op a.R b.R a.A b.A
          G := composeWide op a.G b.G a.A b.A
          B := composeWide op a.B b.B a.A b.A
          A := composeWide op a.A b.A a.A b.A }
    ∧ (ComposeRGBA op a b).A ≤ 255
    ∧ (ComposeRGBA op a b).R ≤ (ComposeRGBA op a b).A
    ∧ (ComposeRGBA op a b).G ≤ (ComposeRGBA op a b).A
    ∧ (ComposeRGBA op a b).B ≤ (ComposeRGBA op a b).A
    ∧ a.A * (255 - b.A) / 255 + b.A * (255 - a.A) / 255 ≤ 255 := by
  obtain ⟨h0, h1⟩ := hop
  obtain ⟨haR, haG, haB, haA⟩ := ha
  obtain ⟨hbR, hbG, hbB, hbA⟩ := hb
  have wA := composeWide_alpha_le op h0 h1 a.A b.A haA hbA
  have wR := composeWide_mono op h0 h1 a.R a.A b.R b.A a.A b.A haR hbR
  have wG := composeWide_mono op h0 h1 a.G a.A b.G b.A a.A b.A haG hbG
  have wB := composeWide_mono op h0 h1 a.B a.A b.B b.A a.A b.A haB hbB
  have e : ComposeRGBA op a b
      = { R := composeWide op a.R b.R a.A b.A
          G := composeWide op a.G b.G a.A b.A
          B := composeWide op a.B b.B a.A b.A
          A := composeWide op a.A b.A a.A b.A } := by
    rw [ComposeRGBA_eq_wide op h0 h1 a b (by omega) (by omega) (by omega) haA
      (by omega) (by omega) (by omega) hbA,
      u8_byte _ (le_trans wR wA), u8_byte _ (le_trans wG wA), u8_byte _ (le_trans wB wA),
      u8_byte _ wA]
  rw [e]
  exact ⟨rfl, wA, wR, wG, wB, xor_alpha_le a.A b.A haA hbA⟩

/-- Witness of C36: Xor of (200, 100, 0, 200) and (0, 50, 100, 100). -/
theorem ComposeRGBA_premultiplied_witness :
    ((0 : Int) ≤ Xor ∧ Xor ≤ 10)
    ∧ ComposeRGBA Xor { R := 200, G := 100, B := 0, A := 200 }
        { R := 0, G := 50, B := 100, A := 100 }
      = { R := 121, G := 70, B := 21, A := 142 } := by
  refine ⟨by decide, ?_⟩
  rw [(ComposeRGBA_premultiplied Xor { R := 200, G := 100, B := 0, A := 200 }
    { R := 0, G := 50, B := 100, A := 100 } (by decide) (by decide) (by decide)).1]
  decide

/-- C37: for every 8-bit destination colour d, ComposeRGBA with the fully transparent
source returns d for SourceOver, SourceAtop, DestinationOver, DestinationOut, Lighter and
Xor, and the fully transparent colour for SourceIn, SourceOut, DestinationIn,
DestinationAtop and Copy.  End without shadow does nothing for SourceOver, composes the
pixels of the dirty rectangle `spanRect` only for the other five operators of the first
group, and composes every pixel of the buffer for the five operators of the second. -/
theorem ComposeRGBA_transparent_source (d : color.RGBA)
    (hd : d.R ≤ 255 ∧ d.G ≤ 255 ∧ d.B ≤ 255 ∧ d.A ≤ 255) :
    (∀ op : CompositeOperation,
        op = SourceOver ∨ op = SourceAtop ∨ op = DestinationOver ∨ op = DestinationOut
          ∨ op = Lighter ∨ op = Xor →
        ComposeRGBA op { R := 0, G := 0, B := 0, A := 0 } d = d)
    ∧ (∀ op : CompositeOperation,
        op = SourceIn ∨ op = SourceOut ∨ op = DestinationIn ∨ op = DestinationAtop
          ∨ op = Copy →
        ComposeRGBA op { R := 0, G := 0, B := 0, A := 0 } d = { R := 0, G := 0, B := 0, A := 0 })
    ∧ (∀ (endShadow : RGBAPainter → Option RGBAPainter) (r : RGBAPainter),
        r.hasShadow = false →
        (r.Op = SourceOver → r.End endShadow = some r)
        ∧ (r.Op = SourceAtop ∨ r.Op = DestinationOver ∨ r.Op = DestinationOut
            ∨ r.Op = Lighter ∨ r.Op = Xor →
          r.End endShadow
            = forRange r.Image.Rect.Dy (fun r1 y =>
                if y < r1.spanRect.Min.Y ∨ y > r1.spanRect.Max.Y then some r1
                else forRange r.Image.Rect.Dx (fun r2 x =>
                  if x < r2.spanRect.Min.X ∨ x > r2.spanRect.Max.X then some r2
                  else r2.composeAt x y) r1) r)
        ∧ (r.Op = SourceIn ∨ r.Op = SourceOut ∨ r.Op = DestinationIn
            ∨ r.Op = DestinationAtop ∨ r.Op = Copy →
          r.End endShadow
            = forRange r.Image.Rect.Dy
                (fun r1 y => forRange r.Image.Rect.Dx (fun r2 x => r2.composeAt x y) r1) r)) := by
  obtain ⟨hR, hG, hB, hA⟩ := hd
  have key : ∀ op : Int, 0 ≤ op → op ≤ 10 →
      ComposeRGBA op { R := 0, G := 0, B := 0, A := 0 } d
        = { R := u8 (composeWide op 0 d.R 0 d.A), G := u8 (composeWide op 0 d.G 0 d.A)
            B := u8 (composeWide op 0 d.B 0 d.A), A := u8 (composeWide op 0 d.A 0 d.A) } :=
    fun op h0 h1 => ComposeRGBA_eq_wide op h0 h1 _ d (by decide) (by decide) (by decide)
      (by decide) hR hG hB hA
  have c : ∀ y : Nat, y ≤ 255 → y * 255 / 255 = y := fun y _ =>
    Nat.mul_div_cancel y (by norm_num)
  have mn : ∀ y : Nat, y ≤ 255 → min y 255 = y := fun y h => min_eq_left h
  refine ⟨?_, ?_, ?_⟩
  · intro op h
    rcases h with h | h | h | h | h | h <;> subst h
    all_goals
      rw [key _ (by decide) (by decide)]
      simp only [composeWide, SourceOver, SourceIn, SourceOut, SourceAtop, DestinationOver,
        DestinationIn, DestinationOut, DestinationAtop, Lighter, Copy, Xor, Int.reduceEq,
        if_false, if_true, Nat.zero_mul, Nat.zero_div, Nat.zero_add, Nat.sub_zero, Nat.add_zero,
        c _ hR, c _ hG, c _ hB, c _ hA, mn _ hR, mn _ hG, mn _ hB, mn _ hA,
        u8_byte _ hR, u8_byte _ hG, u8_byte _ hB, u8_byte _ hA]
  · intro op h
    rcases h with h | h | h | h | h <;> subst h
    all_goals
      rw [key _ (by decide) (by decide)]
      simp only [composeWide, SourceOver, SourceIn, SourceOut, SourceAtop, DestinationOver,
        DestinationIn, DestinationOut, DestinationAtop, Lighter, Copy, Xor, Int.reduceEq,
        if_false, if_true, Nat.zero_mul, Nat.mul_zero, Nat.zero_div, Nat.zero_add,
        Nat.sub_zero, Nat.add_zero]
      rfl
  · intro endShadow r hs
    refine ⟨?_, ?_, ?_⟩
    · intro h
      simp [RGBAPainter.End, hs, h]
    · intro h
      have hne : r.Op ≠ SourceOver := by
        rcases h with h | h | h | h | h <;> rw [h] <;> decide
      simp only [RGBAPainter.End, hs, hne, h, if_true, if_false, Bool.false_eq_true]
    · intro h
      have hne : r.Op ≠ SourceOver := by
        rcases h with h | h | h | h | h <;> rw [h] <;> decide
      have hne2 : ¬ (r.Op = SourceAtop ∨ r.Op = DestinationOver ∨ r.Op = DestinationOut
          ∨ r.Op = Lighter ∨ r.Op = Xor) := by
        rcases h with h | h | h | h | h <;> rw [h] <;> decide
      simp only [RGBAPainter.End, hs, hne, hne2, if_false, Bool.false_eq_true]

/-- Witness of C37: the opaque destination (10, 20, 30, 255) under DestinationOut, which
keeps it, and under DestinationIn, which clears it. -/
theorem ComposeRGBA_transparent_source_witness :
    ((10 : Nat) ≤ 255 ∧ (20 : Nat) ≤ 255 ∧ (30 : Nat) ≤ 255 ∧ (255 : Nat) ≤ 255)
    ∧ ComposeRGBA DestinationOut { R := 0, G := 0, B := 0, A := 0 }
        { R := 10, G := 20, B := 30, A := 255 } = { R := 10, G := 20, B := 30, A := 255 }
    ∧ ComposeRGBA DestinationIn { R := 0, G := 0, B := 0, A := 0 }
        { R := 10, G := 20, B := 30, A := 255 } = { R := 0, G := 0, B := 0, A := 0 } :=
  ⟨by decide,
   (ComposeRGBA_transparent_source { R := 10, G := 20, B := 30, A := 255 } (by decide)).1
      DestinationOut (by decide),
   (ComposeRGBA_transparent_source { R := 10, G := 20, B := 30, A := 255 } (by decide)).2.1
      DestinationIn (by decide)⟩

/-! ## paintSolid: the source-over blend in 32 bits; the transparent colour -/

theorem pixGet_some_bounds (pix : List Nat) (i : Int) (v : Nat)
    (h : pixGet pix i = some v) : 0 ≤ i ∧ i < pix.length := by
  unfold pixGet at h
  by_cases hi : 0 ≤ i
  · rw [if_pos hi] at h
    refine ⟨hi, ?_⟩
    by_contra hl
    have hlen : pix.length ≤ i.toNat := by omega
    rw [List.get?_eq_none.mpr hlen] at h
    cases h
  · rw [if_neg hi] at h
    cases h

theorem over_alpha_exact (ca ma : Nat) (hca : ca ≤ 65535) (hma : ma ≤ 65535) :
    u32 (u32sub 65535 (u32 (ca * ma) / 65535) * 0x101) = (65535 - ca * ma / 65535) * 0x101 := by
  have h : ca * ma ≤ 65535 * 65535 := Nat.mul_le_mul hca hma
  unfold u32 u32sub
  omega

theorem over_sum_lt (c ca ma d : Nat) (hc : c ≤ ca) (hca : ca ≤ 65535) (hma : ma ≤ 65535)
    (hd : d ≤ 255) :
    d * ((65535 - ca * ma / 65535) * 0x101) + c * ma < 65535 * 65536 := by
  have h : ca * ma ≤ 65535 * 65535 := Nat.mul_le_mul hca hma
  have h1 : d * ((65535 - ca * ma / 65535) * 0x101)
      ≤ 255 * ((65535 - ca * ma / 65535) * 0x101) := Nat.mul_le_mul_right _ hd
  have h2 : c * ma ≤ ca * ma := Nat.mul_le_mul_right _ hc
  omega

theorem over_channel_exact (c ca ma d : Nat) (hc : c ≤ ca) (hca : ca ≤ 65535)
    (hma : ma ≤ 65535) (hd : d ≤ 255) :
    u8 ((u32 (d * u32 (u32sub 65535 (u32 (ca * ma) / 65535) * 0x101) + c * ma) / 65535) >>> 8)
      = ((d * ((65535 - ca * ma / 65535) * 0x101) + c * ma) / 65535) >>> 8 := by
  rw [over_alpha_exact ca ma hca hma]
  have h := over_sum_lt c ca ma d hc hca hma hd
  have h1 : u32 (d * ((65535 - ca * ma / 65535) * 0x101) + c * ma)
      = d * ((65535 - ca * ma / 65535) * 0x101) + c * ma := by
    unfold u32
    omega
  rw [h1, Nat.shiftRight_eq_div_pow]
  unfold u8
  omega

/-- C38: for a premultiplied 16-bit colour (r, g, b ≤ a ≤ 0xffff), a coverage
ma ≤ 0xffff and an 8-bit destination channel d, d·a + c·ma < 2^32 with
a = (0xffff − ca·ma/0xffff)·0x101, and ((d·a + c·ma)/0xffff) >> 8 ≤ 255.  So the source-over
step of paintSolid on a pixel inside the buffer returns and writes, for each of the four
channels, the value of the formula in unbounded integers, and touches no other byte. -/
theorem RGBAPainter.solidOverPixel_no_overflow (c : color.Color) (ma : Nat) (pix : List Nat)
    (i : Int) (dr dg db da : Nat)
    (hr : c.r ≤ c.a) (hg : c.g ≤ c.a) (hb : c.b ≤ c.a) (ha : c.a ≤ 0xffff)
    (hma : ma ≤ 0xffff)
    (h0 : pixGet pix (i + 0) = some dr) (h1 : pixGet pix (i + 1) = some dg)
    (h2 : pixGet pix (i + 2) = some db) (h3 : pixGet pix (i + 3) = some da)
    (hdr : dr ≤ 255) (hdg : dg ≤ 255) (hdb : db ≤ 255) (hda : da ≤ 255) :
    (∀ d x : Nat, d ≤ 255 → x ≤ c.a →
        d * ((0xffff - c.a * ma / 0xffff) * 0x101) + x * ma < 4294967296
        ∧ ((d * ((0xffff - c.a * ma / 0xffff) * 0x101) + x * ma) / 0xffff) >>> 8 ≤ 255)
    ∧ ∃ pix1, RGBAPainter.solidOverPixel c ma pix i = some pix1
        ∧ pixGet pix1 (i + 0)
            = some (((dr * ((0xffff - c.a * ma / 0xffff) * 0x101) + c.r * ma) / 0xffff) >>> 8)
        ∧ pixGet pix1 (i + 1)
            = some (((dg * ((0xffff - c.a * ma / 0xffff) * 0x101) + c.g * ma) / 0xffff) >>> 8)
        ∧ pixGet pix1 (i + 2)
            = some (((db * ((0xffff - c.a * ma / 0xffff) * 0x101) + c.b * ma) / 0xffff) >>> 8)
        ∧ pixGet pix1 (i + 3)
            = some (((da * ((0xffff - c.a * ma / 0xffff) * 0x101) + c.a * ma) / 0xffff) >>> 8)
        ∧ ∀ j, (j < i ∨ i + 4 ≤ j) → pixGet pix1 j = pixGet pix j := by
  constructor
  · intro d x hd hx
    have h := over_sum_lt x c.a ma d hx ha hma hd
    refine ⟨by omega, ?_⟩
    rw [Nat.shiftRight_eq_div_pow]
    have : (0xffff : Nat) = 65535 := rfl
    omega
  · have b0 : 0 ≤ i ∧ i + 3 < pix.length := by
      have q0 := pixGet_some_bounds pix (i + 0) dr h0
      have q3 := pixGet_some_bounds pix (i + 3) da h3
      omega
    obtain ⟨bi0, bi1⟩ := b0
    obtain ⟨p1, e1, l1, g1, o1⟩ := pixSet_spec pix (i + 0)
      (((dr * ((0xffff - c.a * ma / 0xffff) * 0x101) + c.r * ma) / 0xffff) >>> 8)
      (by omega) (by omega)
    obtain ⟨p2, e2, l2, g2, o2⟩ := pixSet_spec p1 (i + 1)
      (((dg * ((0xffff - c.a * ma / 0xffff) * 0x101) + c.g * ma) / 0xffff) >>> 8)
      (by omega) (by omega)
    obtain ⟨p3, e3, l3, g3, o3⟩ := pixSet_spec p2 (i + 2)
      (((db * ((0xffff - c.a * ma / 0xffff) * 0x101) + c.b * ma) / 0xffff) >>> 8)
      (by omega) (by omega)
    obtain ⟨p4, e4, l4, g4, o4⟩ := pixSet_spec p3 (i + 3)
      (((da * ((0xffff - c.a * ma / 0xffff) * 0x101) + c.a * ma) / 0xffff) >>> 8)
      (by omega) (by omega)
    refine ⟨p4, ?_, ?_, ?_, ?_, g4, ?_⟩
    · have k1 := over_channel_exact c.r c.a ma dr hr ha hma hdr
      have k2 := over_channel_exact c.g c.a ma dg hg ha hma hdg
      have k3 := over_channel_exact c.b c.a ma db hb ha hma hdb
      have k4 := over_channel_exact c.a c.a ma da le_rfl ha hma hda
      simp only [RGBAPainter.solidOverPixel, h0, h1, h2, h3, Option.bind_eq_bind,
        Option.some_bind] at *
      rw [k1, e1]
      simp only [Option.some_bind]
      rw [k2, e2]
      simp only [Option.some_bind]
      rw [k3, e3]
      simp only [Option.some_bind]
      rw [k4, e4]
    · rw [o4 _ (by omega), o3 _ (by omega), o2 _ (by omega), g1]
    · rw [o4 _ (by omega), o3 _ (by omega), g2]
    · rw [o4 _ (by omega), g3]
    · intro j hj
      rw [o4 _ (by omega), o3 _ (by omega), o2 _ (by omega), o1 _ (by omega)]

/-- Witness of C38: the opaque colour (0xffff, 0x8000, 0) at coverage 0x8000 over a white
pixel. -/
theorem RGBAPainter.solidOverPixel_no_overflow_witness :
    ∃ pix1, RGBAPainter.solidOverPixel { r := 0xffff, g := 0x8000, b := 0, a := 0xffff } 0x8000
        [255, 255, 255, 255] 0 = some pix1
      ∧ pixGet pix1 (0 + 0)
          = some (((255 * ((0xffff - 0xffff * 0x8000 / 0xffff) * 0x101) + 0xffff * 0x8000)
              / 0xffff) >>> 8) :=
  ((RGBAPainter.solidOverPixel_no_overflow { r := 0xffff, g := 0x8000, b := 0, a := 0xffff }
      0x8000 [255, 255, 255, 255] 0 255 255 255 255 (by decide) (by decide) (by decide)
      (by decide) (by decide) rfl rfl rfl rfl (by decide) (by decide) (by decide)
      (by decide)).2).imp fun _ h => ⟨h.1, h.2.1⟩

theorem list_set_same (l : List Nat) : ∀ (n : Nat) (v : Nat), l.get? n = some v → l.set n v = l := by
  induction l with
  | nil => intro n v h; rfl
  | cons a t ih =>
    intro n v h
    cases n with
    | zero =>
      simp only [List.get?_cons_zero, Option.some.injEq] at h
      subst h
      rfl
    | succ k =>
      simp only [List.get?_cons_succ] at h
      simp only [List.set_cons_succ, ih k v h]

theorem pixSet_same (pix : List Nat) (i : Int) (v : Nat) (h : pixGet pix i = some v) :
    pixSet pix i v = some pix := by
  obtain ⟨h0, h1⟩ := pixGet_some_bounds pix i v h
  have hlt : i.toNat < pix.length := by omega
  unfold pixGet at h
  rw [if_pos h0] at h
  unfold pixSet
  rw [if_pos ⟨h0, hlt⟩, list_set_same pix _ v h]

theorem pixGet_mem (pix : List Nat) (i : Int) (v : Nat) (h : pixGet pix i = some v) :
    v ∈ pix := by
  obtain ⟨h0, _⟩ := pixGet_some_bounds pix i v h
  unfold pixGet at h
  rw [if_pos h0] at h
  exact List.get?_mem h

theorem transparent_channel (d ma : Nat) (hd : d ≤ 255) :
    u8 ((u32 (d * u32 (u32sub 65535 (u32 (0 * ma) / 65535) * 0x101) + 0 * ma) / 65535) >>> 8)
      = d := by
  have ha : u32 (u32sub 65535 (u32 (0 * ma) / 65535) * 0x101) = 16842495 := by
    rw [Nat.zero_mul]
    decide
  rw [ha, Nat.zero_mul, Nat.add_zero, Nat.shiftRight_eq_div_pow]
  have e : u32 (d * 16842495) = d * 16842495 := by
    unfold u32
    omega
  have e2 : d * 16842495 / 65535 = d * 257 := by omega
  have e3 : d * 257 / 2 ^ 8 = d := by
    norm_num
    omega
  rw [e, e2, e3]
  unfold u8
  omega

theorem RGBAPainter.solidOverPixel_transparent (ma : Nat) (pix : List Nat) (i : Int)
    (h0 : 0 ≤ i) (h1 : i + 3 < pix.length) (hb : ∀ v ∈ pix, v ≤ 255) :
    RGBAPainter.solidOverPixel color.Transparent ma pix i = some pix := by
  obtain ⟨dr, hdr⟩ := pixGet_some pix (i + 0) (by omega) (by omega)
  obtain ⟨dg, hdg⟩ := pixGet_some pix (i + 1) (by omega) (by omega)
  obtain ⟨db, hdb⟩ := pixGet_some pix (i + 2) (by omega) (by omega)
  obtain ⟨da, hda⟩ := pixGet_some pix (i + 3) (by omega) (by omega)
  have k1 := transparent_channel dr ma (hb _ (pixGet_mem _ _ _ hdr))
  have k2 := transparent_channel dg ma (hb _ (pixGet_mem _ _ _ hdg))
  have k3 := transparent_channel db ma (hb _ (pixGet_mem _ _ _ hdb))
  have k4 := transparent_channel da ma (hb _ (pixGet_mem _ _ _ hda))
  simp only [RGBAPainter.solidOverPixel, hdr, hdg, hdb, hda, Option.bind_eq_bind,
    Option.some_bind, color.Transparent]
  rw [k1, pixSet_same _ _ _ hdr]
  simp only [Option.some_bind]
  rw [k2, pixSet_same _ _ _ hdg]
  simp only [Option.some_bind]
  rw [k3, pixSet_same _ _ _ hdb]
  simp only [Option.some_bind]
  rw [k4, pixSet_same _ _ _ hda]

theorem RGBAPainter.pixelLoop_transparent (ma : Nat) (pix : List Nat)
    (hb : ∀ v ∈ pix, v ≤ 255) :
    ∀ (n : Nat) (i : Int), 0 ≤ i → i + 4 * n ≤ pix.length →
      RGBAPainter.pixelLoop (RGBAPainter.solidOverPixel color.Transparent ma) n i pix
        = some pix := by
  intro n
  induction n with
  | zero => intro i _ _; rfl
  | succ m ih =>
    intro i h0 h1
    have e1 := RGBAPainter.solidOverPixel_transparent ma pix i h0
      (by push_cast at h1; omega) hb
    simp only [RGBAPainter.pixelLoop, e1]
    exact ih (i + 4) (by omega) (by push_cast at h1; omega)

theorem RGBAPainter.setCanvasPix_same (r : RGBAPainter) (pix : List Nat)
    (hp : pix = r.canvas.Pix)
    (hal : r.canvasIsImage = true → r.Image.Pix = r.canvas.Pix) :
    r.setCanvasPix pix = r := by
  subst hp
  obtain ⟨⟨ip, ist, ir⟩, m, op, em, ⟨cp, cst, cr⟩, cii, cop, sh, sr, pat, so, sc, ca, sx, sy,
    sb, shc, hs⟩ := r
  by_cases h : cii = true
  · have e : ip = cp := hal h
    subst e
    simp [RGBAPainter.setCanvasPix, h]
  · simp [RGBAPainter.setCanvasPix, h]

theorem RGBAPainter.paintSolid_transparent (ss : List Span) :
    ∀ r : RGBAPainter, r.canvasOp = SourceOver → r.solidColor = color.Transparent →
      (∀ v ∈ r.canvas.Pix, v ≤ 255) →
      4 * (r.canvas.Rect.Max.X - r.canvas.Rect.Min.X) ≤ r.canvas.Stride →
      (r.canvas.Rect.Max.Y - r.canvas.Rect.Min.Y - 1) * r.canvas.Stride
          + 4 * (r.canvas.Rect.Max.X - r.canvas.Rect.Min.X) ≤ r.canvas.Pix.length →
      (r.canvasIsImage = true → r.Image.Pix = r.canvas.Pix) →
      ∃ sr, r.paintSolid ss = some { r with spanRect := sr } := by
  induction ss with
  | nil => intro r _ _ _ _ _ _; exact ⟨r.spanRect, rfl⟩
  | cons s ss ih =>
    intro r hop hc hb hstride hlen hal
    by_cases hY1 : s.Y < r.canvas.Rect.Min.Y
    · obtain ⟨sr, h⟩ := ih r hop hc hb hstride hlen hal
      exact ⟨sr, by simp only [RGBAPainter.paintSolid, hY1, if_true, h]⟩
    by_cases hY2 : s.Y ≥ r.canvas.Rect.Max.Y
    · exact ⟨r.spanRect, by simp only [RGBAPainter.paintSolid, hY1, hY2, if_true, if_false]⟩
    obtain ⟨X0, hX0⟩ : ∃ X0, X0 = if s.X0 < r.canvas.Rect.Min.X then r.canvas.Rect.Min.X
        else s.X0 := ⟨_, rfl⟩
    obtain ⟨X1, hX1⟩ : ∃ X1, X1 = if s.X1 > r.canvas.Rect.Max.X then r.canvas.Rect.Max.X
        else s.X1 := ⟨_, rfl⟩
    have hX0a : r.canvas.Rect.Min.X ≤ X0 := by
      rw [hX0]; split_ifs <;> omega
    have hX1a : X1 ≤ r.canvas.Rect.Max.X := by
      rw [hX1]; split_ifs <;> omega
    by_cases hlt : X0 ≥ X1
    · obtain ⟨sr, h⟩ := ih r hop hc hb hstride hlen hal
      refine ⟨sr, ?_⟩
      rw [hX0, hX1] at hlt
      simp only [RGBAPainter.paintSolid, hY1, hY2, hlt, if_true, if_false, h]
    obtain ⟨i0, hi0⟩ : ∃ i0, i0 = (s.Y - r.canvas.Rect.Min.Y) * r.canvas.Stride
        + (X0 - r.canvas.Rect.Min.X) * 4 := ⟨_, rfl⟩
    have hS : 0 ≤ r.canvas.Stride := by omega
    have hrow0 : 0 ≤ (s.Y - r.canvas.Rect.Min.Y) * r.canvas.Stride :=
      mul_nonneg (by omega) hS
    have hrow1 : (s.Y - r.canvas.Rect.Min.Y) * r.canvas.Stride
        ≤ (r.canvas.Rect.Max.Y - r.canvas.Rect.Min.Y - 1) * r.canvas.Stride :=
      mul_le_mul_of_nonneg_right (by omega) hS
    have hi0nn : 0 ≤ i0 := by omega
    have hw : 0 ≤ X1 - X0 := by omega
    have hbound : i0 + 4 * ((X1 - X0).toNat : Int) ≤ r.canvas.Pix.length := by
      rw [Int.toNat_of_nonneg hw]
      omega
    have hloop : RGBAPainter.pixelLoop
        (RGBAPainter.solidOverPixel r.solidColor (scaleAlpha s.Alpha r.canvasAlpha))
        (RGBAPainter.pixelTurns i0 (i0 + (X1 - X0) * 4)) i0 r.canvas.Pix
          = some r.canvas.Pix := by
      rw [hc, pixelTurns_span]
      exact RGBAPainter.pixelLoop_transparent _ r.canvas.Pix hb _ i0 hi0nn hbound
    obtain ⟨sr, h⟩ := ih
      { r with spanRect :=
          { Min := { X := if r.spanRect.Min.X > X0 then X0 else r.spanRect.Min.X
                     Y := if r.spanRect.Min.Y > s.Y then s.Y else r.spanRect.Min.Y }
            Max := { X := if r.spanRect.Max.X < X1 then X1 else r.spanRect.Max.X
                     Y := if r.spanRect.Max.Y < s.Y then s.Y else r.spanRect.Max.Y } } }
      hop hc hb hstride hlen hal
    refine ⟨sr, ?_⟩
    subst hX0 hX1 hi0
    simp only [RGBAPainter.paintSolid, hY1, hY2, hlt, hop, if_true, if_false, hloop]
    rw [RGBAPainter.setCanvasPix_same]
    · simp only [hop] at h ⊢
      exact h
    · rfl
    · exact hal

theorem RGBAPainter.cycle_transparent (endShadow : RGBAPainter → Option RGBAPainter)
    (r : RGBAPainter) (ss : List Span)
    (hop : r.Op = SourceOver) (hs : r.hasShadow = false) (hsolid : r.solid = true)
    (hmask : r.Mask = none) (hc : r.solidColor = color.Transparent)
    (hb : ∀ v ∈ r.Image.Pix, v ≤ 255)
    (hstride : 4 * (r.Image.Rect.Max.X - r.Image.Rect.Min.X) ≤ r.Image.Stride)
    (hlen : (r.Image.Rect.Max.Y - r.Image.Rect.Min.Y - 1) * r.Image.Stride
        + 4 * (r.Image.Rect.Max.X - r.Image.Rect.Min.X) ≤ r.Image.Pix.length) :
    ∃ r1, r.cycle endShadow ss = some r1 ∧ r1.Image = r.Image := by
  obtain ⟨r0, hr0⟩ : ∃ r0 : RGBAPainter, r0 =
      { r with spanRect := { Min := { X := 1000000000, Y := 1000000000 },
                             Max := { X := -1000000000, Y := -1000000000 } }
               canvas := r.Image
               canvasIsImage := true
               canvasOp := SourceOver } := ⟨_, rfl⟩
  have hbegin : r.Begin = some r0 := by
    rw [hr0]
    simp [RGBAPainter.Begin, hs, hop]
  have f1 : r0.canvasOp = SourceOver := by rw [hr0]
  have f2 : r0.solidColor = color.Transparent := by rw [hr0]; exact hc
  have f3 : r0.canvas = r.Image := by rw [hr0]
  have f4 : r0.Image = r.Image := by rw [hr0]
  have f5 : r0.solid = true := by rw [hr0]; exact hsolid
  have f6 : r0.Mask = none := by rw [hr0]; exact hmask
  have f7 : r0.hasShadow = false := by rw [hr0]; exact hs
  have f8 : r0.Op = SourceOver := by rw [hr0]; exact hop
  obtain ⟨sr, hp⟩ := RGBAPainter.paintSolid_transparent ss r0 f1 f2
    (by rw [f3]; exact hb) (by rw [f3]; exact hstride) (by rw [f3]; exact hlen)
    (fun _ => by rw [f3, f4])
  refine ⟨{ r0 with spanRect := sr }, ?_, f4⟩
  have hpaint : r0.Paint ss = some { r0 with spanRect := sr } := by
    unfold RGBAPainter.Paint
    rw [if_pos f5, if_neg (by rw [f6]; simp), hp]
  have hend : RGBAPainter.End endShadow { r0 with spanRect := sr }
      = some { r0 with spanRect := sr } := by
    unfold RGBAPainter.End
    rw [if_neg (by simp only [f7]; simp), if_pos f8]
  unfold RGBAPainter.cycle
  rw [hbegin]
  simp only [Option.bind_eq_bind, Option.some_bind]
  rw [hpaint]
  simp only [Option.some_bind]
  exact hend

/-- C39: with the fully transparent solid colour, (i) paintSolid under
canvasOp = SourceOver, for every list of spans (any rows, columns and coverage) and any
global alpha, on a canvas whose Pix holds bytes and covers its rectangle, returns and
changes nothing but the dirty rectangle `spanRect`: canvas and Image are as before; (ii) the
whole cycle Begin, Paint, End under Op = SourceOver, without shadow and without clip mask,
which is what ClearRect runs under the default composite operation, returns with the
Image unchanged. -/
theorem RGBAPainter.transparent_SourceOver_no_change (r : RGBAPainter) (ss : List Span)
    (hc : r.solidColor = color.Transparent) :
    (r.canvasOp = SourceOver →
      (∀ v ∈ r.canvas.Pix, v ≤ 255) →
      4 * (r.canvas.Rect.Max.X - r.canvas.Rect.Min.X) ≤ r.canvas.Stride →
      (r.canvas.Rect.Max.Y - r.canvas.Rect.Min.Y - 1) * r.canvas.Stride
          + 4 * (r.canvas.Rect.Max.X - r.canvas.Rect.Min.X) ≤ r.canvas.Pix.length →
      (r.canvasIsImage = true → r.Image.Pix = r.canvas.Pix) →
      ∃ sr, r.paintSolid ss = some { r with spanRect := sr })
    ∧ (∀ endShadow : RGBAPainter → Option RGBAPainter,
      r.Op = SourceOver → r.hasShadow = false → r.solid = true → r.Mask = none →
      (∀ v ∈ r.Image.Pix, v ≤ 255) →
      4 * (r.Image.Rect.Max.X - r.Image.Rect.Min.X) ≤ r.Image.Stride →
      (r.Image.Rect.Max.Y - r.Image.Rect.Min.Y - 1) * r.Image.Stride
          + 4 * (r.Image.Rect.Max.X - r.Image.Rect.Min.X) ≤ r.Image.Pix.length →
      ∃ r1, r.cycle endShadow ss = some r1 ∧ r1.Image = r.Image) :=
  ⟨fun hop hb hstride hlen hal =>
      RGBAPainter.paintSolid_transparent ss r hop hc hb hstride hlen hal,
   fun endShadow hop hs hsolid hmask hb hstride hlen =>
      RGBAPainter.cycle_transparent endShadow r ss hop hs hsolid hmask hc hb hstride hlen⟩

/-- Witness of C39: the example painter with the transparent colour, and two spans of
row 0, one of them partly left of the image. -/
theorem RGBAPainter.transparent_SourceOver_no_change_witness :
    transparentPainter.solidColor = color.Transparent
    ∧ (∃ sr, transparentPainter.paintSolid
          [{ Y := 0, X0 := -3, X1 := 1, Alpha := 0xffff }, { Y := 0, X0 := 1, X1 := 2, Alpha := 77 }]
        = some { transparentPainter with spanRect := sr })
    ∧ ∃ r1, transparentPainter.cycle (fun r => some r)
          [{ Y := 0, X0 := -3, X1 := 1, Alpha := 0xffff }, { Y := 0, X0 := 1, X1 := 2, Alpha := 77 }]
        = some r1 ∧ r1.Image = transparentPainter.Image :=
  ⟨rfl,
   (RGBAPainter.transparent_SourceOver_no_change transparentPainter
      [{ Y := 0, X0 := -3, X1 := 1, Alpha := 0xffff }, { Y := 0, X0 := 1, X1 := 2, Alpha := 77 }]
      rfl).1 rfl (by decide) (by decide) (by decide) (fun _ => rfl),
   (RGBAPainter.transparent_SourceOver_no_change transparentPainter
      [{ Y := 0, X0 := -3, X1 := 1, Alpha := 0xffff }, { Y := 0, X0 := 1, X1 := 2, Alpha := 77 }]
      rfl).2 (fun r => some r) rfl rfl rfl rfl (by decide) (by decide) (by decide)⟩

/-! ## Save and Restore: the backing array of `Dash` -/

/-- C3, the code at the failing input: `buf := []float64{a, b, c, d}`,
`SetLineDash(buf)`, `Save()`, `SetLineDash(buf[:1])`, `Restore()`.  Before Save the dash
is a, b, c, d.  The slice `buf[:1]` has the odd length 1 and the capacity 4, so
`append` writes its element a into the backing array of `buf`, at index 1: inside Save
the dash is a, a.  After Restore the frame holds the slice it held before Save, on the
same backing array, and its elements are a, a, c, d: the dash is not restored. -/
theorem DashFrames.Restore_shared_array (a b c d : ℚ) :
    (dashExample a b c d).1.LineDash.elems (dashExample a b c d).1.heap = [a, b, c, d]
    ∧ ∃ one, (dashExample a b c d).2.upTo 1 = some one
        ∧ one.elems (dashExample a b c d).1.heap = [a]
        ∧ ((dashExample a b c d).1.Save.SetLineDash one).LineDash.elems
            ((dashExample a b c d).1.Save.SetLineDash one).heap = [a, a]
        ∧ ((dashExample a b c d).1.Save.SetLineDash one).Restore.LineDash
            = (dashExample a b c d).1.LineDash
        ∧ ((dashExample a b c d).1.Save.SetLineDash one).Restore.LineDash.elems
            ((dashExample a b c d).1.Save.SetLineDash one).Restore.heap = [a, a, c, d] := by
  have e : dashExample a b c d
      = ({ heap := [[a, b, c, d]], Current := { array := 0, offset := 0, len := 4, cap := 4 },
           Previous := [] }, { array := 0, offset := 0, len := 4, cap := 4 }) := by
    simp [dashExample, makeFloats, DashFrames.New, DashFrames.SetLineDash]
  rw [e]
  refine ⟨?_, { array := 0, offset := 0, len := 1, cap := 4 }, ?_, ?_, ?_, ?_, ?_⟩
  · simp [DashFrames.LineDash, FloatSlice.elems]
  · simp [FloatSlice.upTo]
  · simp [FloatSlice.elems]
  · simp [DashFrames.LineDash, DashFrames.Save, DashFrames.SetLineDash, appendFloats,
      FloatSlice.elems, writeFloats]
  · simp [DashFrames.LineDash, DashFrames.Save, DashFrames.SetLineDash, appendFloats,
      FloatSlice.elems, writeFloats, DashFrames.Restore]
  · simp [DashFrames.LineDash, DashFrames.Save, DashFrames.SetLineDash, appendFloats,
      FloatSlice.elems, writeFloats, DashFrames.Restore]

/-! ## `normAngle` and `Arc` with the rounding of `float64` -/

theorem roundHalfEven_bounds (r : ℚ) : ⌊r⌋ ≤ roundHalfEven r ∧ roundHalfEven r ≤ ⌊r⌋ + 1 := by
  unfold roundHalfEven
  split_ifs <;> omega

theorem roundHalfEven_mono {r s : ℚ} (h : r ≤ s) : roundHalfEven r ≤ roundHalfEven s := by
  have hf : ⌊r⌋ ≤ ⌊s⌋ := Int.floor_mono h
  rcases hf.lt_or_eq with hlt | heq
  · have h1 := (roundHalfEven_bounds r).2
    have h2 := (roundHalfEven_bounds s).1
    omega
  · unfold roundHalfEven
    rw [← heq]
    split_ifs <;> first | omega | (exfalso; linarith)

theorem roundHalfEven_intCast (n : ℤ) : roundHalfEven (n : ℚ) = n := by
  simp [roundHalfEven]

theorem roundHalfEven_near (r : ℚ) (n : ℤ) (h : |r - n| < 1 / 2) : roundHalfEven r = n := by
  obtain ⟨h1, h2⟩ := abs_lt.mp h
  by_cases hn : (n : ℚ) ≤ r
  · have hf : ⌊r⌋ = n := Int.floor_eq_iff.mpr ⟨hn, by linarith⟩
    unfold roundHalfEven
    rw [hf, if_pos (by linarith)]
  · have hf : ⌊r⌋ = n - 1 := Int.floor_eq_iff.mpr ⟨by push_cast; linarith, by push_cast; linarith⟩
    unfold roundHalfEven
    rw [hf, if_neg (by push_cast; linarith), if_pos (by push_cast; linarith)]
    omega

theorem log2_bounds (x : ℚ) (hx : 0 < x) :
    (2 : ℚ) ^ Int.log 2 x ≤ x ∧ x < (2 : ℚ) ^ (Int.log 2 x + 1) := by
  have h1 := Int.zpow_log_le_self (by norm_num : 1 < 2) hx
  have h2 := Int.lt_zpow_succ_log_self (by norm_num : 1 < 2) x
  simp only [Nat.cast_ofNat] at h1 h2
  exact ⟨h1, h2⟩

theorem log2_eq (x : ℚ) (e : ℤ) (h1 : (2 : ℚ) ^ e ≤ x) (h2 : x < (2 : ℚ) ^ (e + 1)) :
    Int.log 2 x = e := by
  have hx : 0 < x := lt_of_lt_of_le (by positivity) h1
  have a : e ≤ Int.log 2 x :=
    (Int.zpow_le_iff_le_log (by norm_num : 1 < 2) hx).mp (by simpa using h1)
  have b : Int.log 2 x < e + 1 :=
    (Int.lt_zpow_iff_log_lt (by norm_num : 1 < 2) hx).mp (by simpa using h2)
  omega

theorem roundPos_bounds (x : ℚ) (hx : 0 < x) :
    (2 : ℚ) ^ Int.log 2 x ≤ roundPos x ∧ roundPos x ≤ (2 : ℚ) ^ (Int.log 2 x + 1) := by
  obtain ⟨h1, h2⟩ := log2_bounds x hx
  have hq : (0 : ℚ) < 2 ^ (Int.log 2 x - 52) := by positivity
  have e1 : (2 : ℚ) ^ Int.log 2 x = ((2 ^ 52 : ℤ) : ℚ) * 2 ^ (Int.log 2 x - 52) := by
    rw [sub_eq_add_neg, zpow_add₀ (by norm_num), ← mul_assoc, mul_comm _ ((2 : ℚ) ^ Int.log 2 x),
      mul_assoc]
    norm_num
  have e2 : (2 : ℚ) ^ (Int.log 2 x + 1) = ((2 ^ 53 : ℤ) : ℚ) * 2 ^ (Int.log 2 x - 52) := by
    have : Int.log 2 x + 1 = 53 + (Int.log 2 x - 52) := by ring
    rw [this, zpow_add₀ (by norm_num)]
    norm_num
  have l1 : ((2 ^ 52 : ℤ) : ℚ) ≤ x / 2 ^ (Int.log 2 x - 52) := by
    rw [le_div_iff₀ hq, ← e1]
    exact h1
  have l2 : x / 2 ^ (Int.log 2 x - 52) ≤ ((2 ^ 53 : ℤ) : ℚ) := by
    rw [div_le_iff₀ hq, ← e2]
    exact h2.le
  have m1 := roundHalfEven_mono l1
  have m2 := roundHalfEven_mono l2
  rw [roundHalfEven_intCast] at m1 m2
  unfold roundPos
  rw [e1, e2]
  constructor
  · exact mul_le_mul_of_nonneg_right (by exact_mod_cast m1) hq.le
  · exact mul_le_mul_of_nonneg_right (by exact_mod_cast m2) hq.le

theorem roundPos_pos (x : ℚ) (hx : 0 < x) : 0 < roundPos x :=
  lt_of_lt_of_le (by positivity) (roundPos_bounds x hx).1

theorem roundPos_mono (x y : ℚ) (hx : 0 < x) (h : x ≤ y) : roundPos x ≤ roundPos y := by
  have hy : 0 < y := lt_of_lt_of_le hx h
  have hl : Int.log 2 x ≤ Int.log 2 y := Int.log_mono_right hx h
  rcases hl.lt_or_eq with hlt | heq
  · have b1 := (roundPos_bounds x hx).2
    have b2 := (roundPos_bounds y hy).1
    have b3 : (2 : ℚ) ^ (Int.log 2 x + 1) ≤ 2 ^ Int.log 2 y :=
      zpow_le_zpow_right₀ (by norm_num) (by omega)
    linarith
  · unfold roundPos
    rw [← heq]
    have hq : (0 : ℚ) < 2 ^ (Int.log 2 x - 52) := by positivity
    apply mul_le_mul_of_nonneg_right _ hq.le
    exact_mod_cast roundHalfEven_mono (div_le_div_of_nonneg_right h hq.le)

theorem roundF64_mono (x y : ℚ) (h : x ≤ y) : roundF64 x ≤ roundF64 y := by
  unfold roundF64
  by_cases hx0 : x = 0
  · subst hx0
    rw [if_pos rfl]
    by_cases hy0 : y = 0
    · rw [if_pos hy0]
    · have hy : 0 < y := lt_of_le_of_ne h (Ne.symm hy0)
      rw [if_neg hy0, if_neg (not_lt.mpr hy.le)]
      exact (roundPos_pos y hy).le
  · rw [if_neg hx0]
    by_cases hxn : x < 0
    · rw [if_pos hxn]
      have p1 := roundPos_pos (-x) (by linarith)
      by_cases hy0 : y = 0
      · rw [if_pos hy0]
        linarith
      · rw [if_neg hy0]
        by_cases hyn : y < 0
        · rw [if_pos hyn]
          have := roundPos_mono (-y) (-x) (by linarith) (by linarith)
          linarith
        · rw [if_neg hyn]
          have hy : 0 < y := lt_of_le_of_ne (not_lt.mp hyn) (Ne.symm hy0)
          have := roundPos_pos y hy
          linarith
    · rw [if_neg hxn]
      have hx : 0 < x := lt_of_le_of_ne (not_lt.mp hxn) (Ne.symm hx0)
      have hy : 0 < y := lt_of_lt_of_le hx h
      rw [if_neg hy.ne', if_neg (not_lt.mpr hy.le)]
      exact roundPos_mono x y hx h

theorem roundF64_zero : roundF64 0 = 0 := by
  simp [roundF64]

/-- A number with a significand of 53 bits is its own rounding. -/
theorem roundPos_fixed (m k : ℤ) (h1 : 2 ^ 52 ≤ m) (h2 : m < 2 ^ 53) :
    roundPos (m * 2 ^ k) = m * 2 ^ k := by
  have hk : (0 : ℚ) < 2 ^ k := by positivity
  have hm1 : ((2 : ℚ) ^ 52 : ℚ) ≤ (m : ℚ) := by exact_mod_cast h1
  have hm2 : (m : ℚ) < (2 : ℚ) ^ 53 := by exact_mod_cast h2
  have hl : Int.log 2 ((m : ℚ) * 2 ^ k) = 52 + k := by
    apply log2_eq
    · rw [zpow_add₀ (by norm_num)]
      exact mul_le_mul_of_nonneg_right (by exact_mod_cast hm1) hk.le
    · have : 52 + k + 1 = 53 + k := by ring
      rw [this, zpow_add₀ (by norm_num)]
      exact mul_lt_mul_of_pos_right (by exact_mod_cast hm2) hk
  unfold roundPos
  rw [hl]
  have : 52 + k - 52 = k := by ring
  rw [this, mul_div_assoc, div_self hk.ne', mul_one, roundHalfEven_intCast]

theorem roundF64_fixed (m k : ℤ) (h1 : 2 ^ 52 ≤ m) (h2 : m < 2 ^ 53) :
    roundF64 (m * 2 ^ k) = m * 2 ^ k ∧ roundF64 (-(m * 2 ^ k)) = -(m * 2 ^ k) := by
  have hk : (0 : ℚ) < 2 ^ k := by positivity
  have hm : (0 : ℚ) < (m : ℚ) := by
    have : (0 : ℤ) < m := lt_of_lt_of_le (by norm_num) h1
    exact_mod_cast this
  have hp : (0 : ℚ) < (m : ℚ) * 2 ^ k := mul_pos hm hk
  constructor
  · unfold roundF64
    rw [if_neg hp.ne', if_neg (not_lt.mpr hp.le), roundPos_fixed m k h1 h2]
  · unfold roundF64
    rw [if_neg (by linarith), if_pos (by linarith), neg_neg, roundPos_fixed m k h1 h2]

theorem roundHalfEven_err (r : ℚ) : |(roundHalfEven r : ℚ) - r| ≤ 1 / 2 := by
  have h1 := Int.floor_le r
  have h2 := Int.lt_floor_add_one r
  rw [abs_le]
  unfold roundHalfEven
  split_ifs <;> push_cast <;> constructor <;> linarith

theorem roundPos_err (x : ℚ) (hx : 0 < x) : |roundPos x - x| ≤ x / 2 ^ 53 := by
  obtain ⟨h1, h2⟩ := log2_bounds x hx
  have hq : (0 : ℚ) < 2 ^ (Int.log 2 x - 52) := by positivity
  have e1 : (2 : ℚ) ^ Int.log 2 x = 2 ^ 52 * 2 ^ (Int.log 2 x - 52) := by
    rw [sub_eq_add_neg, zpow_add₀ (by norm_num), ← mul_assoc, mul_comm _ ((2 : ℚ) ^ Int.log 2 x),
      mul_assoc]
    norm_num
  have he := roundHalfEven_err (x / 2 ^ (Int.log 2 x - 52))
  have e2 : roundPos x - x
      = ((roundHalfEven (x / 2 ^ (Int.log 2 x - 52)) : ℚ) - x / 2 ^ (Int.log 2 x - 52))
        * 2 ^ (Int.log 2 x - 52) := by
    unfold roundPos
    field_simp
  rw [e2, abs_mul, abs_of_pos hq]
  have h3 : |(roundHalfEven (x / 2 ^ (Int.log 2 x - 52)) : ℚ) - x / 2 ^ (Int.log 2 x - 52)|
      * 2 ^ (Int.log 2 x - 52) ≤ 1 / 2 * 2 ^ (Int.log 2 x - 52) :=
    mul_le_mul_of_nonneg_right he hq.le
  have h4 : (1 : ℚ) / 2 * 2 ^ (Int.log 2 x - 52) ≤ x / 2 ^ 53 := by
    rw [le_div_iff₀ (by positivity)]
    have : (1 : ℚ) / 2 * 2 ^ (Int.log 2 x - 52) * 2 ^ 53 = 2 ^ 52 * 2 ^ (Int.log 2 x - 52) := by
      ring
    rw [this, ← e1]
    exact h1
  linarith

theorem roundF64_err (x : ℚ) : |roundF64 x - x| ≤ |x| / 2 ^ 53 := by
  unfold roundF64
  by_cases h0 : x = 0
  · subst h0
    simp
  · rw [if_neg h0]
    by_cases hn : x < 0
    · rw [if_pos hn, abs_of_neg hn]
      have := roundPos_err (-x) (by linarith)
      have e : -roundPos (-x) - x = -(roundPos (-x) - -x) := by ring
      rw [e, abs_neg]
      exact this
    · rw [if_neg hn]
      have hx : 0 < x := lt_of_le_of_ne (not_lt.mp hn) (Ne.symm h0)
      rw [abs_of_pos hx]
      exact roundPos_err x hx

theorem roundF64_nonneg (x : ℚ) (h : 0 ≤ x) : 0 ≤ roundF64 x := by
  have := roundF64_mono 0 x h
  rwa [roundF64_zero] at this

theorem roundF64_nonpos (x : ℚ) (h : x ≤ 0) : roundF64 x ≤ 0 := by
  have := roundF64_mono x 0 h
  rwa [roundF64_zero] at this

theorem roundF64_pos (x : ℚ) (h : 0 < x) : 0 < roundF64 x := by
  unfold roundF64
  rw [if_neg h.ne', if_neg (not_lt.mpr h.le)]
  exact roundPos_pos x h

theorem roundF64_neg (x : ℚ) (h : x < 0) : roundF64 x < 0 := by
  unfold roundF64
  rw [if_neg h.ne, if_pos h]
  have := roundPos_pos (-x) (by linarith)
  linarith

theorem roundF64_le_of_nonneg (x : ℚ) (h : 0 ≤ x) : roundF64 x ≤ x * (1 + 1 / 2 ^ 53) := by
  have := roundF64_err x
  rw [abs_of_nonneg h] at this
  have := (abs_le.mp this).2
  have e : x * (1 + 1 / 2 ^ 53) = x + x / 2 ^ 53 := by ring
  linarith

theorem roundF64_ge_of_nonpos (x : ℚ) (h : x ≤ 0) : x * (1 + 1 / 2 ^ 53) ≤ roundF64 x := by
  have := roundF64_err x
  rw [abs_of_nonpos h] at this
  have := (abs_le.mp this).1
  have e : x * (1 + 1 / 2 ^ 53) = x + x / 2 ^ 53 := by ring
  linarith

theorem roundF64_twoPi : roundF64 (Pi * 2) = Pi * 2 ∧ roundF64 (-(Pi * 2)) = -(Pi * 2) := by
  have e : Pi * 2 = ((7074237752028440 : ℤ) : ℚ) * 2 ^ (-50 : ℤ) := by
    norm_num [Pi]
  rw [e]
  exact roundF64_fixed 7074237752028440 (-50) (by norm_num) (by norm_num)

/-- The value of `normAngle` with the rounded sum lies in the closed interval from 0 to
2π. -/
theorem normAngle_rounded_range (a : ℚ) :
    0 ≤ Rounded.normAngle a ∧ Rounded.normAngle a ≤ Pi * 2 := by
  have hpi := Pi_pos
  have hy : (0 : ℚ) < Pi * 2 := by linarith
  have hb := Mod_bounds a (Pi * 2) hy
  simp only [Rounded.normAngle, F64.add]
  by_cases ha : 0 ≤ a
  · obtain ⟨h1, h2⟩ := hb.1 ha
    rw [if_neg (not_lt.mpr h1)]
    exact ⟨h1, h2.le⟩
  · obtain ⟨h1, h2⟩ := hb.2 (not_le.mp ha)
    split_ifs with h
    · constructor
      · exact roundF64_nonneg _ (by linarith)
      · have := roundF64_mono (Mod a (Pi * 2) + Pi * 2) (Pi * 2) (by linarith)
        rwa [roundF64_twoPi.1] at this
    · exact ⟨not_lt.mp h, by linarith⟩

theorem sweep_bound_add (P s e : ℚ) (hP : 0 < P) (hs : s ≤ P) (he0 : 0 ≤ e)
    (hes : e ≤ s) (hfix : roundF64 P = P) :
    0 ≤ roundF64 (roundF64 (e + P) - s)
    ∧ roundF64 (roundF64 (e + P) - s) ≤ P * (1 + 1 / 2 ^ 51) := by
  have l1 : P ≤ roundF64 (e + P) := by
    have := roundF64_mono P (e + P) (by linarith)
    rwa [hfix] at this
  have u1 : roundF64 (e + P) ≤ (e + P) * (1 + 1 / 2 ^ 53) :=
    roundF64_le_of_nonneg _ (by linarith)
  have d0 : 0 ≤ roundF64 (e + P) - s := by linarith
  have u2 := roundF64_le_of_nonneg _ d0
  refine ⟨roundF64_nonneg _ d0, ?_⟩
  have u3 : (e + P) * (1 + 1 / 2 ^ 53) ≤ (s + P) * (1 + 1 / 2 ^ 53) :=
    mul_le_mul_of_nonneg_right (by linarith) (by norm_num)
  have u4 : roundF64 (e + P) - s ≤ P * (1 + 2 / 2 ^ 53) := by
    have : (s + P) * (1 + 1 / 2 ^ 53) - s = P + (s + P) * (1 / 2 ^ 53) := by ring
    have h5 : (s + P) * (1 / 2 ^ 53 : ℚ) ≤ (P + P) * (1 / 2 ^ 53) :=
      mul_le_mul_of_nonneg_right (by linarith) (by norm_num)
    have : P * (1 + 2 / 2 ^ 53) = P + (P + P) * (1 / 2 ^ 53) := by ring
    linarith
  have u5 : (roundF64 (e + P) - s) * (1 + 1 / 2 ^ 53)
      ≤ P * (1 + 2 / 2 ^ 53) * (1 + 1 / 2 ^ 53) :=
    mul_le_mul_of_nonneg_right u4 (by norm_num)
  have u6 : P * (1 + 2 / 2 ^ 53) * (1 + 1 / 2 ^ 53) ≤ P * (1 + 1 / 2 ^ 51) := by
    rw [mul_assoc]
    exact mul_le_mul_of_nonneg_left (by norm_num) hP.le
  linarith

theorem sweep_bound_sub (P s e : ℚ) (hP : 0 < P) (hs0 : 0 ≤ s) (he : e ≤ P)
    (hes : s ≤ e) :
    -(P * (1 + 1 / 2 ^ 51)) ≤ roundF64 (roundF64 (e - P) - s)
    ∧ roundF64 (roundF64 (e - P) - s) ≤ 0 := by
  have l1 : roundF64 (e - P) ≤ 0 := roundF64_nonpos _ (by linarith)
  have u1 : (e - P) * (1 + 1 / 2 ^ 53) ≤ roundF64 (e - P) :=
    roundF64_ge_of_nonpos _ (by linarith)
  have d0 : roundF64 (e - P) - s ≤ 0 := by linarith
  have u2 := roundF64_ge_of_nonpos _ d0
  refine ⟨?_, roundF64_nonpos _ d0⟩
  have u3 : (s - P) * (1 + 1 / 2 ^ 53) ≤ (e - P) * (1 + 1 / 2 ^ 53) :=
    mul_le_mul_of_nonneg_right (by linarith) (by norm_num)
  have u4 : -(P * (1 + 2 / 2 ^ 53)) ≤ roundF64 (e - P) - s := by
    have : (s - P) * (1 + 1 / 2 ^ 53) - s = -P - (P - s) * (1 / 2 ^ 53) := by ring
    have h5 : (P - s) * (1 / 2 ^ 53 : ℚ) ≤ (P + P) * (1 / 2 ^ 53) :=
      mul_le_mul_of_nonneg_right (by linarith) (by norm_num)
    have : -(P * (1 + 2 / 2 ^ 53)) = -P - (P + P) * (1 / 2 ^ 53) := by ring
    linarith
  have u5 : -(P * (1 + 2 / 2 ^ 53)) * (1 + 1 / 2 ^ 53)
      ≤ (roundF64 (e - P) - s) * (1 + 1 / 2 ^ 53) :=
    mul_le_mul_of_nonneg_right u4 (by norm_num)
  have u6 : P * (1 + 2 / 2 ^ 53) * (1 + 1 / 2 ^ 53) ≤ P * (1 + 1 / 2 ^ 51) := by
    rw [mul_assoc]
    exact mul_le_mul_of_nonneg_left (by norm_num) hP.le
  have u7 : -(P * (1 + 2 / 2 ^ 53)) * (1 + 1 / 2 ^ 53)
      = -(P * (1 + 2 / 2 ^ 53) * (1 + 1 / 2 ^ 53)) := by ring
  linarith

/-- C13, as amended: with the sums and differences rounded to `float64`, for every Arc
request that is not a full circle, normAngle maps both angles into the closed interval
[0, 2π], and Path.Arc and StackGraphicContext.Arc call ArcAngle with the normalized start
angle and one same sweep, which is never of the sign opposite to the requested direction:
it lies in [0, 2π·(1 + 2⁻⁵¹)] when counterclockwise is false and in
[−2π·(1 + 2⁻⁵¹), 0] when counterclockwise is true. -/
theorem Arc_sweep_rounded (startAngle endAngle : ℚ) (ccw : Bool)
    (h1 : ¬ (ccw = false ∧ F64.sub endAngle startAngle ≥ 2 * Pi))
    (h2 : ¬ (ccw = true ∧ F64.sub startAngle endAngle ≥ 2 * Pi)) :
    (0 ≤ Rounded.normAngle startAngle ∧ Rounded.normAngle startAngle ≤ 2 * Pi)
    ∧ (0 ≤ Rounded.normAngle endAngle ∧ Rounded.normAngle endAngle ≤ 2 * Pi)
    ∧ ∃ sweep : ℚ,
        (∀ (M : MathFuncs) (p : Path) (cx cy radius : ℚ),
          Rounded.Path.Arc M p cx cy radius startAngle endAngle ccw
            = p.ArcAngle M cx cy radius radius (Rounded.normAngle startAngle) sweep)
        ∧ (∀ (MM : MatrixMethods) (M : MathFuncs) (gc : StackGraphicContext) (cx cy radius : ℚ),
          Rounded.StackGraphicContext.Arc MM M gc cx cy radius startAngle endAngle ccw
            = gc.ArcAngle MM M cx cy radius radius (Rounded.normAngle startAngle) sweep)
        ∧ (ccw = false → 0 ≤ sweep ∧ sweep ≤ 2 * Pi * (1 + 1 / 2 ^ 51))
        ∧ (ccw = true → -(2 * Pi * (1 + 1 / 2 ^ 51)) ≤ sweep ∧ sweep ≤ 0) := by
  have hpi := Pi_pos
  have hP : (0 : ℚ) < Pi * 2 := by linarith
  have hs := normAngle_rounded_range startAngle
  have he := normAngle_rounded_range endAngle
  have c2 : (2 : ℚ) * Pi = Pi * 2 := by ring
  refine ⟨⟨hs.1, by linarith [hs.2]⟩, ⟨he.1, by linarith [he.2]⟩, ?_⟩
  cases ccw with
  | false =>
    have hn : ¬ (2 * Pi ≤ F64.sub endAngle startAngle) := fun hh => h1 ⟨rfl, hh⟩
    by_cases hle : Rounded.normAngle endAngle ≤ Rounded.normAngle startAngle
    · refine ⟨F64.sub (F64.add (Rounded.normAngle endAngle) (Pi * 2))
          (Rounded.normAngle startAngle), ?_, ?_, ?_, ?_⟩
      · intro M p cx cy radius
        simp [Rounded.Path.Arc, hn, hle]
      · intro MM M gc cx cy radius
        simp [Rounded.StackGraphicContext.Arc, hn, hle]
      · intro _
        rw [c2]
        exact sweep_bound_add (Pi * 2) _ _ hP hs.2 he.1 hle roundF64_twoPi.1
      · intro hc
        exact absurd hc (by decide)
    · refine ⟨F64.sub (Rounded.normAngle endAngle) (Rounded.normAngle startAngle),
        ?_, ?_, ?_, ?_⟩
      · intro M p cx cy radius
        simp [Rounded.Path.Arc, hn, hle]
      · intro MM M gc cx cy radius
        simp [Rounded.StackGraphicContext.Arc, hn, hle]
      · intro _
        have hlt := not_le.mp hle
        constructor
        · exact roundF64_nonneg _ (by linarith)
        · have := roundF64_mono (Rounded.normAngle endAngle - Rounded.normAngle startAngle)
            (Pi * 2) (by linarith [he.2, hs.1])
          rw [roundF64_twoPi.1] at this
          have e : (2 : ℚ) * Pi * (1 + 1 / 2 ^ 51) = Pi * 2 + Pi * 2 * (1 / 2 ^ 51) := by ring
          have : (0 : ℚ) ≤ Pi * 2 * (1 / 2 ^ 51) := by positivity
          simp only [F64.sub]
          linarith
      · intro hc
        exact absurd hc (by decide)
  | true =>
    have hn : ¬ (2 * Pi ≤ F64.sub startAngle endAngle) := fun hh => h2 ⟨rfl, hh⟩
    by_cases hge : Rounded.normAngle startAngle ≤ Rounded.normAngle endAngle
    · refine ⟨F64.sub (F64.sub (Rounded.normAngle endAngle) (Pi * 2))
          (Rounded.normAngle startAngle), ?_, ?_, ?_, ?_⟩
      · intro M p cx cy radius
        simp [Rounded.Path.Arc, hn, hge]
      · intro MM M gc cx cy radius
        simp [Rounded.StackGraphicContext.Arc, hn, hge]
      · intro hc
        exact absurd hc (by decide)
      · intro _
        rw [c2]
        exact sweep_bound_sub (Pi * 2) _ _ hP hs.1 he.2 hge
    · refine ⟨F64.sub (Rounded.normAngle endAngle) (Rounded.normAngle startAngle),
        ?_, ?_, ?_, ?_⟩
      · intro M p cx cy radius
        simp [Rounded.Path.Arc, hn, hge]
      · intro MM M gc cx cy radius
        simp [Rounded.StackGraphicContext.Arc, hn, hge]
      · intro hc
        exact absurd hc (by decide)
      · intro _
        have hlt := not_le.mp hge
        constructor
        · have := roundF64_mono (-(Pi * 2))
            (Rounded.normAngle endAngle - Rounded.normAngle startAngle)
            (by linarith [he.1, hs.2])
          rw [roundF64_twoPi.2] at this
          have e : (2 : ℚ) * Pi * (1 + 1 / 2 ^ 51) = Pi * 2 + Pi * 2 * (1 / 2 ^ 51) := by ring
          have : (0 : ℚ) ≤ Pi * 2 * (1 / 2 ^ 51) := by positivity
          simp only [F64.sub]
          linarith
        · exact roundF64_nonpos _ (by linarith)

/-- The rounding of a positive `x` with `2^e ≤ x < 2^(e+1)` is the multiple `n · 2^(e-52)`
when `x / 2^(e-52)` is nearer to `n` than one half. -/
theorem roundF64_eq_of_near (x : ℚ) (e n : ℤ) (h1 : (2 : ℚ) ^ e ≤ x) (h2 : x < (2 : ℚ) ^ (e + 1))
    (hn : |x / 2 ^ (e - 52) - n| < 1 / 2) : roundF64 x = n * 2 ^ (e - 52) := by
  have hx : 0 < x := lt_of_lt_of_le (by positivity) h1
  unfold roundF64
  rw [if_neg hx.ne', if_neg (not_lt.mpr hx.le)]
  unfold roundPos
  rw [log2_eq x e h1 h2, roundHalfEven_near _ n hn]

theorem Mod_small_neg (x y : ℚ) (hy : 0 < y) (hx : x ≤ 0) (hxy : -y < x) : Mod x y = x := by
  have hq : x / y ≤ 0 := div_nonpos_of_nonpos_of_nonneg hx hy.le
  have hq1 : -1 < x / y := by
    rw [lt_div_iff₀ hy]
    linarith
  have hc : ⌈x / y⌉ = 0 := Int.ceil_eq_iff.mpr ⟨by push_cast; linarith, by push_cast; linarith⟩
  unfold Mod
  by_cases h0 : 0 ≤ x / y
  · have : x / y = 0 := le_antisymm hq h0
    rw [if_pos h0, this]
    simp
  · rw [if_neg h0, hc]
    simp

theorem Mod_small_nonneg (x y : ℚ) (hy : 0 < y) (hx : 0 ≤ x) (hxy : x < y) : Mod x y = x := by
  have hq : 0 ≤ x / y := div_nonneg hx hy.le
  have hq1 : x / y < 1 := by
    rw [div_lt_iff₀ hy]
    linarith
  have hc : ⌊x / y⌋ = 0 := Int.floor_eq_iff.mpr ⟨by push_cast; linarith, by push_cast; linarith⟩
  unfold Mod
  rw [if_pos hq, hc]
  simp

/-- C13, counterexample.  For the angle −1e-20 (the `float64` 6646139978924579 / 2^119,
negated) normAngle returns 2π itself, since the sum with 2π rounds to 2π; the request
Arc(start = −1e-20, end = 0, clockwise) is no full circle and reaches ArcAngle with the
start angle 2π and the sweep 0.  For start = end = 7/4 + 5/2^52, clockwise, the rounded
sum end + 2π and the rounded difference give the sweep 2π + 2^-50, above 2π. -/
theorem Arc_sweep_rounded_counterexample :
    Rounded.normAngle (-(6646139978924579 / 2 ^ 119)) = 2 * Pi
    ∧ ¬ (F64.sub 0 (-(6646139978924579 / 2 ^ 119)) ≥ 2 * Pi)
    ∧ Rounded.Path.Arc taylorMath NewPath 0 0 5 (-(6646139978924579 / 2 ^ 119)) 0 false
        = NewPath.ArcAngle taylorMath 0 0 5 5 (2 * Pi) 0
    ∧ Rounded.normAngle (7 / 4 + 5 / 2 ^ 52) = 7 / 4 + 5 / 2 ^ 52
    ∧ ¬ (F64.sub (7 / 4 + 5 / 2 ^ 52) (7 / 4 + 5 / 2 ^ 52) ≥ 2 * Pi)
    ∧ Rounded.Path.Arc taylorMath NewPath 0 0 5 (7 / 4 + 5 / 2 ^ 52) (7 / 4 + 5 / 2 ^ 52) false
        = NewPath.ArcAngle taylorMath 0 0 5 5 (7 / 4 + 5 / 2 ^ 52) (2 * Pi + 1 / 2 ^ 50)
    ∧ 2 * Pi < 2 * Pi + 1 / 2 ^ 50 := by
  have hP : (0 : ℚ) < Pi * 2 := by norm_num [Pi]
  -- the tiny negative angle
  have m1 : Mod (-(6646139978924579 / 2 ^ 119)) (Pi * 2) = -(6646139978924579 / 2 ^ 119) :=
    Mod_small_neg _ _ hP (by norm_num) (by norm_num [Pi])
  have r1 : roundF64 (-(6646139978924579 / 2 ^ 119) + Pi * 2) = Pi * 2 := by
    rw [roundF64_eq_of_near _ 2 7074237752028440 (by norm_num [Pi]) (by norm_num [Pi])
      (by rw [abs_lt]; constructor <;> norm_num [Pi])]
    norm_num [Pi]
  have n1 : Rounded.normAngle (-(6646139978924579 / 2 ^ 119)) = Pi * 2 := by
    simp only [Rounded.normAngle, m1, F64.add]
    rw [if_pos (by norm_num), r1]
  have n0 : Rounded.normAngle 0 = 0 := by
    simp [Rounded.normAngle, Mod]
  have f1 : F64.sub 0 (-(6646139978924579 / 2 ^ 119)) = 6646139978924579 / 2 ^ 119 := by
    have e : (0 : ℚ) - -(6646139978924579 / 2 ^ 119)
        = ((6646139978924579 : ℤ) : ℚ) * 2 ^ (-119 : ℤ) := by norm_num
    have e2 : (6646139978924579 / 2 ^ 119 : ℚ)
        = ((6646139978924579 : ℤ) : ℚ) * 2 ^ (-119 : ℤ) := by norm_num
    rw [F64.sub, e, e2]
    exact (roundF64_fixed 6646139978924579 (-119) (by norm_num) (by norm_num)).1
  have g1 : ¬ (F64.sub 0 (-(6646139978924579 / 2 ^ 119)) ≥ 2 * Pi) := by
    rw [f1]
    norm_num [Pi]
  -- the angle 1 + 5 / 2^52
  have m2 : Mod (7 / 4 + 5 / 2 ^ 52) (Pi * 2) = 7 / 4 + 5 / 2 ^ 52 :=
    Mod_small_nonneg _ _ hP (by norm_num) (by norm_num [Pi])
  have n2 : Rounded.normAngle (7 / 4 + 5 / 2 ^ 52) = 7 / 4 + 5 / 2 ^ 52 := by
    simp only [Rounded.normAngle, m2]
    rw [if_neg (by norm_num)]
  have g2 : ¬ (F64.sub (7 / 4 + 5 / 2 ^ 52) (7 / 4 + 5 / 2 ^ 52) ≥ 2 * Pi) := by
    rw [F64.sub, sub_self, roundF64_zero]
    norm_num [Pi]
  have r2 : roundF64 (7 / 4 + 5 / 2 ^ 52 + Pi * 2) = 4522281294501517 / 2 ^ 49 := by
    rw [roundF64_eq_of_near _ 3 4522281294501517 (by norm_num [Pi]) (by norm_num [Pi])
      (by rw [abs_lt]; constructor <;> norm_num [Pi])]
    norm_num
  have r3 : roundF64 (4522281294501517 / 2 ^ 49 - (7 / 4 + 5 / 2 ^ 52)) = 2 * Pi + 1 / 2 ^ 50 := by
    rw [roundF64_eq_of_near _ 2 7074237752028441 (by norm_num) (by norm_num)
      (by rw [abs_lt]; constructor <;> norm_num)]
    norm_num [Pi]
  refine ⟨by rw [n1]; ring, g1, ?_, n2, g2, ?_, by norm_num⟩
  · have hg : ¬ (2 * Pi ≤ F64.sub 0 (-(6646139978924579 / 2 ^ 119))) := g1
    have c2 : (2 : ℚ) * Pi = Pi * 2 := by ring
    simp only [Rounded.Path.Arc, Bool.not_false, Bool.true_and, ge_iff_le, decide_eq_true_eq,
      hg, if_false, Bool.false_and, Bool.false_eq_true, n1, n0, hP.le, if_true]
    simp only [F64.add, zero_add, roundF64_twoPi.1, F64.sub, sub_self, roundF64_zero, c2]
  · have hg : ¬ (2 * Pi ≤ F64.sub (7 / 4 + 5 / 2 ^ 52) (7 / 4 + 5 / 2 ^ 52)) := g2
    simp only [Rounded.Path.Arc, Bool.not_false, Bool.true_and, ge_iff_le, decide_eq_true_eq,
      hg, if_false, Bool.false_and, Bool.false_eq_true, n2, le_refl, if_true]
    simp only [F64.add, r2, F64.sub, r3]

/-- Witness of C13 as amended: the counterclockwise request from 1 to 2. -/
theorem Arc_sweep_rounded_witness :
    ¬ (F64.sub 1 2 ≥ 2 * Pi)
    ∧ (0 ≤ Rounded.normAngle 1 ∧ Rounded.normAngle 1 ≤ 2 * Pi)
    ∧ (0 ≤ Rounded.normAngle 2 ∧ Rounded.normAngle 2 ≤ 2 * Pi) :=
  have h : ¬ (F64.sub 1 2 ≥ 2 * Pi) := by
    have e : (1 : ℚ) - 2 = -(((4503599627370496 : ℤ) : ℚ) * 2 ^ (-52 : ℤ)) := by norm_num
    rw [F64.sub, e, (roundF64_fixed 4503599627370496 (-52) (by norm_num) (by norm_num)).2]
    norm_num [Pi]
  ⟨h, (Arc_sweep_rounded 1 2 true (by simp) (fun hh => h hh.2)).1,
   (Arc_sweep_rounded 1 2 true (by simp) (fun hh => h hh.2)).2.1⟩

/-! ## Flatten: the Close commands that are reached -/

theorem flattenTurn_LineToCmp (M : MathFuncs) (acos : ℚ → ℚ) (fuel : Nat) (points : List ℚ)
    (scale : ℚ) (s : FlattenState) (x y : ℚ)
    (hx : pointsGet points s.i = some x) (hy : pointsGet points (s.i + 1) = some y) :
    flattenTurn M acos fuel points scale s .LineToCmp
      = .ok ([.LineTo x y, .LineJoin], { s with x := x, y := y, i := s.i + 2 }) := by
  rw [flattenTurn, hx, hy]
  rfl

/-- On the commands MoveTo, LineTo and Close the loop of Flatten returns, whatever the
state it starts from, when `Points` holds the coordinates the commands consume. -/
theorem flattenLoop_polygon_returns (M : MathFuncs) (acos : ℚ → ℚ) (fuel : Nat)
    (points : List ℚ) (scale : ℚ) :
    ∀ (cmps : List PathCmp) (s : FlattenState) (n : Nat), s.i = n →
      (∀ c ∈ cmps, c = PathCmp.MoveToCmp ∨ c = PathCmp.LineToCmp ∨ c = PathCmp.CloseCmp) →
      n + coordCount cmps ≤ points.length →
      ∃ r, flattenLoop M acos fuel points scale cmps s = .ok r := by
  intro cmps
  induction cmps with
  | nil => intro s n _ _ _; exact ⟨_, rfl⟩
  | cons c cs ih =>
    intro s n hn hall hlen
    have hc := hall c (List.mem_cons_self _ _)
    have hcs : ∀ c ∈ cs, c = PathCmp.MoveToCmp ∨ c = PathCmp.LineToCmp ∨ c = PathCmp.CloseCmp :=
      fun c1 h1 => hall c1 (List.mem_cons_of_mem _ h1)
    rcases hc with rfl | rfl | rfl
    · simp only [coordCount, PathCmp.coords] at hlen
      obtain ⟨x, hx⟩ : ∃ x, pointsGet points s.i = some x := by
        rw [hn, pointsGet_nat]
        exact ⟨points[n], List.getElem?_eq_getElem (by omega)⟩
      obtain ⟨y, hy⟩ : ∃ y, pointsGet points (s.i + 1) = some y := by
        have : s.i + 1 = ((n + 1 : Nat) : Int) := by rw [hn]; push_cast; rfl
        rw [this, pointsGet_nat]
        exact ⟨points[n + 1], List.getElem?_eq_getElem (by omega)⟩
      obtain ⟨r, hr⟩ := ih { startX := x, startY := y, x := x, y := y, i := s.i + 2 } (n + 2)
        (by simp only [hn]; push_cast; rfl) hcs (by omega)
      rw [flattenLoop, flattenTurn_MoveToCmp M acos fuel points scale s x y hx hy,
        Outcome.ok_bind]
      simp only [hr, Outcome.ok_bind]
      exact ⟨_, rfl⟩
    · simp only [coordCount, PathCmp.coords] at hlen
      obtain ⟨x, hx⟩ : ∃ x, pointsGet points s.i = some x := by
        rw [hn, pointsGet_nat]
        exact ⟨points[n], List.getElem?_eq_getElem (by omega)⟩
      obtain ⟨y, hy⟩ : ∃ y, pointsGet points (s.i + 1) = some y := by
        have : s.i + 1 = ((n + 1 : Nat) : Int) := by rw [hn]; push_cast; rfl
        rw [this, pointsGet_nat]
        exact ⟨points[n + 1], List.getElem?_eq_getElem (by omega)⟩
      obtain ⟨r, hr⟩ := ih { s with x := x, y := y, i := s.i + 2 } (n + 2)
        (by simp only [hn]; push_cast; rfl) hcs (by omega)
      rw [flattenLoop, flattenTurn_LineToCmp M acos fuel points scale s x y hx hy,
        Outcome.ok_bind]
      simp only [hr, Outcome.ok_bind]
      exact ⟨_, rfl⟩
    · simp only [coordCount, PathCmp.coords] at hlen
      obtain ⟨r, hr⟩ := ih s n hn hcs (by omega)
      rw [flattenLoop]
      simp only [flattenTurn, Outcome.ok_bind, hr]
      exact ⟨_, rfl⟩

/-- C14, as amended.  For a Close command of a path, `pre` being the commands before it:
when the loop of Flatten returns on `pre` (the Close is reached), it returns on `pre`
followed by the Close, having emitted, right after the calls for `pre`,
LineTo(startX, startY) and then Close, where (startX, startY) is the point of the most
recent MoveTo command of `pre`, or (0, 0) when `pre` has none; when Flatten returns on the
whole path, the Close was reached and the two calls are in the result at that place.
The Close is reached whenever `pre` holds MoveTo, LineTo and Close commands only, with
their coordinates in Points, and on a path of such commands Flatten returns. -/
theorem Flatten_Close_reached (M : MathFuncs) (acos : ℚ → ℚ) (fuel : Nat) (path : Path)
    (scale : ℚ) (pre post : List PathCmp)
    (hc : path.Components = pre ++ PathCmp.CloseCmp :: post) :
    (∀ (before : List FlattenerCall) (s : FlattenState),
        flattenLoop M acos fuel path.Points scale pre
            { startX := 0, startY := 0, x := 0, y := 0, i := 0 } = .ok (before, s) →
        flattenLoop M acos fuel path.Points scale (pre ++ [PathCmp.CloseCmp])
            { startX := 0, startY := 0, x := 0, y := 0, i := 0 }
          = .ok (before ++ [.LineTo s.startX s.startY, .Close], s)
        ∧ (s.startX, s.startY) = (lastMoveToPoint path.Points pre 0).getD (0, 0)
        ∧ ∀ calls, Flatten M acos fuel path scale = .ok calls →
            ∃ after, calls = before ++ [.LineTo s.startX s.startY, .Close] ++ after)
    ∧ (∀ calls, Flatten M acos fuel path scale = .ok calls →
        ∃ before s, flattenLoop M acos fuel path.Points scale pre
            { startX := 0, startY := 0, x := 0, y := 0, i := 0 } = .ok (before, s))
    ∧ ((∀ c ∈ pre, c = PathCmp.MoveToCmp ∨ c = PathCmp.LineToCmp ∨ c = PathCmp.CloseCmp) →
        coordCount pre ≤ path.Points.length →
        ∃ before s, flattenLoop M acos fuel path.Points scale pre
            { startX := 0, startY := 0, x := 0, y := 0, i := 0 } = .ok (before, s))
    ∧ ((∀ c ∈ path.Components,
          c = PathCmp.MoveToCmp ∨ c = PathCmp.LineToCmp ∨ c = PathCmp.CloseCmp) →
        coordCount path.Components ≤ path.Points.length →
        ∃ calls, Flatten M acos fuel path scale = .ok calls) := by
  refine ⟨?_, ?_, ?_, ?_⟩
  · intro before s h
    refine ⟨?_, ?_, ?_⟩
    · rw [flattenLoop_append, h]
      simp only [Outcome.ok_bind, flattenLoop, flattenTurn, List.append_nil]
    · exact (flattenLoop_start M acos fuel path.Points scale pre _ 0 rfl _ h).2
    · intro calls hf
      obtain ⟨b1, after, s1, h1, h2, _⟩ :=
        Flatten_Close M acos fuel path scale pre post calls hc hf
      rw [h] at h1
      simp only [Outcome.ok.injEq, Prod.mk.injEq] at h1
      obtain ⟨rfl, rfl⟩ := h1
      exact ⟨after, h2⟩
  · intro calls hf
    obtain ⟨b1, _, s1, h1, _, _⟩ := Flatten_Close M acos fuel path scale pre post calls hc hf
    exact ⟨b1, s1, h1⟩
  · intro hall hlen
    obtain ⟨r, hr⟩ := flattenLoop_polygon_returns M acos fuel path.Points scale pre
      { startX := 0, startY := 0, x := 0, y := 0, i := 0 } 0 rfl hall (by omega)
    exact ⟨r.1, r.2, hr⟩
  · intro hall hlen
    obtain ⟨r, hr⟩ := flattenLoop_polygon_returns M acos fuel path.Points scale path.Components
      { startX := 0, startY := 0, x := 0, y := 0, i := 0 } 0 rfl hall (by omega)
    exact ⟨r.1 ++ [.End], by simp only [Flatten, hr, Outcome.ok_bind]⟩

/-- Witness of C14 as amended: the path MoveTo(1, 2), LineTo(3, 4), Close,
LineTo(5, 6). -/
theorem Flatten_Close_reached_witness :
    (((NewPath.MoveTo 1 2).LineTo 3 4).Close.LineTo 5 6).Components
      = [.MoveToCmp, .LineToCmp] ++ PathCmp.CloseCmp :: [.LineToCmp]
    ∧ flattenLoop taylorMath (fun _ => 1) 10
        (((NewPath.MoveTo 1 2).LineTo 3 4).Close.LineTo 5 6).Points 1
        ([.MoveToCmp, .LineToCmp] ++ [PathCmp.CloseCmp])
        { startX := 0, startY := 0, x := 0, y := 0, i := 0 }
      = .ok ([.MoveTo 1 2, .LineTo 3 4, .LineJoin] ++ [.LineTo 1 2, .Close],
             { startX := 1, startY := 2, x := 3, y := 4, i := 4 })
    ∧ ∃ calls, Flatten taylorMath (fun _ => 1) 10
        (((NewPath.MoveTo 1 2).LineTo 3 4).Close.LineTo 5 6) 1 = .ok calls :=
  ⟨by decide,
   ((Flatten_Close_reached taylorMath (fun _ => 1) 10
      (((NewPath.MoveTo 1 2).LineTo 3 4).Close.LineTo 5 6) 1 [.MoveToCmp, .LineToCmp]
      [.LineToCmp] (by decide)).1 [.MoveTo 1 2, .LineTo 3 4, .LineJoin]
      { startX := 1, startY := 2, x := 3, y := 4, i := 4 } (by decide)).1,
   (Flatten_Close_reached taylorMath (fun _ => 1) 10
      (((NewPath.MoveTo 1 2).LineTo 3 4).Close.LineTo 5 6) 1 [.MoveToCmp, .LineToCmp]
      [.LineToCmp] (by decide)).2.2.2 (by decide) (by decide)⟩

/-- C14, counterexample.  The path made by Close, QuadraticCurveTo(5, 6, 1, 2), Close on
the empty path has the components Close, QuadCurveTo, Close; Flatten panics on the
curve, so the second Close is never reached and nothing is emitted for it.  On the path
made by Close alone no MoveTo precedes the Close, and Flatten emits LineTo(0, 0),
Close. -/
theorem Flatten_Close_counterexample :
    Path.Built taylorMath (NewPath.Close.QuadraticCurveTo 5 6 1 2).Close
    ∧ (NewPath.Close.QuadraticCurveTo 5 6 1 2).Close.Components
        = [.CloseCmp, .QuadCurveToCmp, .CloseCmp]
    ∧ flattenLoop taylorMath (fun _ => 1) 10 (NewPath.Close.QuadraticCurveTo 5 6 1 2).Close.Points
        1 [.CloseCmp, .QuadCurveToCmp] { startX := 0, startY := 0, x := 0, y := 0, i := 0 }
        = .panic
    ∧ Flatten taylorMath (fun _ => 1) 10 (NewPath.Close.QuadraticCurveTo 5 6 1 2).Close 1
        = .panic
    ∧ Path.Built taylorMath NewPath.Close
    ∧ lastMoveToPoint NewPath.Close.Points [] 0 = none
    ∧ Flatten taylorMath (fun _ => 1) 10 NewPath.Close 1 = .ok [.LineTo 0 0, .Close, .End] := by
  refine ⟨.Close _ (.QuadraticCurveTo _ 5 6 1 2 (.Close _ .NewPath)), by decide, ?_, ?_,
    .Close _ .NewPath, rfl, by decide⟩
  · simp [flattenLoop, flattenTurn, Outcome.bind, Outcome.ofOption, pointsFrom,
      Path.QuadraticCurveTo, Path.Close, Path.appendToPath, NewPath]
  · simp [Flatten, flattenLoop, flattenTurn, Outcome.bind, Outcome.ofOption, pointsFrom,
      Path.QuadraticCurveTo, Path.Close, Path.appendToPath, NewPath]

/-! ## traceCapRound: the angle of the direction -/

/-- The angle `callAngle` gives is the angle of the direction from `(x1, y1)` to
`(x2, y2)`: the point `(cos θ, sin θ)` is on the ray from the origin through
`(x2 - x1, y2 - y1)` (cross product 0, scalar product positive).  What is used of the
library functions: `a = math.Atan(t)` has tangent `t` and a positive cosine, the
quarter turn has cosine 0 and sine 1, and the values at `π - a`, `π + a`, `2π - a` are
those at `a` with the signs of the quadrant. -/
theorem callAngle_direction (S : StrokerMath) (M : MathFuncs) (x1 y1 x2 y2 : ℚ)
    (hne : x2 - x1 ≠ 0 ∨ y2 - y1 ≠ 0)
    (hatan : x2 - x1 ≠ 0 →
      0 < M.Cos (S.Atan |(y2 - y1) / (x2 - x1)|)
      ∧ M.Sin (S.Atan |(y2 - y1) / (x2 - x1)|)
          = |(y2 - y1) / (x2 - x1)| * M.Cos (S.Atan |(y2 - y1) / (x2 - x1)|))
    (hup : x2 - x1 = 0 → 0 ≤ y2 - y1 → M.Cos (Pi / 2) = 0 ∧ M.Sin (Pi / 2) = 1)
    (hdown : x2 - x1 = 0 → y2 - y1 < 0 →
      M.Cos (Pi * 2 - Pi / 2) = 0 ∧ M.Sin (Pi * 2 - Pi / 2) = -1)
    (h2 : x2 - x1 < 0 → 0 ≤ y2 - y1 →
      M.Cos (Pi - S.Atan |(y2 - y1) / (x2 - x1)|) = -M.Cos (S.Atan |(y2 - y1) / (x2 - x1)|)
      ∧ M.Sin (Pi - S.Atan |(y2 - y1) / (x2 - x1)|) = M.Sin (S.Atan |(y2 - y1) / (x2 - x1)|))
    (h3 : x2 - x1 < 0 → y2 - y1 < 0 →
      M.Cos (Pi + S.Atan |(y2 - y1) / (x2 - x1)|) = -M.Cos (S.Atan |(y2 - y1) / (x2 - x1)|)
      ∧ M.Sin (Pi + S.Atan |(y2 - y1) / (x2 - x1)|)
          = -M.Sin (S.Atan |(y2 - y1) / (x2 - x1)|))
    (h4 : 0 < x2 - x1 → y2 - y1 < 0 →
      M.Cos (Pi * 2 - S.Atan |(y2 - y1) / (x2 - x1)|)
          = M.Cos (S.Atan |(y2 - y1) / (x2 - x1)|)
      ∧ M.Sin (Pi * 2 - S.Atan |(y2 - y1) / (x2 - x1)|)
          = -M.Sin (S.Atan |(y2 - y1) / (x2 - x1)|)) :
    M.Cos (callAngle S x1 y1 x2 y2) * (y2 - y1) = M.Sin (callAngle S x1 y1 x2 y2) * (x2 - x1)
    ∧ 0 < M.Cos (callAngle S x1 y1 x2 y2) * (x2 - x1)
          + M.Sin (callAngle S x1 y1 x2 y2) * (y2 - y1) := by
  generalize hxx : x2 - x1 = xx at *
  generalize hyy : y2 - y1 = yy at *
  have hca : callAngle S x1 y1 x2 y2
      = if xx < 0 ∧ yy ≥ 0 then Pi - (if xx = 0 then Pi / 2 else S.Atan |yy / xx|)
        else if xx < 0 ∧ yy < 0 then Pi + (if xx = 0 then Pi / 2 else S.Atan |yy / xx|)
        else if xx ≥ 0 ∧ yy < 0 then Pi * 2 - (if xx = 0 then Pi / 2 else S.Atan |yy / xx|)
        else (if xx = 0 then Pi / 2 else S.Atan |yy / xx|) := by
    simp only [callAngle, hxx, hyy]
  rw [hca]
  rcases lt_trichotomy xx 0 with hx | hx | hx
  · -- xx < 0
    obtain ⟨hc, hsn⟩ := hatan hx.ne
    have hx0 : xx ≠ 0 := hx.ne
    by_cases hy : 0 ≤ yy
    · obtain ⟨e1, e2⟩ := h2 hx hy
      have ht : |yy / xx| = -(yy / xx) := abs_of_nonpos (div_nonpos_of_nonneg_of_nonpos hy hx.le)
      rw [if_pos ⟨hx, hy⟩, if_neg hx0, e1, e2, hsn]
      generalize M.Cos (S.Atan |yy / xx|) = c at hc ⊢
      rw [ht]
      have hyr : yy = yy / xx * xx := (div_mul_cancel₀ yy hx0).symm
      generalize yy / xx = r at hyr ⊢
      rw [hyr]
      constructor
      · ring
      · nlinarith [mul_pos hc (neg_pos.mpr hx),
          mul_nonneg (mul_pos hc (neg_pos.mpr hx)).le (sq_nonneg r)]
    · have hy1 : yy < 0 := not_le.mp hy
      obtain ⟨e1, e2⟩ := h3 hx hy1
      have ht : |yy / xx| = yy / xx := abs_of_pos (div_pos_of_neg_of_neg hy1 hx)
      rw [if_neg (fun h => hy h.2), if_pos ⟨hx, hy1⟩, if_neg hx0, e1, e2, hsn]
      generalize M.Cos (S.Atan |yy / xx|) = c at hc ⊢
      rw [ht]
      have hyr : yy = yy / xx * xx := (div_mul_cancel₀ yy hx0).symm
      generalize yy / xx = r at hyr ⊢
      rw [hyr]
      constructor
      · ring
      · nlinarith [mul_pos hc (neg_pos.mpr hx),
          mul_nonneg (mul_pos hc (neg_pos.mpr hx)).le (sq_nonneg r)]
  · -- xx = 0
    have hy0 : yy ≠ 0 := by
      rcases hne with h | h
      · exact absurd hx h
      · exact h
    by_cases hy : 0 ≤ yy
    · obtain ⟨e1, e2⟩ := hup hx hy
      have hy1 : 0 < yy := lt_of_le_of_ne hy (Ne.symm hy0)
      rw [if_neg (fun h => absurd hx h.1.ne), if_neg (fun h => absurd hx h.1.ne),
        if_neg (fun h => absurd h.2 (not_lt.mpr hy)), if_pos hx, e1, e2, hx]
      constructor
      · ring
      · linarith
    · have hy1 : yy < 0 := not_le.mp hy
      obtain ⟨e1, e2⟩ := hdown hx hy1
      rw [if_neg (fun h => absurd hx h.1.ne), if_neg (fun h => absurd hx h.1.ne),
        if_pos ⟨hx.ge, hy1⟩, if_pos hx, e1, e2, hx]
      constructor
      · ring
      · linarith
  · -- 0 < xx
    obtain ⟨hc, hsn⟩ := hatan hx.ne'
    have hx0 : xx ≠ 0 := hx.ne'
    by_cases hy : 0 ≤ yy
    · have ht : |yy / xx| = yy / xx := abs_of_nonneg (div_nonneg hy hx.le)
      rw [if_neg (fun h => absurd h.1 (not_lt.mpr hx.le)),
        if_neg (fun h => absurd h.1 (not_lt.mpr hx.le)),
        if_neg (fun h => absurd h.2 (not_lt.mpr hy)), if_neg hx0, hsn]
      generalize M.Cos (S.Atan |yy / xx|) = c at hc ⊢
      rw [ht]
      have hyr : yy = yy / xx * xx := (div_mul_cancel₀ yy hx0).symm
      generalize yy / xx = r at hyr ⊢
      rw [hyr]
      constructor
      · ring
      · nlinarith [mul_pos hc hx, mul_nonneg (mul_pos hc hx).le (sq_nonneg r)]
    · have hy1 : yy < 0 := not_le.mp hy
      obtain ⟨e1, e2⟩ := h4 hx hy1
      have ht : |yy / xx| = -(yy / xx) :=
        abs_of_nonpos (div_nonpos_of_nonpos_of_nonneg hy1.le hx.le)
      rw [if_neg (fun h => absurd h.1 (not_lt.mpr hx.le)),
        if_neg (fun h => absurd h.1 (not_lt.mpr hx.le)),
        if_pos ⟨hx.le, hy1⟩, if_neg hx0, e1, e2, hsn]
      generalize M.Cos (S.Atan |yy / xx|) = c at hc ⊢
      rw [ht]
      have hyr : yy = yy / xx * xx := (div_mul_cancel₀ yy hx0).symm
      generalize yy / xx = r at hyr ⊢
      rw [hyr]
      constructor
      · ring
      · nlinarith [mul_pos hc hx, mul_nonneg (mul_pos hc hx).le (sq_nonneg r)]

theorem reflectMath_unit (a : ℚ) : reflectMath.Cos a ^ 2 + reflectMath.Sin a ^ 2 = 1 := by
  by_cases h : Pi / 2 < a ∧ a ≤ Pi
  · have := circleMath_unit (Pi - a)
    simp only [reflectMath, h, and_self, if_true]
    linarith [neg_sq (circleMath.Cos (Pi - a))]
  · have := circleMath_unit a
    simp only [reflectMath, h, if_false]
    exact this

/-- C25: with cos² + sin² = 1 and a positive angular step, traceCapRound returns, and
every point it returns is at distance exactly h from the midpoint of (x1, y1) and
(x2, y2); the points are those of the circle of radius h about the midpoint at the
angles θ + da, θ + 2·da, ... (da the step of TraceArc, θ = callAngle), which all stay
below θ + π and whose last one is at most 5/4 steps away from it: a sweep of π from θ.
And θ is the angle of the direction from (x1, y1) to (x2, y2): for two distinct points,
(cos θ, sin θ) is on the ray from the origin through (x2 − x1, y2 − y1), given of the
library functions that `math.Atan(t)` has the tangent t and a positive cosine, that the
quarter turn has cosine 0 and sine 1, and the symmetries of cosine and sine about π and
2π at that angle. -/
theorem traceCapRound_points (S : StrokerMath) (M : MathFuncs) (x1 y1 x2 y2 h : ℚ)
    (hcs : ∀ a : ℚ, M.Cos a ^ 2 + M.Sin a ^ 2 = 1)
    (hacos : 0 < S.Acos ((|h| + |h|) / 2 / ((|h| + |h|) / 2 + 0.125 / 1))) :
    (∃ fuel pts, traceCapRound S M fuel x1 y1 x2 y2 h = .ok pts)
    ∧ (∀ fuel pts, traceCapRound S M fuel x1 y1 x2 y2 h = .ok pts →
        ∃ lines : List (ℚ × ℚ), pts = coords lines
          ∧ (∀ q ∈ lines, (q.1 - (x1 + x2) / 2) ^ 2 + (q.2 - (y1 + y2) / 2) ^ 2 = h ^ 2)
          ∧ ∃ m : Nat,
              lines = (List.range m).map (fun (k : Nat) =>
                ((x1 + x2) / 2
                  + M.Cos (callAngle S x1 y1 x2 y2
                      + S.Acos ((|h| + |h|) / 2 / ((|h| + |h|) / 2 + 0.125 / 1)) * 2
                      + (k : ℚ) * (S.Acos ((|h| + |h|) / 2 / ((|h| + |h|) / 2 + 0.125 / 1)) * 2))
                    * h,
                 (y1 + y2) / 2
                  + M.Sin (callAngle S x1 y1 x2 y2
                      + S.Acos ((|h| + |h|) / 2 / ((|h| + |h|) / 2 + 0.125 / 1)) * 2
                      + (k : ℚ) * (S.Acos ((|h| + |h|) / 2 / ((|h| + |h|) / 2 + 0.125 / 1)) * 2))
                    * h))
              ∧ (∀ k : Nat, k < m →
                  callAngle S x1 y1 x2 y2
                      + S.Acos ((|h| + |h|) / 2 / ((|h| + |h|) / 2 + 0.125 / 1)) * 2
                      + (k : ℚ) * (S.Acos ((|h| + |h|) / 2 / ((|h| + |h|) / 2 + 0.125 / 1)) * 2)
                    < callAngle S x1 y1 x2 y2 + Pi)
              ∧ callAngle S x1 y1 x2 y2 + Pi
                  ≤ callAngle S x1 y1 x2 y2
                      + S.Acos ((|h| + |h|) / 2 / ((|h| + |h|) / 2 + 0.125 / 1)) * 2
                      + (m : ℚ) * (S.Acos ((|h| + |h|) / 2 / ((|h| + |h|) / 2 + 0.125 / 1)) * 2)
                      + S.Acos ((|h| + |h|) / 2 / ((|h| + |h|) / 2 + 0.125 / 1)) * 2 / 4)
    ∧ ((x2 - x1 ≠ 0 ∨ y2 - y1 ≠ 0) →
        (x2 - x1 ≠ 0 →
          0 < M.Cos (S.Atan |(y2 - y1) / (x2 - x1)|)
          ∧ M.Sin (S.Atan |(y2 - y1) / (x2 - x1)|)
              = |(y2 - y1) / (x2 - x1)| * M.Cos (S.Atan |(y2 - y1) / (x2 - x1)|)) →
        (x2 - x1 = 0 → 0 ≤ y2 - y1 → M.Cos (Pi / 2) = 0 ∧ M.Sin (Pi / 2) = 1) →
        (x2 - x1 = 0 → y2 - y1 < 0 →
          M.Cos (Pi * 2 - Pi / 2) = 0 ∧ M.Sin (Pi * 2 - Pi / 2) = -1) →
        (x2 - x1 < 0 → 0 ≤ y2 - y1 →
          M.Cos (Pi - S.Atan |(y2 - y1) / (x2 - x1)|)
              = -M.Cos (S.Atan |(y2 - y1) / (x2 - x1)|)
          ∧ M.Sin (Pi - S.Atan |(y2 - y1) / (x2 - x1)|)
              = M.Sin (S.Atan |(y2 - y1) / (x2 - x1)|)) →
        (x2 - x1 < 0 → y2 - y1 < 0 →
          M.Cos (Pi + S.Atan |(y2 - y1) / (x2 - x1)|)
              = -M.Cos (S.Atan |(y2 - y1) / (x2 - x1)|)
          ∧ M.Sin (Pi + S.Atan |(y2 - y1) / (x2 - x1)|)
              = -M.Sin (S.Atan |(y2 - y1) / (x2 - x1)|)) →
        (0 < x2 - x1 → y2 - y1 < 0 →
          M.Cos (Pi * 2 - S.Atan |(y2 - y1) / (x2 - x1)|)
              = M.Cos (S.Atan |(y2 - y1) / (x2 - x1)|)
          ∧ M.Sin (Pi * 2 - S.Atan |(y2 - y1) / (x2 - x1)|)
              = -M.Sin (S.Atan |(y2 - y1) / (x2 - x1)|)) →
        M.Cos (callAngle S x1 y1 x2 y2) * (y2 - y1)
            = M.Sin (callAngle S x1 y1 x2 y2) * (x2 - x1)
        ∧ 0 < M.Cos (callAngle S x1 y1 x2 y2) * (x2 - x1)
              + M.Sin (callAngle S x1 y1 x2 y2) * (y2 - y1)) :=
  ⟨(traceCapRound_arc_points S M x1 y1 x2 y2 h hcs hacos).1,
   (traceCapRound_arc_points S M x1 y1 x2 y2 h hcs hacos).2,
   callAngle_direction S M x1 y1 x2 y2⟩

/-- Witness of C25: the cap between (3, 0) and (0, 4), of radius 5/2 about (3/2, 2).  The
direction is (−3, 4); callAngle is π − a with a the angle of tangent 4/3, where the
stand-ins have cosine −3/5 and sine 4/5. -/
theorem traceCapRound_points_witness :
    0 < atanStroker.Acos ((|(5 / 2 : ℚ)| + |5 / 2|) / 2 / ((|5 / 2| + |5 / 2|) / 2 + 0.125 / 1))
    ∧ (∃ fuel pts, traceCapRound atanStroker reflectMath fuel 3 0 0 4 (5 / 2) = .ok pts)
    ∧ callAngle atanStroker 3 0 0 4 = Pi - 1 / 2
    ∧ reflectMath.Cos (Pi - 1 / 2) = -(3 / 5) ∧ reflectMath.Sin (Pi - 1 / 2) = 4 / 5
    ∧ reflectMath.Cos (callAngle atanStroker 3 0 0 4) * (4 - 0)
        = reflectMath.Sin (callAngle atanStroker 3 0 0 4) * (0 - 3)
    ∧ 0 < reflectMath.Cos (callAngle atanStroker 3 0 0 4) * (0 - 3)
          + reflectMath.Sin (callAngle atanStroker 3 0 0 4) * (4 - 0) :=
  have hacos : 0 < atanStroker.Acos
      ((|(5 / 2 : ℚ)| + |5 / 2|) / 2 / ((|5 / 2| + |5 / 2|) / 2 + 0.125 / 1)) := by
    norm_num [atanStroker, circleStroker]
  have hdir := (traceCapRound_points atanStroker reflectMath 3 0 0 4 (5 / 2) reflectMath_unit
      hacos).2.2 (Or.inl (by norm_num)) (fun _ => by decide!)
      (fun h => absurd h (by norm_num)) (fun h => absurd h (by norm_num))
      (fun _ _ => by decide!) (fun _ h => absurd h (by norm_num))
      (fun h => absurd h (by norm_num))
  ⟨hacos,
   (traceCapRound_points atanStroker reflectMath 3 0 0 4 (5 / 2) reflectMath_unit hacos).1,
   by decide!, by decide!, by decide!, hdir.1, hdir.2⟩

end Canvas
